import Mathlib

/-!
# SpacemiT K1 I2C controller driver: transfer-mode selection, error
# classification, the retry loop, the byte engine and the copy-out of
# received data

A shallow embedding of `drivers/i2c/busses/i2c-k1x.c`, and of the heap functions
of `drivers/misc/tcm.c` (in the section on the TCM heap).

* Driver functions are Lean functions on a record of the fields of
  `struct spacemit_i2c_dev` that they read or write.
* Register writes and calls of functions whose effect depends on hardware are
  recorded, in program order, in a list of `Event`s.
* Values produced by hardware or by interrupt context (register reads, the
  outcome of a completion wait, the error latched by the interrupt handler)
  are inputs of the model (`AttemptEnv`, `Hw`, the status passed to the
  interrupt handler).
* A byte buffer is a list of numbers; a store truncates to 8 bits. The pointer
  `cur_msg` is the index `msg_idx` and the pointer `msg_buf` an offset into
  the buffer of the current message.
* `int` quantities are mathematical integers: the I2C core bounds the number
  and the length of the messages, so the sums stay far below `INT_MAX` and
  signed overflow is not modelled. `unsigned long` arithmetic is reduced
  modulo `2 ^ 64`.
-/

namespace K1xI2c

/-! ## Kernel constants used by the driver -/

/-- Modelled from the spec: the errno headers are not among the sources; the spec
names this error "I/O error"; the value is the one of `errno-base.h`. -/
def EIO : Int := 5

/-- Modelled from the spec: "no such device" (`errno-base.h`, not among the sources). -/
def ENXIO : Int := 6

/-- Modelled from the spec: the retryable "try again" code returned for arbitration
loss and rx overrun (`errno-base.h`, not among the sources). -/
def EAGAIN : Int := 11

/-- Modelled from the spec: "access denied", the transient runtime-PM condition
(`errno-base.h`, not among the sources). -/
def EACCES : Int := 13

/-- Modelled from the spec: "Busy" (`errno-base.h`, not among the sources). -/
def EBUSY : Int := 16

/-- Modelled from the spec: "invalid argument" (`errno-base.h`, not among the sources). -/
def EINVAL : Int := 22

/-- Modelled from the spec: "Timeout" (`errno.h`, not among the sources). -/
def ETIMEDOUT : Int := 110

/-- Modelled from the spec: flag of a read message, "direction: Read"
(`include/uapi/linux/i2c.h`, not among the sources). -/
def I2C_M_RD : Nat := 0x0001

/-- Modelled from the spec: flag of a "receive-length-prefixed" read
(`include/uapi/linux/i2c.h`, not among the sources). -/
def I2C_M_RECV_LEN : Nat := 0x0400

/-- Modelled from the spec: the "maximum block size" of a length-prefixed read
(`include/uapi/linux/i2c.h`, not among the sources). -/
def I2C_SMBUS_BLOCK_MAX : Nat := 32

/-- The constant `USEC_PER_SEC` (a `long`). -/
def USEC_PER_SEC : Int := 1000000

/-- Conversion of an integer to `unsigned long` (64 bits on the K1). -/
def to_ulong (x : Int) : Int := x % 2 ^ 64

/-- Conversion of an integer to `unsigned int`. -/
def to_uint (x : Int) : Int := x % 2 ^ 32

/-! ## Declarations of `i2c-k1x.h`

The header is not among the sources: its enumerations are inductive types with
the constructor names used by the driver, its numeric constants are the fields
of `Consts`, and every theorem holds for every value of them; only witnesses
and counterexamples are evaluated at `sample_consts`. -/

/-- The transfer modes, `SPACEMIT_I2C_MODE_*`. -/
inductive spacemit_i2c_xfer_mode where
  | SPACEMIT_I2C_MODE_INTERRUPT
  | SPACEMIT_I2C_MODE_FIFO
  | SPACEMIT_I2C_MODE_DMA
  | SPACEMIT_I2C_MODE_PIO
  | SPACEMIT_I2C_MODE_INVALID
  deriving DecidableEq, Repr

/-- The phases of the byte engine, `SPACEMIT_I2C_XFER_*`. -/
inductive spacemit_i2c_xfer_phase where
  | SPACEMIT_I2C_XFER_MASTER_CODE
  | SPACEMIT_I2C_XFER_SLAVE_ADDR
  | SPACEMIT_I2C_XFER_BODY
  | SPACEMIT_I2C_XFER_IDLE
  deriving DecidableEq, Repr

/-- The registers of the controller, `REG_*`. -/
inductive Reg where
  | REG_CR
  | REG_SR
  | REG_DBR
  | REG_LCR
  | REG_WCR
  | REG_RST_CYC
  | REG_BMR
  | REG_WFIFO
  | REG_WFIFO_WPTR
  | REG_WFIFO_RPTR
  | REG_RFIFO
  | REG_RFIFO_WPTR
  | REG_RFIFO_RPTR
  deriving DecidableEq, Repr

/-- Numeric constants of `i2c-k1x.h` and of the kernel configuration that the
modelled functions use. -/
structure Consts where
  /-- Depth of the hardware write FIFO, in words. -/
  SPACEMIT_I2C_TX_FIFO_DEPTH : Nat
  /-- Depth of the hardware read FIFO. -/
  SPACEMIT_I2C_RX_FIFO_DEPTH : Nat
  /-- Largest message length the DMA path is dimensioned for. -/
  SPACEMIT_I2C_MAX_MSG_LEN : Nat
  /-- Number of scatter-gather entries. -/
  SPACEMIT_I2C_SCATTERLIST_SIZE : Nat
  /-- Length of the RX DMA buffer. -/
  SPACEMIT_I2C_DMA_RX_BUF_LEN : Nat
  /-- Status bit: ack/nak status. -/
  SR_ACKNAK : Nat
  /-- Status bit: arbitration loss detected. -/
  SR_ALD : Nat
  /-- Status bit: bus error. -/
  SR_BED : Nat
  /-- Status bit: rx overrun. -/
  SR_RXOV : Nat
  /-- Status bit: receive full. -/
  SR_IRF : Nat
  /-- Status bit: transmit empty. -/
  SR_ITE : Nat
  /-- Status bit: master stop detected. -/
  SR_MSD : Nat
  /-- Status bit: read/write mode. -/
  SR_RWM : Nat
  /-- Control bit: unit reset. -/
  CR_UR : Nat
  /-- Control bit: start. -/
  CR_START : Nat
  /-- Control bit: stop. -/
  CR_STOP : Nat
  /-- Control bit: ack/nak control. -/
  CR_ACKNAK : Nat
  /-- Control bit: transfer byte. -/
  CR_TB : Nat
  /-- Control bit: arbitration loss detected interrupt enable. -/
  CR_ALDIE : Nat
  /-- Control bit: transmit empty interrupt enable. -/
  CR_DTEIE : Nat
  /-- Control bit: SCL driven by the core in high-speed mode. -/
  CR_GPIOEN : Nat
  /-- Control bit: bus reset request, one clock pulse on SCL. -/
  CR_RSTREQ : Nat
  /-- Status bit: unit busy. -/
  SR_UB : Nat
  /-- Status bit: bus busy. -/
  SR_IBB : Nat
  /-- Status bit: early bus busy. -/
  SR_EBB : Nat
  /-- Bus monitor bit: level of SDA. -/
  BMR_SDA : Nat
  /-- Bus monitor bit: level of SCL. -/
  BMR_SCL : Nat
  /-- Write FIFO control bit: transfer byte. -/
  WFIFO_CTRL_TB : Nat
  /-- Write FIFO control bit: start. -/
  WFIFO_CTRL_START : Nat
  /-- Write FIFO control bit: stop. -/
  WFIFO_CTRL_STOP : Nat
  /-- Write FIFO control bit: ack/nak control. -/
  WFIFO_CTRL_ACKNAK : Nat
  /-- Time allowed for the bus to become idle, in microseconds. -/
  SPACEMIT_I2C_BUS_RECOVER_TIMEOUT : Nat
  /-- The interrupt-enable bits of the control register. -/
  SPACEMIT_I2C_INT_CTRL_MASK : Nat
  /-- The interrupt bits of the status register. -/
  SPACEMIT_I2C_INT_STATUS_MASK : Nat
  /-- Whether the kernel is built with `CONFIG_DEBUG_FS`. -/
  CONFIG_DEBUG_FS : Bool
  /-- The kernel function `usecs_to_jiffies`. -/
  usecs_to_jiffies : Nat → Nat

/-! ## Data model -/

/-- The fields of `struct i2c_msg`. -/
structure i2c_msg where
  addr : Nat
  flags : Nat
  len : Nat
  buf : List Nat
  deriving DecidableEq, Repr

/-- Functions that the model records as a call without expanding their body:
kernel services, and driver functions whose effect depends on register reads.
The suffixes `_tx` and `_rx` name the DMA channel or scatter list passed;
`spacemit_i2c_dma_xfer_submit` stands for the first part of
`spacemit_i2c_dma_xfer` (encoding, mapping, descriptors, issue) and
`spacemit_i2c_pio_xfer` for the polled transfer of one attempt of that function.
The byte engine and the copy-out functions are also modelled in full further
down; their markers are recorded where the caller is modelled without the
engine state, and, for `spacemit_i2c_byte_xfer`, by the interrupt handler
before it runs the engine. -/
inductive Callee where
  | mutex_lock
  | mutex_unlock
  | pm_runtime_get_sync
  | pm_runtime_mark_last_busy
  | pm_runtime_put_autosuspend
  | clk_enable
  | clk_disable
  | reinit_completion
  | enable_irq
  | disable_irq
  | synchronize_irq
  | wait_for_completion_timeout
  | dmaengine_pause
  | dma_unmap_sg_tx
  | dma_unmap_sg_rx
  | dmaengine_terminate_all_tx
  | dmaengine_terminate_all_rx
  | spacemit_i2c_bus_reset
  | spacemit_i2c_unit_init
  | spacemit_i2c_clear_int_status
  | spacemit_i2c_enable
  | spacemit_i2c_disable
  | spacemit_i2c_recover_bus_busy
  | spacemit_i2c_check_bus_release
  | spacemit_i2c_byte_xfer
  | spacemit_i2c_fifo_xfer_fill_buffer
  | spacemit_i2c_fifo_xfer_copy_buffer
  | spacemit_i2c_dma_xfer_submit
  | spacemit_i2c_dma_copy_buffer
  | spacemit_i2c_print_msg_info
  | spacemit_i2c_pio_xfer
  | spacemit_i2c_slave_handler
  | complete
  deriving DecidableEq, Repr

/-- Observable steps of the driver, in program order. -/
inductive Event where
  | write_reg (reg : Reg) (val : Nat)
  | udelay (usecs : Nat)
  | usleep_range (lo hi : Nat)
  | call (f : Callee)
  deriving DecidableEq, Repr

/-- The fields of `struct spacemit_i2c_dev` used by the modelled functions.
`num` is the length of `msgs`; `slave` is true when the slave pointer is set;
`cur_msg` is the message at index `msg_idx` of `msgs`, and `msg_buf` is kept as
the offset of that pointer into the buffer of the current message. -/
structure spacemit_i2c_dev where
  high_mode : Bool
  fast_mode : Bool
  dma_disable : Bool
  clk_always_on : Bool
  drv_retries : Nat
  i2c_lcr : Nat
  i2c_wcr : Nat
  dbgfs_mode : spacemit_i2c_xfer_mode
  slave : Bool
  shutdown : Bool
  msgs : List i2c_msg
  xfer_mode : spacemit_i2c_xfer_mode
  timeout : Nat
  rx_total : Nat
  i2c_err : Nat
  i2c_status : Nat
  i2c_ctrl_reg_value : Nat
  msg_idx : Nat
  rx_cnt : Nat
  tx_cnt : Nat
  phase : spacemit_i2c_xfer_phase
  is_xfer_start : Bool
  is_rx : Bool
  slave_addr_rw : Nat
  msg_buf : Nat
  smbus_rcv_len : Bool
  master_code : Nat
  deriving DecidableEq, Repr

/-- The field `num`: the number of submitted messages. -/
def spacemit_i2c_dev.num (d : spacemit_i2c_dev) : Int := d.msgs.length

open spacemit_i2c_xfer_mode spacemit_i2c_xfer_phase Reg

/-! ## Register-level helpers -/

/-- The function `spacemit_i2c_flush_fifo_buffer`: clears the four FIFO pointers. -/
def spacemit_i2c_flush_fifo_buffer : List Event :=
  [Event.write_reg REG_WFIFO_WPTR 0, Event.write_reg REG_WFIFO_RPTR 0,
   Event.write_reg REG_RFIFO_WPTR 0, Event.write_reg REG_RFIFO_RPTR 0]

/-- The function `spacemit_i2c_controller_reset`: pulses `CR_UR`, then restores the load and
wait counters when they are configured. -/
def spacemit_i2c_controller_reset (c : Consts) (d : spacemit_i2c_dev) : List Event :=
  [Event.write_reg REG_CR c.CR_UR, Event.udelay 5, Event.write_reg REG_CR 0]
    ++ (if d.i2c_lcr ≠ 0 then [Event.write_reg REG_LCR d.i2c_lcr] else [])
    ++ (if d.i2c_wcr ≠ 0 then [Event.write_reg REG_WCR d.i2c_wcr] else [])

/-- The function `spacemit_i2c_reset`. -/
def spacemit_i2c_reset (c : Consts) (d : spacemit_i2c_dev) : List Event :=
  spacemit_i2c_controller_reset c d

/-! ## Transfer mode selector -/

/-- The message scan of `spacemit_i2c_choose_xfer_mode` (the `while` loop):
accumulates `cnt`, `rx_total` and `block`. -/
def scan_msgs : List i2c_msg → Int → Nat → Bool → Int × Nat × Bool
  | [], cnt, rx_total, block => (cnt, rx_total, block)
  | m :: ms, cnt, rx_total, block =>
    let cnt := cnt + ((m.len : Int) + 1)
    let rx_total := if m.flags &&& I2C_M_RD ≠ 0 then rx_total + m.len else rx_total
    if m.flags &&& I2C_M_RECV_LEN ≠ 0 then
      scan_msgs ms (cnt + ((I2C_SMBUS_BLOCK_MAX : Int) + 2)) rx_total true
    else
      scan_msgs ms cnt rx_total block

/-- The bus frequency assumed by the timeout computation. -/
def xfer_freq (d : spacemit_i2c_dev) : Int :=
  if d.high_mode then 1500000 else if d.fast_mode then 400000 else 100000

/-- The "calculate timeout" part of `spacemit_i2c_choose_xfer_mode`: the value, in
microseconds, of the `unsigned long` expression handed to `usecs_to_jiffies`. -/
def timeout_usecs (d : spacemit_i2c_dev) (cnt : Int) (mode : spacemit_i2c_xfer_mode) : Int :=
  let freq := xfer_freq d
  let timeout := to_ulong (Int.tdiv (cnt * 9 * USEC_PER_SEC) freq)
  let timeout :=
    if mode = SPACEMIT_I2C_MODE_INTERRUPT ∨ mode = SPACEMIT_I2C_MODE_PIO then
      to_ulong (timeout + (cnt - 1) * 220)
    else timeout
  if mode = SPACEMIT_I2C_MODE_INTERRUPT then to_ulong (timeout + 500000)
  else to_ulong (timeout + 100000)

/-- The mode chosen by `spacemit_i2c_choose_xfer_mode` from the scan result,
before the safety clamp, with the register writes of that branch. -/
def select_mode (c : Consts) (d : spacemit_i2c_dev) (cnt : Int) (block : Bool) :
    spacemit_i2c_xfer_mode × List Event :=
  if d.dma_disable ∨ block then
    (SPACEMIT_I2C_MODE_INTERRUPT, [])
  else if c.CONFIG_DEBUG_FS ∧ d.dbgfs_mode ≠ SPACEMIT_I2C_MODE_INVALID then
    (if cnt > c.SPACEMIT_I2C_TX_FIFO_DEPTH ∧ d.dbgfs_mode = SPACEMIT_I2C_MODE_FIFO then
        SPACEMIT_I2C_MODE_DMA
      else d.dbgfs_mode,
     spacemit_i2c_flush_fifo_buffer)
  else
    (if cnt ≤ c.SPACEMIT_I2C_TX_FIFO_DEPTH then SPACEMIT_I2C_MODE_FIFO
      else SPACEMIT_I2C_MODE_DMA,
     spacemit_i2c_flush_fifo_buffer)

/-- The safety clamp of `spacemit_i2c_choose_xfer_mode`. -/
def clamp_mode (c : Consts) (cnt : Int) (rx_total : Nat) (mode : spacemit_i2c_xfer_mode) :
    spacemit_i2c_xfer_mode :=
  if cnt > ((c.SPACEMIT_I2C_MAX_MSG_LEN * c.SPACEMIT_I2C_SCATTERLIST_SIZE : Nat) : Int)
      ∨ rx_total > c.SPACEMIT_I2C_DMA_RX_BUF_LEN then
    SPACEMIT_I2C_MODE_INTERRUPT
  else mode

/-- The count `cnt` as computed by the scan of `spacemit_i2c_choose_xfer_mode`. -/
def scan_cnt (d : spacemit_i2c_dev) : Int :=
  (scan_msgs d.msgs (if d.high_mode then 1 else 0) 0 false).1

/-- The function `spacemit_i2c_choose_xfer_mode`: sets `rx_total`, `xfer_mode` and `timeout`. -/
def spacemit_i2c_choose_xfer_mode (c : Consts) (d : spacemit_i2c_dev) :
    spacemit_i2c_dev × List Event :=
  let scan := scan_msgs d.msgs (if d.high_mode then 1 else 0) 0 false
  let cnt := scan.1
  let rx_total := scan.2.1
  let block := scan.2.2
  let sel := select_mode c d cnt block
  let mode := clamp_mode c cnt rx_total sel.1
  ({ d with
      rx_total := rx_total
      xfer_mode := mode
      timeout := c.usecs_to_jiffies (to_uint (timeout_usecs d cnt mode)).toNat },
   sel.2)

/-! ## Error classification -/

/-- The function `spacemit_i2c_handle_err`: the classified error code and the
register writes it performs. -/
def spacemit_i2c_handle_err (c : Consts) (d : spacemit_i2c_dev) : Int × List Event :=
  if d.i2c_err ≠ 0 then
    let ev := if d.i2c_err &&& (c.SR_BED ||| c.SR_ALD) ≠ 0 then spacemit_i2c_reset c d else []
    if d.i2c_err &&& (c.SR_RXOV ||| c.SR_ALD) ≠ 0 then
      (- EAGAIN, ev ++ spacemit_i2c_flush_fifo_buffer)
    else
      (if d.i2c_status &&& c.SR_ACKNAK ≠ 0 then - ENXIO else - EIO, ev)
  else
    (0, [])

/-! ## Transaction orchestrator -/

/-- How far the descriptor set-up of `spacemit_i2c_dma_xfer` gets: each failure is
one of its `goto err_map` / `goto err_desc` exits. -/
inductive DmaSetup where
  | ok
  | fail_map_rx
  | fail_map_tx
  | fail_tx_desc
  | fail_tx_submit
  | fail_rx_desc
  | fail_rx_submit
  deriving DecidableEq, Repr

/-- What hardware, the DMA engine and interrupt context contribute to one transfer
attempt. -/
structure AttemptEnv where
  /-- Value of `REG_CR` read at `xfer_retry`. -/
  reg_cr : Nat
  /-- Return value of `spacemit_i2c_recover_bus_busy`. -/
  recover_bus_busy : Int
  /-- Return value of the `spacemit_i2c_byte_xfer` call that starts an Interrupt
  mode transfer. -/
  byte_xfer : Int
  /-- Outcome of the DMA descriptor set-up. -/
  dma_setup : DmaSetup
  /-- Number of RX scatter-gather entries mapped. -/
  rx_nents : Nat
  /-- Result of `wait_for_completion_timeout`. -/
  time_left : Nat
  /-- Error flags latched in `i2c_err` by the interrupt handler. -/
  i2c_err : Nat
  /-- Status latched in `i2c_status` by the interrupt handler. -/
  i2c_status : Nat
  /-- Whether the RX DMA is still not complete when first checked after the wait. -/
  rx_dma_pending : Bool
  /-- Whether the RX DMA completes while it is polled. -/
  rx_dma_completes : Bool
  /-- Value `REG_CR & ~CR_IUE` stored by `spacemit_i2c_disable`. -/
  ctrl_reg_value : Nat
  /-- Classified result of one attempt of `spacemit_i2c_pio_xfer`. -/
  pio_result : Int
  deriving DecidableEq, Repr

/-- The function `spacemit_i2c_init_xfer_params` (`cur_msg` is determined by
`msg_idx`; `smbus_rcv_len` is not among the fields it resets). -/
def spacemit_i2c_init_xfer_params (d : spacemit_i2c_dev) : spacemit_i2c_dev :=
  { d with
    msg_idx := 0
    msg_buf := 0
    rx_cnt := 0
    tx_cnt := 0
    i2c_err := 0
    i2c_status := 0
    phase := SPACEMIT_I2C_XFER_IDLE
    is_xfer_start := true }

/-- The function `spacemit_i2c_mark_rw_flag`. -/
def spacemit_i2c_mark_rw_flag (d : spacemit_i2c_dev) : spacemit_i2c_dev :=
  match d.msgs.get? d.msg_idx with
  | some m =>
    if m.flags &&& I2C_M_RD ≠ 0 then
      { d with is_rx := true, slave_addr_rw := ((m.addr &&& 0x7f) <<< 1) ||| 1 }
    else
      { d with is_rx := false, slave_addr_rw := (m.addr &&& 0x7f) <<< 1 }
  | none => d

/-- The function `spacemit_i2c_fifo_xfer`: fill the FIFO, wait, then bus reset on
timeout, flush on a latched error, copy-out otherwise. -/
def spacemit_i2c_fifo_xfer (env : AttemptEnv) (d : spacemit_i2c_dev) : Int × List Event :=
  let ev := [Event.call Callee.spacemit_i2c_fifo_xfer_fill_buffer,
    Event.call Callee.wait_for_completion_timeout]
  if env.time_left = 0 then
    (- ETIMEDOUT, ev ++ [Event.call Callee.spacemit_i2c_bus_reset])
  else if d.i2c_err ≠ 0 then
    (-1, ev ++ spacemit_i2c_flush_fifo_buffer)
  else
    (0, ev ++ [Event.call Callee.spacemit_i2c_fifo_xfer_copy_buffer])

/-- The labels `err_desc` and `err_map` of `spacemit_i2c_dma_xfer` and the code
after them: unmap and terminate what was set up. -/
def dma_cleanup (env : AttemptEnv) (from_err_desc tx_des rx_des : Bool) : List Event :=
  (if from_err_desc then [Event.call Callee.dma_unmap_sg_tx] else [])
    ++ (if env.rx_nents ≠ 0 then [Event.call Callee.dma_unmap_sg_rx] else [])
    ++ (if tx_des then [Event.call Callee.dmaengine_terminate_all_tx] else [])
    ++ (if rx_des then [Event.call Callee.dmaengine_terminate_all_rx] else [])

/-- The function `spacemit_i2c_dma_xfer`, from the descriptor set-up on. -/
def spacemit_i2c_dma_xfer (c : Consts) (env : AttemptEnv) (d : spacemit_i2c_dev) :
    Int × List Event :=
  let submit := [Event.call Callee.spacemit_i2c_dma_xfer_submit]
  match env.dma_setup with
  | DmaSetup.fail_map_rx => (- EINVAL, submit ++ dma_cleanup env false false false)
  | DmaSetup.fail_map_tx => (- EINVAL, submit ++ dma_cleanup env false false false)
  | DmaSetup.fail_tx_desc => (- EINVAL, submit ++ dma_cleanup env true false false)
  | DmaSetup.fail_tx_submit => (- EINVAL, submit ++ dma_cleanup env true true false)
  | DmaSetup.fail_rx_desc => (- EINVAL, submit ++ dma_cleanup env true true false)
  | DmaSetup.fail_rx_submit => (- EINVAL, submit ++ dma_cleanup env true true true)
  | DmaSetup.ok =>
    let ev := submit ++ [Event.call Callee.wait_for_completion_timeout]
    -- the wait and the `i2c_err` check: (ret, comp_timeout, events)
    let w : Int × Nat × List Event :=
      if env.time_left = 0 then
        (- ETIMEDOUT, 0,
          ev ++ [Event.call Callee.spacemit_i2c_bus_reset] ++ spacemit_i2c_reset c d)
      else if d.i2c_err ≠ 0 then
        (-1, 0, ev ++ spacemit_i2c_flush_fifo_buffer)
      else
        (0, 1000000, ev)
    -- label `finish`: wait for the RX DMA
    let f : Int × List Event :=
      if env.rx_nents ≠ 0 ∧ env.rx_dma_pending = true then
        if w.2.1 = 0 ∨ env.rx_dma_completes = false then
          (if w.1 ≥ 0 then -1 else w.1, w.2.2 ++ [Event.call Callee.dmaengine_pause])
        else (w.1, w.2.2)
      else (w.1, w.2.2)
    let ev := if f.1 ≥ 0 then f.2 ++ [Event.call Callee.spacemit_i2c_dma_copy_buffer] else f.2
    (if f.1 < 0 then f.1 else 0,
      ev ++ dma_cleanup env true true (decide (env.rx_nents ≠ 0)))

/-- The label `timeout_xfex` of `spacemit_i2c_xfer` up to the error
classification: disable the unit, print, classify a latched error. -/
def xfer_classify (c : Consts) (env : AttemptEnv) (d : spacemit_i2c_dev) (ret : Int)
    (ev : List Event) : Int × spacemit_i2c_dev × List Event :=
  let d := { d with i2c_ctrl_reg_value := env.ctrl_reg_value }
  let ev := ev ++ [Event.call Callee.spacemit_i2c_disable]
  let ev := if ret < 0 ∨ d.i2c_err ≠ 0 then
    ev ++ [Event.call Callee.spacemit_i2c_print_msg_info] else ev
  if d.i2c_err ≠ 0 then
    ((spacemit_i2c_handle_err c d).1, d, ev ++ (spacemit_i2c_handle_err c d).2)
  else (ret, d, ev)

/-- The part of `spacemit_i2c_xfer` from the label `xfer_retry` to the call of
`spacemit_i2c_recover_bus_busy`: a reset when the control register was changed
behind the driver, mode selection, unit set-up, and the interrupt enabled. From
then on the interrupt handler runs: `i2c_err` and `i2c_status` hold what it
latches. -/
def xfer_setup (c : Consts) (env : AttemptEnv) (d : spacemit_i2c_dev) :
    spacemit_i2c_dev × List Event :=
  let ev := if env.reg_cr ≠ d.i2c_ctrl_reg_value then spacemit_i2c_reset c d else []
  let ch := spacemit_i2c_choose_xfer_mode c d
  let d := spacemit_i2c_mark_rw_flag (spacemit_i2c_init_xfer_params ch.1)
  ({ d with i2c_err := env.i2c_err, i2c_status := env.i2c_status },
   ev ++ ch.2
    ++ [Event.call Callee.spacemit_i2c_unit_init, Event.call Callee.spacemit_i2c_clear_int_status,
        Event.call Callee.reinit_completion, Event.call Callee.spacemit_i2c_enable,
        Event.call Callee.enable_irq, Event.call Callee.spacemit_i2c_recover_bus_busy])

/-- The dispatch "i2c msg transmit" of `spacemit_i2c_xfer`: the engine of the
selected mode, its return value and its events. -/
def xfer_engine (c : Consts) (env : AttemptEnv) (d : spacemit_i2c_dev) : Int × List Event :=
  if d.xfer_mode = SPACEMIT_I2C_MODE_INTERRUPT then
    (env.byte_xfer, [Event.call Callee.spacemit_i2c_byte_xfer])
  else if d.xfer_mode = SPACEMIT_I2C_MODE_FIFO then spacemit_i2c_fifo_xfer env d
  else spacemit_i2c_dma_xfer c env d

/-- One pass of `spacemit_i2c_xfer` from the label `xfer_retry` to the error
classification: the classified result, the device and the events. -/
def xfer_attempt (c : Consts) (env : AttemptEnv) (d : spacemit_i2c_dev) :
    Int × spacemit_i2c_dev × List Event :=
  let s := xfer_setup c env d
  let d := s.1
  if env.recover_bus_busy ≠ 0 then
    -- goto err_recover
    xfer_classify c env d env.recover_bus_busy (s.2 ++ [Event.call Callee.disable_irq])
  else
    let eng := xfer_engine c env d
    let ev := s.2 ++ eng.2
    if eng.1 < 0 then
      -- goto err_xfer
      xfer_classify c env d (if eng.1 ≠ - ETIMEDOUT then - EINVAL else eng.1)
        (ev ++ [Event.call Callee.disable_irq])
    else if d.xfer_mode = SPACEMIT_I2C_MODE_INTERRUPT ∧ env.time_left = 0 then
      -- goto timeout_xfex
      xfer_classify c env d (- ETIMEDOUT)
        (ev ++ [Event.call Callee.wait_for_completion_timeout,
            Event.call Callee.synchronize_irq, Event.call Callee.disable_irq,
            Event.call Callee.spacemit_i2c_bus_reset]
          ++ spacemit_i2c_reset c d)
    else
      let ev := if d.xfer_mode = SPACEMIT_I2C_MODE_INTERRUPT then
        ev ++ [Event.call Callee.wait_for_completion_timeout] else ev
      let ev := if eng.1 = 0 then ev ++ [Event.call Callee.spacemit_i2c_check_bus_release]
        else ev
      xfer_classify c env d eng.1 (ev ++ [Event.call Callee.disable_irq])

/-- One pass of `spacemit_i2c_pio_xfer` from the label `xfer_retry` to the label
`out`: the mode is chosen for the timeout, then overridden by PIO; the polled
transfer itself is an input. -/
def pio_attempt (c : Consts) (env : AttemptEnv) (d : spacemit_i2c_dev) :
    Int × spacemit_i2c_dev × List Event :=
  let ch := spacemit_i2c_choose_xfer_mode c d
  (env.pio_result, { ch.1 with xfer_mode := SPACEMIT_I2C_MODE_PIO },
    ch.2 ++ [Event.call Callee.spacemit_i2c_pio_xfer])

/-- The retry tail shared by `spacemit_i2c_xfer` and `spacemit_i2c_pio_xfer`:
run attempt number `xfer_try`, increment `xfer_try`, and start over after a
back-off while the result is `-ETIMEDOUT` or `-EAGAIN` and
`xfer_try <= drv_retries`. Returns the last result, the final `xfer_try` and
the final state. -/
def retry_loop {σ : Type} (drv_retries : Nat) (attempt : Nat → σ → Int × σ)
    (backoff : σ → σ) (xfer_try : Nat) (s : σ) : Int × Nat × σ :=
  if (attempt xfer_try s).1 = - ETIMEDOUT ∨ (attempt xfer_try s).1 = - EAGAIN then
    if h : xfer_try + 1 ≤ drv_retries then
      retry_loop drv_retries attempt backoff (xfer_try + 1) (backoff (attempt xfer_try s).2)
    else ((attempt xfer_try s).1, xfer_try + 1, (attempt xfer_try s).2)
  else ((attempt xfer_try s).1, xfer_try + 1, (attempt xfer_try s).2)
termination_by drv_retries + 1 - xfer_try
decreasing_by omega

/-- The state threaded through the attempts: the device and the events so far. -/
abbrev XferState := spacemit_i2c_dev × List Event

/-- Attempt number `k` of `spacemit_i2c_xfer` on the threaded state. -/
def xfer_step (c : Consts) (envs : Nat → AttemptEnv) (k : Nat) (s : XferState) :
    Int × XferState :=
  ((xfer_attempt c (envs k) s.1).1,
    (xfer_attempt c (envs k) s.1).2.1, s.2 ++ (xfer_attempt c (envs k) s.1).2.2)

/-- Attempt number `k` of `spacemit_i2c_pio_xfer` on the threaded state. -/
def pio_step (c : Consts) (envs : Nat → AttemptEnv) (k : Nat) (s : XferState) :
    Int × XferState :=
  ((pio_attempt c (envs k) s.1).1,
    (pio_attempt c (envs k) s.1).2.1, s.2 ++ (pio_attempt c (envs k) s.1).2.2)

/-- The back-off of `spacemit_i2c_xfer` before a retry. -/
def xfer_backoff (s : XferState) : XferState := (s.1, s.2 ++ [Event.usleep_range 150 200])

/-- The back-off of `spacemit_i2c_pio_xfer` before a retry. -/
def pio_backoff (s : XferState) : XferState := (s.1, s.2 ++ [Event.udelay 150])

/-- What the caller of `spacemit_i2c_xfer` and an observer of the driver see. -/
structure Outcome where
  /-- The value returned. -/
  ret : Int
  /-- The number of attempts made (the final `xfer_try`). -/
  attempts : Nat
  /-- The device afterwards. -/
  dev : spacemit_i2c_dev
  /-- The events, in program order. -/
  events : List Event
  deriving DecidableEq, Repr

/-- What the rest of the system contributes to one call of `spacemit_i2c_xfer`. -/
structure XferEnv where
  /-- The flag `spacemit_i2c_restart_notify`. -/
  restart_notify : Bool
  /-- The flag `spacemit_i2c_poweroff_notify`. -/
  poweroff_notify : Bool
  /-- Return value of `pm_runtime_get_sync`. -/
  pm_runtime_get_sync : Int
  /-- The environment of each attempt. -/
  attempts : Nat → AttemptEnv

/-- The function `spacemit_i2c_pio_xfer`. -/
def spacemit_i2c_pio_xfer (c : Consts) (e : XferEnv) (d : spacemit_i2c_dev) : Outcome :=
  let r := retry_loop d.drv_retries (pio_step c e.attempts) pio_backoff 0 (d, [])
  { ret := if r.1 < 0 then r.1 else r.2.2.1.num
    attempts := r.2.1
    dev := r.2.2.1
    events := r.2.2.2 }

/-- The state before attempt `k` of a retry loop in which every earlier attempt
was followed by a retry. -/
def state_before {σ : Type} (attempt : Nat → σ → Int × σ) (backoff : σ → σ) (s : σ) :
    Nat → σ
  | 0 => s
  | k + 1 => backoff (attempt k (state_before attempt backoff s k)).2

/-- The classified result of attempt `k` (counted from 0) of a retry loop. -/
def result_of {σ : Type} (attempt : Nat → σ → Int × σ) (backoff : σ → σ) (s : σ)
    (k : Nat) : Int :=
  (attempt k (state_before attempt backoff s k)).1

/-- A result after which the driver retries: `-ETIMEDOUT` or `-EAGAIN`. -/
def retryable (ret : Int) : Prop := ret = - ETIMEDOUT ∨ ret = - EAGAIN

instance (ret : Int) : Decidable (retryable ret) := by
  unfold retryable
  infer_instance


/-- The index, counted from 1, of the first attempt among the first `bound` whose
result is not retryable; `bound + 1` when there is none. -/
def first_final_attempt (res : Nat → Int) (bound : Nat) : Nat :=
  (List.range bound).findIdx (fun j => !decide (retryable (res j))) + 1

/-- Whether `spacemit_i2c_xfer` takes the polled path at once: a reboot or
power-off notification, or the debugfs override. -/
def pio_requested (c : Consts) (e : XferEnv) (d : spacemit_i2c_dev) : Prop :=
  e.restart_notify = true ∨ e.poweroff_notify = true
    ∨ (c.CONFIG_DEBUG_FS = true ∧ d.dbgfs_mode = SPACEMIT_I2C_MODE_PIO)

instance (c : Consts) (e : XferEnv) (d : spacemit_i2c_dev) : Decidable (pio_requested c e d) := by
  unfold pio_requested
  infer_instance

/-- Whether `pm_runtime_get_sync` is called and fails. -/
def pm_failed (e : XferEnv) (d : spacemit_i2c_dev) : Bool :=
  !d.clk_always_on && decide (e.pm_runtime_get_sync < 0)

/-- The local `clk_directly` of `spacemit_i2c_xfer`: runtime PM answered
`-EACCES` and the clock is enabled directly. -/
def clk_directly (e : XferEnv) (d : spacemit_i2c_dev) : Bool :=
  pm_failed e d && decide (e.pm_runtime_get_sync = - EACCES)

/-- The state of `spacemit_i2c_xfer` when it reaches the label `xfer_retry`: the
messages stored, the lock taken, the clock acquired. -/
def xfer_start (e : XferEnv) (d : spacemit_i2c_dev) (msgs : List i2c_msg) : XferState :=
  ({ d with msgs := msgs },
   [Event.call Callee.mutex_lock]
    ++ (if d.clk_always_on then [] else [Event.call Callee.pm_runtime_get_sync])
    ++ (if clk_directly e d then [Event.call Callee.clk_enable] else []))

/-- The label `err_runtime` of `spacemit_i2c_xfer`: release the clock and the lock. -/
def xfer_release (e : XferEnv) (d : spacemit_i2c_dev) : List Event :=
  (if clk_directly e d then [Event.call Callee.clk_disable] else [])
    ++ (if d.clk_always_on then []
        else [Event.call Callee.pm_runtime_mark_last_busy,
          Event.call Callee.pm_runtime_put_autosuspend])
    ++ [Event.call Callee.mutex_unlock]

/-- The function `spacemit_i2c_xfer`. -/
def spacemit_i2c_xfer (c : Consts) (e : XferEnv) (d : spacemit_i2c_dev)
    (msgs : List i2c_msg) : Outcome :=
  if d.slave then
    { ret := - EBUSY, attempts := 0, dev := d, events := [] }
  else if pio_requested c e d then
    spacemit_i2c_pio_xfer c e { d with msgs := msgs }
  else if d.shutdown then
    { ret := - ENXIO, attempts := 0, dev := { d with msgs := msgs },
      events := [Event.call Callee.mutex_lock, Event.call Callee.mutex_unlock] }
  else
    -- the retry loop, skipped by `goto err_runtime`
    let r : Int × Nat × XferState :=
      if pm_failed e d = true ∧ clk_directly e d = false then
        (e.pm_runtime_get_sync, 0, xfer_start e d msgs)
      else
        retry_loop d.drv_retries (xfer_step c e.attempts) xfer_backoff 0 (xfer_start e d msgs)
    { ret := if r.1 < 0 then r.1 else (msgs.length : Int)
      attempts := r.2.1
      dev := r.2.2.1
      events := r.2.2.2 ++ xfer_release e d }

/-- The classified result of attempt `k` (counted from 0) of `spacemit_i2c_xfer`. -/
def xfer_result (c : Consts) (e : XferEnv) (d : spacemit_i2c_dev) (msgs : List i2c_msg)
    (k : Nat) : Int :=
  result_of (xfer_step c e.attempts) xfer_backoff (xfer_start e d msgs) k

/-! ## Quantities in the words of the specification -/

/-- Whether a message carries the flag `I2C_M_RECV_LEN`. -/
def is_recv_len (m : i2c_msg) : Bool := m.flags &&& I2C_M_RECV_LEN ≠ 0

/-- Whether a message is a read. -/
def is_read (m : i2c_msg) : Bool := m.flags &&& I2C_M_RD ≠ 0

/-- The encoded word count: one for the master code in high-speed mode, plus
`len + 1` for every message. -/
def word_count (high_mode : Bool) (msgs : List i2c_msg) : Int :=
  (if high_mode then 1 else 0) + (msgs.map (fun m => (m.len : Int) + 1)).sum

/-- The worst-case byte count used for the timeout: the word count plus
`I2C_SMBUS_BLOCK_MAX + 2` for every length-prefixed read. -/
def timeout_count (high_mode : Bool) (msgs : List i2c_msg) : Int :=
  word_count high_mode msgs
    + ((msgs.filter is_recv_len).length : Int) * ((I2C_SMBUS_BLOCK_MAX : Int) + 2)

/-- The total number of bytes of the read messages. -/
def rx_bytes (msgs : List i2c_msg) : Nat :=
  ((msgs.filter is_read).map (fun m => m.len)).sum

/-! ## Sample inputs -/

/-- A value of the header constants at which the model is evaluated. -/
def sample_consts : Consts where
  SPACEMIT_I2C_TX_FIFO_DEPTH := 8
  SPACEMIT_I2C_RX_FIFO_DEPTH := 8
  SPACEMIT_I2C_MAX_MSG_LEN := 256
  SPACEMIT_I2C_SCATTERLIST_SIZE := 42
  SPACEMIT_I2C_DMA_RX_BUF_LEN := 512
  SR_ACKNAK := 2 ^ 14
  SR_ALD := 2 ^ 18
  SR_BED := 2 ^ 22
  SR_RXOV := 2 ^ 29
  SR_IRF := 2 ^ 20
  SR_ITE := 2 ^ 19
  SR_MSD := 2 ^ 26
  SR_RWM := 2 ^ 13
  CR_UR := 2 ^ 10
  CR_START := 2 ^ 0
  CR_STOP := 2 ^ 1
  CR_ACKNAK := 2 ^ 2
  CR_TB := 2 ^ 3
  CR_ALDIE := 2 ^ 18
  CR_DTEIE := 2 ^ 19
  CR_GPIOEN := 2 ^ 6
  CR_RSTREQ := 2 ^ 11
  SR_UB := 2 ^ 16
  SR_IBB := 2 ^ 17
  SR_EBB := 2 ^ 15
  BMR_SDA := 2 ^ 0
  BMR_SCL := 2 ^ 1
  WFIFO_CTRL_TB := 2 ^ 8
  WFIFO_CTRL_START := 2 ^ 9
  WFIFO_CTRL_STOP := 2 ^ 10
  WFIFO_CTRL_ACKNAK := 2 ^ 11
  SPACEMIT_I2C_BUS_RECOVER_TIMEOUT := 8192
  SPACEMIT_I2C_INT_CTRL_MASK := 0xfe5c0000
  SPACEMIT_I2C_INT_STATUS_MASK := 0xfffc0000
  CONFIG_DEBUG_FS := true
  usecs_to_jiffies := fun u => (u + 3999) / 4000

/-- A write message of `len` bytes to address `0x50`. -/
def write_msg (len : Nat) : i2c_msg :=
  { addr := 0x50, flags := 0, len := len, buf := List.replicate len 0 }

/-- A read message of `len` bytes from address `0x50`. -/
def read_msg (len : Nat) : i2c_msg :=
  { addr := 0x50, flags := I2C_M_RD, len := len, buf := List.replicate len 0 }

/-- A length-prefixed read from address `0x50`. -/
def block_read_msg : i2c_msg :=
  { addr := 0x50, flags := I2C_M_RD ||| I2C_M_RECV_LEN, len := 1, buf := [0] }

/-- A controller as left by probe (DMA enabled, standard speed, three driver
retries, no debugfs override) holding the given messages. -/
def sample_dev (msgs : List i2c_msg) : spacemit_i2c_dev where
  high_mode := false
  fast_mode := false
  dma_disable := false
  clk_always_on := false
  drv_retries := 3
  i2c_lcr := 0
  i2c_wcr := 0
  dbgfs_mode := SPACEMIT_I2C_MODE_INVALID
  slave := false
  shutdown := false
  msgs := msgs
  xfer_mode := SPACEMIT_I2C_MODE_INTERRUPT
  timeout := 0
  rx_total := 0
  i2c_err := 0
  i2c_status := 0
  i2c_ctrl_reg_value := 0
  msg_idx := 0
  rx_cnt := 0
  tx_cnt := 0
  phase := SPACEMIT_I2C_XFER_IDLE
  is_xfer_start := false
  is_rx := false
  slave_addr_rw := 0
  msg_buf := 0
  smbus_rcv_len := false
  master_code := 0x0e


/-- An attempt in which nothing goes wrong: the bus is idle, the engine starts,
the completion arrives in time and no error is latched. -/
def quiet_attempt : AttemptEnv where
  reg_cr := 0
  recover_bus_busy := 0
  byte_xfer := 0
  dma_setup := DmaSetup.ok
  rx_nents := 0
  time_left := 1
  i2c_err := 0
  i2c_status := 0
  rx_dma_pending := false
  rx_dma_completes := true
  ctrl_reg_value := 0
  pio_result := 0

/-- An attempt in which the interrupt handler latches an arbitration loss. -/
def arbitration_lost_attempt : AttemptEnv :=
  { quiet_attempt with i2c_err := sample_consts.SR_ALD, i2c_status := sample_consts.SR_ALD }

/-- An attempt in which the slave does not acknowledge: bus error with NAK status. -/
def nak_attempt : AttemptEnv :=
  { quiet_attempt with
    i2c_err := sample_consts.SR_BED
    i2c_status := sample_consts.SR_BED ||| sample_consts.SR_ACKNAK }

/-- An attempt whose completion wait expires. -/
def timeout_attempt : AttemptEnv := { quiet_attempt with time_left := 0 }

/-- An attempt whose completion wait expires and in which an interrupt arriving
before the IRQ line is disabled latches an arbitration loss. -/
def late_error_attempt : AttemptEnv :=
  { timeout_attempt with i2c_err := sample_consts.SR_ALD, i2c_status := sample_consts.SR_ALD }

/-- A call of `spacemit_i2c_xfer` in normal operation (no reboot or power-off
notification, runtime PM succeeds) in which every attempt meets `a`. -/
def sample_env (a : AttemptEnv) : XferEnv where
  restart_notify := false
  poweroff_notify := false
  pm_runtime_get_sync := 0
  attempts := fun _ => a

/-- A controller with DMA disabled, which transfers in Interrupt mode. -/
def interrupt_dev : spacemit_i2c_dev := { sample_dev [write_msg 1] with dma_disable := true }

/-- A controller with DMA enabled holding a short write: FIFO mode. -/
def fifo_dev : spacemit_i2c_dev := sample_dev [write_msg 1]

/-- A controller with DMA enabled holding a write of 16 bytes: DMA mode. -/
def dma_dev : spacemit_i2c_dev := sample_dev [write_msg 16]

/-- A controller with DMA enabled on which debugfs forces FIFO mode, holding one
write of eight bytes (nine words). -/
def forced_fifo_dev : spacemit_i2c_dev :=
  { sample_dev [write_msg 8] with dbgfs_mode := SPACEMIT_I2C_MODE_FIFO }

/-! ## Copy-out of received data -/

/-- The assignment `*(buf + i) = v` to a byte buffer: the value is truncated to 8
bits. -/
def buf_store (buf : List Nat) (i v : Nat) : List Nat := buf.set i (v % 256)

/-- The inner loop of `spacemit_i2c_fifo_xfer_copy_buffer` for one read message:
while `cnt > 0`, `buf[len - cnt]` takes the next value read from `REG_RFIFO`.
`rfifo k` is the value returned by read number `k` of the RX FIFO and `n` the
number of reads made so far. -/
def fifo_copy_msg (rfifo : Nat → Nat) : Nat → i2c_msg → Nat → i2c_msg × Nat
  | 0, m, n => (m, n)
  | cnt + 1, m, n =>
    fifo_copy_msg rfifo cnt
      { m with buf := buf_store m.buf (m.len - (cnt + 1)) (rfifo n) } (n + 1)

/-- The function `spacemit_i2c_fifo_xfer_copy_buffer`: the messages afterwards and
the number of reads of the RX FIFO. -/
def spacemit_i2c_fifo_xfer_copy_buffer (rfifo : Nat → Nat) :
    List i2c_msg → Nat → List i2c_msg × Nat
  | [], n => ([], n)
  | m :: ms, n =>
    if m.flags &&& I2C_M_RD ≠ 0 then
      ((fifo_copy_msg rfifo m.len m n).1
          :: (spacemit_i2c_fifo_xfer_copy_buffer rfifo ms (fifo_copy_msg rfifo m.len m n).2).1,
        (spacemit_i2c_fifo_xfer_copy_buffer rfifo ms (fifo_copy_msg rfifo m.len m n).2).2)
    else
      (m :: (spacemit_i2c_fifo_xfer_copy_buffer rfifo ms n).1,
        (spacemit_i2c_fifo_xfer_copy_buffer rfifo ms n).2)

/-- The first loop of `spacemit_i2c_dma_copy_buffer`: the total of the read lengths. -/
def dma_copy_total : List i2c_msg → Nat → Nat
  | [], total => total
  | m :: ms, total =>
    if m.flags &&& I2C_M_RD ≠ 0 then dma_copy_total ms (total + m.len)
    else dma_copy_total ms total

/-- The `for` loop of `spacemit_i2c_dma_copy_buffer` for one read message, with
`todo` bytes left: byte `i = len - todo` comes from `rx_dma_buf[cnt]` while
`cnt < total` and from the RX FIFO (masked with `0xff`) afterwards. Returns the
message, `cnt` and the number of reads of the RX FIFO. -/
def dma_copy_msg (total : Nat) (rx_dma_buf rfifo : Nat → Nat) :
    Nat → i2c_msg → Nat → Nat → i2c_msg × Nat × Nat
  | 0, m, cnt, n => (m, cnt, n)
  | todo + 1, m, cnt, n =>
    if cnt < total then
      dma_copy_msg total rx_dma_buf rfifo todo
        { m with buf := buf_store m.buf (m.len - (todo + 1)) (rx_dma_buf cnt) } (cnt + 1) n
    else
      dma_copy_msg total rx_dma_buf rfifo todo
        { m with buf := buf_store m.buf (m.len - (todo + 1)) (rfifo n &&& 0xff) }
        (cnt + 1) (n + 1)

/-- The second loop of `spacemit_i2c_dma_copy_buffer` over the messages. -/
def dma_copy_msgs (total : Nat) (rx_dma_buf rfifo : Nat → Nat) :
    List i2c_msg → Nat → Nat → List i2c_msg × Nat
  | [], _, n => ([], n)
  | m :: ms, cnt, n =>
    if m.flags &&& I2C_M_RD ≠ 0 then
      ((dma_copy_msg total rx_dma_buf rfifo m.len m cnt n).1
          :: (dma_copy_msgs total rx_dma_buf rfifo ms
                (dma_copy_msg total rx_dma_buf rfifo m.len m cnt n).2.1
                (dma_copy_msg total rx_dma_buf rfifo m.len m cnt n).2.2).1,
        (dma_copy_msgs total rx_dma_buf rfifo ms
            (dma_copy_msg total rx_dma_buf rfifo m.len m cnt n).2.1
            (dma_copy_msg total rx_dma_buf rfifo m.len m cnt n).2.2).2)
    else
      (m :: (dma_copy_msgs total rx_dma_buf rfifo ms cnt n).1,
        (dma_copy_msgs total rx_dma_buf rfifo ms cnt n).2)

/-- The function `spacemit_i2c_dma_copy_buffer`: the messages afterwards and the
number of reads of the RX FIFO. `rx_dma_buf k` is the byte at index `k` of the RX
DMA buffer. -/
def spacemit_i2c_dma_copy_buffer (c : Consts) (rx_dma_buf rfifo : Nat → Nat)
    (msgs : List i2c_msg) : List i2c_msg × Nat :=
  dma_copy_msgs
    (dma_copy_total msgs 0 - dma_copy_total msgs 0 % c.SPACEMIT_I2C_RX_FIFO_DEPTH)
    rx_dma_buf rfifo msgs 0 0

/-! ## RX scatter list of the DMA engine -/

/-- One entry of the RX scatter list: `sg_set_buf(rx_sg + k, &rx_dma_buf[start], len)`. -/
structure sg_entry where
  start : Nat
  len : Int
  deriving DecidableEq, Repr

/-- The function `spacemit_i2c_map_rx_sg`, up to the call of `dma_map_sg`: the entry
set, the new value of the local total `*rx_total` and the new value of the field
`rx_total` of the device. -/
def spacemit_i2c_map_rx_sg (dev_rx_total : Nat) (cur_len : Nat) (rx_total : Nat) :
    sg_entry × Nat × Nat :=
  if rx_total + cur_len < dev_rx_total then
    ({ start := rx_total, len := (cur_len : Int) }, rx_total + cur_len, dev_rx_total)
  else
    ({ start := rx_total,
       len := (cur_len : Int) - ((rx_total + cur_len : Nat) : Int) + (dev_rx_total : Int) },
      rx_total + cur_len, 0)

/-- The RX part of the message loop of `spacemit_i2c_dma_xfer`: for every read
message, while the field `rx_total` is not zero, one scatter-list entry is set
and mapped. `map_ok k` tells whether `dma_map_sg` succeeds for entry `k`; a
failure leaves the loop (`goto err_map`). Returns the entries set and whether
all mappings succeeded. -/
def dma_xfer_rx_sg (map_ok : Nat → Bool) :
    List i2c_msg → Nat → Nat → List sg_entry → List sg_entry × Bool
  | [], _, _, sg => (sg, true)
  | m :: ms, dev_rx_total, rx_total, sg =>
    if m.flags &&& I2C_M_RD ≠ 0 then
      if dev_rx_total ≠ 0 then
        if map_ok sg.length then
          dma_xfer_rx_sg map_ok ms (spacemit_i2c_map_rx_sg dev_rx_total m.len rx_total).2.2
            (spacemit_i2c_map_rx_sg dev_rx_total m.len rx_total).2.1
            (sg ++ [(spacemit_i2c_map_rx_sg dev_rx_total m.len rx_total).1])
        else
          (sg ++ [(spacemit_i2c_map_rx_sg dev_rx_total m.len rx_total).1], false)
      else dma_xfer_rx_sg map_ok ms dev_rx_total rx_total sg
    else dma_xfer_rx_sg map_ok ms dev_rx_total rx_total sg

/-- The RX scatter list built by `spacemit_i2c_dma_xfer`: the field `rx_total` is
first rounded down to a multiple of the RX FIFO depth. -/
def spacemit_i2c_dma_xfer_rx_sg (c : Consts) (map_ok : Nat → Bool) (d : spacemit_i2c_dev) :
    List sg_entry × Bool :=
  dma_xfer_rx_sg map_ok d.msgs (d.rx_total - d.rx_total % c.SPACEMIT_I2C_RX_FIFO_DEPTH) 0 []

/-- A stream of received values; some exceed one byte. -/
def sample_stream (k : Nat) : Nat := 0x1A0 + k

/-- Three messages, two of them reads, with 11 bytes to receive in total. -/
def copy_msgs : List i2c_msg := [write_msg 2, read_msg 7, read_msg 4]

/-- A controller about to start a DMA transfer with 28 bytes to receive. -/
def sg_dev : spacemit_i2c_dev :=
  { sample_dev [read_msg 5, write_msg 2, read_msg 11, read_msg 9, read_msg 3] with
    rx_total := 28 }

/-! ## Byte engine of the Interrupt mode -/

/-- The expression `x & ~m` on unsigned values: the bits of `m` cleared in `x`. -/
def and_not (x m : Nat) : Nat := x ^^^ (x &&& m)

/-- What the hardware answers to the register reads of the byte engine and of
the interrupt handler: `cr k` is the value returned by read number `k` of
`REG_CR`, `dbr k` the value returned by read number `k` of `REG_DBR`. -/
structure Hw where
  cr : Nat → Nat
  dbr : Nat → Nat

/-- The state threaded through the byte engine: the device, the register writes
and calls made so far, and how many times `REG_CR` and `REG_DBR` were read. -/
structure Engine where
  dev : spacemit_i2c_dev
  events : List Event
  cr_reads : Nat
  dbr_reads : Nat
  deriving DecidableEq, Repr

/-- The message that the pointer `cur_msg` designates. -/
def cur_msg (d : spacemit_i2c_dev) : i2c_msg :=
  d.msgs.getD d.msg_idx { addr := 0, flags := 0, len := 0, buf := [] }

/-- The call `spacemit_i2c_write_reg(spacemit_i2c, reg, val)`. -/
def reg_write (e : Engine) (reg : Reg) (val : Nat) : Engine :=
  { e with events := e.events ++ [Event.write_reg reg val] }

/-- The assignment `*spacemit_i2c->msg_buf++ = v`. -/
def store_msg_buf (d : spacemit_i2c_dev) (v : Nat) : spacemit_i2c_dev :=
  { d with
    msgs := d.msgs.set d.msg_idx
      { cur_msg d with buf := buf_store (cur_msg d).buf d.msg_buf v }
    msg_buf := d.msg_buf + 1 }

/-- The assignment `spacemit_i2c->cur_msg->len = len`. -/
def set_cur_len (d : spacemit_i2c_dev) (len : Nat) : spacemit_i2c_dev :=
  { d with msgs := d.msgs.set d.msg_idx { cur_msg d with len := len } }

/-- The function `spacemit_i2c_trigger_byte_xfer`. -/
def spacemit_i2c_trigger_byte_xfer (c : Consts) (hw : Hw) (e : Engine) : Engine :=
  reg_write { e with cr_reads := e.cr_reads + 1 } REG_CR
    (and_not (hw.cr e.cr_reads) c.CR_STOP ||| (c.CR_START ||| c.CR_TB ||| c.CR_DTEIE))

/-- The function `spacemit_i2c_is_last_byte_to_send`. -/
def spacemit_i2c_is_last_byte_to_send (d : spacemit_i2c_dev) : Bool :=
  decide (d.tx_cnt = (cur_msg d).len ∧ (d.msg_idx : Int) = d.num - 1)

/-- The function `spacemit_i2c_is_last_byte_to_receive`. -/
def spacemit_i2c_is_last_byte_to_receive (d : spacemit_i2c_dev) : Bool :=
  if (cur_msg d).flags &&& I2C_M_RECV_LEN ≠ 0 ∧ d.smbus_rcv_len = false then false
  else decide ((d.rx_cnt : Int) = ((cur_msg d).len : Int) - 1 ∧ (d.msg_idx : Int) = d.num - 1)

/-- The function `spacemit_i2c_byte_xfer_send_master_code`. -/
def spacemit_i2c_byte_xfer_send_master_code (c : Consts) (hw : Hw) (e : Engine) : Engine :=
  reg_write
    (reg_write
      { e with
        cr_reads := e.cr_reads + 1
        dev := { e.dev with phase := SPACEMIT_I2C_XFER_MASTER_CODE } }
      REG_DBR e.dev.master_code)
    REG_CR
    (and_not (hw.cr e.cr_reads) (c.CR_STOP ||| c.CR_ALDIE)
      ||| (c.CR_GPIOEN ||| c.CR_START ||| c.CR_TB ||| c.CR_DTEIE))

/-- The function `spacemit_i2c_byte_xfer_send_slave_addr`. -/
def spacemit_i2c_byte_xfer_send_slave_addr (c : Consts) (hw : Hw) (e : Engine) : Engine :=
  spacemit_i2c_trigger_byte_xfer c hw
    (reg_write { e with dev := { e.dev with phase := SPACEMIT_I2C_XFER_SLAVE_ADDR } }
      REG_DBR e.dev.slave_addr_rw)

/-- The storing part of the receive-full branch of `spacemit_i2c_byte_xfer_body`
(the `if` on `I2C_M_RECV_LEN` and its `else`). The first component tells whether
the function returns at once, which it does for a length byte out of range.
`cr_val` is the control value with `CR_TB`, `CR_ACKNAK`, `CR_STOP` and `CR_START`
cleared. -/
def body_rx_store (c : Consts) (hw : Hw) (cr_val : Nat) (e : Engine) : Bool × Engine :=
  if (cur_msg e.dev).flags &&& I2C_M_RECV_LEN ≠ 0 ∧ e.dev.smbus_rcv_len = false then
    if hw.dbr e.dbr_reads % 256 = 0 ∨ hw.dbr e.dbr_reads % 256 > I2C_SMBUS_BLOCK_MAX then
      (true,
        reg_write
          { e with
            dbr_reads := e.dbr_reads + 1
            dev :=
              { store_msg_buf { e.dev with smbus_rcv_len := true } 0 with
                rx_cnt := (cur_msg e.dev).len } }
          REG_CR (cr_val ||| (c.CR_STOP ||| c.CR_ACKNAK) ||| (c.CR_ALDIE ||| c.CR_TB)))
    else
      (false,
        { e with
          dbr_reads := e.dbr_reads + 1
          dev :=
            { set_cur_len
                (store_msg_buf { e.dev with smbus_rcv_len := true } (hw.dbr e.dbr_reads % 256))
                (hw.dbr e.dbr_reads % 256 + 1) with
              rx_cnt := e.dev.rx_cnt + 1 } })
  else if e.dev.rx_cnt < (cur_msg e.dev).len then
    (false,
      { e with
        dbr_reads := e.dbr_reads + 1
        dev := { store_msg_buf e.dev (hw.dbr e.dbr_reads) with rx_cnt := e.dev.rx_cnt + 1 } })
  else (false, e)

/-- The rest of the receive-full branch of `spacemit_i2c_byte_xfer_body`: nothing
on master stop or NAK; otherwise trigger the next byte, move to the next message,
or do nothing. -/
def body_rx_next (next_msg : Engine → Int × Engine) (c : Consts) (cr_val : Nat) (e : Engine) :
    Int × Engine :=
  if e.dev.i2c_status &&& (c.SR_MSD ||| c.SR_ACKNAK) ≠ 0 then (0, e)
  else if e.dev.rx_cnt < (cur_msg e.dev).len then
    (0, reg_write e REG_CR
      ((if spacemit_i2c_is_last_byte_to_receive e.dev then cr_val ||| (c.CR_STOP ||| c.CR_ACKNAK)
        else cr_val) ||| (c.CR_ALDIE ||| c.CR_TB)))
  else if (e.dev.msg_idx : Int) < e.dev.num - 1 then next_msg e
  else (0, e)

/-- The transmit-empty branch of `spacemit_i2c_byte_xfer_body`. -/
def body_tx (next_msg : Engine → Int × Engine) (c : Consts) (cr_val : Nat) (e : Engine) :
    Int × Engine :=
  if e.dev.i2c_status &&& c.SR_MSD ≠ 0 then (0, e)
  else if e.dev.i2c_status &&& c.SR_RWM ≠ 0 then
    if e.dev.is_rx = false then (0, e)
    else
      (0, reg_write e REG_CR
        (and_not
          ((if spacemit_i2c_is_last_byte_to_receive e.dev then
              cr_val ||| (c.CR_STOP ||| c.CR_ACKNAK)
            else cr_val) ||| (c.CR_ALDIE ||| c.CR_TB))
          c.CR_DTEIE))
  else if e.dev.is_rx = true then (0, e)
  else if e.dev.tx_cnt < (cur_msg e.dev).len then
    (0, reg_write
      { reg_write e REG_DBR ((cur_msg e.dev).buf.getD e.dev.msg_buf 0) with
        dev := { e.dev with msg_buf := e.dev.msg_buf + 1, tx_cnt := e.dev.tx_cnt + 1 } }
      REG_CR
      ((if spacemit_i2c_is_last_byte_to_send { e.dev with tx_cnt := e.dev.tx_cnt + 1 } then
          cr_val ||| c.CR_STOP
        else cr_val) ||| (c.CR_ALDIE ||| c.CR_TB)))
  else if (e.dev.msg_idx : Int) < e.dev.num - 1 then next_msg e
  else (0, e)

/-- The first statements of `spacemit_i2c_byte_xfer_body`: `REG_CR` is read and
the phase is set. -/
def body_entry (e : Engine) : Engine :=
  { e with
    cr_reads := e.cr_reads + 1
    dev := { e.dev with phase := SPACEMIT_I2C_XFER_BODY } }

/-- The local `cr_val` of `spacemit_i2c_byte_xfer_body` after its first
statements: the value read from `REG_CR` with `CR_TB`, `CR_ACKNAK`, `CR_STOP` and
`CR_START` cleared. -/
def body_cr_val (c : Consts) (hw : Hw) (e : Engine) : Nat :=
  and_not (hw.cr e.cr_reads) (c.CR_TB ||| c.CR_ACKNAK ||| c.CR_STOP ||| c.CR_START)

/-- The body of `spacemit_i2c_byte_xfer_body`, with the function it calls to move
to the next message as a parameter. -/
def body_core (next_msg : Engine → Int × Engine) (c : Consts) (hw : Hw) (e : Engine) :
    Int × Engine :=
  if e.dev.i2c_status &&& c.SR_IRF ≠ 0 then
    if e.dev.is_rx = false then (0, body_entry e)
    else if (body_rx_store c hw (body_cr_val c hw e) (body_entry e)).1 then
      (0, (body_rx_store c hw (body_cr_val c hw e) (body_entry e)).2)
    else
      body_rx_next next_msg c (body_cr_val c hw e)
        (body_rx_store c hw (body_cr_val c hw e) (body_entry e)).2
  else if e.dev.i2c_status &&& c.SR_ITE ≠ 0 then
    body_tx next_msg c (body_cr_val c hw e) (body_entry e)
  else (0, body_entry e)

/-- The body of `spacemit_i2c_byte_xfer_next_msg`, with the function
`spacemit_i2c_byte_xfer` it ends with as a parameter. -/
def next_msg_core (byte_xfer : Engine → Int × Engine) (e : Engine) : Int × Engine :=
  if (e.dev.msg_idx : Int) = e.dev.num - 1 then (0, e)
  else
    byte_xfer
      { e with
        dev := spacemit_i2c_mark_rw_flag
          { e.dev with
            msg_idx := e.dev.msg_idx + 1
            msg_buf := 0
            rx_cnt := 0
            tx_cnt := 0
            i2c_err := 0
            i2c_status := 0
            smbus_rcv_len := false
            phase := SPACEMIT_I2C_XFER_IDLE } }

/-- The body of `spacemit_i2c_byte_xfer`, with the function
`spacemit_i2c_byte_xfer_body` it calls in the body phases as a parameter. -/
def byte_xfer_core (body : Engine → Int × Engine) (c : Consts) (hw : Hw) (e : Engine) :
    Int × Engine :=
  if e.dev.i2c_err ≠ 0 then (-1, e)
  else if e.dev.phase = SPACEMIT_I2C_XFER_IDLE then
    if e.dev.high_mode = true ∧ e.dev.is_xfer_start = true then
      (0, { spacemit_i2c_byte_xfer_send_master_code c hw e with
            dev := { (spacemit_i2c_byte_xfer_send_master_code c hw e).dev with
                     is_xfer_start := false } })
    else
      (0, { spacemit_i2c_byte_xfer_send_slave_addr c hw e with
            dev := { (spacemit_i2c_byte_xfer_send_slave_addr c hw e).dev with
                     is_xfer_start := false } })
  else if e.dev.phase = SPACEMIT_I2C_XFER_MASTER_CODE then
    (0, spacemit_i2c_byte_xfer_send_slave_addr c hw e)
  else body e

/-- The function `spacemit_i2c_byte_xfer_next_msg`. The three functions of the
engine call each other in a cycle; the cycle is cut at the call of the body from
the `spacemit_i2c_byte_xfer` that this function ends with, which never happens
because the phase has just been set to idle (`byte_xfer_next_msg_eq`). -/
def spacemit_i2c_byte_xfer_next_msg (c : Consts) (hw : Hw) (e : Engine) : Int × Engine :=
  next_msg_core (byte_xfer_core (fun e => (0, e)) c hw) e

/-- The function `spacemit_i2c_byte_xfer_body`. -/
def spacemit_i2c_byte_xfer_body (c : Consts) (hw : Hw) (e : Engine) : Int × Engine :=
  body_core (spacemit_i2c_byte_xfer_next_msg c hw) c hw e

/-- The function `spacemit_i2c_byte_xfer`. -/
def spacemit_i2c_byte_xfer (c : Consts) (hw : Hw) (e : Engine) : Int × Engine :=
  byte_xfer_core (spacemit_i2c_byte_xfer_body c hw) c hw e

/-- The part "process interrupt mode" of `spacemit_i2c_int_handler`: skipped
(`goto err_out`) when an error is latched; in Interrupt mode the call of
`spacemit_i2c_byte_xfer` is recorded and the engine runs. -/
def int_handler_engine (c : Consts) (hw : Hw) (e : Engine) : Int × Engine :=
  if e.dev.i2c_err ≠ 0 then (0, e)
  else if e.dev.xfer_mode = SPACEMIT_I2C_MODE_INTERRUPT then
    spacemit_i2c_byte_xfer c hw
      { e with events := e.events ++ [Event.call Callee.spacemit_i2c_byte_xfer] }
  else (0, e)

/-- The label `err_out` of `spacemit_i2c_int_handler`: on a latched error, a
negative result of the engine or master stop, mask the interrupts, clear the
status and signal completion. -/
def int_handler_complete (c : Consts) (hw : Hw) (status : Nat) (r : Int × Engine) : Engine :=
  if r.2.dev.i2c_err ≠ 0 ∨ r.1 < 0 ∨ status &&& c.SR_MSD ≠ 0 then
    { r.2 with
      cr_reads := r.2.cr_reads + 1
      events := r.2.events ++
        [Event.write_reg REG_CR (and_not (hw.cr r.2.cr_reads) c.SPACEMIT_I2C_INT_CTRL_MASK),
         Event.write_reg REG_SR
          (c.SPACEMIT_I2C_INT_STATUS_MASK &&& c.SPACEMIT_I2C_INT_STATUS_MASK),
         Event.call Callee.complete] }
  else r.2

/-- The function `spacemit_i2c_int_handler`; `status` is the value it reads from
`REG_SR`. In slave mode the slave handler is a recorded call. -/
def spacemit_i2c_int_handler (c : Consts) (hw : Hw) (status : Nat) (e : Engine) : Engine :=
  if status = 0 then { e with dev := { e.dev with i2c_status := status } }
  else if e.dev.slave = true then
    { e with
      dev := { e.dev with i2c_status := status }
      events := e.events ++ [Event.call Callee.spacemit_i2c_slave_handler] }
  else
    int_handler_complete c hw status
      (int_handler_engine c hw
        (reg_write
          { e with
            dev := { e.dev with
              i2c_status := status
              i2c_err := status &&& (c.SR_BED ||| c.SR_RXOV ||| c.SR_ALD) } }
          REG_SR (status &&& c.SPACEMIT_I2C_INT_STATUS_MASK)))

/-- The interrupt handler run once for each status of a list, in order. -/
def run_interrupts (c : Consts) (hw : Hw) : List Nat → Engine → Engine
  | [], e => e
  | status :: rest, e => run_interrupts c hw rest (spacemit_i2c_int_handler c hw status e)

/-- The engine state when `spacemit_i2c_xfer` starts an attempt: the mode chosen,
the transfer parameters initialised and the direction marked; nothing written
or read yet. -/
def engine_start (c : Consts) (d : spacemit_i2c_dev) : Engine :=
  { dev := spacemit_i2c_mark_rw_flag
      (spacemit_i2c_init_xfer_params (spacemit_i2c_choose_xfer_mode c d).1)
    events := []
    cr_reads := 0
    dbr_reads := 0 }

/-- An Interrupt-mode attempt as the engine sees it: `spacemit_i2c_byte_xfer`
called by `spacemit_i2c_xfer`, then one run of the interrupt handler for each
status. -/
def interrupt_attempt (c : Consts) (hw : Hw) (statuses : List Nat) (d : spacemit_i2c_dev) :
    Int × Engine :=
  ((spacemit_i2c_byte_xfer c hw (engine_start c d)).1,
    run_interrupts c hw statuses (spacemit_i2c_byte_xfer c hw (engine_start c d)).2)

/-- What an Interrupt-mode attempt of the engine contributes to
`spacemit_i2c_xfer`: the return value of the first `spacemit_i2c_byte_xfer`, the
error and status latched, and a wait that succeeds exactly when completion was
signalled. -/
def attempt_of_engine (r : Int × Engine) : AttemptEnv :=
  { reg_cr := 0
    recover_bus_busy := 0
    byte_xfer := r.1
    dma_setup := DmaSetup.ok
    rx_nents := 0
    time_left := if Event.call Callee.complete ∈ r.2.events then 1 else 0
    i2c_err := r.2.dev.i2c_err
    i2c_status := r.2.dev.i2c_status
    rx_dma_pending := false
    rx_dma_completes := true
    ctrl_reg_value := 0
    pio_result := 0 }

/-- The values written to `REG_DBR`, in order. -/
def dbr_writes : List Event → List Nat
  | [] => []
  | Event.write_reg REG_DBR v :: es => v :: dbr_writes es
  | _ :: es => dbr_writes es

/-- The values written to `REG_CR`, in order. -/
def cr_writes : List Event → List Nat
  | [] => []
  | Event.write_reg REG_CR v :: es => v :: cr_writes es
  | _ :: es => cr_writes es

/-! ## Transaction context of the byte engine: steps and invariants -/

/-- One step of the byte engine: a call of one of its three functions, with any
answers of the hardware to the register reads, or an interrupt that latches any
status and error. -/
inductive engine_step (c : Consts) : Engine → Engine → Prop where
  | byte_xfer (hw : Hw) (e : Engine) : engine_step c e (spacemit_i2c_byte_xfer c hw e).2
  | body (hw : Hw) (e : Engine) : engine_step c e (spacemit_i2c_byte_xfer_body c hw e).2
  | next_msg (hw : Hw) (e : Engine) :
      engine_step c e (spacemit_i2c_byte_xfer_next_msg c hw e).2
  | interrupt (status err : Nat) (e : Engine) :
      engine_step c e { e with dev := { e.dev with i2c_status := status, i2c_err := err } }

/-- The engine states reachable from `spacemit_i2c_init_xfer_params` applied to
the device `d0`. -/
inductive engine_reachable (c : Consts) (d0 : spacemit_i2c_dev) : Engine → Prop where
  | init (events : List Event) (cr_reads dbr_reads : Nat) :
      engine_reachable c d0
        { dev := spacemit_i2c_init_xfer_params d0, events := events,
          cr_reads := cr_reads, dbr_reads := dbr_reads }
  | step {e e2 : Engine} :
      engine_reachable c d0 e → engine_step c e e2 → engine_reachable c d0 e2

/-- The invariants of the transaction context: the message index and the two
cursors are in range; a receiving engine has sent nothing of the current
message; and nothing is received of a length-prefixed message whose length byte
is still awaited. -/
structure ctx_inv (d : spacemit_i2c_dev) : Prop where
  idx : d.msg_idx < d.msgs.length
  rx : d.rx_cnt ≤ (cur_msg d).len
  tx : d.tx_cnt ≤ (cur_msg d).len
  rx_only : d.is_rx = true → d.tx_cnt = 0
  len_pending :
    (cur_msg d).flags &&& I2C_M_RECV_LEN ≠ 0 → d.smbus_rcv_len = false → d.rx_cnt = 0

/-- What a step does to the message index: the number of messages is kept, the
index does not decrease, and when it increases the cursors are reset and the
direction is the one of the new current message. -/
def ctx_advance (d d2 : spacemit_i2c_dev) : Prop :=
  d2.msgs.length = d.msgs.length
  ∧ d.msg_idx ≤ d2.msg_idx
  ∧ (d.msg_idx < d2.msg_idx →
      d2.rx_cnt = 0 ∧ d2.tx_cnt = 0
      ∧ d2.is_rx = decide ((cur_msg d2).flags &&& I2C_M_RD ≠ 0)
      ∧ d2.slave_addr_rw
          = (if (cur_msg d2).flags &&& I2C_M_RD ≠ 0 then
              (((cur_msg d2).addr &&& 0x7f) <<< 1) ||| 1
            else ((cur_msg d2).addr &&& 0x7f) <<< 1))

/-- Two devices with the same transaction context. -/
def same_ctx (d d2 : spacemit_i2c_dev) : Prop :=
  d2.msgs = d.msgs ∧ d2.msg_idx = d.msg_idx ∧ d2.rx_cnt = d.rx_cnt ∧ d2.tx_cnt = d.tx_cnt
  ∧ d2.is_rx = d.is_rx ∧ d2.slave_addr_rw = d.slave_addr_rw
  ∧ d2.smbus_rcv_len = d.smbus_rcv_len

/-- The body of `spacemit_i2c_byte_xfer_body` run once for each status of a list:
before each run the status is latched in `i2c_status`, as the interrupt handler
does. -/
def body_steps (c : Consts) (hw : Hw) : List Nat → Engine → Engine
  | [], e => e
  | status :: rest, e =>
    body_steps c hw rest
      (spacemit_i2c_byte_xfer_body c hw
        { e with dev := { e.dev with i2c_status := status } }).2

/-! ## Length-prefixed reads in the byte engine -/

/-- The message at index `i` of the submitted messages. -/
def msg_at (d : spacemit_i2c_dev) (i : Nat) : i2c_msg :=
  d.msgs.getD i { addr := 0, flags := 0, len := 0, buf := [] }

/-- The value that `spacemit_i2c_byte_xfer_body` writes to `REG_CR` to trigger the
reception of the next byte: `cr` is the value read from `REG_CR`, `last` tells
whether `spacemit_i2c_is_last_byte_to_receive` holds. -/
def rx_trigger_value (c : Consts) (cr : Nat) (last : Bool) : Nat :=
  (if last then
      and_not cr (c.CR_TB ||| c.CR_ACKNAK ||| c.CR_STOP ||| c.CR_START)
        ||| (c.CR_STOP ||| c.CR_ACKNAK)
    else and_not cr (c.CR_TB ||| c.CR_ACKNAK ||| c.CR_STOP ||| c.CR_START))
    ||| (c.CR_ALDIE ||| c.CR_TB)

/-- The state of the engine after `k` bytes of a length-prefixed read of `N` data
bytes have been stored, relative to the state `e0` before the length byte:
same message, `k` bytes stored at the start of its buffer, its length set to
`N + 1`, and one trigger written for each byte, with STOP and NAK exactly in the
trigger that follows byte number `N - 1` of the last message. -/
structure recv_len_progress (c : Consts) (hw : Hw) (e0 : Engine) (N k : Nat) (e : Engine) :
    Prop where
  msgs_len : e.dev.msgs.length = e0.dev.msgs.length
  msg_idx : e.dev.msg_idx = e0.dev.msg_idx
  is_rx : e.dev.is_rx = true
  rcv : e.dev.smbus_rcv_len = true
  rx_cnt : e.dev.rx_cnt = k
  msg_buf : e.dev.msg_buf = k
  len : (cur_msg e.dev).len = N + 1
  buf : (cur_msg e.dev).buf
      = (List.range k).map (fun j => hw.dbr (e0.dbr_reads + j) % 256)
          ++ (cur_msg e0.dev).buf.drop k
  dbr_reads : e.dbr_reads = e0.dbr_reads + k
  cr_reads : e.cr_reads = e0.cr_reads + k
  events : e.events
      = e0.events ++ (List.range k).map (fun j =>
          Event.write_reg REG_CR
            (rx_trigger_value c (hw.cr (e0.cr_reads + j))
              (decide (j + 1 = N ∧ (e0.dev.msg_idx : Int) = e0.dev.num - 1))))

/-- The engine state `s` is the state `e` after one received byte was stored:
the current message has become `m`, both cursors moved by one, one more read
of `REG_DBR`, and everything else that matters is as before. -/
structure rx_stored (e s : Engine) (m : i2c_msg) : Prop where
  msgs_len : s.dev.msgs.length = e.dev.msgs.length
  msg_idx : s.dev.msg_idx = e.dev.msg_idx
  is_rx : s.dev.is_rx = e.dev.is_rx
  rx_cnt : s.dev.rx_cnt = e.dev.rx_cnt + 1
  msg_buf : s.dev.msg_buf = e.dev.msg_buf + 1
  cur : cur_msg s.dev = m
  status : s.dev.i2c_status = e.dev.i2c_status
  dbr_reads : s.dbr_reads = e.dbr_reads + 1
  cr_reads : s.cr_reads = e.cr_reads
  events : s.events = e.events

/-- A length-prefixed read from address `0x50` into a buffer of 34 bytes. -/
def block_read_buf_msg : i2c_msg :=
  { addr := 0x50, flags := I2C_M_RD ||| I2C_M_RECV_LEN, len := 1, buf := List.replicate 34 0 }

/-- Hardware whose control register reads as zero and whose data register
delivers the given bytes, then zeros. -/
def bytes_hw (bytes : List Nat) : Hw :=
  { cr := fun _ => 0, dbr := fun k => bytes.getD k 0 }

/-- The engine of a sample controller holding `msgs`, about to receive the first
byte of the first message. -/
def rx_engine (msgs : List i2c_msg) : Engine :=
  { dev :=
      { spacemit_i2c_mark_rw_flag (spacemit_i2c_init_xfer_params (sample_dev msgs)) with
        phase := SPACEMIT_I2C_XFER_BODY }
    events := []
    cr_reads := 0
    dbr_reads := 0 }

/-- The write of one byte `0x01` to address `0x50` followed by a read of four
bytes from it. -/
def scenario_msgs : List i2c_msg :=
  [{ addr := 0x50, flags := 0, len := 1, buf := [0x01] }, read_msg 4]

/-- A controller with DMA disabled, so in Interrupt mode, holding the messages
of the scenario. -/
def scenario_dev : spacemit_i2c_dev := { sample_dev scenario_msgs with dma_disable := true }

/-- Hardware of the scenario: the control register reads as `cr` tells, the data
register delivers `0xAA, 0xBB, 0xCC, 0xDD`. -/
def scenario_hw (cr : Nat → Nat) : Hw :=
  { cr := cr, dbr := fun k => [0xAA, 0xBB, 0xCC, 0xDD].getD k 0 }

/-- An interrupt status "transmit empty" of an acknowledged byte sent in write
mode: `SR_ITE` without error, receive full, master stop or read mode. -/
def status_tx_empty (c : Consts) (s : Nat) : Prop :=
  s &&& (c.SR_BED ||| c.SR_RXOV ||| c.SR_ALD) = 0 ∧ s &&& c.SR_IRF = 0 ∧ s &&& c.SR_ITE ≠ 0
  ∧ s &&& c.SR_MSD = 0 ∧ s &&& c.SR_RWM = 0

instance (c : Consts) (s : Nat) : Decidable (status_tx_empty c s) := by
  unfold status_tx_empty
  infer_instance

/-- An interrupt status "transmit empty with read mode", after an acknowledged
read address. -/
def status_tx_empty_read (c : Consts) (s : Nat) : Prop :=
  s &&& (c.SR_BED ||| c.SR_RXOV ||| c.SR_ALD) = 0 ∧ s &&& c.SR_IRF = 0 ∧ s &&& c.SR_ITE ≠ 0
  ∧ s &&& c.SR_MSD = 0 ∧ s &&& c.SR_RWM ≠ 0

instance (c : Consts) (s : Nat) : Decidable (status_tx_empty_read c s) := by
  unfold status_tx_empty_read
  infer_instance

/-- An interrupt status "receive full" in the middle of a transfer: `SR_IRF`
without error, master stop or NAK. -/
def status_rx_full (c : Consts) (s : Nat) : Prop :=
  s &&& (c.SR_BED ||| c.SR_RXOV ||| c.SR_ALD) = 0 ∧ s &&& c.SR_IRF ≠ 0
  ∧ s &&& c.SR_MSD = 0 ∧ s &&& c.SR_ACKNAK = 0

instance (c : Consts) (s : Nat) : Decidable (status_rx_full c s) := by
  unfold status_rx_full
  infer_instance

/-- An interrupt status "receive full" with master stop detected, without error. -/
def status_rx_full_stop (c : Consts) (s : Nat) : Prop :=
  s &&& (c.SR_BED ||| c.SR_RXOV ||| c.SR_ALD) = 0 ∧ s &&& c.SR_IRF ≠ 0 ∧ s &&& c.SR_MSD ≠ 0

instance (c : Consts) (s : Nat) : Decidable (status_rx_full_stop c s) := by
  unfold status_rx_full_stop
  infer_instance

/-- A length-prefixed read whose length byte arrives as 200: the address phase,
the length byte, and the interrupt of the stop that the driver then requests. -/
def invalid_len_attempt : Int × Engine :=
  interrupt_attempt sample_consts (bytes_hw [200, 0x11])
    [sample_consts.SR_ITE ||| sample_consts.SR_RWM, sample_consts.SR_IRF,
     sample_consts.SR_IRF ||| sample_consts.SR_MSD]
    (sample_dev [block_read_buf_msg])

/-- An engine state with an error latched. -/
def error_engine : Engine :=
  { dev := { sample_dev [write_msg 1] with i2c_err := sample_consts.SR_BED }
    events := []
    cr_reads := 0
    dbr_reads := 0 }

/-- The engine of the scenario right after `spacemit_i2c_init_xfer_params`. -/
def init_engine : Engine :=
  { dev := spacemit_i2c_init_xfer_params scenario_dev
    events := []
    cr_reads := 0
    dbr_reads := 0 }

/-! ## Clean-up balance of the orchestrator -/

/-- The number of calls of `f` among the events. -/
def calls (f : Callee) (ev : List Event) : Nat := ev.count (Event.call f)

/-- Whether an event is one of the calls that bracket a transfer and its
attempts: the mutex locked and unlocked, the unit enabled and disabled, the
interrupt enabled and disabled. -/
def is_bracket (ev : Event) : Bool :=
  ev == Event.call Callee.mutex_lock || ev == Event.call Callee.mutex_unlock
    || ev == Event.call Callee.spacemit_i2c_enable || ev == Event.call Callee.enable_irq
    || ev == Event.call Callee.disable_irq || ev == Event.call Callee.spacemit_i2c_disable

/-- The bracket calls of one attempt of `spacemit_i2c_xfer`, in program order. -/
def attempt_brackets : List Event :=
  [Event.call Callee.spacemit_i2c_enable, Event.call Callee.enable_irq,
   Event.call Callee.disable_irq, Event.call Callee.spacemit_i2c_disable]

/-! ## Bus recovery -/

/-- The three steps of one clock pulse of `spacemit_i2c_bus_reset`: the cycle
count, the reset request, the pause. -/
def clock_pulse (c : Consts) : List Event :=
  [Event.write_reg REG_RST_CYC 0x1, Event.write_reg REG_CR c.CR_RSTREQ,
   Event.usleep_range 20 30]

/-- The loop `while (clk_cnt < 9)` of `spacemit_i2c_bus_reset`, with `9 - clk_cnt`
as first argument: `bmr k` is the value returned by read number `k` of
`REG_BMR`, `reads` the number of reads made so far. Returns the final
`clk_cnt`, the number of reads and the events. -/
def bus_reset_loop (c : Consts) (bmr : Nat → Nat) : Nat → Nat → Nat → Nat × Nat × List Event
  | 0, reads, clk_cnt => (clk_cnt, reads, [])
  | left + 1, reads, clk_cnt =>
    if bmr reads &&& c.BMR_SDA ≠ 0 then (clk_cnt, reads + 1, [])
    else
      ((bus_reset_loop c bmr left (reads + 1) (clk_cnt + 1)).1,
       (bus_reset_loop c bmr left (reads + 1) (clk_cnt + 1)).2.1,
       clock_pulse c ++ (bus_reset_loop c bmr left (reads + 1) (clk_cnt + 1)).2.2)

/-- What a run of `spacemit_i2c_bus_reset` does: the events, the number of reads
of `REG_BMR` and the final `clk_cnt`. The function returns nothing; its
`dev_alert` messages are not modelled. -/
structure BusReset where
  events : List Event
  bmr_reads : Nat
  clk_cnt : Nat
  deriving DecidableEq, Repr

/-- The test `!(bus_status & BMR_SDA) || !(bus_status & BMR_SCL)`. -/
def bus_locked (c : Consts) (bus_status : Nat) : Prop :=
  bus_status &&& c.BMR_SDA = 0 ∨ bus_status &&& c.BMR_SCL = 0

instance (c : Consts) (bus_status : Nat) : Decidable (bus_locked c bus_status) := by
  unfold bus_locked
  infer_instance

/-- The function `spacemit_i2c_bus_reset`: `bmr k` is the value returned by read
number `k` of `REG_BMR`. -/
def spacemit_i2c_bus_reset (c : Consts) (d : spacemit_i2c_dev) (bmr : Nat → Nat) : BusReset :=
  let ev := if bus_locked c (bmr 0) then
    spacemit_i2c_controller_reset c d ++ [Event.usleep_range 10 20] else []
  let reads := if bus_locked c (bmr 0) then 2 else 1
  let l := bus_reset_loop c bmr 9 reads 0
  { events := ev ++ l.2.2, bmr_reads := l.2.1 + 1, clk_cnt := l.1 }

/-- The function `spacemit_i2c_check_bus_release`: `sr` is the value it reads from
`REG_SR`. -/
def spacemit_i2c_check_bus_release (c : Consts) (d : spacemit_i2c_dev) (sr : Nat)
    (bmr : Nat → Nat) : List Event :=
  if sr &&& c.SR_EBB ≠ 0 then
    (spacemit_i2c_bus_reset c d bmr).events ++ [Event.usleep_range 90 150]
  else []

/-- The wait loop of `spacemit_i2c_recover_bus_busy`, with the local `cnt` (not
negative before the loop) as first argument: `sr k` is the value returned by
read number `k` of `REG_SR`, `reads` the number of reads made so far. Returns
the final `cnt`, the number of reads and the events. -/
def recover_wait (c : Consts) (sr : Nat → Nat) (timeout : Nat) :
    Nat → Nat → Int × Nat × List Event
  | cnt, reads =>
    if sr reads &&& (c.SR_UB ||| c.SR_IBB) ≠ 0 then
      match cnt with
      | 0 => (-1, reads + 1, [])
      | left + 1 =>
        ((recover_wait c sr timeout left (reads + 1)).1,
         (recover_wait c sr timeout left (reads + 1)).2.1,
         Event.usleep_range (timeout / 2) timeout
          :: (recover_wait c sr timeout left (reads + 1)).2.2)
    else ((cnt : Int), reads + 1, [])

/-- What a run of `spacemit_i2c_recover_bus_busy` does: the value returned, the
number of reads of `REG_SR` and the events. -/
structure BusRecover where
  ret : Int
  sr_reads : Nat
  events : List Event
  deriving DecidableEq, Repr

/-- The local `timeout` of `spacemit_i2c_recover_bus_busy`, in microseconds. -/
def recover_timeout (d : spacemit_i2c_dev) : Nat := if d.high_mode then 1000 else 1500

/-- The function `spacemit_i2c_recover_bus_busy`: `sr k` is the value returned by
read number `k` of `REG_SR`. -/
def spacemit_i2c_recover_bus_busy (c : Consts) (d : spacemit_i2c_dev) (sr : Nat → Nat) :
    BusRecover :=
  let cnt := c.SPACEMIT_I2C_BUS_RECOVER_TIMEOUT / recover_timeout d
  if sr 0 &&& (c.SR_UB ||| c.SR_IBB) = 0 then { ret := 0, sr_reads := 1, events := [] }
  else
    let w := recover_wait c sr (recover_timeout d) cnt 1
    if w.1 ≤ 0 then
      { ret := - EAGAIN, sr_reads := w.2.1, events := w.2.2 ++ spacemit_i2c_reset c d }
    else { ret := 0, sr_reads := w.2.1, events := w.2.2 }

/-- Readings of `REG_BMR` with SDA low in the first `k` and high afterwards,
SCL high throughout. -/
def sda_low_for (k : Nat) : Nat → Nat := fun j => if j < k then 2 else 3

/-- Readings of `REG_SR` with the bus busy in the first `k` and idle afterwards. -/
def busy_for (k : Nat) : Nat → Nat := fun j => if j < k then sample_consts.SR_IBB else 0

/-! ## Phases of the byte engine -/

/-- The address byte of a message in the words of the specification: the 7-bit
address shifted left by one, with the read bit. -/
def addr_rw (m : i2c_msg) : Nat :=
  ((m.addr &&& 0x7f) <<< 1) ||| (if m.flags &&& I2C_M_RD ≠ 0 then 1 else 0)

/-- The device `d2` is the device `d` after statements of
`spacemit_i2c_byte_xfer_body` that stay within the current message: the phase
is the body phase; the message index, the number of messages, `is_xfer_start`,
`high_mode`, `master_code` and the address and flags of every message are as
before. -/
structure body_stay (d d2 : spacemit_i2c_dev) : Prop where
  phase : d2.phase = SPACEMIT_I2C_XFER_BODY
  msg_idx : d2.msg_idx = d.msg_idx
  msgs_len : d2.msgs.length = d.msgs.length
  is_xfer_start : d2.is_xfer_start = d.is_xfer_start
  high_mode : d2.high_mode = d.high_mode
  master_code : d2.master_code = d.master_code

/-- The engine states of an Interrupt-mode attempt from the state `e`, in order:
`e`, then the state after each run of the interrupt handler. -/
def attempt_states (c : Consts) (hw : Hw) : List Nat → Engine → List Engine
  | [], e => [e]
  | status :: rest, e => e :: attempt_states c hw rest (spacemit_i2c_int_handler c hw status e)

/-- The number of times the master-code phase is entered along a list of
successive engine states: the steps from a state in another phase to a state in
the master-code phase. -/
def master_code_entries : List Engine → Nat
  | e :: e2 :: rest =>
    (if e.dev.phase ≠ SPACEMIT_I2C_XFER_MASTER_CODE
        ∧ e2.dev.phase = SPACEMIT_I2C_XFER_MASTER_CODE then 1 else 0)
      + master_code_entries (e2 :: rest)
  | _ => 0

/-- The bits of the control register that the body of the byte engine sets and
tests are distinct: `CR_STOP` and `CR_ACKNAK` are not empty, share no bit with
each other, nor with `CR_ALDIE`, `CR_TB` and `CR_DTEIE`. -/
def cr_bits_distinct (c : Consts) : Prop :=
  c.CR_STOP ≠ 0 ∧ c.CR_ACKNAK ≠ 0 ∧ c.CR_STOP &&& c.CR_ACKNAK = 0
  ∧ (c.CR_ALDIE ||| c.CR_TB) &&& c.CR_STOP = 0
  ∧ (c.CR_ALDIE ||| c.CR_TB) &&& c.CR_ACKNAK = 0
  ∧ c.CR_DTEIE &&& c.CR_STOP = 0 ∧ c.CR_DTEIE &&& c.CR_ACKNAK = 0

instance (c : Consts) : Decidable (cr_bits_distinct c) := by
  unfold cr_bits_distinct
  infer_instance

/-- The value that `spacemit_i2c_byte_xfer_body` writes to `REG_CR` after it has
put a byte in the data register: `cr` is the value read from `REG_CR`, `last`
tells whether `spacemit_i2c_is_last_byte_to_send` holds. -/
def tx_trigger_value (c : Consts) (cr : Nat) (last : Bool) : Nat :=
  (if last then
      and_not cr (c.CR_TB ||| c.CR_ACKNAK ||| c.CR_STOP ||| c.CR_START) ||| c.CR_STOP
    else and_not cr (c.CR_TB ||| c.CR_ACKNAK ||| c.CR_STOP ||| c.CR_START))
    ||| (c.CR_ALDIE ||| c.CR_TB)

/-- The test of `spacemit_i2c_byte_xfer_body` and of
`spacemit_i2c_is_last_byte_to_receive` for a length-prefixed read whose length
byte has not arrived. -/
def len_pending (d : spacemit_i2c_dev) : Prop :=
  (cur_msg d).flags &&& I2C_M_RECV_LEN ≠ 0 ∧ d.smbus_rcv_len = false

instance (d : spacemit_i2c_dev) : Decidable (len_pending d) := by
  unfold len_pending
  infer_instance

/-- An engine in the body phase, receiving the length byte of a length-prefixed
read that is followed by a write, with receive-full latched. -/
def abort_engine : Engine :=
  { dev :=
      { (rx_engine [block_read_buf_msg, write_msg 1]).dev with
        i2c_status := sample_consts.SR_IRF }
    events := []
    cr_reads := 0
    dbr_reads := 0 }

/-- A controller in Interrupt mode holding one length-prefixed read, as a
previous transaction without length-prefixed read leaves it. -/
def fresh_dev : spacemit_i2c_dev :=
  { sample_dev [block_read_buf_msg] with dma_disable := true }

/-- The same controller as a previous length-prefixed read leaves it:
`smbus_rcv_len` is still set. -/
def stale_dev : spacemit_i2c_dev := { fresh_dev with smbus_rcv_len := true }

/-- The interrupts of a length-prefixed read of two data bytes: the address
acknowledged in read mode, three bytes received, master stop with the last. -/
def block_read_statuses : List Nat :=
  [sample_consts.SR_ITE ||| sample_consts.SR_RWM, sample_consts.SR_IRF, sample_consts.SR_IRF,
   sample_consts.SR_IRF ||| sample_consts.SR_MSD]

/-- One entry into the byte engine during an attempt: the call of
`spacemit_i2c_byte_xfer` by `spacemit_i2c_xfer`, or a run of the interrupt
handler on a status; each with its own answers of the hardware. -/
inductive EngineCall where
  | byte_xfer (hw : Hw)
  | interrupt (hw : Hw) (status : Nat)

/-- The engine state after one entry into the byte engine. -/
def run_call (c : Consts) : EngineCall → Engine → Engine
  | EngineCall.byte_xfer hw, e => (spacemit_i2c_byte_xfer c hw e).2
  | EngineCall.interrupt hw status, e => spacemit_i2c_int_handler c hw status e

/-- The engine state after a sequence of entries, in any order: interrupts may
come before the call by `spacemit_i2c_xfer`, which follows `enable_irq`. -/
def run_calls (c : Consts) : List EngineCall → Engine → Engine
  | [], e => e
  | call :: rest, e => run_calls c rest (run_call c call e)

/-- The engine states along a sequence of entries, in order: the state before
the first entry, then the state after each entry. -/
def call_states (c : Consts) : List EngineCall → Engine → List Engine
  | [], e => [e]
  | call :: rest, e => e :: call_states c rest (run_call c call e)

/-- A high-speed controller in Interrupt mode holding the messages of the
scenario. -/
def hs_scenario_dev : spacemit_i2c_dev := { scenario_dev with high_mode := true }

/-! ## FIFO and DMA encoders -/

/-- Conversion of an integer to `int`. -/
def to_int (x : Int) : Int := (x + 2 ^ 31) % 2 ^ 32 - 2 ^ 31

/-- The read `*spacemit_i2c->msg_buf`: the byte at the offset `msg_buf` of the
buffer of the current message. A read past the end of the buffer, which the
source makes for a last message of length 0, reads memory that is not part of
the message; it is given as 0 here. -/
def msg_buf_byte (d : spacemit_i2c_dev) : Nat := (cur_msg d).buf.getD d.msg_buf 0 % 256

/-- The loop `while (count > 0)` of `spacemit_i2c_fifo_xfer_fill_buffer`: one data
word with `WFIFO_CTRL_TB` for each of `count` bytes, `msg_buf` moving on. -/
def fill_data (c : Consts) : Nat → spacemit_i2c_dev → List Nat → spacemit_i2c_dev × List Nat
  | 0, d, data_buf => (d, data_buf)
  | count + 1, d, data_buf =>
    fill_data c count { d with msg_buf := d.msg_buf + 1 }
      (data_buf ++ [msg_buf_byte d ||| c.WFIFO_CTRL_TB])

/-- The state of the loop of `spacemit_i2c_fifo_xfer_fill_buffer`: the device, the
local `fill` and the words in `data_buf` (`data_cnt` is their number). -/
structure FillState where
  dev : spacemit_i2c_dev
  fill : Int
  data_buf : List Nat
  deriving DecidableEq, Repr

/-- The part of one pass of the loop of `spacemit_i2c_fifo_xfer_fill_buffer` that
encodes the data of the current message: `count` bytes are accounted in the
cursor, and the last byte of the last message gets the word with
`WFIFO_CTRL_STOP`. -/
def fill_body (c : Consts) (d : spacemit_i2c_dev) (count : Int) (data_buf : List Nat) :
    spacemit_i2c_dev × List Nat :=
  if d.is_rx = true then
    let d := { d with rx_cnt := ((d.rx_cnt : Int) + count).toNat }
    if d.rx_cnt = (cur_msg d).len ∧ (d.msg_idx : Int) = d.num - 1 then
      let w := fill_data c (count - 1).toNat d data_buf
      ({ w.1 with msg_buf := w.1.msg_buf + 1 },
        w.2 ++ [d.slave_addr_rw ||| c.WFIFO_CTRL_TB ||| c.WFIFO_CTRL_STOP
          ||| c.WFIFO_CTRL_ACKNAK])
    else fill_data c count.toNat d data_buf
  else
    let d := { d with tx_cnt := ((d.tx_cnt : Int) + count).toNat }
    if spacemit_i2c_is_last_byte_to_send d = true then
      let w := fill_data c (count - 1).toNat d data_buf
      (w.1, w.2 ++ [msg_buf_byte w.1 ||| c.WFIFO_CTRL_TB ||| c.WFIFO_CTRL_STOP])
    else fill_data c count.toNat d data_buf

/-- The local `count` of `spacemit_i2c_fifo_xfer_fill_buffer`:
`min_t(size_t, cur_msg->len - finish, SPACEMIT_I2C_TX_FIFO_DEPTH - fill)`
assigned to an `int`. -/
def fill_count (c : Consts) (len : Nat) (finish fill : Int) : Int :=
  to_int (min (to_ulong ((len : Int) - finish))
    (to_ulong ((c.SPACEMIT_I2C_TX_FIFO_DEPTH : Int) - fill)))

/-- The end of one pass of the loop of `spacemit_i2c_fifo_xfer_fill_buffer`: a
complete message is left for the next one, and the loop is left (second
component) after the last message and when the FIFO is full. -/
def fill_next (c : Consts) (d : spacemit_i2c_dev) (fill : Int) (data_buf : List Nat) :
    FillState × Bool :=
  if d.tx_cnt = (cur_msg d).len ∨ d.rx_cnt = (cur_msg d).len then
    if ((d.msg_idx + 1 : Nat) : Int) = d.num then
      ({ dev := { d with msg_idx := d.msg_idx + 1 }, fill := fill, data_buf := data_buf }, true)
    else
      ({ dev := { d with msg_idx := d.msg_idx + 1, msg_buf := 0, rx_cnt := 0, tx_cnt := 0 },
         fill := fill, data_buf := data_buf },
        decide (fill = (c.SPACEMIT_I2C_TX_FIFO_DEPTH : Int)))
  else
    ({ dev := d, fill := fill, data_buf := data_buf },
      decide (fill = (c.SPACEMIT_I2C_TX_FIFO_DEPTH : Int)))

/-- One pass of the loop of `spacemit_i2c_fifo_xfer_fill_buffer`; the second
component tells whether the loop is left by `break`. -/
def fill_msg (c : Consts) (s : FillState) : FillState × Bool :=
  let d := spacemit_i2c_mark_rw_flag s.dev
  let finish : Int := if d.is_rx = true then (d.rx_cnt : Int) else (d.tx_cnt : Int)
  let master : Bool := d.high_mode && d.is_xfer_start
  let data_buf := if master = true then
    s.data_buf ++ [d.master_code ||| (c.WFIFO_CTRL_TB ||| c.WFIFO_CTRL_START)] else s.data_buf
  let fill : Int := if master = true then s.fill + 2 else s.fill + 1
  let count := fill_count c (cur_msg d).len finish fill
  let d := { d with is_xfer_start := false }
  let data_buf := data_buf ++ [d.slave_addr_rw ||| (c.WFIFO_CTRL_TB ||| c.WFIFO_CTRL_START)]
  let r := fill_body c d count data_buf
  fill_next c r.1 (fill + count) r.2

/-- The loop `while (msg_idx < num)` of `spacemit_i2c_fifo_xfer_fill_buffer`, with a
bound on the number of passes: `none` when the bound is reached before the loop
ends. -/
def fill_loop (c : Consts) : Nat → FillState → Option FillState
  | 0, s => if (s.dev.msg_idx : Int) < s.dev.num then none else some s
  | fuel + 1, s =>
    if (s.dev.msg_idx : Int) < s.dev.num then
      if (fill_msg c s).2 = true then some (fill_msg c s).1
      else fill_loop c fuel (fill_msg c s).1
    else some s

/-- The function `spacemit_i2c_fifo_xfer_fill_buffer`, with a bound on the number
of passes of its loop: the device afterwards and the words of `data_buf`, which
the function writes to `REG_WFIFO` in order under the FIFO lock. -/
def spacemit_i2c_fifo_xfer_fill_buffer (c : Consts) (fuel : Nat) (d : spacemit_i2c_dev) :
    Option (spacemit_i2c_dev × List Nat) :=
  (fill_loop c fuel { dev := d, fill := 0, data_buf := [] }).map
    (fun s => (s.dev, s.data_buf))

/-- The register writes of `spacemit_i2c_fifo_xfer_fill_buffer` for the words of
`data_buf`. -/
def wfifo_writes (words : List Nat) : List Event := words.map (Event.write_reg REG_WFIFO)

/-- The direction that `spacemit_i2c_mark_rw_flag` reads from a message. -/
def msg_is_rx (m : i2c_msg) : Bool := decide (m.flags &&& I2C_M_RD ≠ 0)

/-- The value that `spacemit_i2c_mark_rw_flag` stores in `slave_addr_rw` for a
message. -/
def msg_addr_rw (m : i2c_msg) : Nat :=
  if m.flags &&& I2C_M_RD ≠ 0 then ((m.addr &&& 0x7f) <<< 1) ||| 1 else (m.addr &&& 0x7f) <<< 1

/-- The byte `*(cur_msg->buf + i)` of a message. -/
def msg_byte (m : i2c_msg) (i : Nat) : Nat := m.buf.getD i 0 % 256

/-- The words that one pass of the message loop of `spacemit_i2c_dma_xfer` stores
in `tx_dma_buf` for the message `m` at index `idx`, from the address word on:
the address word, `len - 1` data words, and a last data word that carries the
stop (and the NAK of a read) in the last message. -/
def dma_tx_body (c : Consts) (d : spacemit_i2c_dev) (idx : Nat) (m : i2c_msg) : List Nat :=
  (msg_addr_rw m ||| c.WFIFO_CTRL_TB ||| c.WFIFO_CTRL_START)
    :: (if msg_is_rx m = true then
        List.replicate (m.len - 1) (msg_addr_rw m ||| c.WFIFO_CTRL_TB)
          ++ [if (idx : Int) = d.num - 1 then
                msg_addr_rw m ||| c.WFIFO_CTRL_TB
                  ||| (c.WFIFO_CTRL_ACKNAK ||| c.WFIFO_CTRL_STOP)
              else msg_addr_rw m ||| c.WFIFO_CTRL_TB]
      else
        (List.range (m.len - 1)).map (fun i => msg_byte m i ||| c.WFIFO_CTRL_TB)
          ++ [if (idx : Int) = d.num - 1 then
                msg_byte m (m.len - 1) ||| c.WFIFO_CTRL_TB ||| c.WFIFO_CTRL_STOP
              else msg_byte m (m.len - 1) ||| c.WFIFO_CTRL_TB])

/-- The words that one pass of the message loop of `spacemit_i2c_dma_xfer` stores
in `tx_dma_buf` for the message `m` at index `idx`: the master code before the
first message in high-speed mode, then the words of the message. -/
def dma_tx_msg (c : Consts) (d : spacemit_i2c_dev) (idx : Nat) (m : i2c_msg) : List Nat :=
  (if idx = 0 ∧ d.high_mode = true then
      [(d.master_code &&& 0xff) ||| c.WFIFO_CTRL_TB ||| c.WFIFO_CTRL_START]
    else [])
    ++ dma_tx_body c d idx m

/-- The TX part of the message loop of `spacemit_i2c_dma_xfer`, from the message
at index `idx` on: the words stored in `tx_dma_buf` when no mapping of the RX
scatter list fails (a failure leaves the loop, see `dma_xfer_rx_sg`). -/
def dma_tx_msgs (c : Consts) (d : spacemit_i2c_dev) : List i2c_msg → Nat → List Nat
  | [], _ => []
  | m :: ms, idx => dma_tx_msg c d idx m ++ dma_tx_msgs c d ms (idx + 1)

/-- The words that `spacemit_i2c_dma_xfer` stores in `tx_dma_buf`. -/
def spacemit_i2c_dma_xfer_tx_buf (c : Consts) (d : spacemit_i2c_dev) : List Nat :=
  dma_tx_msgs c d d.msgs 0

/-- The control bits of a word of the write FIFO. -/
def wfifo_ctrl (c : Consts) (w : Nat) : Nat :=
  w &&& (c.WFIFO_CTRL_TB ||| c.WFIFO_CTRL_START ||| c.WFIFO_CTRL_STOP ||| c.WFIFO_CTRL_ACKNAK)

/-- The data words of one message in the words of the specification: `len` words
with TB, the last of which carries STOP (and ACKNAK for a read) in the last
message. The payload of a data word is the byte of the buffer, and the address
byte in the last word of a read. -/
def encode_data (c : Consts) (last : Bool) (m : i2c_msg) : List Nat :=
  if last = true then
    (List.range (m.len - 1)).map (fun i => msg_byte m i ||| c.WFIFO_CTRL_TB)
      ++ [if msg_is_rx m = true then
            msg_addr_rw m ||| c.WFIFO_CTRL_TB ||| c.WFIFO_CTRL_STOP ||| c.WFIFO_CTRL_ACKNAK
          else msg_byte m (m.len - 1) ||| c.WFIFO_CTRL_TB ||| c.WFIFO_CTRL_STOP]
  else (List.range m.len).map (fun i => msg_byte m i ||| c.WFIFO_CTRL_TB)

/-- The encoding of one message in the words of the specification: an address
word with START and TB, then the data words. -/
def encode_msg (c : Consts) (last : Bool) (m : i2c_msg) : List Nat :=
  (msg_addr_rw m ||| (c.WFIFO_CTRL_TB ||| c.WFIFO_CTRL_START)) :: encode_data c last m

/-- The encoding of a list of messages in the words of the specification. -/
def encode_msgs (c : Consts) : List i2c_msg → List Nat
  | [] => []
  | [m] => encode_msg c true m
  | m :: m2 :: ms => encode_msg c false m ++ encode_msgs c (m2 :: ms)

/-- The encoding of a transaction in the words of the specification: the
master-code word in high-speed mode, then the messages in order. -/
def encode_xfer (c : Consts) (high_mode : Bool) (master_code : Nat) (msgs : List i2c_msg) :
    List Nat :=
  (if high_mode = true then [master_code ||| (c.WFIFO_CTRL_TB ||| c.WFIFO_CTRL_START)] else [])
    ++ encode_msgs c msgs

/-- The control bits of the write FIFO lie above the data byte, and
`WFIFO_CTRL_STOP` and `WFIFO_CTRL_ACKNAK` are not empty and share no bit with
each other nor with `WFIFO_CTRL_TB` and `WFIFO_CTRL_START`. -/
def wfifo_bits_distinct (c : Consts) : Prop :=
  c.WFIFO_CTRL_STOP ≠ 0 ∧ c.WFIFO_CTRL_ACKNAK ≠ 0
  ∧ (c.WFIFO_CTRL_TB ||| c.WFIFO_CTRL_START ||| c.WFIFO_CTRL_STOP ||| c.WFIFO_CTRL_ACKNAK)
      &&& 0xff = 0
  ∧ (c.WFIFO_CTRL_TB ||| c.WFIFO_CTRL_START) &&& c.WFIFO_CTRL_STOP = 0
  ∧ (c.WFIFO_CTRL_TB ||| c.WFIFO_CTRL_START) &&& c.WFIFO_CTRL_ACKNAK = 0
  ∧ c.WFIFO_CTRL_STOP &&& c.WFIFO_CTRL_ACKNAK = 0

instance (c : Consts) : Decidable (wfifo_bits_distinct c) := by
  unfold wfifo_bits_distinct
  infer_instance

/-- A controller in high-speed mode holding a write of two bytes and a read of
three. -/
def encoder_dev : spacemit_i2c_dev :=
  { sample_dev [{ addr := 0x50, flags := 0, len := 2, buf := [0x10, 0x20] }, read_msg 3] with
    high_mode := true }

/-- The device `d2` is the device `d` up to the offset `msg_buf` and the cursors. -/
structure fill_frame (d d2 : spacemit_i2c_dev) : Prop where
  msgs : d2.msgs = d.msgs
  msg_idx : d2.msg_idx = d.msg_idx
  is_xfer_start : d2.is_xfer_start = d.is_xfer_start
  high_mode : d2.high_mode = d.high_mode
  master_code : d2.master_code = d.master_code

/-- The encoding of a list of messages in the words of the specification, message
by message. -/
def encode_pieces (c : Consts) : List i2c_msg → List (List Nat)
  | [] => []
  | [m] => [encode_msg c true m]
  | m :: m2 :: ms => encode_msg c false m :: encode_pieces c (m2 :: ms)

/-- The words that `spacemit_i2c_dma_xfer` stores for the messages from index
`idx` on, message by message and without the master code. -/
def dma_pieces (c : Consts) (d : spacemit_i2c_dev) : List i2c_msg → Nat → List (List Nat)
  | [], _ => []
  | m :: ms, idx => dma_tx_body c d idx m :: dma_pieces c d ms (idx + 1)

/-- Two encodings `pf` and `pd` of the message `m` agree: both have `len + 1`
words, the same address word first, the same control bits at every position,
and the same words throughout when `m` is a write. -/
def piece_agree (c : Consts) (m : i2c_msg) (pf pd : List Nat) : Prop :=
  pf.length = m.len + 1 ∧ pd.length = m.len + 1
  ∧ pf.head? = some (msg_addr_rw m ||| (c.WFIFO_CTRL_TB ||| c.WFIFO_CTRL_START))
  ∧ pd.head? = some (msg_addr_rw m ||| (c.WFIFO_CTRL_TB ||| c.WFIFO_CTRL_START))
  ∧ pf.map (wfifo_ctrl c) = pd.map (wfifo_ctrl c)
  ∧ (m.flags &&& I2C_M_RD = 0 → pf = pd)

/-- Two encodings of a list of messages agree message by message. -/
def pieces_agree (c : Consts) : List i2c_msg → List (List Nat) → List (List Nat) → Prop
  | [], [], [] => True
  | m :: ms, pf :: pfs, pd :: pds => piece_agree c m pf pd ∧ pieces_agree c ms pfs pds
  | _, _, _ => False

/-- The master-code word that starts the encoding of a transaction in high-speed
mode. -/
def master_word (c : Consts) (d : spacemit_i2c_dev) : List Nat :=
  if d.high_mode = true ∧ d.msgs ≠ [] then
    [d.master_code ||| (c.WFIFO_CTRL_TB ||| c.WFIFO_CTRL_START)]
  else []

/-! ## The TCM heap (`drivers/misc/tcm.c`)

The heap functions of the TCM driver, on lists of nodes: a `struct list_head`
list of `mm_node_t` is the list of its nodes in list order, and a pointer to a
node of a list is the index of the node in the list. `size_t` and `uintptr_t`
arithmetic is reduced modulo `2 ^ 64`. `PAGE_SHIFT` comes from the kernel
configuration and is a parameter. -/

/-- Conversion of an integer to `size_t` or `uintptr_t` (64 bits on the K1). -/
def to_size_t (x : Int) : Nat := (x % 2 ^ 64).toNat

/-- The macro `MM_MIN_CHUNK`: `1 << MM_MIN_SHIFT`, where `MM_MIN_SHIFT` is
`PAGE_SHIFT`. -/
def MM_MIN_CHUNK (page_shift : Nat) : Nat := 1 <<< page_shift

/-- The macro `MM_GRAN_MASK`. -/
def MM_GRAN_MASK (page_shift : Nat) : Nat := MM_MIN_CHUNK page_shift - 1

/-- The macro `MM_ALIGN_UP`. -/
def MM_ALIGN_UP (page_shift a : Nat) : Nat :=
  and_not (to_size_t ((a : Int) + MM_GRAN_MASK page_shift)) (MM_GRAN_MASK page_shift)

/-- The macro `MM_ALIGN_DOWN`. -/
def MM_ALIGN_DOWN (page_shift a : Nat) : Nat := and_not a (MM_GRAN_MASK page_shift)

/-- The fields of `mm_node_t` that the heap functions use. -/
structure mm_node_t where
  /-- Physical address of the chunk. -/
  paddr : Nat
  /-- Size of the chunk. -/
  size : Nat
  /-- The address after the chunk, as stored by `add_node`. -/
  next_paddr : Nat
  deriving DecidableEq, Repr

/-- The type `mm_heap_t`; the lists `free` and `alloc` are the lists of the two
`list_manager_t`, whose `max_size` no function uses. -/
structure mm_heap_t where
  mm_heapsize : Nat
  free_size : Nat
  start : Nat
  /-- The field `end`. -/
  heap_end : Nat
  free : List mm_node_t
  alloc : List mm_node_t
  deriving DecidableEq, Repr

/-- The place where `add_node` links a node of address `paddr`: before the first
node of the list with a greater address, at the tail when there is none. -/
def insert_pos (paddr : Nat) : List mm_node_t → Nat
  | [] => 0
  | cur :: rest => if cur.paddr > paddr then 0 else insert_pos paddr rest + 1

/-- The list operations of `add_node`: `list_add` into an empty list,
`list_add_tail` before the first node with a greater address, or
`list_add_tail` at the end. -/
def list_insert (node : mm_node_t) : List mm_node_t → List mm_node_t
  | [] => [node]
  | cur :: rest =>
    if cur.paddr > node.paddr then node :: cur :: rest else cur :: list_insert node rest

/-- The function `add_node` on one list: it stores `next_paddr` in the node and
links the node in address order. -/
def add_node (list : List mm_node_t) (node : mm_node_t) : List mm_node_t :=
  list_insert { node with next_paddr := to_size_t ((node.paddr : Int) + node.size) } list

/-- The function `add_free_node`. -/
def add_free_node (heap : mm_heap_t) (node : mm_node_t) : mm_heap_t :=
  { heap with
    free_size := to_size_t ((heap.free_size : Int) + node.size)
    free := add_node heap.free node }

/-- The function `del_free_node`, for the node `node` at index `i` of the free
list. -/
def del_free_node (heap : mm_heap_t) (i : Nat) (node : mm_node_t) : mm_heap_t :=
  { heap with
    free_size := to_size_t ((heap.free_size : Int) - node.size)
    free := heap.free.eraseIdx i }

/-- The function `add_alloc_node`. -/
def add_alloc_node (heap : mm_heap_t) (node : mm_node_t) : mm_heap_t :=
  { heap with alloc := add_node heap.alloc node }

/-- The function `del_alloc_node`, for the node at index `j` of the alloc list. -/
def del_alloc_node (heap : mm_heap_t) (j : Nat) : mm_heap_t :=
  { heap with alloc := heap.alloc.eraseIdx j }

/-- The function `mm_addregion`; its `kmalloc` is not checked by the source and
is taken to succeed. -/
def mm_addregion (page_shift : Nat) (heap : mm_heap_t) (heapstart heapsize : Nat) : mm_heap_t :=
  let heapbase := MM_ALIGN_UP page_shift heapstart
  let heapend := MM_ALIGN_DOWN page_shift (to_size_t ((heapstart : Int) + heapsize))
  let heapsize := to_size_t ((heapend : Int) - heapbase)
  add_free_node
    { heap with
      mm_heapsize := to_size_t ((heap.mm_heapsize : Int) + heapsize)
      start := heapbase
      heap_end := heapend }
    { paddr := heapbase, size := heapsize, next_paddr := 0 }

/-- The function `mm_init`: the heap is cleared, the lists are empty, and the
region from `start` to `heap_end` is added. -/
def mm_init (page_shift start heap_end : Nat) : mm_heap_t :=
  mm_addregion page_shift
    { mm_heapsize := 0, free_size := 0, start := 0, heap_end := 0, free := [], alloc := [] }
    start (to_size_t ((heap_end : Int) - start))

/-- The loop of `get_free_max_node` over the nodes from index `i` on, with the
index `max_i` and the size `max_size` of `max_node`. -/
def get_free_max_scan (size : Nat) : List mm_node_t → Nat → Nat → Nat → Nat
  | [], _, max_i, _ => max_i
  | node :: rest, i, max_i, max_size =>
    if node.size ≥ size then i
    else if node.size ≥ max_size then get_free_max_scan size rest (i + 1) i node.size
    else get_free_max_scan size rest (i + 1) max_i max_size

/-- The function `get_free_max_node`: the index of the first free node of at
least `size` bytes, else of the last of the largest free nodes. On an empty
list the source returns a pointer that is no node; here index 0, which is no
index of the list. -/
def get_free_max_node (heap : mm_heap_t) (size : Nat) : Nat :=
  match heap.free with
  | [] => 0
  | first :: _ => get_free_max_scan size heap.free 0 0 first.size

/-- The function `node_fission` for the node at index `i` of the free list;
`kmalloc_ok` tells whether its `kmalloc` succeeds. The result is `none` when
`i` is no index of the free list. -/
def node_fission (heap : mm_heap_t) (i size : Nat) (kmalloc_ok : Bool) :
    Option (Int × mm_heap_t) :=
  match heap.free[i]? with
  | none => none
  | some node =>
    let remaining := to_size_t ((node.size : Int) - size)
    if remaining > 0 then
      if kmalloc_ok = false then some (-1, heap)
      else
        let remainder : mm_node_t :=
          { paddr := to_size_t ((node.paddr : Int) + size), size := remaining, next_paddr := 0 }
        let node2 : mm_node_t := { node with size := size }
        let heap1 := { heap with free := heap.free.set i node2 }
        let heap2 := add_free_node heap1 remainder
        let i2 := if insert_pos remainder.paddr heap1.free ≤ i then i + 1 else i
        some (0, add_alloc_node (del_free_node heap2 i2 node2) node2)
    else some (0, add_alloc_node (del_free_node heap i node) node)

/-- The function `mm_max_mallc`: the address returned, the size stored in
`valid_size`, and the heap afterwards. The result is `none` when the free list
is empty, where the source reads a node that does not exist. -/
def mm_max_mallc (page_shift : Nat) (heap : mm_heap_t) (size : Nat) (kmalloc_ok : Bool) :
    Option (Nat × Nat × mm_heap_t) :=
  let size := MM_ALIGN_UP page_shift size
  let i := get_free_max_node heap size
  match heap.free[i]? with
  | none => none
  | some node =>
    if size ≤ node.size then
      (node_fission heap i size kmalloc_ok).map (fun r => (node.paddr, size, r.2))
    else
      (node_fission heap i node.size kmalloc_ok).map (fun r => (node.paddr, node.size, r.2))

/-- The loop of `get_node_by_ptr`: the index of the first node of address `mem`. -/
def find_node (mem : Nat) : List mm_node_t → Option Nat
  | [] => none
  | node :: rest => if node.paddr = mem then some 0 else (find_node mem rest).map (fun j => j + 1)

/-- The function `get_node_by_ptr`. -/
def get_node_by_ptr (heap : mm_heap_t) (mem : Nat) : Option Nat := find_node mem heap.alloc

/-- The loop of `mm_free` over the free list: the list after the freed node
`node` has been merged into a free node, `none` when the loop ends with
`gc_flag` still 0. -/
def mm_free_scan (node : mm_node_t) : List mm_node_t → Option (List mm_node_t)
  | [] => none
  | cur :: rest =>
    if cur.next_paddr = node.paddr then
      let cur1 : mm_node_t := { cur with size := to_size_t ((cur.size : Int) + node.size) }
      match rest with
      | [] => some [cur1]
      | next :: rest2 =>
        if cur1.next_paddr = next.paddr then
          some ({ cur1 with size := to_size_t ((cur1.size : Int) + next.size) } :: rest2)
        else some (cur1 :: next :: rest2)
    else if node.next_paddr = cur.paddr then
      some ({ cur with
              paddr := node.paddr
              size := to_size_t ((cur.size : Int) + node.size) } :: rest)
    else (mm_free_scan node rest).map (fun l => cur :: l)

/-- The function `mm_free`. -/
def mm_free (heap : mm_heap_t) (mem : Nat) : mm_heap_t :=
  match get_node_by_ptr heap mem with
  | none => heap
  | some j =>
    match heap.alloc[j]? with
    | none => heap
    | some node =>
      let heap1 := del_alloc_node heap j
      match mm_free_scan node heap1.free with
      | some free2 => { heap1 with free := free2 }
      | none => add_free_node heap1 node

/-- A call on a heap: `mm_max_mallc` with a size and the outcome of the `kmalloc`
of `node_fission`, or `mm_free` with an address. -/
inductive HeapOp where
  | mallc (size : Nat) (kmalloc_ok : Bool)
  | free (mem : Nat)
  deriving DecidableEq, Repr

/-- One call on a heap. -/
def heap_step (page_shift : Nat) (heap : mm_heap_t) : HeapOp → Option mm_heap_t
  | HeapOp.mallc size kmalloc_ok =>
    (mm_max_mallc page_shift heap size kmalloc_ok).map (fun r => r.2.2)
  | HeapOp.free mem => some (mm_free heap mem)

/-- A sequence of calls on a heap. -/
def heap_run (page_shift : Nat) : mm_heap_t → List HeapOp → Option mm_heap_t
  | heap, [] => some heap
  | heap, op :: ops =>
    match heap_step page_shift heap op with
    | none => none
    | some heap2 => heap_run page_shift heap2 ops

/-- The sum of the sizes of the nodes of a list. -/
def sizes_sum (l : List mm_node_t) : Nat := (l.map (fun n => n.size)).sum

/-- The sizes of the nodes of the two lists of a heap sum to `mm_heapsize`, which
is a `size_t`. -/
def heap_sizes_ok (heap : mm_heap_t) : Prop :=
  sizes_sum heap.free + sizes_sum heap.alloc = heap.mm_heapsize ∧ heap.mm_heapsize < 2 ^ 64

/-! ## Facts about the message scan -/

theorem scan_msgs_cnt (ms : List i2c_msg) (cnt : Int) (rx : Nat) (b : Bool) :
    (scan_msgs ms cnt rx b).1
      = cnt + (ms.map (fun m => (m.len : Int) + 1)).sum
          + ((ms.filter is_recv_len).length : Int) * ((I2C_SMBUS_BLOCK_MAX : Int) + 2) := by
  induction ms generalizing cnt rx b with
  | nil => simp [scan_msgs]
  | cons m ms ih =>
    by_cases h : m.flags &&& I2C_M_RECV_LEN ≠ 0
    · have hr : is_recv_len m = true := by simp [is_recv_len, h]
      simp only [scan_msgs, if_pos h, ih, List.map_cons, List.sum_cons, List.filter_cons, hr,
        if_true, List.length_cons]
      push_cast
      ring
    · have hr : is_recv_len m = false := by simpa [is_recv_len] using h
      simp only [scan_msgs, if_neg h, ih, List.map_cons, List.sum_cons, List.filter_cons, hr]
      simp
      ring

theorem scan_msgs_rx_total (ms : List i2c_msg) (cnt : Int) (rx : Nat) (b : Bool) :
    (scan_msgs ms cnt rx b).2.1 = rx + rx_bytes ms := by
  induction ms generalizing cnt rx b with
  | nil => simp [scan_msgs, rx_bytes]
  | cons m ms ih =>
    by_cases hrd : m.flags &&& I2C_M_RD ≠ 0
    · have hr : is_read m = true := by simp [is_read, hrd]
      by_cases h : m.flags &&& I2C_M_RECV_LEN ≠ 0
      · simp only [scan_msgs, if_pos h, if_pos hrd, ih]
        simp [rx_bytes, List.filter_cons, hr]
        ring
      · simp only [scan_msgs, if_neg h, if_pos hrd, ih]
        simp [rx_bytes, List.filter_cons, hr]
        ring
    · have hr : is_read m = false := by simpa [is_read] using hrd
      by_cases h : m.flags &&& I2C_M_RECV_LEN ≠ 0
      · simp only [scan_msgs, if_pos h, if_neg hrd, ih]
        simp [rx_bytes, List.filter_cons, hr]
      · simp only [scan_msgs, if_neg h, if_neg hrd, ih]
        simp [rx_bytes, List.filter_cons, hr]

theorem scan_msgs_block (ms : List i2c_msg) (cnt : Int) (rx : Nat) (b : Bool) :
    (scan_msgs ms cnt rx b).2.2 = (b || ms.any is_recv_len) := by
  induction ms generalizing cnt rx b with
  | nil => simp [scan_msgs]
  | cons m ms ih =>
    by_cases h : m.flags &&& I2C_M_RECV_LEN ≠ 0
    · have hr : is_recv_len m = true := by simp [is_recv_len, h]
      simp only [scan_msgs, if_pos h, ih, List.any_cons, hr]
      simp
    · have hr : is_recv_len m = false := by simpa [is_recv_len] using h
      simp only [scan_msgs, if_neg h, ih, List.any_cons, hr]
      simp

theorem scan_cnt_eq (d : spacemit_i2c_dev) :
    scan_cnt d = timeout_count d.high_mode d.msgs := by
  simp only [scan_cnt, scan_msgs_cnt, timeout_count, word_count]

theorem word_count_le_timeout_count (high_mode : Bool) (ms : List i2c_msg) :
    word_count high_mode ms ≤ timeout_count high_mode ms := by
  have h : (0 : Int) ≤ ((ms.filter is_recv_len).length : Int) * ((I2C_SMBUS_BLOCK_MAX : Int) + 2) := by
    positivity
  simp only [timeout_count]
  omega

theorem timeout_count_of_no_recv_len (high_mode : Bool) (ms : List i2c_msg)
    (h : ms.any is_recv_len = false) :
    timeout_count high_mode ms = word_count high_mode ms := by
  have hf : ms.filter is_recv_len = [] := by
    rw [List.filter_eq_nil_iff]
    intro m hm
    have := (List.any_eq_false.mp h) m hm
    simpa using this
  simp [timeout_count, hf]

theorem word_count_nonneg (high_mode : Bool) (ms : List i2c_msg) :
    0 ≤ word_count high_mode ms := by
  have h : (0 : Int) ≤ (ms.map (fun m => (m.len : Int) + 1)).sum := by
    apply List.sum_nonneg
    intro x hx
    simp only [List.mem_map] at hx
    obtain ⟨m, _, rfl⟩ := hx
    positivity
  simp only [word_count]
  split <;> omega

/-- The mode selected by `spacemit_i2c_choose_xfer_mode`, in terms of the
quantities of the specification. -/
theorem choose_xfer_mode_mode (c : Consts) (d : spacemit_i2c_dev) :
    (spacemit_i2c_choose_xfer_mode c d).1.xfer_mode
      = clamp_mode c (timeout_count d.high_mode d.msgs) (rx_bytes d.msgs)
          (select_mode c d (timeout_count d.high_mode d.msgs) (d.msgs.any is_recv_len)).1 := by
  simp only [spacemit_i2c_choose_xfer_mode, scan_msgs_cnt, scan_msgs_rx_total, scan_msgs_block,
    timeout_count, word_count]
  simp


/-! ## Transfer mode selector: theorems -/

/-- C1: with DMA enabled, no debugfs override, no length-prefixed read and the
safety clamp not triggered, the selected mode is FIFO exactly when the word
count `cnt` is at most the TX FIFO depth and DMA otherwise; `cnt` equal to the
depth selects FIFO and `cnt` equal to the depth plus one selects DMA. -/
theorem choose_xfer_mode_fifo_iff_fits (c : Consts) (d : spacemit_i2c_dev)
    (hdma : d.dma_disable = false)
    (hdbg : d.dbgfs_mode = SPACEMIT_I2C_MODE_INVALID)
    (hblk : ∀ m ∈ d.msgs, m.flags &&& I2C_M_RECV_LEN = 0)
    (hcnt : word_count d.high_mode d.msgs
      ≤ ((c.SPACEMIT_I2C_MAX_MSG_LEN * c.SPACEMIT_I2C_SCATTERLIST_SIZE : Nat) : Int))
    (hrx : rx_bytes d.msgs ≤ c.SPACEMIT_I2C_DMA_RX_BUF_LEN) :
    ((spacemit_i2c_choose_xfer_mode c d).1.xfer_mode = SPACEMIT_I2C_MODE_FIFO
        ↔ word_count d.high_mode d.msgs ≤ c.SPACEMIT_I2C_TX_FIFO_DEPTH)
    ∧ ((spacemit_i2c_choose_xfer_mode c d).1.xfer_mode = SPACEMIT_I2C_MODE_DMA
        ↔ ¬ word_count d.high_mode d.msgs ≤ c.SPACEMIT_I2C_TX_FIFO_DEPTH)
    ∧ (word_count d.high_mode d.msgs = c.SPACEMIT_I2C_TX_FIFO_DEPTH
        → (spacemit_i2c_choose_xfer_mode c d).1.xfer_mode = SPACEMIT_I2C_MODE_FIFO)
    ∧ (word_count d.high_mode d.msgs = (c.SPACEMIT_I2C_TX_FIFO_DEPTH : Int) + 1
        → (spacemit_i2c_choose_xfer_mode c d).1.xfer_mode = SPACEMIT_I2C_MODE_DMA) := by
  have hany : d.msgs.any is_recv_len = false := by
    rw [List.any_eq_false]
    intro m hm
    simp [is_recv_len, hblk m hm]
  have hmode := choose_xfer_mode_mode c d
  rw [timeout_count_of_no_recv_len _ _ hany] at hmode
  have hclamp : ¬ (word_count d.high_mode d.msgs
        > ((c.SPACEMIT_I2C_MAX_MSG_LEN * c.SPACEMIT_I2C_SCATTERLIST_SIZE : Nat) : Int)
      ∨ rx_bytes d.msgs > c.SPACEMIT_I2C_DMA_RX_BUF_LEN) := by omega
  simp only [clamp_mode, if_neg hclamp, select_mode, hdma, hany, hdbg] at hmode
  simp only [Bool.false_eq_true, or_self, if_false, ne_eq, not_true_eq_false, and_false] at hmode
  by_cases hfit : word_count d.high_mode d.msgs ≤ c.SPACEMIT_I2C_TX_FIFO_DEPTH
  · rw [if_pos hfit] at hmode
    simp only [hmode, hfit]
    refine ⟨by simp, by simp, fun _ => trivial, fun h => ?_⟩
    omega
  · rw [if_neg hfit] at hmode
    simp only [hmode, hfit]
    refine ⟨by simp, by simp, fun h => ?_, fun _ => trivial⟩
    omega

/-- C1, at a concrete input: with a FIFO depth of eight words, one write of seven
bytes (`cnt = 8`) selects FIFO. -/
theorem choose_xfer_mode_fifo_iff_fits_witness :
    word_count false [write_msg 7] = 8
    ∧ (spacemit_i2c_choose_xfer_mode sample_consts (sample_dev [write_msg 7])).1.xfer_mode
        = SPACEMIT_I2C_MODE_FIFO :=
  ⟨by decide,
   (choose_xfer_mode_fifo_iff_fits sample_consts (sample_dev [write_msg 7]) rfl rfl
      (by decide) (by decide) (by decide)).2.2.1 (by decide)⟩

/-- C2: when DMA is disabled or some message carries `I2C_M_RECV_LEN`, the selected
mode is Interrupt, for every message list and every debugfs override. -/
theorem choose_xfer_mode_interrupt_forced (c : Consts) (d : spacemit_i2c_dev)
    (h : d.dma_disable = true ∨ ∃ m ∈ d.msgs, m.flags &&& I2C_M_RECV_LEN ≠ 0) :
    (spacemit_i2c_choose_xfer_mode c d).1.xfer_mode = SPACEMIT_I2C_MODE_INTERRUPT := by
  have hsel : d.dma_disable = true ∨ d.msgs.any is_recv_len = true := by
    rcases h with h | ⟨m, hm, hf⟩
    · exact Or.inl h
    · refine Or.inr (List.any_eq_true.mpr ⟨m, hm, ?_⟩)
      simp [is_recv_len, hf]
  rw [choose_xfer_mode_mode]
  simp only [select_mode, if_pos hsel, clamp_mode]
  split <;> rfl

/-- C2, at a concrete input: DMA disabled, a forced DMA mode and a write of 1000
bytes still give Interrupt mode. -/
theorem choose_xfer_mode_interrupt_forced_witness :
    (spacemit_i2c_choose_xfer_mode sample_consts
      { sample_dev [write_msg 1000] with
        dma_disable := true, dbgfs_mode := SPACEMIT_I2C_MODE_DMA }).1.xfer_mode
      = SPACEMIT_I2C_MODE_INTERRUPT :=
  choose_xfer_mode_interrupt_forced sample_consts
    { sample_dev [write_msg 1000] with
      dma_disable := true, dbgfs_mode := SPACEMIT_I2C_MODE_DMA } (Or.inl rfl)

/-- C3: the safety clamp. If the selected mode is FIFO or DMA, then the count `cnt`
(the one of the scan, and the word count) is at most
`SPACEMIT_I2C_MAX_MSG_LEN * SPACEMIT_I2C_SCATTERLIST_SIZE` and the number of bytes
of the read messages, stored in `rx_total`, is at most
`SPACEMIT_I2C_DMA_RX_BUF_LEN`; when either bound is exceeded the mode is
Interrupt. -/
theorem choose_xfer_mode_clamp (c : Consts) (d : spacemit_i2c_dev) :
    (spacemit_i2c_choose_xfer_mode c d).1.rx_total = rx_bytes d.msgs
    ∧ (((spacemit_i2c_choose_xfer_mode c d).1.xfer_mode = SPACEMIT_I2C_MODE_FIFO
          ∨ (spacemit_i2c_choose_xfer_mode c d).1.xfer_mode = SPACEMIT_I2C_MODE_DMA)
        → scan_cnt d
            ≤ ((c.SPACEMIT_I2C_MAX_MSG_LEN * c.SPACEMIT_I2C_SCATTERLIST_SIZE : Nat) : Int)
          ∧ word_count d.high_mode d.msgs
            ≤ ((c.SPACEMIT_I2C_MAX_MSG_LEN * c.SPACEMIT_I2C_SCATTERLIST_SIZE : Nat) : Int)
          ∧ (spacemit_i2c_choose_xfer_mode c d).1.rx_total ≤ c.SPACEMIT_I2C_DMA_RX_BUF_LEN)
    ∧ ((scan_cnt d > ((c.SPACEMIT_I2C_MAX_MSG_LEN * c.SPACEMIT_I2C_SCATTERLIST_SIZE : Nat) : Int)
          ∨ rx_bytes d.msgs > c.SPACEMIT_I2C_DMA_RX_BUF_LEN)
        → (spacemit_i2c_choose_xfer_mode c d).1.xfer_mode = SPACEMIT_I2C_MODE_INTERRUPT) := by
  have hrx : (spacemit_i2c_choose_xfer_mode c d).1.rx_total = rx_bytes d.msgs := by
    simp [spacemit_i2c_choose_xfer_mode, scan_msgs_rx_total]
  have hmode := choose_xfer_mode_mode c d
  have hle := word_count_le_timeout_count d.high_mode d.msgs
  rw [hrx, scan_cnt_eq]
  refine ⟨rfl, ?_, ?_⟩
  · intro h
    by_cases hcl : timeout_count d.high_mode d.msgs
          > ((c.SPACEMIT_I2C_MAX_MSG_LEN * c.SPACEMIT_I2C_SCATTERLIST_SIZE : Nat) : Int)
        ∨ rx_bytes d.msgs > c.SPACEMIT_I2C_DMA_RX_BUF_LEN
    · simp only [clamp_mode, if_pos hcl] at hmode
      rw [hmode] at h
      rcases h with h | h <;> cases h
    · omega
  · intro hcl
    rw [hmode]
    simp only [clamp_mode, if_pos hcl]


theorem timeout_usecs_closed (d : spacemit_i2c_dev) (cnt : Int) (h0 : 0 ≤ cnt)
    (h1 : cnt < 2 ^ 31) (mode : spacemit_i2c_xfer_mode) :
    timeout_usecs d cnt mode
      = cnt * 9 * 1000000 / xfer_freq d
        + (if mode = SPACEMIT_I2C_MODE_INTERRUPT ∨ mode = SPACEMIT_I2C_MODE_PIO then
            (cnt - 1) * 220 else 0)
        + (if mode = SPACEMIT_I2C_MODE_INTERRUPT then 500000 else 100000) := by
  have hq : 0 ≤ cnt * 9 * 1000000 := by omega
  have hf : 0 ≤ xfer_freq d := by
    unfold xfer_freq
    split
    · decide
    · split <;> decide
  simp only [timeout_usecs, to_ulong, USEC_PER_SEC, Int.tdiv_eq_ediv hq hf]
  unfold xfer_freq
  norm_num at h1 ⊢
  cases mode <;> simp <;> (split <;> [omega; (split <;> omega)])

theorem timeout_usecs_mono (d : spacemit_i2c_dev) (cnt cnt2 : Int)
    (mode : spacemit_i2c_xfer_mode) (h0 : 0 ≤ cnt) (hle : cnt ≤ cnt2) (h1 : cnt2 < 2 ^ 31) :
    timeout_usecs d cnt mode ≤ timeout_usecs d cnt2 mode := by
  rw [timeout_usecs_closed d cnt h0 (by omega) mode,
    timeout_usecs_closed d cnt2 (by omega) h1 mode]
  have hf : 0 < xfer_freq d := by
    unfold xfer_freq
    split
    · decide
    · split <;> decide
  have hdiv : cnt * 9 * 1000000 / xfer_freq d ≤ cnt2 * 9 * 1000000 / xfer_freq d := by
    apply Int.ediv_le_ediv hf
    omega
  generalize cnt * 9 * 1000000 / xfer_freq d = q at hdiv ⊢
  generalize cnt2 * 9 * 1000000 / xfer_freq d = q2 at hdiv ⊢
  split <;> omega

/-- C4: the timeout handed to `usecs_to_jiffies`. With `cnt` the byte count of the
claim (the scan of the function computes exactly it) and `freq` 1500000, 400000
or 100000, the value is `cnt * 9 * 1000000 / freq + (cnt - 1) * 220 + 500000` in
Interrupt mode and `cnt * 9 * 1000000 / freq + 100000` in FIFO and DMA mode; the
Interrupt value is strictly larger than the FIFO/DMA value, and the value is
non-decreasing in `cnt`. The count and the `int` products `cnt * 9` and
`(cnt - 1) * 220` are assumed to fit an `int`. -/
theorem choose_xfer_mode_timeout (c : Consts) (d : spacemit_i2c_dev)
    (hint : timeout_count d.high_mode d.msgs * 220 < 2 ^ 31) :
    scan_cnt d = timeout_count d.high_mode d.msgs
    ∧ xfer_freq d = (if d.high_mode then 1500000 else if d.fast_mode then 400000 else 100000)
    ∧ (spacemit_i2c_choose_xfer_mode c d).1.timeout
        = c.usecs_to_jiffies (to_uint (timeout_usecs d (timeout_count d.high_mode d.msgs)
            (spacemit_i2c_choose_xfer_mode c d).1.xfer_mode)).toNat
    ∧ timeout_usecs d (timeout_count d.high_mode d.msgs) SPACEMIT_I2C_MODE_INTERRUPT
        = timeout_count d.high_mode d.msgs * 9 * 1000000 / xfer_freq d
            + (timeout_count d.high_mode d.msgs - 1) * 220 + 500000
    ∧ timeout_usecs d (timeout_count d.high_mode d.msgs) SPACEMIT_I2C_MODE_FIFO
        = timeout_count d.high_mode d.msgs * 9 * 1000000 / xfer_freq d + 100000
    ∧ timeout_usecs d (timeout_count d.high_mode d.msgs) SPACEMIT_I2C_MODE_DMA
        = timeout_count d.high_mode d.msgs * 9 * 1000000 / xfer_freq d + 100000
    ∧ timeout_usecs d (timeout_count d.high_mode d.msgs) SPACEMIT_I2C_MODE_FIFO
        < timeout_usecs d (timeout_count d.high_mode d.msgs) SPACEMIT_I2C_MODE_INTERRUPT
    ∧ (∀ (cnt cnt2 : Int) (mode : spacemit_i2c_xfer_mode),
        0 ≤ cnt → cnt ≤ cnt2 → cnt2 * 220 < 2 ^ 31 →
        timeout_usecs d cnt mode ≤ timeout_usecs d cnt2 mode) := by
  have h0 : 0 ≤ timeout_count d.high_mode d.msgs :=
    le_trans (word_count_nonneg _ _) (word_count_le_timeout_count _ _)
  have hfit : timeout_count d.high_mode d.msgs < 2 ^ 31 := by omega
  have hI := timeout_usecs_closed d _ h0 hfit SPACEMIT_I2C_MODE_INTERRUPT
  have hF := timeout_usecs_closed d _ h0 hfit SPACEMIT_I2C_MODE_FIFO
  have hD := timeout_usecs_closed d _ h0 hfit SPACEMIT_I2C_MODE_DMA
  simp only [true_or, if_true] at hI
  simp only [reduceCtorEq, or_self, if_false, add_zero] at hF hD
  refine ⟨scan_cnt_eq d, rfl, ?_, hI, hF, hD, ?_, ?_⟩
  · have hs := scan_cnt_eq d
    simp only [scan_cnt] at hs
    simp only [spacemit_i2c_choose_xfer_mode, hs]
  · rw [hI, hF]
    omega
  · intro cnt cnt2 mode h0 hle h1
    exact timeout_usecs_mono d cnt cnt2 mode h0 hle (by omega)

/-- C4, at a concrete input: one write of seven bytes at 100 kHz has count 8, an
Interrupt timeout of 502260 microseconds and a FIFO timeout of 100720. -/
theorem choose_xfer_mode_timeout_witness :
    timeout_count false [write_msg 7] = 8
    ∧ timeout_usecs (sample_dev [write_msg 7]) 8 SPACEMIT_I2C_MODE_INTERRUPT = 502260
    ∧ timeout_usecs (sample_dev [write_msg 7]) 8 SPACEMIT_I2C_MODE_FIFO = 100720 :=
  ⟨by decide,
   (choose_xfer_mode_timeout sample_consts (sample_dev [write_msg 7]) (by decide)).2.2.2.1,
   (choose_xfer_mode_timeout sample_consts (sample_dev [write_msg 7]) (by decide)).2.2.2.2.1⟩

/-! ## Forced mode -/

/-- C5, as stated, fails: with a FIFO depth of eight words and FIFO mode forced
through debugfs, a write of eight bytes (nine words) is transferred in DMA mode;
and a forced FIFO mode with a length-prefixed read gives Interrupt mode. -/
theorem forced_mode_not_always_selected :
    forced_fifo_dev.dbgfs_mode = SPACEMIT_I2C_MODE_FIFO
    ∧ (spacemit_i2c_choose_xfer_mode sample_consts forced_fifo_dev).1.xfer_mode
        = SPACEMIT_I2C_MODE_DMA
    ∧ (spacemit_i2c_choose_xfer_mode sample_consts
        { forced_fifo_dev with msgs := [block_read_msg] }).1.xfer_mode
        = SPACEMIT_I2C_MODE_INTERRUPT
    ∧ ¬ (∀ (c : Consts) (d : spacemit_i2c_dev),
          (d.dbgfs_mode = SPACEMIT_I2C_MODE_INTERRUPT ∨ d.dbgfs_mode = SPACEMIT_I2C_MODE_FIFO
            ∨ d.dbgfs_mode = SPACEMIT_I2C_MODE_DMA) →
          (spacemit_i2c_choose_xfer_mode c d).1.xfer_mode = d.dbgfs_mode) := by
  refine ⟨rfl, by decide, by decide, fun h => ?_⟩
  have h1 := h sample_consts forced_fifo_dev (Or.inr (Or.inl rfl))
  revert h1
  decide

/-- C5, amended: on a kernel with debugfs, with DMA enabled, no length-prefixed
read and the safety clamp not triggered, a forced Interrupt or DMA mode is
selected as it is, and a forced FIFO mode is selected when the word count fits
the TX FIFO depth and replaced by DMA mode otherwise. -/
theorem choose_xfer_mode_forced (c : Consts) (d : spacemit_i2c_dev)
    (hcfg : c.CONFIG_DEBUG_FS = true)
    (hforced : d.dbgfs_mode = SPACEMIT_I2C_MODE_INTERRUPT ∨ d.dbgfs_mode = SPACEMIT_I2C_MODE_FIFO
      ∨ d.dbgfs_mode = SPACEMIT_I2C_MODE_DMA)
    (hdma : d.dma_disable = false)
    (hblk : ∀ m ∈ d.msgs, m.flags &&& I2C_M_RECV_LEN = 0)
    (hcnt : word_count d.high_mode d.msgs
      ≤ ((c.SPACEMIT_I2C_MAX_MSG_LEN * c.SPACEMIT_I2C_SCATTERLIST_SIZE : Nat) : Int))
    (hrx : rx_bytes d.msgs ≤ c.SPACEMIT_I2C_DMA_RX_BUF_LEN) :
    (spacemit_i2c_choose_xfer_mode c d).1.xfer_mode
      = (if d.dbgfs_mode = SPACEMIT_I2C_MODE_FIFO
            ∧ word_count d.high_mode d.msgs > c.SPACEMIT_I2C_TX_FIFO_DEPTH then
          SPACEMIT_I2C_MODE_DMA
        else d.dbgfs_mode) := by
  have hany : d.msgs.any is_recv_len = false := by
    rw [List.any_eq_false]
    intro m hm
    simp [is_recv_len, hblk m hm]
  have hmode := choose_xfer_mode_mode c d
  rw [timeout_count_of_no_recv_len _ _ hany] at hmode
  have hclamp : ¬ (word_count d.high_mode d.msgs
        > ((c.SPACEMIT_I2C_MAX_MSG_LEN * c.SPACEMIT_I2C_SCATTERLIST_SIZE : Nat) : Int)
      ∨ rx_bytes d.msgs > c.SPACEMIT_I2C_DMA_RX_BUF_LEN) := by omega
  have hne : d.dbgfs_mode ≠ SPACEMIT_I2C_MODE_INVALID := by
    rcases hforced with h | h | h <;> rw [h] <;> decide
  have hsel : ¬ (d.dma_disable = true ∨ d.msgs.any is_recv_len = true) := by
    simp [hdma, hany]
  have hdbg : (c.CONFIG_DEBUG_FS = true ∧ d.dbgfs_mode ≠ SPACEMIT_I2C_MODE_INVALID) :=
    ⟨hcfg, hne⟩
  simp only [clamp_mode, if_neg hclamp, select_mode, if_neg hsel, if_pos hdbg] at hmode
  rw [hmode]
  by_cases hf : d.dbgfs_mode = SPACEMIT_I2C_MODE_FIFO
      ∧ word_count d.high_mode d.msgs > c.SPACEMIT_I2C_TX_FIFO_DEPTH
  · rw [if_pos hf, if_pos ⟨hf.2, hf.1⟩]
  · rw [if_neg hf, if_neg (fun h => hf ⟨h.2, h.1⟩)]

/-- C5 amended, at a concrete input: a forced FIFO mode with a write of seven bytes
(eight words, the FIFO depth) is selected as it is. -/
theorem choose_xfer_mode_forced_witness :
    (spacemit_i2c_choose_xfer_mode sample_consts
      { forced_fifo_dev with msgs := [write_msg 7] }).1.xfer_mode
      = SPACEMIT_I2C_MODE_FIFO :=
  choose_xfer_mode_forced sample_consts { forced_fifo_dev with msgs := [write_msg 7] }
    rfl (Or.inr (Or.inl rfl)) rfl (by decide) (by decide) (by decide)


/-! ## Facts about the retry loop -/

theorem retry_loop_stop {σ : Type} (R : Nat) (attempt : Nat → σ → Int × σ)
    (backoff : σ → σ) (k : Nat) (s : σ)
    (h : ¬ retryable (attempt k s).1 ∨ ¬ k + 1 ≤ R) :
    retry_loop R attempt backoff k s = ((attempt k s).1, k + 1, (attempt k s).2) := by
  rw [retry_loop]
  by_cases hr : (attempt k s).1 = - ETIMEDOUT ∨ (attempt k s).1 = - EAGAIN
  · rw [if_pos hr]
    have hk : ¬ k + 1 ≤ R := by
      rcases h with h | h
      · exact absurd hr h
      · exact h
    rw [dif_neg hk]
  · rw [if_neg hr]

theorem retry_loop_continue {σ : Type} (R : Nat) (attempt : Nat → σ → Int × σ)
    (backoff : σ → σ) (k : Nat) (s : σ)
    (hr : retryable (attempt k s).1) (hk : k + 1 ≤ R) :
    retry_loop R attempt backoff k s
      = retry_loop R attempt backoff (k + 1) (backoff (attempt k s).2) := by
  have hr2 : (attempt k s).1 = - ETIMEDOUT ∨ (attempt k s).1 = - EAGAIN := hr
  rw [retry_loop]
  rw [if_pos hr2, dif_pos hk]

/-- The retry loop started at attempt `k` in the state reached after `k` retried
attempts stops at the first attempt `n` that is not retryable, or at attempt
number `drv_retries`, whichever comes first. -/
theorem retry_loop_from {σ : Type} (R : Nat) (attempt : Nat → σ → Int × σ)
    (backoff : σ → σ) (s : σ) (n : Nat) (hn : n ≤ R)
    (hpre : ∀ j, j < n → retryable (result_of attempt backoff s j))
    (hstop : ¬ retryable (result_of attempt backoff s n) ∨ n = R) :
    ∀ m k, k + m = n →
      retry_loop R attempt backoff k (state_before attempt backoff s k)
        = (result_of attempt backoff s n, n + 1,
            (attempt n (state_before attempt backoff s n)).2) := by
  intro m
  induction m with
  | zero =>
    intro k hk
    have hkn : k = n := by omega
    subst hkn
    apply retry_loop_stop
    rcases hstop with h | h
    · exact Or.inl h
    · exact Or.inr (by omega)
  | succ m ih =>
    intro k hk
    have hr : retryable (attempt k (state_before attempt backoff s k)).1 :=
      hpre k (by omega)
    rw [retry_loop_continue R attempt backoff k _ hr (by omega)]
    exact ih (k + 1) (by omega)

theorem retry_loop_spec {σ : Type} (R : Nat) (attempt : Nat → σ → Int × σ)
    (backoff : σ → σ) (s : σ) (n : Nat) (hn : n ≤ R)
    (hpre : ∀ j, j < n → retryable (result_of attempt backoff s j))
    (hstop : ¬ retryable (result_of attempt backoff s n) ∨ n = R) :
    retry_loop R attempt backoff 0 s
      = (result_of attempt backoff s n, n + 1,
          (attempt n (state_before attempt backoff s n)).2) :=
  retry_loop_from R attempt backoff s n hn hpre hstop n 0 (by omega)

/-- A property of the state kept by every attempt and by the back-off holds of the
final state of the retry loop. -/
theorem retry_loop_invariant {σ : Type} (P : σ → Prop) (R : Nat)
    (attempt : Nat → σ → Int × σ) (backoff : σ → σ)
    (hA : ∀ k s, P s → P (attempt k s).2) (hB : ∀ s, P s → P (backoff s)) :
    ∀ m k s, R + 1 - k = m → P s → P (retry_loop R attempt backoff k s).2.2 := by
  intro m
  induction m with
  | zero =>
    intro k s hm hs
    rw [retry_loop_stop R attempt backoff k s (Or.inr (by omega))]
    exact hA k s hs
  | succ m ih =>
    intro k s hm hs
    by_cases h : retryable (attempt k s).1 ∧ k + 1 ≤ R
    · rw [retry_loop_continue R attempt backoff k s h.1 h.2]
      exact ih (k + 1) _ (by omega) (hB _ (hA k s hs))
    · rw [retry_loop_stop R attempt backoff k s (by tauto)]
      exact hA k s hs

/-! ## Error classification: theorems -/

theorem or_eq_zero_iff (a b : Nat) : a ||| b = 0 ↔ a = 0 ∧ b = 0 := by
  constructor
  · intro h
    have hbit : ∀ i, (a ||| b).testBit i = false := by
      intro i
      rw [h]
      exact Nat.zero_testBit i
    constructor
    · apply Nat.eq_of_testBit_eq
      intro i
      have := hbit i
      rw [Nat.testBit_or, Bool.or_eq_false_iff] at this
      rw [this.1, Nat.zero_testBit]
    · apply Nat.eq_of_testBit_eq
      intro i
      have := hbit i
      rw [Nat.testBit_or, Bool.or_eq_false_iff] at this
      rw [this.2, Nat.zero_testBit]
  · rintro ⟨rfl, rfl⟩
    rfl

/-- A value has a bit of `b ||| m` exactly when it has a bit of `b` or a bit of `m`. -/
theorem and_or_ne_zero (a b m : Nat) :
    a &&& (b ||| m) ≠ 0 ↔ (a &&& b ≠ 0 ∨ a &&& m ≠ 0) := by
  rw [Nat.and_or_distrib_left, ne_eq, or_eq_zero_iff]
  tauto

theorem and_ne_zero_left (a b : Nat) (h : a &&& b ≠ 0) : a ≠ 0 := by
  rintro rfl
  exact h (Nat.zero_and b)

/-- The code returned by `spacemit_i2c_handle_err`, case by case. -/
theorem handle_err_ret (c : Consts) (d : spacemit_i2c_dev) :
    (spacemit_i2c_handle_err c d).1
      = (if d.i2c_err = 0 then 0
        else if d.i2c_err &&& (c.SR_RXOV ||| c.SR_ALD) ≠ 0 then - EAGAIN
        else if d.i2c_status &&& c.SR_ACKNAK ≠ 0 then - ENXIO else - EIO) := by
  unfold spacemit_i2c_handle_err
  by_cases h0 : d.i2c_err = 0
  · simp [h0]
  · by_cases h1 : d.i2c_err &&& (c.SR_RXOV ||| c.SR_ALD) ≠ 0
    · simp only [ne_eq, h0, not_false_eq_true, if_true, if_false]
      rw [if_pos h1, if_pos h1]
    · simp only [ne_eq, h0, not_false_eq_true, if_true, if_false]
      rw [if_neg h1, if_neg h1]

/-- The events of `spacemit_i2c_handle_err`, case by case. -/
theorem handle_err_events (c : Consts) (d : spacemit_i2c_dev) :
    (spacemit_i2c_handle_err c d).2
      = (if d.i2c_err = 0 then []
        else (if d.i2c_err &&& (c.SR_BED ||| c.SR_ALD) ≠ 0 then spacemit_i2c_reset c d else [])
          ++ (if d.i2c_err &&& (c.SR_RXOV ||| c.SR_ALD) ≠ 0 then spacemit_i2c_flush_fifo_buffer
              else [])) := by
  unfold spacemit_i2c_handle_err
  by_cases h0 : d.i2c_err = 0
  · simp [h0]
  · by_cases h1 : d.i2c_err &&& (c.SR_RXOV ||| c.SR_ALD) ≠ 0
    · simp only [ne_eq, h0, not_false_eq_true, if_true, if_false]
      rw [if_pos h1, if_pos h1]
    · simp only [ne_eq, h0, not_false_eq_true, if_true, if_false]
      rw [if_neg h1, if_neg h1]
      simp

theorem reset_pulse_mem_reset (c : Consts) (d : spacemit_i2c_dev) :
    Event.write_reg REG_CR c.CR_UR ∈ spacemit_i2c_reset c d := by
  simp [spacemit_i2c_reset, spacemit_i2c_controller_reset]

theorem reset_pulse_not_mem_flush (c : Consts) :
    Event.write_reg REG_CR c.CR_UR ∉ spacemit_i2c_flush_fifo_buffer := by
  simp [spacemit_i2c_flush_fifo_buffer]

/-- C8: for every latched `i2c_err` containing arbitration lost (`SR_ALD`) or rx
overrun (`SR_RXOV`), `spacemit_i2c_handle_err` returns `-EAGAIN` and ends with
the flush of the FIFO pointers, the writes of 0 to `REG_WFIFO_WPTR`,
`REG_WFIFO_RPTR`, `REG_RFIFO_WPTR` and `REG_RFIFO_RPTR` in this order, whatever
other bits are set; it resets the controller (writes `CR_UR` to `REG_CR`)
exactly when `i2c_err` contains `SR_BED` or `SR_ALD`; and it returns 0 without
a register write exactly when `i2c_err` is 0. -/
theorem handle_err_retryable (c : Consts) (d : spacemit_i2c_dev) :
    ((d.i2c_err &&& c.SR_ALD ≠ 0 ∨ d.i2c_err &&& c.SR_RXOV ≠ 0) →
        (spacemit_i2c_handle_err c d).1 = - EAGAIN
        ∧ [Event.write_reg REG_WFIFO_WPTR 0, Event.write_reg REG_WFIFO_RPTR 0,
            Event.write_reg REG_RFIFO_WPTR 0, Event.write_reg REG_RFIFO_RPTR 0]
          <:+ (spacemit_i2c_handle_err c d).2)
    ∧ (Event.write_reg REG_CR c.CR_UR ∈ (spacemit_i2c_handle_err c d).2
        ↔ (d.i2c_err &&& c.SR_BED ≠ 0 ∨ d.i2c_err &&& c.SR_ALD ≠ 0))
    ∧ (((spacemit_i2c_handle_err c d).1 = 0
          ∧ ∀ reg val, Event.write_reg reg val ∉ (spacemit_i2c_handle_err c d).2)
        ↔ d.i2c_err = 0) := by
  rw [handle_err_ret, handle_err_events]
  refine ⟨?_, ?_, ?_⟩
  · intro h
    have h1 : d.i2c_err &&& (c.SR_RXOV ||| c.SR_ALD) ≠ 0 :=
      (and_or_ne_zero _ _ _).mpr (Or.symm h)
    have h0 : d.i2c_err ≠ 0 := by
      rcases h with h | h <;> exact and_ne_zero_left _ _ h
    rw [if_neg h0, if_pos h1, if_neg h0, if_pos h1]
    exact ⟨rfl, List.suffix_append _ _⟩
  · by_cases h0 : d.i2c_err = 0
    · simp [h0]
    · rw [if_neg h0, ← and_or_ne_zero]
      by_cases hb : d.i2c_err &&& (c.SR_BED ||| c.SR_ALD) ≠ 0
      · rw [if_pos hb]
        simp only [List.mem_append, reset_pulse_mem_reset, true_or, true_iff]
        exact hb
      · rw [if_neg hb]
        have hf := reset_pulse_not_mem_flush c
        constructor
        · intro hm
          exfalso
          simp only [List.nil_append] at hm
          split at hm
          · exact hf hm
          · simp at hm
        · intro h
          exact absurd h hb
  · by_cases h0 : d.i2c_err = 0
    · simp [h0]
    · rw [if_neg h0]
      constructor
      · rintro ⟨hret, _⟩
        exfalso
        revert hret
        split
        · decide
        · split <;> decide
      · intro h
        exact absurd h h0

/-- C9, as stated, fails: with `i2c_err` holding only the bus-error flag and the
latched status showing a NAK, `spacemit_i2c_handle_err` returns `-ENXIO`, not
`-EIO`. -/
theorem bus_error_with_nak_is_enxio :
    sample_consts.SR_BED &&& sample_consts.SR_BED ≠ 0
    ∧ sample_consts.SR_BED &&& sample_consts.SR_ALD = 0
    ∧ sample_consts.SR_BED &&& sample_consts.SR_RXOV = 0
    ∧ (spacemit_i2c_handle_err sample_consts
        { sample_dev [write_msg 1] with
          i2c_err := sample_consts.SR_BED
          i2c_status := sample_consts.SR_BED ||| sample_consts.SR_ACKNAK }).1 = - ENXIO
    ∧ - ENXIO ≠ - EIO := by
  decide

/-- C9, amended: when the latched `i2c_err` contains `SR_BED` and neither `SR_ALD`
nor `SR_RXOV`, `spacemit_i2c_handle_err` resets the controller, does not flush
the FIFO pointers, and returns `-ENXIO` when the latched status has `SR_ACKNAK`
and `-EIO` otherwise. -/
theorem handle_err_bus_error (c : Consts) (d : spacemit_i2c_dev)
    (hbed : d.i2c_err &&& c.SR_BED ≠ 0) (hald : d.i2c_err &&& c.SR_ALD = 0)
    (hrxov : d.i2c_err &&& c.SR_RXOV = 0) :
    (spacemit_i2c_handle_err c d).2 = spacemit_i2c_reset c d
    ∧ Event.write_reg REG_CR c.CR_UR ∈ (spacemit_i2c_handle_err c d).2
    ∧ (spacemit_i2c_handle_err c d).1
        = (if d.i2c_status &&& c.SR_ACKNAK ≠ 0 then - ENXIO else - EIO)
    ∧ (d.i2c_status &&& c.SR_ACKNAK = 0 → (spacemit_i2c_handle_err c d).1 = - EIO) := by
  have h0 : d.i2c_err ≠ 0 := and_ne_zero_left _ _ hbed
  have h1 : ¬ d.i2c_err &&& (c.SR_RXOV ||| c.SR_ALD) ≠ 0 := by
    rw [and_or_ne_zero]
    simp [hald, hrxov]
  have h2 : d.i2c_err &&& (c.SR_BED ||| c.SR_ALD) ≠ 0 :=
    (and_or_ne_zero _ _ _).mpr (Or.inl hbed)
  have hev : (spacemit_i2c_handle_err c d).2 = spacemit_i2c_reset c d := by
    rw [handle_err_events, if_neg h0, if_pos h2, if_neg h1, List.append_nil]
  have hret : (spacemit_i2c_handle_err c d).1
      = (if d.i2c_status &&& c.SR_ACKNAK ≠ 0 then - ENXIO else - EIO) := by
    rw [handle_err_ret, if_neg h0, if_neg h1]
  refine ⟨hev, ?_, hret, ?_⟩
  · rw [hev]
    exact reset_pulse_mem_reset c d
  · intro hs
    rw [hret, if_neg (by simp [hs])]

/-- C9 amended, at a concrete input: a bus error without NAK status gives `-EIO`
after a controller reset. -/
theorem handle_err_bus_error_witness :
    (spacemit_i2c_handle_err sample_consts
        { sample_dev [write_msg 1] with
          i2c_err := sample_consts.SR_BED, i2c_status := sample_consts.SR_BED }).1 = - EIO :=
  (handle_err_bus_error sample_consts
    { sample_dev [write_msg 1] with
      i2c_err := sample_consts.SR_BED, i2c_status := sample_consts.SR_BED }
    (by decide) (by decide) (by decide)).2.2.2 (by decide)

/-! ## Transaction orchestrator: theorems -/

/-- The number of attempts of the retry loop and its result, in closed form. -/
theorem retry_loop_attempts {σ : Type} (R : Nat) (attempt : Nat → σ → Int × σ)
    (backoff : σ → σ) (s : σ) :
    (retry_loop R attempt backoff 0 s).2.1
        = min (first_final_attempt (result_of attempt backoff s) (R + 1)) (R + 1)
    ∧ (retry_loop R attempt backoff 0 s).1
        = result_of attempt backoff s ((retry_loop R attempt backoff 0 s).2.1 - 1) := by
  have hlen : (List.range (R + 1)).length = R + 1 := List.length_range _
  have hle := @List.findIdx_le_length Nat
    (fun j => !decide (retryable (result_of attempt backoff s j))) (List.range (R + 1))
  rw [hlen] at hle
  have hpre : ∀ j, j < min ((List.range (R + 1)).findIdx
        (fun j => !decide (retryable (result_of attempt backoff s j)))) R →
      retryable (result_of attempt backoff s j) := by
    intro j hj
    have hj2 : j < (List.range (R + 1)).findIdx
        (fun j => !decide (retryable (result_of attempt backoff s j))) := by omega
    have := List.not_of_lt_findIdx hj2
    simpa using this
  have hstop : ¬ retryable (result_of attempt backoff s (min ((List.range (R + 1)).findIdx
        (fun j => !decide (retryable (result_of attempt backoff s j)))) R))
      ∨ min ((List.range (R + 1)).findIdx
        (fun j => !decide (retryable (result_of attempt backoff s j)))) R = R := by
    by_cases hi : (List.range (R + 1)).findIdx
        (fun j => !decide (retryable (result_of attempt backoff s j))) ≤ R
    · left
      have hlt : (List.range (R + 1)).findIdx
          (fun j => !decide (retryable (result_of attempt backoff s j)))
            < (List.range (R + 1)).length := by omega
      have := List.findIdx_getElem (w := hlt)
      rw [min_eq_left hi]
      simpa using this
    · right
      omega
  have h := retry_loop_spec R attempt backoff s _ (min_le_right _ _) hpre hstop
  rw [h]
  simp only [first_final_attempt]
  constructor
  · omega
  · simp

/-- The result of `xfer_classify`: the classification of a latched error, or the
result so far. -/
theorem xfer_classify_ret (c : Consts) (env : AttemptEnv) (d : spacemit_i2c_dev) (ret : Int)
    (ev : List Event) :
    (xfer_classify c env d ret ev).1
      = (if d.i2c_err = 0 then ret
        else if d.i2c_err &&& (c.SR_RXOV ||| c.SR_ALD) ≠ 0 then - EAGAIN
        else if d.i2c_status &&& c.SR_ACKNAK ≠ 0 then - ENXIO else - EIO) := by
  unfold xfer_classify
  by_cases h0 : d.i2c_err = 0
  · simp [h0]
  · simp only [ne_eq, h0, not_false_eq_true, if_true, if_false, handle_err_ret]

/-- Every path through an attempt ends in `xfer_classify`. -/
theorem xfer_attempt_classified (c : Consts) (env : AttemptEnv) (d : spacemit_i2c_dev) :
    ∃ ret ev, xfer_attempt c env d = xfer_classify c env (xfer_setup c env d).1 ret ev := by
  unfold xfer_attempt
  simp only []
  split_ifs <;> exact ⟨_, _, rfl⟩

/-- An attempt during which the interrupt handler latches an error ends in the
classification of that error. -/
theorem xfer_attempt_latched (c : Consts) (env : AttemptEnv) (d : spacemit_i2c_dev)
    (h : env.i2c_err ≠ 0) :
    (xfer_attempt c env d).1
      = (if env.i2c_err &&& (c.SR_RXOV ||| c.SR_ALD) ≠ 0 then - EAGAIN
        else if env.i2c_status &&& c.SR_ACKNAK ≠ 0 then - ENXIO else - EIO) := by
  have he : (xfer_setup c env d).1.i2c_err = env.i2c_err := rfl
  have hs : (xfer_setup c env d).1.i2c_status = env.i2c_status := rfl
  obtain ⟨ret, ev, hc⟩ := xfer_attempt_classified c env d
  rw [hc, xfer_classify_ret, he, hs, if_neg h]

theorem pio_step_msgs (c : Consts) (envs : Nat → AttemptEnv) (k : Nat) (s : XferState) :
    (pio_step c envs k s).2.1.msgs = s.1.msgs := rfl

theorem pio_loop_msgs (c : Consts) (envs : Nat → AttemptEnv) (d : spacemit_i2c_dev) :
    (retry_loop d.drv_retries (pio_step c envs) pio_backoff 0 (d, [])).2.2.1.msgs = d.msgs := by
  apply retry_loop_invariant (fun s : XferState => s.1.msgs = d.msgs) d.drv_retries
    (pio_step c envs) pio_backoff _ _ (d.drv_retries + 1) 0 (d, []) (by omega) rfl
  · intro k s hs
    rw [pio_step_msgs]
    exact hs
  · intro s hs
    exact hs

theorem pio_result_of (c : Consts) (envs : Nat → AttemptEnv) (s : XferState) (k : Nat) :
    result_of (pio_step c envs) pio_backoff s k = (envs k).pio_result := rfl

/-- The locked path of `spacemit_i2c_xfer`, when the retry loop is reached. -/
theorem xfer_locked (c : Consts) (e : XferEnv) (d : spacemit_i2c_dev) (msgs : List i2c_msg)
    (hslave : d.slave = false) (hpio : ¬ pio_requested c e d) (hsd : d.shutdown = false)
    (hpm : pm_failed e d = false ∨ clk_directly e d = true) :
    (spacemit_i2c_xfer c e d msgs).attempts
        = (retry_loop d.drv_retries (xfer_step c e.attempts) xfer_backoff 0
            (xfer_start e d msgs)).2.1
    ∧ (spacemit_i2c_xfer c e d msgs).ret
        = (if (retry_loop d.drv_retries (xfer_step c e.attempts) xfer_backoff 0
              (xfer_start e d msgs)).1 < 0 then
            (retry_loop d.drv_retries (xfer_step c e.attempts) xfer_backoff 0
              (xfer_start e d msgs)).1
          else (msgs.length : Int)) := by
  have hpm2 : ¬ (pm_failed e d = true ∧ clk_directly e d = false) := by
    rcases hpm with h | h <;> simp [h]
  have hs : ¬ d.slave = true := by simp [hslave]
  have hsd2 : ¬ d.shutdown = true := by simp [hsd]
  unfold spacemit_i2c_xfer
  rw [if_neg hs, if_neg hpio, if_neg hsd2]
  simp only [if_neg hpm2]
  exact ⟨trivial, trivial⟩

/-- The polled path of `spacemit_i2c_xfer`. -/
theorem xfer_polled (c : Consts) (e : XferEnv) (d : spacemit_i2c_dev) (msgs : List i2c_msg)
    (hslave : d.slave = false) (hpio : pio_requested c e d) :
    (spacemit_i2c_xfer c e d msgs).attempts
        = (retry_loop d.drv_retries (pio_step c e.attempts) pio_backoff 0
            ({ d with msgs := msgs }, [])).2.1
    ∧ (spacemit_i2c_xfer c e d msgs).ret
        = (if (retry_loop d.drv_retries (pio_step c e.attempts) pio_backoff 0
              ({ d with msgs := msgs }, [])).1 < 0 then
            (retry_loop d.drv_retries (pio_step c e.attempts) pio_backoff 0
              ({ d with msgs := msgs }, [])).1
          else (msgs.length : Int)) := by
  have hm := pio_loop_msgs c e.attempts { d with msgs := msgs }
  have hs : ¬ d.slave = true := by simp [hslave]
  unfold spacemit_i2c_xfer
  rw [if_neg hs, if_pos hpio]
  unfold spacemit_i2c_pio_xfer
  simp only [spacemit_i2c_dev.num]
  rw [hm]
  exact ⟨trivial, rfl⟩

theorem retry_loop_all_retryable {σ : Type} (R : Nat) (attempt : Nat → σ → Int × σ)
    (backoff : σ → σ) (s : σ)
    (h : ∀ j, j ≤ R → retryable (result_of attempt backoff s j)) :
    (retry_loop R attempt backoff 0 s).2.1 = R + 1
    ∧ (retry_loop R attempt backoff 0 s).1 = result_of attempt backoff s R := by
  rw [retry_loop_spec R attempt backoff s R (le_refl R) (fun j hj => h j (by omega))
    (Or.inr rfl)]
  exact ⟨rfl, rfl⟩

theorem retryable_eagain : retryable (- EAGAIN) := Or.inr rfl

theorem retryable_etimedout : retryable (- ETIMEDOUT) := Or.inl rfl

/-- When every attempt latches an arbitration loss, every attempt of
`spacemit_i2c_xfer` is classified `-EAGAIN`. -/
theorem xfer_result_arbitration_lost (c : Consts) (e : XferEnv) (d : spacemit_i2c_dev)
    (msgs : List i2c_msg) (h : ∀ k, (e.attempts k).i2c_err &&& c.SR_ALD ≠ 0) (j : Nat) :
    xfer_result c e d msgs j = - EAGAIN := by
  have h0 : (e.attempts j).i2c_err ≠ 0 := and_ne_zero_left _ _ (h j)
  have h1 : (e.attempts j).i2c_err &&& (c.SR_RXOV ||| c.SR_ALD) ≠ 0 :=
    (and_or_ne_zero _ _ _).mpr (Or.inr (h j))
  show (xfer_attempt c (e.attempts j) _).1 = - EAGAIN
  rw [xfer_attempt_latched c (e.attempts j) _ h0, if_pos h1]

/-- C6: the retry budget. In `spacemit_i2c_xfer` (locked path) and in
`spacemit_i2c_pio_xfer` (polled path) the number of attempts is
`min k (drv_retries + 1)`, where `k` is the index, counted from 1, of the
first attempt whose classified result is neither `-ETIMEDOUT` nor `-EAGAIN`;
the value returned is the last result when it is negative; when every attempt
ends in `-EAGAIN` (in particular when every attempt latches an arbitration
loss), or every attempt ends in `-ETIMEDOUT`, exactly `drv_retries + 1`
attempts are made and that error is returned. -/
theorem xfer_retry_budget (c : Consts) (e : XferEnv) (d : spacemit_i2c_dev)
    (msgs : List i2c_msg) (hslave : d.slave = false) :
    ((¬ pio_requested c e d ∧ d.shutdown = false
        ∧ (pm_failed e d = false ∨ clk_directly e d = true)) →
      (spacemit_i2c_xfer c e d msgs).attempts
          = min (first_final_attempt (xfer_result c e d msgs) (d.drv_retries + 1))
              (d.drv_retries + 1)
      ∧ (spacemit_i2c_xfer c e d msgs).ret
          = (if xfer_result c e d msgs ((spacemit_i2c_xfer c e d msgs).attempts - 1) < 0 then
              xfer_result c e d msgs ((spacemit_i2c_xfer c e d msgs).attempts - 1)
            else (msgs.length : Int))
      ∧ ((∀ j, j ≤ d.drv_retries → xfer_result c e d msgs j = - EAGAIN) →
          (spacemit_i2c_xfer c e d msgs).attempts = d.drv_retries + 1
          ∧ (spacemit_i2c_xfer c e d msgs).ret = - EAGAIN)
      ∧ ((∀ j, j ≤ d.drv_retries → xfer_result c e d msgs j = - ETIMEDOUT) →
          (spacemit_i2c_xfer c e d msgs).attempts = d.drv_retries + 1
          ∧ (spacemit_i2c_xfer c e d msgs).ret = - ETIMEDOUT)
      ∧ ((∀ k, (e.attempts k).i2c_err &&& c.SR_ALD ≠ 0) →
          (spacemit_i2c_xfer c e d msgs).attempts = d.drv_retries + 1
          ∧ (spacemit_i2c_xfer c e d msgs).ret = - EAGAIN))
    ∧ (pio_requested c e d →
      (spacemit_i2c_xfer c e d msgs).attempts
          = min (first_final_attempt (fun k => (e.attempts k).pio_result) (d.drv_retries + 1))
              (d.drv_retries + 1)
      ∧ (spacemit_i2c_xfer c e d msgs).ret
          = (if (e.attempts ((spacemit_i2c_xfer c e d msgs).attempts - 1)).pio_result < 0 then
              (e.attempts ((spacemit_i2c_xfer c e d msgs).attempts - 1)).pio_result
            else (msgs.length : Int))
      ∧ ((∀ j, j ≤ d.drv_retries → (e.attempts j).pio_result = - EAGAIN) →
          (spacemit_i2c_xfer c e d msgs).attempts = d.drv_retries + 1
          ∧ (spacemit_i2c_xfer c e d msgs).ret = - EAGAIN)
      ∧ ((∀ j, j ≤ d.drv_retries → (e.attempts j).pio_result = - ETIMEDOUT) →
          (spacemit_i2c_xfer c e d msgs).attempts = d.drv_retries + 1
          ∧ (spacemit_i2c_xfer c e d msgs).ret = - ETIMEDOUT)) := by
  constructor
  · rintro ⟨hpio, hsd, hpm⟩
    obtain ⟨hatt, hret⟩ := xfer_locked c e d msgs hslave hpio hsd hpm
    have hgen := retry_loop_attempts d.drv_retries (xfer_step c e.attempts) xfer_backoff
      (xfer_start e d msgs)
    have hall : ∀ v : Int, retryable v → v < 0 →
        (∀ j, j ≤ d.drv_retries → xfer_result c e d msgs j = v) →
        (spacemit_i2c_xfer c e d msgs).attempts = d.drv_retries + 1
        ∧ (spacemit_i2c_xfer c e d msgs).ret = v := by
      intro v hv hneg h
      have := retry_loop_all_retryable d.drv_retries (xfer_step c e.attempts) xfer_backoff
        (xfer_start e d msgs) (fun j hj => by
          have hj2 := h j hj
          unfold xfer_result at hj2
          rw [hj2]
          exact hv)
      have hR := h d.drv_retries (le_refl _)
      unfold xfer_result at hR
      rw [hatt, hret, this.1, this.2, hR, if_pos hneg]
      exact ⟨rfl, rfl⟩
    refine ⟨?_, ?_, ?_, ?_, ?_⟩
    · rw [hatt]
      exact hgen.1
    · rw [hret, hatt, hgen.2]
      rfl
    · exact hall (- EAGAIN) retryable_eagain (by decide)
    · exact hall (- ETIMEDOUT) retryable_etimedout (by decide)
    · intro h
      exact hall (- EAGAIN) retryable_eagain (by decide)
        (fun j _ => xfer_result_arbitration_lost c e d msgs h j)
  · intro hpio
    obtain ⟨hatt, hret⟩ := xfer_polled c e d msgs hslave hpio
    have hgen := retry_loop_attempts d.drv_retries (pio_step c e.attempts) pio_backoff
      (({ d with msgs := msgs } : spacemit_i2c_dev), ([] : List Event))
    have hall : ∀ v : Int, retryable v → v < 0 →
        (∀ j, j ≤ d.drv_retries → (e.attempts j).pio_result = v) →
        (spacemit_i2c_xfer c e d msgs).attempts = d.drv_retries + 1
        ∧ (spacemit_i2c_xfer c e d msgs).ret = v := by
      intro v hv hneg h
      have := retry_loop_all_retryable d.drv_retries (pio_step c e.attempts) pio_backoff
        (({ d with msgs := msgs } : spacemit_i2c_dev), ([] : List Event)) (fun j hj => by
          rw [pio_result_of, h j hj]
          exact hv)
      have hR := h d.drv_retries (le_refl _)
      rw [hatt, hret, this.1, this.2, pio_result_of, hR, if_pos hneg]
      exact ⟨rfl, rfl⟩
    refine ⟨?_, ?_, ?_, ?_⟩
    · rw [hatt]
      exact hgen.1
    · rw [hret, hatt, hgen.2]
      rfl
    · exact hall (- EAGAIN) retryable_eagain (by decide)
    · exact hall (- ETIMEDOUT) retryable_etimedout (by decide)

/-- C6, at a concrete input: with `drv_retries = 3` and an arbitration loss latched
in every attempt, `spacemit_i2c_xfer` makes four attempts and returns `-EAGAIN`. -/
theorem xfer_retry_budget_witness :
    (spacemit_i2c_xfer sample_consts (sample_env arbitration_lost_attempt) fifo_dev
        [write_msg 1]).attempts = 4
    ∧ (spacemit_i2c_xfer sample_consts (sample_env arbitration_lost_attempt) fifo_dev
        [write_msg 1]).ret = - EAGAIN :=
  ((xfer_retry_budget sample_consts (sample_env arbitration_lost_attempt) fifo_dev
      [write_msg 1] rfl).1 ⟨by decide, rfl, Or.inl rfl⟩).2.2.2.2
    (fun _ => (by decide : arbitration_lost_attempt.i2c_err &&& sample_consts.SR_ALD ≠ 0))

/-- C7: no retry for results that are not transient. On the locked path of
`spacemit_i2c_xfer`, a first attempt classified `-ENXIO`, `-EIO` or `-EINVAL`
is the only attempt and its error is returned unchanged (in particular when
the first attempt latches an error without `SR_ALD` and `SR_RXOV`, which is
classified `-ENXIO` with NAK status and `-EIO` without); an attempt with
result `>= 0` is the last one and the call returns the number of messages. -/
theorem xfer_no_retry (c : Consts) (e : XferEnv) (d : spacemit_i2c_dev) (msgs : List i2c_msg)
    (hslave : d.slave = false) (hpio : ¬ pio_requested c e d) (hsd : d.shutdown = false)
    (hpm : pm_failed e d = false ∨ clk_directly e d = true) :
    ((xfer_result c e d msgs 0 = - ENXIO ∨ xfer_result c e d msgs 0 = - EIO
          ∨ xfer_result c e d msgs 0 = - EINVAL) →
        (spacemit_i2c_xfer c e d msgs).attempts = 1
        ∧ (spacemit_i2c_xfer c e d msgs).ret = xfer_result c e d msgs 0)
    ∧ ((e.attempts 0).i2c_err ≠ 0 → (e.attempts 0).i2c_err &&& (c.SR_RXOV ||| c.SR_ALD) = 0 →
        (spacemit_i2c_xfer c e d msgs).attempts = 1
        ∧ (spacemit_i2c_xfer c e d msgs).ret
            = (if (e.attempts 0).i2c_status &&& c.SR_ACKNAK ≠ 0 then - ENXIO else - EIO))
    ∧ (∀ n, n ≤ d.drv_retries → (∀ j, j < n → retryable (xfer_result c e d msgs j)) →
        0 ≤ xfer_result c e d msgs n →
        (spacemit_i2c_xfer c e d msgs).attempts = n + 1
        ∧ (spacemit_i2c_xfer c e d msgs).ret = (msgs.length : Int)) := by
  obtain ⟨hatt, hret⟩ := xfer_locked c e d msgs hslave hpio hsd hpm
  have hfinal : ∀ n, n ≤ d.drv_retries → (∀ j, j < n → retryable (xfer_result c e d msgs j)) →
      ¬ retryable (xfer_result c e d msgs n) →
      (spacemit_i2c_xfer c e d msgs).attempts = n + 1
      ∧ (spacemit_i2c_xfer c e d msgs).ret
          = (if xfer_result c e d msgs n < 0 then xfer_result c e d msgs n
            else (msgs.length : Int)) := by
    intro n hn hpre hstop
    have := retry_loop_spec d.drv_retries (xfer_step c e.attempts) xfer_backoff
      (xfer_start e d msgs) n hn hpre (Or.inl hstop)
    rw [hatt, hret, this]
    exact ⟨rfl, rfl⟩
  have hfirst : ∀ v : Int, ¬ retryable v → v < 0 → xfer_result c e d msgs 0 = v →
      (spacemit_i2c_xfer c e d msgs).attempts = 1
      ∧ (spacemit_i2c_xfer c e d msgs).ret = v := by
    intro v hv hneg h
    have := hfinal 0 (Nat.zero_le _) (fun j hj => absurd hj (Nat.not_lt_zero j))
      (by rw [h]; exact hv)
    rw [h, if_pos hneg] at this
    exact this
  refine ⟨?_, ?_, ?_⟩
  · rintro (h | h | h)
    · rw [h]
      exact hfirst _ (by decide) (by decide) h
    · rw [h]
      exact hfirst _ (by decide) (by decide) h
    · rw [h]
      exact hfirst _ (by decide) (by decide) h
  · intro h0 h1
    have hres : xfer_result c e d msgs 0
        = (if (e.attempts 0).i2c_status &&& c.SR_ACKNAK ≠ 0 then - ENXIO else - EIO) := by
      show (xfer_attempt c (e.attempts 0) _).1 = _
      rw [xfer_attempt_latched c (e.attempts 0) _ h0, if_neg (by simp [h1])]
    rw [← hres]
    by_cases hs : (e.attempts 0).i2c_status &&& c.SR_ACKNAK ≠ 0
    · rw [if_pos hs] at hres
      exact hfirst _ (by rw [hres]; decide) (by rw [hres]; decide) rfl
    · rw [if_neg hs] at hres
      exact hfirst _ (by rw [hres]; decide) (by rw [hres]; decide) rfl
  · intro n hn hpre hok
    have hstop : ¬ retryable (xfer_result c e d msgs n) := by
      rintro (h | h) <;> rw [h] at hok <;> revert hok <;> decide
    have := hfinal n hn hpre hstop
    rw [if_neg (by omega)] at this
    exact this

/-- C7, at a concrete input: a first attempt that ends in a bus error with NAK
status is the only attempt and the call returns `-ENXIO`. -/
theorem xfer_no_retry_witness :
    (spacemit_i2c_xfer sample_consts (sample_env nak_attempt) fifo_dev [write_msg 1]).attempts = 1
    ∧ (spacemit_i2c_xfer sample_consts (sample_env nak_attempt) fifo_dev [write_msg 1]).ret
        = - ENXIO :=
  (xfer_no_retry sample_consts (sample_env nak_attempt) fifo_dev [write_msg 1] rfl
    (by decide) rfl (Or.inl rfl)).2.1 (by decide) (by decide)

/-! ## Timeout handling -/

theorem mark_rw_flag_static (d : spacemit_i2c_dev) :
    (spacemit_i2c_mark_rw_flag d).xfer_mode = d.xfer_mode
    ∧ (spacemit_i2c_mark_rw_flag d).i2c_lcr = d.i2c_lcr
    ∧ (spacemit_i2c_mark_rw_flag d).i2c_wcr = d.i2c_wcr := by
  unfold spacemit_i2c_mark_rw_flag
  split
  · split <;> exact ⟨rfl, rfl, rfl⟩
  · exact ⟨rfl, rfl, rfl⟩

theorem xfer_setup_mode (c : Consts) (env : AttemptEnv) (d : spacemit_i2c_dev) :
    (xfer_setup c env d).1.xfer_mode = (spacemit_i2c_choose_xfer_mode c d).1.xfer_mode := by
  show (spacemit_i2c_mark_rw_flag _).xfer_mode = _
  rw [(mark_rw_flag_static _).1]
  rfl

theorem xfer_setup_reset (c : Consts) (env : AttemptEnv) (d : spacemit_i2c_dev) :
    spacemit_i2c_reset c (xfer_setup c env d).1 = spacemit_i2c_reset c d := by
  have h1 : (xfer_setup c env d).1.i2c_lcr = d.i2c_lcr := by
    show (spacemit_i2c_mark_rw_flag _).i2c_lcr = _
    rw [(mark_rw_flag_static _).2.1]
    rfl
  have h2 : (xfer_setup c env d).1.i2c_wcr = d.i2c_wcr := by
    show (spacemit_i2c_mark_rw_flag _).i2c_wcr = _
    rw [(mark_rw_flag_static _).2.2]
    rfl
  simp only [spacemit_i2c_reset, spacemit_i2c_controller_reset, h1, h2]

/-- The events up to the error classification are kept by `xfer_classify`. -/
theorem xfer_classify_keeps_events (c : Consts) (env : AttemptEnv) (d : spacemit_i2c_dev) (ret : Int)
    (ev : List Event) : ev <+: (xfer_classify c env d ret ev).2.2 := by
  unfold xfer_classify
  simp only []
  split_ifs
  · exact ⟨_, (List.append_assoc _ _ _).symm.trans (List.append_assoc _ _ _).symm⟩
  · exact ⟨_, (List.append_assoc _ _ _).symm⟩
  · exact ⟨_, (List.append_assoc _ _ _).symm⟩
  · exact ⟨_, rfl⟩

/-- A timeout in `spacemit_i2c_fifo_xfer`: bus reset, result `-ETIMEDOUT`. -/
theorem fifo_xfer_timeout (env : AttemptEnv) (d : spacemit_i2c_dev) (h : env.time_left = 0) :
    spacemit_i2c_fifo_xfer env d
      = (- ETIMEDOUT, [Event.call Callee.spacemit_i2c_fifo_xfer_fill_buffer,
          Event.call Callee.wait_for_completion_timeout,
          Event.call Callee.spacemit_i2c_bus_reset]) := by
  simp [spacemit_i2c_fifo_xfer, h]

/-- A timeout in `spacemit_i2c_dma_xfer`: bus reset, then controller reset, result
`-ETIMEDOUT`. -/
theorem dma_xfer_timeout (c : Consts) (env : AttemptEnv) (d : spacemit_i2c_dev)
    (hs : env.dma_setup = DmaSetup.ok) (h : env.time_left = 0) :
    (spacemit_i2c_dma_xfer c env d).1 = - ETIMEDOUT
    ∧ (Event.call Callee.spacemit_i2c_bus_reset :: spacemit_i2c_reset c d)
        <:+: (spacemit_i2c_dma_xfer c env d).2 := by
  have hneg : ¬ (- ETIMEDOUT : Int) ≥ 0 := by decide
  have hlt : (- ETIMEDOUT : Int) < 0 := by decide
  unfold spacemit_i2c_dma_xfer
  simp only [hs, h, if_true]
  by_cases hp : env.rx_nents ≠ 0 ∧ env.rx_dma_pending = true
  · simp only [if_pos hp, true_or, if_true, if_neg hneg, if_pos hlt]
    refine ⟨trivial, ⟨[Event.call Callee.spacemit_i2c_dma_xfer_submit,
      Event.call Callee.wait_for_completion_timeout],
      [Event.call Callee.dmaengine_pause]
        ++ dma_cleanup env true true (decide (env.rx_nents ≠ 0)), ?_⟩⟩
    simp
  · simp only [if_neg hp, if_neg hneg, if_pos hlt]
    refine ⟨trivial, ⟨[Event.call Callee.spacemit_i2c_dma_xfer_submit,
      Event.call Callee.wait_for_completion_timeout],
      dma_cleanup env true true (decide (env.rx_nents ≠ 0)), ?_⟩⟩
    simp

/-- C10, as stated, fails. In Interrupt mode, when the completion wait expires and
an interrupt that arrives before the IRQ line is disabled latches an arbitration
loss, the attempt ends in `-EAGAIN`, not `-ETIMEDOUT`; and in FIFO mode an
attempt whose wait expires calls `spacemit_i2c_bus_reset` but writes no unit
reset to the control register. -/
theorem timeout_attempt_counterexample :
    late_error_attempt.time_left = 0
    ∧ (spacemit_i2c_choose_xfer_mode sample_consts interrupt_dev).1.xfer_mode
        = SPACEMIT_I2C_MODE_INTERRUPT
    ∧ (xfer_attempt sample_consts late_error_attempt interrupt_dev).1 = - EAGAIN
    ∧ - EAGAIN ≠ - ETIMEDOUT
    ∧ timeout_attempt.time_left = 0
    ∧ (spacemit_i2c_choose_xfer_mode sample_consts fifo_dev).1.xfer_mode
        = SPACEMIT_I2C_MODE_FIFO
    ∧ Event.call Callee.spacemit_i2c_bus_reset
        ∈ (xfer_attempt sample_consts timeout_attempt fifo_dev).2.2
    ∧ Event.write_reg REG_CR sample_consts.CR_UR
        ∉ (xfer_attempt sample_consts timeout_attempt fifo_dev).2.2 := by
  decide

/-- C10, amended: when the completion wait of an attempt expires, the attempt calls
`spacemit_i2c_bus_reset` in Interrupt, FIFO and DMA mode; in Interrupt and DMA
mode the bus reset is directly followed by the controller reset
`spacemit_i2c_reset`; and in every mode the attempt ends in `-ETIMEDOUT` when
no error is latched in `i2c_err`, and in the classification of the latched error
otherwise. -/
theorem xfer_attempt_timeout (c : Consts) (env : AttemptEnv) (d : spacemit_i2c_dev)
    (hrec : env.recover_bus_busy = 0) (htime : env.time_left = 0) :
    ((spacemit_i2c_choose_xfer_mode c d).1.xfer_mode = SPACEMIT_I2C_MODE_INTERRUPT →
        0 ≤ env.byte_xfer →
        (Event.call Callee.spacemit_i2c_bus_reset :: spacemit_i2c_reset c d)
            <:+: (xfer_attempt c env d).2.2
        ∧ (env.i2c_err = 0 → (xfer_attempt c env d).1 = - ETIMEDOUT))
    ∧ ((spacemit_i2c_choose_xfer_mode c d).1.xfer_mode = SPACEMIT_I2C_MODE_DMA →
        env.dma_setup = DmaSetup.ok →
        (Event.call Callee.spacemit_i2c_bus_reset :: spacemit_i2c_reset c d)
            <:+: (xfer_attempt c env d).2.2
        ∧ (env.i2c_err = 0 → (xfer_attempt c env d).1 = - ETIMEDOUT))
    ∧ ((spacemit_i2c_choose_xfer_mode c d).1.xfer_mode = SPACEMIT_I2C_MODE_FIFO →
        Event.call Callee.spacemit_i2c_bus_reset ∈ (xfer_attempt c env d).2.2
        ∧ (env.i2c_err = 0 → (xfer_attempt c env d).1 = - ETIMEDOUT))
    ∧ (env.i2c_err ≠ 0 →
        (xfer_attempt c env d).1
          = (if env.i2c_err &&& (c.SR_RXOV ||| c.SR_ALD) ≠ 0 then - EAGAIN
            else if env.i2c_status &&& c.SR_ACKNAK ≠ 0 then - ENXIO else - EIO)) := by
  have he : (xfer_setup c env d).1.i2c_err = env.i2c_err := rfl
  have hrec2 : ¬ env.recover_bus_busy ≠ 0 := by simp [hrec]
  have hlt : (- ETIMEDOUT : Int) < 0 := by decide
  have hne : ¬ (- ETIMEDOUT : Int) ≠ - ETIMEDOUT := by simp
  refine ⟨?_, ?_, ?_, fun h => xfer_attempt_latched c env d h⟩
  · intro hmode hbyte
    have hm : (xfer_setup c env d).1.xfer_mode = SPACEMIT_I2C_MODE_INTERRUPT := by
      rw [xfer_setup_mode, hmode]
    have heng : xfer_engine c env (xfer_setup c env d).1
        = (env.byte_xfer, [Event.call Callee.spacemit_i2c_byte_xfer]) := by
      simp [xfer_engine, hm]
    have hatt : xfer_attempt c env d
        = xfer_classify c env (xfer_setup c env d).1 (- ETIMEDOUT)
            ((xfer_setup c env d).2 ++ [Event.call Callee.spacemit_i2c_byte_xfer]
              ++ [Event.call Callee.wait_for_completion_timeout,
                Event.call Callee.synchronize_irq, Event.call Callee.disable_irq,
                Event.call Callee.spacemit_i2c_bus_reset]
              ++ spacemit_i2c_reset c (xfer_setup c env d).1) := by
      unfold xfer_attempt
      simp only [if_neg hrec2, heng, if_neg (not_lt.mpr hbyte), hm, htime, and_self, if_true]
    rw [hatt]
    constructor
    · apply List.IsInfix.trans _ (xfer_classify_keeps_events _ _ _ _ _).isInfix
      rw [xfer_setup_reset]
      refine ⟨(xfer_setup c env d).2 ++ [Event.call Callee.spacemit_i2c_byte_xfer]
        ++ [Event.call Callee.wait_for_completion_timeout,
          Event.call Callee.synchronize_irq, Event.call Callee.disable_irq], [], ?_⟩
      simp
    · intro h0
      rw [xfer_classify_ret, he, if_pos h0]
  · intro hmode hsetup
    have hm : (xfer_setup c env d).1.xfer_mode = SPACEMIT_I2C_MODE_DMA := by
      rw [xfer_setup_mode, hmode]
    have heng : xfer_engine c env (xfer_setup c env d).1
        = spacemit_i2c_dma_xfer c env (xfer_setup c env d).1 := by
      simp [xfer_engine, hm]
    obtain ⟨hret, hev⟩ := dma_xfer_timeout c env (xfer_setup c env d).1 hsetup htime
    have hatt : xfer_attempt c env d
        = xfer_classify c env (xfer_setup c env d).1 (- ETIMEDOUT)
            ((xfer_setup c env d).2 ++ (spacemit_i2c_dma_xfer c env (xfer_setup c env d).1).2
              ++ [Event.call Callee.disable_irq]) := by
      unfold xfer_attempt
      simp only [if_neg hrec2, heng, hret, if_pos hlt, if_neg hne]
    rw [hatt]
    constructor
    · apply List.IsInfix.trans _ (xfer_classify_keeps_events _ _ _ _ _).isInfix
      rw [xfer_setup_reset] at hev
      obtain ⟨s, t, hst⟩ := hev
      refine ⟨(xfer_setup c env d).2 ++ s, t ++ [Event.call Callee.disable_irq], ?_⟩
      rw [← hst]
      simp
    · intro h0
      rw [xfer_classify_ret, he, if_pos h0]
  · intro hmode
    have hm : (xfer_setup c env d).1.xfer_mode = SPACEMIT_I2C_MODE_FIFO := by
      rw [xfer_setup_mode, hmode]
    have heng : xfer_engine c env (xfer_setup c env d).1
        = spacemit_i2c_fifo_xfer env (xfer_setup c env d).1 := by
      simp [xfer_engine, hm]
    have hf := fifo_xfer_timeout env (xfer_setup c env d).1 htime
    have hatt : xfer_attempt c env d
        = xfer_classify c env (xfer_setup c env d).1 (- ETIMEDOUT)
            ((xfer_setup c env d).2
              ++ [Event.call Callee.spacemit_i2c_fifo_xfer_fill_buffer,
                Event.call Callee.wait_for_completion_timeout,
                Event.call Callee.spacemit_i2c_bus_reset]
              ++ [Event.call Callee.disable_irq]) := by
      unfold xfer_attempt
      simp only [if_neg hrec2, heng, hf, if_pos hlt, if_neg hne]
    rw [hatt]
    constructor
    · apply (xfer_classify_keeps_events _ _ _ _ _).subset
      simp
    · intro h0
      rw [xfer_classify_ret, he, if_pos h0]

/-- C10 amended, at a concrete input: a DMA attempt whose wait expires with no error
latched ends in `-ETIMEDOUT`. -/
theorem xfer_attempt_timeout_witness :
    (spacemit_i2c_choose_xfer_mode sample_consts dma_dev).1.xfer_mode = SPACEMIT_I2C_MODE_DMA
    ∧ (xfer_attempt sample_consts timeout_attempt dma_dev).1 = - ETIMEDOUT :=
  ⟨by decide,
   ((xfer_attempt_timeout sample_consts timeout_attempt dma_dev rfl rfl).2.1
      (by decide) rfl).2 rfl⟩

/-! ## Slave mode and shutdown -/

/-- C11: when a slave client is registered, `spacemit_i2c_xfer` returns `-EBUSY` for
every message list and every environment (reboot or power-off notification and
PIO override included): no attempt is made, the device record (with `msgs`)
is unchanged, and there is no event at all, so no lock, no register access
and no retry. -/
theorem xfer_slave_busy (c : Consts) (e : XferEnv) (d : spacemit_i2c_dev) (msgs : List i2c_msg)
    (hslave : d.slave = true) :
    (spacemit_i2c_xfer c e d msgs).ret = - EBUSY
    ∧ (spacemit_i2c_xfer c e d msgs).attempts = 0
    ∧ (spacemit_i2c_xfer c e d msgs).dev = d
    ∧ (spacemit_i2c_xfer c e d msgs).events = [] := by
  unfold spacemit_i2c_xfer
  rw [if_pos hslave]
  exact ⟨rfl, rfl, rfl, rfl⟩

/-- C11, at a concrete input: with a slave registered and a reboot notification
pending, the call returns `-EBUSY` without any event. -/
theorem xfer_slave_busy_witness :
    (spacemit_i2c_xfer sample_consts
        { sample_env quiet_attempt with restart_notify := true }
        { fifo_dev with slave := true } [write_msg 1]).ret = - EBUSY
    ∧ (spacemit_i2c_xfer sample_consts
        { sample_env quiet_attempt with restart_notify := true }
        { fifo_dev with slave := true } [write_msg 1]).events = [] :=
  ⟨(xfer_slave_busy sample_consts { sample_env quiet_attempt with restart_notify := true }
      { fifo_dev with slave := true } [write_msg 1] rfl).1,
   (xfer_slave_busy sample_consts { sample_env quiet_attempt with restart_notify := true }
      { fifo_dev with slave := true } [write_msg 1] rfl).2.2.2⟩

/-- C12, as stated, fails: with the shutdown flag set (no slave, no polled path)
`spacemit_i2c_xfer` returns `-ENXIO`, which is not the `-EBUSY` of slave mode.
And with a reboot notification pending the shutdown flag is not looked at: the
polled path makes an attempt. -/
theorem xfer_shutdown_not_ebusy :
    (spacemit_i2c_xfer sample_consts (sample_env quiet_attempt)
        { fifo_dev with shutdown := true } [write_msg 1]).ret = - ENXIO
    ∧ - ENXIO ≠ - EBUSY
    ∧ (spacemit_i2c_xfer sample_consts { sample_env quiet_attempt with restart_notify := true }
        { fifo_dev with shutdown := true } [write_msg 1]).attempts = 1 := by
  refine ⟨by decide, by decide, ?_⟩
  rw [(xfer_polled sample_consts { sample_env quiet_attempt with restart_notify := true }
      { fifo_dev with shutdown := true } [write_msg 1] rfl (Or.inl rfl)).1,
    retry_loop_stop _ _ _ 0 _ (Or.inl (by decide))]

/-- C12, amended: when the shutdown flag is set, no slave is registered and the
polled path is not requested, `spacemit_i2c_xfer` returns `-ENXIO` at once:
the lock is taken and released and nothing else happens, no attempt is made and
there is no retry. -/
theorem xfer_shutdown (c : Consts) (e : XferEnv) (d : spacemit_i2c_dev) (msgs : List i2c_msg)
    (hslave : d.slave = false) (hpio : ¬ pio_requested c e d) (hsd : d.shutdown = true) :
    (spacemit_i2c_xfer c e d msgs).ret = - ENXIO
    ∧ (spacemit_i2c_xfer c e d msgs).attempts = 0
    ∧ (spacemit_i2c_xfer c e d msgs).events
        = [Event.call Callee.mutex_lock, Event.call Callee.mutex_unlock] := by
  have hs : ¬ d.slave = true := by simp [hslave]
  unfold spacemit_i2c_xfer
  rw [if_neg hs, if_neg hpio, if_pos hsd]
  exact ⟨rfl, rfl, rfl⟩

/-- C12 amended, at a concrete input. -/
theorem xfer_shutdown_witness :
    (spacemit_i2c_xfer sample_consts (sample_env quiet_attempt)
        { fifo_dev with shutdown := true } [write_msg 1]).events
      = [Event.call Callee.mutex_lock, Event.call Callee.mutex_unlock] :=
  (xfer_shutdown sample_consts (sample_env quiet_attempt) { fifo_dev with shutdown := true }
    [write_msg 1] rfl (by decide) rfl).2.2

/-! ## Copy-out of received data: order and mode equivalence -/

theorem fifo_copy_msg_reads (rfifo : Nat → Nat) (cnt : Nat) (m : i2c_msg) (n : Nat) :
    (fifo_copy_msg rfifo cnt m n).2 = n + cnt := by
  induction cnt generalizing m n with
  | zero => rfl
  | succ k ih => simp only [fifo_copy_msg, ih]; omega

theorem fifo_copy_msg_frame (rfifo : Nat → Nat) (cnt : Nat) (m : i2c_msg) (n : Nat) :
    (fifo_copy_msg rfifo cnt m n).1.addr = m.addr
    ∧ (fifo_copy_msg rfifo cnt m n).1.flags = m.flags
    ∧ (fifo_copy_msg rfifo cnt m n).1.len = m.len
    ∧ (fifo_copy_msg rfifo cnt m n).1.buf.length = m.buf.length := by
  induction cnt generalizing m n with
  | zero => exact ⟨rfl, rfl, rfl, rfl⟩
  | succ k ih =>
    simp only [fifo_copy_msg]
    obtain ⟨h1, h2, h3, h4⟩ := ih { m with buf := buf_store m.buf (m.len - (k + 1)) (rfifo n) } (n + 1)
    refine ⟨h1, h2, h3, ?_⟩
    rw [h4]; simp [buf_store]

theorem buf_store_take_succ (buf : List Nat) (i v : Nat) (h : i < buf.length) :
    (buf_store buf i v).take (i + 1) = buf.take i ++ [v % 256] := by
  unfold buf_store
  rw [List.set_eq_take_append_cons_drop, if_pos h]
  rw [List.take_append_eq_append_take]
  simp [List.length_take, Nat.min_eq_left (Nat.le_of_lt h)]

theorem buf_store_drop (buf : List Nat) (i v k : Nat) (h : i < k) :
    (buf_store buf i v).drop k = buf.drop k := by
  unfold buf_store
  rw [List.drop_set_of_lt _ _ h]

theorem fifo_copy_msg_buf (rfifo : Nat → Nat) (cnt : Nat) (m : i2c_msg) (n : Nat)
    (h1 : cnt ≤ m.len) (h2 : m.len ≤ m.buf.length) :
    (fifo_copy_msg rfifo cnt m n).1.buf
      = m.buf.take (m.len - cnt) ++ (List.range cnt).map (fun j => rfifo (n + j) % 256)
          ++ m.buf.drop m.len := by
  induction cnt generalizing m n with
  | zero => simp [fifo_copy_msg]
  | succ k ih =>
    simp only [fifo_copy_msg]
    rw [ih _ _ (by simpa using (by omega : k ≤ m.len)) (by simpa [buf_store] using h2)]
    simp only
    have e : m.len - k = (m.len - (k + 1)) + 1 := by omega
    rw [e, buf_store_take_succ _ _ _ (by omega), buf_store_drop _ _ _ _ (by omega)]
    rw [List.range_succ_eq_map]
    simp [List.map_map, Function.comp_def, Nat.add_assoc, Nat.add_comm 1]

theorem fifo_copy_buffer_frame (rfifo : Nat → Nat) (msgs : List i2c_msg) (n : Nat) :
    List.Forall₂
      (fun m r => r.addr = m.addr ∧ r.flags = m.flags ∧ r.len = m.len
        ∧ r.buf.length = m.buf.length ∧ (is_read m = false → r = m))
      msgs (spacemit_i2c_fifo_xfer_copy_buffer rfifo msgs n).1 := by
  induction msgs generalizing n with
  | nil => exact List.Forall₂.nil
  | cons m ms ih =>
    by_cases hrd : m.flags &&& I2C_M_RD ≠ 0
    · simp only [spacemit_i2c_fifo_xfer_copy_buffer, if_pos hrd]
      obtain ⟨h1, h2, h3, h4⟩ := fifo_copy_msg_frame rfifo m.len m n
      exact List.Forall₂.cons ⟨h1, h2, h3, h4, by simp [is_read, hrd]⟩ (ih _)
    · simp only [spacemit_i2c_fifo_xfer_copy_buffer, if_neg hrd]
      exact List.Forall₂.cons ⟨rfl, rfl, rfl, rfl, fun _ => rfl⟩ (ih _)

theorem fifo_copy_buffer_stream (rfifo : Nat → Nat) (msgs : List i2c_msg) (n : Nat)
    (hbuf : ∀ m ∈ msgs, is_read m = true → m.len ≤ m.buf.length) :
    (spacemit_i2c_fifo_xfer_copy_buffer rfifo msgs n).2 = n + rx_bytes msgs
    ∧ (((spacemit_i2c_fifo_xfer_copy_buffer rfifo msgs n).1.filter is_read).map
          (fun m => m.buf.take m.len)).flatten
        = (List.range (rx_bytes msgs)).map (fun k => rfifo (n + k) % 256) := by
  induction msgs generalizing n with
  | nil => simp [spacemit_i2c_fifo_xfer_copy_buffer, rx_bytes]
  | cons m ms ih =>
    have ih2 := fun k => ih k (fun x hx => hbuf x (List.mem_cons_of_mem _ hx))
    by_cases hrd : m.flags &&& I2C_M_RD ≠ 0
    · have hr : is_read m = true := by simp [is_read, hrd]
      have hlen := hbuf m (List.mem_cons_self _ _) hr
      obtain ⟨h1, h2, h3, h4⟩ := fifo_copy_msg_frame rfifo m.len m n
      have hr2 : is_read (fifo_copy_msg rfifo m.len m n).1 = true := by
        simp only [is_read, h2]; exact hr
      have hb := fifo_copy_msg_buf rfifo m.len m n (Nat.le_refl _) hlen
      simp only [spacemit_i2c_fifo_xfer_copy_buffer, if_pos hrd, fifo_copy_msg_reads]
      obtain ⟨i1, i2⟩ := ih2 (n + m.len)
      refine ⟨?_, ?_⟩
      · rw [i1]; simp [rx_bytes, List.filter_cons, hr]; omega
      · rw [List.filter_cons, if_pos hr2, List.map_cons, List.flatten_cons, i2, h3, hb]
        have e : rx_bytes (m :: ms) = m.len + rx_bytes ms := by
          simp [rx_bytes, List.filter_cons, hr]
        rw [e, List.range_add]
        simp [List.map_map, Function.comp_def, Nat.add_assoc]
    · have hr : is_read m = false := by simp [is_read] at hrd ⊢; exact hrd
      simp only [spacemit_i2c_fifo_xfer_copy_buffer, if_neg hrd]
      obtain ⟨i1, i2⟩ := ih2 n
      have e : rx_bytes (m :: ms) = rx_bytes ms := by
        simp [rx_bytes, List.filter_cons, hr]
      refine ⟨by rw [i1, e], ?_⟩
      rw [List.filter_cons, hr, e]
      simpa using i2

/-- C16: for every message list whose read buffers hold at least `len` bytes,
`spacemit_i2c_fifo_xfer_copy_buffer` reads the RX FIFO exactly `rx_bytes msgs`
times (the sum of `len` over the read messages); the concatenation, in message
order, of the first `len` bytes of the read buffers is the sequence of the values
read, each truncated to 8 bits, in the order read; address, flags, length and
buffer size of every message are kept, and a write message is left unchanged. -/
theorem fifo_xfer_copy_buffer_order (rfifo : Nat → Nat) (msgs : List i2c_msg)
    (hbuf : ∀ m ∈ msgs, is_read m = true → m.len ≤ m.buf.length) :
    (spacemit_i2c_fifo_xfer_copy_buffer rfifo msgs 0).2 = rx_bytes msgs
    ∧ (((spacemit_i2c_fifo_xfer_copy_buffer rfifo msgs 0).1.filter is_read).map
          (fun m => m.buf.take m.len)).flatten
        = (List.range (rx_bytes msgs)).map (fun k => rfifo k % 256)
    ∧ List.Forall₂
        (fun m r => r.addr = m.addr ∧ r.flags = m.flags ∧ r.len = m.len
          ∧ r.buf.length = m.buf.length ∧ (is_read m = false → r = m))
        msgs (spacemit_i2c_fifo_xfer_copy_buffer rfifo msgs 0).1 := by
  obtain ⟨h1, h2⟩ := fifo_copy_buffer_stream rfifo msgs 0 hbuf
  refine ⟨by simpa using h1, ?_, fifo_copy_buffer_frame rfifo msgs 0⟩
  simpa using h2

/-- Witness of C16: a write and two reads, five values read. -/
theorem fifo_xfer_copy_buffer_order_witness :
    (∀ m ∈ copy_msgs, is_read m = true → m.len ≤ m.buf.length)
    ∧ (spacemit_i2c_fifo_xfer_copy_buffer sample_stream copy_msgs 0).2 = rx_bytes copy_msgs
    ∧ (((spacemit_i2c_fifo_xfer_copy_buffer sample_stream copy_msgs 0).1.filter is_read).map
          (fun m => m.buf.take m.len)).flatten
        = (List.range (rx_bytes copy_msgs)).map (fun k => sample_stream k % 256)
    ∧ List.Forall₂
        (fun m r => r.addr = m.addr ∧ r.flags = m.flags ∧ r.len = m.len
          ∧ r.buf.length = m.buf.length ∧ (is_read m = false → r = m))
        copy_msgs (spacemit_i2c_fifo_xfer_copy_buffer sample_stream copy_msgs 0).1 :=
  ⟨by decide, fifo_xfer_copy_buffer_order sample_stream copy_msgs (by decide)⟩

theorem dma_copy_total_eq (msgs : List i2c_msg) (total : Nat) :
    dma_copy_total msgs total = total + rx_bytes msgs := by
  induction msgs generalizing total with
  | nil => simp [dma_copy_total, rx_bytes]
  | cons m ms ih =>
    by_cases hrd : m.flags &&& I2C_M_RD ≠ 0
    · have hr : is_read m = true := by simp [is_read, hrd]
      simp only [dma_copy_total, if_pos hrd, ih]
      simp [rx_bytes, List.filter_cons, hr]; omega
    · have hr : is_read m = false := by simp [is_read] at hrd ⊢; exact hrd
      simp only [dma_copy_total, if_neg hrd, ih]
      simp [rx_bytes, List.filter_cons, hr]

theorem and_ff_mod (x : Nat) : (x &&& 0xff) % 256 = x % 256 := by
  have h := Nat.and_pow_two_sub_one_eq_mod x 8
  have e : (2 : Nat) ^ 8 - 1 = 0xff := by decide
  rw [e] at h
  rw [h]; exact Nat.mod_mod _ _

theorem dma_copy_msg_eq (total : Nat) (rx_dma_buf rfifo s : Nat → Nat) (todo : Nat)
    (m : i2c_msg) (cnt : Nat)
    (hdma : ∀ k, cnt ≤ k → k < cnt + todo → k < total → rx_dma_buf k = s k)
    (hfifo : ∀ k, cnt ≤ k → k < cnt + todo → total ≤ k → rfifo (k - total) = s k) :
    dma_copy_msg total rx_dma_buf rfifo todo m cnt (cnt - total)
      = ((fifo_copy_msg s todo m cnt).1, cnt + todo, cnt + todo - total) := by
  induction todo generalizing m cnt with
  | zero => rfl
  | succ t ih =>
    have ih2 := fun m2 => ih m2 (cnt + 1)
      (fun k h1 h2 h3 => hdma k (by omega) (by omega) h3)
      (fun k h1 h2 h3 => hfifo k (by omega) (by omega) h3)
    by_cases hlt : cnt < total
    · have e : cnt - total = cnt + 1 - total := by omega
      simp only [dma_copy_msg, if_pos hlt, fifo_copy_msg]
      rw [e, ih2, hdma cnt (Nat.le_refl _) (by omega) hlt]
      simp only [Prod.mk.injEq, true_and]
      omega
    · have e : cnt - total + 1 = cnt + 1 - total := by omega
      have hv : buf_store m.buf (m.len - (t + 1)) (rfifo (cnt - total) &&& 0xff)
          = buf_store m.buf (m.len - (t + 1)) (s cnt) := by
        unfold buf_store
        rw [and_ff_mod, hfifo cnt (Nat.le_refl _) (by omega) (by omega)]
      simp only [dma_copy_msg, if_neg hlt, fifo_copy_msg]
      rw [e, ih2, hv]
      simp only [Prod.mk.injEq, true_and]
      omega

theorem dma_copy_msgs_eq (total : Nat) (rx_dma_buf rfifo s : Nat → Nat) (msgs : List i2c_msg)
    (cnt : Nat)
    (hdma : ∀ k, cnt ≤ k → k < cnt + rx_bytes msgs → k < total → rx_dma_buf k = s k)
    (hfifo : ∀ k, cnt ≤ k → k < cnt + rx_bytes msgs → total ≤ k → rfifo (k - total) = s k) :
    dma_copy_msgs total rx_dma_buf rfifo msgs cnt (cnt - total)
      = ((spacemit_i2c_fifo_xfer_copy_buffer s msgs cnt).1, cnt + rx_bytes msgs - total) := by
  induction msgs generalizing cnt with
  | nil => simp [dma_copy_msgs, spacemit_i2c_fifo_xfer_copy_buffer, rx_bytes]
  | cons m ms ih =>
    by_cases hrd : m.flags &&& I2C_M_RD ≠ 0
    · have hr : is_read m = true := by simp [is_read, hrd]
      have e : rx_bytes (m :: ms) = m.len + rx_bytes ms := by
        simp [rx_bytes, List.filter_cons, hr]
      rw [e] at hdma hfifo
      have h1 := dma_copy_msg_eq total rx_dma_buf rfifo s m.len m cnt
        (fun k a b c => hdma k a (by omega) c) (fun k a b c => hfifo k a (by omega) c)
      have h2 := ih (cnt + m.len)
        (fun k a b c => hdma k (by omega) (by omega) c)
        (fun k a b c => hfifo k (by omega) (by omega) c)
      simp only [dma_copy_msgs, if_pos hrd, spacemit_i2c_fifo_xfer_copy_buffer, h1, h2,
        fifo_copy_msg_reads, e, Nat.add_assoc]
    · have hr : is_read m = false := by simp [is_read] at hrd ⊢; exact hrd
      have e : rx_bytes (m :: ms) = rx_bytes ms := by
        simp [rx_bytes, List.filter_cons, hr]
      rw [e] at hdma hfifo
      simp only [dma_copy_msgs, if_neg hrd, spacemit_i2c_fifo_xfer_copy_buffer, ih cnt hdma hfifo, e]

/-- C17: let `R = rx_bytes msgs` and `T = R - R % SPACEMIT_I2C_RX_FIFO_DEPTH`. For
every stream `s`, if `rx_dma_buf` holds `s[0..T)` and the RX FIFO delivers
`s[T..R)`, then `spacemit_i2c_dma_copy_buffer` leaves exactly the messages that
`spacemit_i2c_fifo_xfer_copy_buffer` leaves when the RX FIFO delivers all of `s`,
and it reads the RX FIFO exactly `R % depth` times: not at all when the depth
divides `R`. -/
theorem dma_copy_buffer_eq_fifo (c : Consts) (s rx_dma_buf rfifo : Nat → Nat)
    (msgs : List i2c_msg)
    (hdma : ∀ k, k < rx_bytes msgs - rx_bytes msgs % c.SPACEMIT_I2C_RX_FIFO_DEPTH →
      rx_dma_buf k = s k)
    (hfifo : ∀ j, rx_bytes msgs - rx_bytes msgs % c.SPACEMIT_I2C_RX_FIFO_DEPTH + j
        < rx_bytes msgs →
      rfifo j = s (rx_bytes msgs - rx_bytes msgs % c.SPACEMIT_I2C_RX_FIFO_DEPTH + j)) :
    (spacemit_i2c_dma_copy_buffer c rx_dma_buf rfifo msgs).1
        = (spacemit_i2c_fifo_xfer_copy_buffer s msgs 0).1
    ∧ (spacemit_i2c_dma_copy_buffer c rx_dma_buf rfifo msgs).2
        = rx_bytes msgs % c.SPACEMIT_I2C_RX_FIFO_DEPTH
    ∧ (c.SPACEMIT_I2C_RX_FIFO_DEPTH ∣ rx_bytes msgs →
        (spacemit_i2c_dma_copy_buffer c rx_dma_buf rfifo msgs).2 = 0) := by
  have hle : rx_bytes msgs % c.SPACEMIT_I2C_RX_FIFO_DEPTH ≤ rx_bytes msgs := Nat.mod_le _ _
  have h := dma_copy_msgs_eq
    (rx_bytes msgs - rx_bytes msgs % c.SPACEMIT_I2C_RX_FIFO_DEPTH) rx_dma_buf rfifo s msgs 0
    (fun k _ _ hk => hdma k hk)
    (fun k _ h2 h3 => by
      have := hfifo (k - (rx_bytes msgs - rx_bytes msgs % c.SPACEMIT_I2C_RX_FIFO_DEPTH))
        (by omega)
      rw [this]; congr 1; omega)
  have e : spacemit_i2c_dma_copy_buffer c rx_dma_buf rfifo msgs
      = ((spacemit_i2c_fifo_xfer_copy_buffer s msgs 0).1,
          rx_bytes msgs % c.SPACEMIT_I2C_RX_FIFO_DEPTH) := by
    unfold spacemit_i2c_dma_copy_buffer
    rw [dma_copy_total_eq, Nat.zero_add]
    rw [Nat.zero_sub, Nat.zero_add] at h
    rw [h]
    simp only [Prod.mk.injEq, true_and]
    omega
  rw [e]
  exact ⟨rfl, rfl, fun hd => Nat.mod_eq_zero_of_dvd hd⟩

/-- Witness of C17: 11 bytes to receive with a FIFO depth of 8: the first 8 come
from the DMA buffer, the last 3 from the RX FIFO. -/
theorem dma_copy_buffer_eq_fifo_witness :
    (spacemit_i2c_dma_copy_buffer sample_consts sample_stream
        (fun j => sample_stream (8 + j)) copy_msgs).1
        = (spacemit_i2c_fifo_xfer_copy_buffer sample_stream copy_msgs 0).1
    ∧ (spacemit_i2c_dma_copy_buffer sample_consts sample_stream
        (fun j => sample_stream (8 + j)) copy_msgs).2 = 3 :=
  ⟨(dma_copy_buffer_eq_fifo sample_consts sample_stream sample_stream
      (fun j => sample_stream (8 + j)) copy_msgs (fun _ _ => rfl) (fun _ _ => rfl)).1,
   (dma_copy_buffer_eq_fifo sample_consts sample_stream sample_stream
      (fun j => sample_stream (8 + j)) copy_msgs (fun _ _ => rfl) (fun _ _ => rfl)).2.1⟩

/-! ## RX scatter list -/

theorem dma_xfer_rx_sg_done (map_ok : Nat → Bool) (ms : List i2c_msg) (s : Nat)
    (sg : List sg_entry) : dma_xfer_rx_sg map_ok ms 0 s sg = (sg, true) := by
  induction ms with
  | nil => rfl
  | cons m ms ih =>
    by_cases hrd : m.flags &&& I2C_M_RD ≠ 0
    · simp only [dma_xfer_rx_sg, if_pos hrd, ne_eq, not_true_eq_false, if_false, ih]
    · simp only [dma_xfer_rx_sg, if_neg hrd, ih]

theorem dma_xfer_rx_sg_spec (map_ok : Nat → Bool) (hmap : ∀ k, map_ok k = true) (T : Nat)
    (ms : List i2c_msg) (s : Nat) (sg : List sg_entry) (hs : s < T) (hT : T ≤ s + rx_bytes ms) :
    ∃ new, dma_xfer_rx_sg map_ok ms T s sg = (sg ++ new, true)
      ∧ (new.map (fun e => e.len)).sum = (T : Int) - (s : Int)
      ∧ ∀ k e, new[k]? = some e →
          e.start = s + (((ms.filter is_read).take k).map (fun m => m.len)).sum
          ∧ e.start < T ∧ 0 ≤ e.len ∧ (e.start : Int) + e.len ≤ (T : Int) := by
  induction ms generalizing s sg with
  | nil => simp [rx_bytes] at hT; omega
  | cons m ms ih =>
    by_cases hrd : m.flags &&& I2C_M_RD ≠ 0
    · have hr : is_read m = true := by simp [is_read, hrd]
      have e : rx_bytes (m :: ms) = m.len + rx_bytes ms := by
        simp [rx_bytes, List.filter_cons, hr]
      rw [e] at hT
      have hT0 : T ≠ 0 := by omega
      by_cases hlt : s + m.len < T
      · obtain ⟨new, h1, h2, h3⟩ := ih (s + m.len) (sg ++ [{ start := s, len := (m.len : Int) }])
          hlt (by omega)
        refine ⟨{ start := s, len := (m.len : Int) } :: new, ?_, ?_, ?_⟩
        · simp only [dma_xfer_rx_sg, if_pos hrd, if_pos hT0, hmap, if_true,
            spacemit_i2c_map_rx_sg, if_pos hlt, h1, List.append_assoc, List.singleton_append]
        · simp only [List.map_cons, List.sum_cons, h2]; push_cast; ring
        · intro k x hk
          cases k with
          | zero =>
            simp only [List.getElem?_cons_zero, Option.some.injEq] at hk
            subst hk
            simp; omega
          | succ k =>
            simp only [List.getElem?_cons_succ] at hk
            obtain ⟨a, b, c, d⟩ := h3 k x hk
            refine ⟨?_, b, c, d⟩
            rw [a, List.filter_cons, if_pos hr]
            simp [Nat.add_assoc]
      · refine ⟨[sg_entry.mk s ((m.len : Int) - ((s + m.len : Nat) : Int) + (T : Int))],
          ?_, ?_, ?_⟩
        · simp only [dma_xfer_rx_sg, if_pos hrd, if_pos hT0, hmap, if_true,
            spacemit_i2c_map_rx_sg, if_neg hlt, dma_xfer_rx_sg_done]
        · simp; ring
        · intro k x hk
          cases k with
          | zero =>
            simp only [List.getElem?_cons_zero, Option.some.injEq] at hk
            subst hk
            simp; omega
          | succ k => simp at hk
    · have hr : is_read m = false := by simp [is_read] at hrd ⊢; exact hrd
      have e : rx_bytes (m :: ms) = rx_bytes ms := by
        simp [rx_bytes, List.filter_cons, hr]
      rw [e] at hT
      obtain ⟨new, h1, h2, h3⟩ := ih s sg hs hT
      refine ⟨new, ?_, h2, ?_⟩
      · simp only [dma_xfer_rx_sg, if_neg hrd, h1]
      · intro k x hk
        rw [List.filter_cons, hr]
        exact h3 k x hk

/-- C18: when every mapping succeeds and the field `rx_total` holds the total
read length `R`, the RX scatter list built by `spacemit_i2c_dma_xfer` has entry
lengths summing to `T = R - R % SPACEMIT_I2C_RX_FIFO_DEPTH`; entry `k` starts at
the sum of the lengths of the `k` earlier read messages, starts before `T`
(nothing is built once `T` is reached) and ends within `T`; the list is empty
when `R` is smaller than the depth; and, for a positive depth, `T` is the
largest multiple of the depth not exceeding `R`. -/
theorem dma_xfer_rx_sg_sizing (c : Consts) (map_ok : Nat → Bool) (d : spacemit_i2c_dev)
    (hmap : ∀ k, map_ok k = true) (hrx : d.rx_total = rx_bytes d.msgs) :
    (spacemit_i2c_dma_xfer_rx_sg c map_ok d).2 = true
    ∧ (((spacemit_i2c_dma_xfer_rx_sg c map_ok d).1.map (fun e => e.len)).sum
        = ((rx_bytes d.msgs - rx_bytes d.msgs % c.SPACEMIT_I2C_RX_FIFO_DEPTH : Nat) : Int))
    ∧ (∀ k e, (spacemit_i2c_dma_xfer_rx_sg c map_ok d).1[k]? = some e →
        e.start = (((d.msgs.filter is_read).take k).map (fun m => m.len)).sum
        ∧ e.start < rx_bytes d.msgs - rx_bytes d.msgs % c.SPACEMIT_I2C_RX_FIFO_DEPTH
        ∧ 0 ≤ e.len
        ∧ (e.start : Int) + e.len
            ≤ ((rx_bytes d.msgs - rx_bytes d.msgs % c.SPACEMIT_I2C_RX_FIFO_DEPTH : Nat) : Int))
    ∧ (rx_bytes d.msgs < c.SPACEMIT_I2C_RX_FIFO_DEPTH →
        (spacemit_i2c_dma_xfer_rx_sg c map_ok d).1 = [])
    ∧ (0 < c.SPACEMIT_I2C_RX_FIFO_DEPTH →
        c.SPACEMIT_I2C_RX_FIFO_DEPTH
            ∣ rx_bytes d.msgs - rx_bytes d.msgs % c.SPACEMIT_I2C_RX_FIFO_DEPTH
        ∧ rx_bytes d.msgs - rx_bytes d.msgs % c.SPACEMIT_I2C_RX_FIFO_DEPTH ≤ rx_bytes d.msgs
        ∧ rx_bytes d.msgs
            < rx_bytes d.msgs - rx_bytes d.msgs % c.SPACEMIT_I2C_RX_FIFO_DEPTH
                + c.SPACEMIT_I2C_RX_FIFO_DEPTH) := by
  unfold spacemit_i2c_dma_xfer_rx_sg
  rw [hrx]
  generalize hT : rx_bytes d.msgs - rx_bytes d.msgs % c.SPACEMIT_I2C_RX_FIFO_DEPTH = T
  have hle : rx_bytes d.msgs % c.SPACEMIT_I2C_RX_FIFO_DEPTH ≤ rx_bytes d.msgs := Nat.mod_le _ _
  have last : 0 < c.SPACEMIT_I2C_RX_FIFO_DEPTH →
      c.SPACEMIT_I2C_RX_FIFO_DEPTH ∣ T ∧ T ≤ rx_bytes d.msgs
        ∧ rx_bytes d.msgs < T + c.SPACEMIT_I2C_RX_FIFO_DEPTH := by
    intro hpos
    have hm := Nat.mod_lt (rx_bytes d.msgs) hpos
    refine ⟨?_, by omega, by omega⟩
    rw [← hT]
    exact Nat.dvd_sub_mod _
  by_cases h0 : T = 0
  · subst h0
    rw [dma_xfer_rx_sg_done]
    refine ⟨rfl, by simp, ?_, fun _ => rfl, last⟩
    intro k e hk; simp at hk
  · obtain ⟨new, h1, h2, h3⟩ := dma_xfer_rx_sg_spec map_ok hmap T d.msgs 0 []
      (Nat.pos_of_ne_zero h0) (by omega)
    rw [h1]
    refine ⟨rfl, by simpa using h2, ?_, ?_, last⟩
    · intro k e hk
      obtain ⟨a, b, c, d⟩ := h3 k e (by simpa using hk)
      exact ⟨by simpa using a, b, c, d⟩
    · intro hlt
      exfalso
      rw [Nat.mod_eq_of_lt hlt] at hT
      omega

/-- Witness of C18: reads of 5, 11, 9 and 3 bytes with a depth of 8: entries of
5, 11 and 8 bytes, 24 in total, and none for the last read. -/
theorem dma_xfer_rx_sg_sizing_witness :
    sg_dev.rx_total = rx_bytes sg_dev.msgs
    ∧ (spacemit_i2c_dma_xfer_rx_sg sample_consts (fun _ => true) sg_dev).2 = true
    ∧ ((spacemit_i2c_dma_xfer_rx_sg sample_consts (fun _ => true) sg_dev).1.map
          (fun e => e.len)).sum
        = ((rx_bytes sg_dev.msgs
            - rx_bytes sg_dev.msgs % sample_consts.SPACEMIT_I2C_RX_FIFO_DEPTH : Nat) : Int) :=
  ⟨by decide,
   (dma_xfer_rx_sg_sizing sample_consts (fun _ => true) sg_dev (fun _ => rfl) (by decide)).1,
   (dma_xfer_rx_sg_sizing sample_consts (fun _ => true) sg_dev (fun _ => rfl) (by decide)).2.1⟩

/-! ## Byte engine: the current message -/

theorem cur_msg_of_lt (d : spacemit_i2c_dev) (h : d.msg_idx < d.msgs.length) :
    d.msgs[d.msg_idx]? = some (cur_msg d) := by
  unfold cur_msg
  rw [List.getD_eq_getElem?_getD, List.getElem?_eq_getElem h]
  rfl

theorem cur_msg_store (d : spacemit_i2c_dev) (v : Nat) (h : d.msg_idx < d.msgs.length) :
    cur_msg (store_msg_buf d v)
      = { cur_msg d with buf := buf_store (cur_msg d).buf d.msg_buf v } := by
  simp [cur_msg, store_msg_buf, List.getD_eq_getElem?_getD, h]

theorem cur_msg_store_len (d : spacemit_i2c_dev) (v : Nat) :
    (cur_msg (store_msg_buf d v)).len = (cur_msg d).len := by
  by_cases h : d.msg_idx < d.msgs.length
  · rw [cur_msg_store d v h]
  · simp [cur_msg, store_msg_buf, List.set_eq_of_length_le (Nat.le_of_not_lt h)]

theorem cur_msg_store_flags (d : spacemit_i2c_dev) (v : Nat) :
    (cur_msg (store_msg_buf d v)).flags = (cur_msg d).flags := by
  by_cases h : d.msg_idx < d.msgs.length
  · rw [cur_msg_store d v h]
  · simp [cur_msg, store_msg_buf, List.set_eq_of_length_le (Nat.le_of_not_lt h)]

theorem cur_msg_set_len (d : spacemit_i2c_dev) (n : Nat) (h : d.msg_idx < d.msgs.length) :
    cur_msg (set_cur_len d n) = { cur_msg d with len := n } := by
  simp [cur_msg, set_cur_len, List.getD_eq_getElem?_getD, h]

theorem cur_msg_set_len_flags (d : spacemit_i2c_dev) (n : Nat) :
    (cur_msg (set_cur_len d n)).flags = (cur_msg d).flags := by
  by_cases h : d.msg_idx < d.msgs.length
  · rw [cur_msg_set_len d n h]
  · simp [cur_msg, set_cur_len, List.set_eq_of_length_le (Nat.le_of_not_lt h)]

/-- The length byte out of range: what `spacemit_i2c_byte_xfer_body` does. -/
theorem body_invalid_len (c : Consts) (hw : Hw) (e : Engine)
    (hirf : e.dev.i2c_status &&& c.SR_IRF ≠ 0) (hrx : e.dev.is_rx = true)
    (hflag : (cur_msg e.dev).flags &&& I2C_M_RECV_LEN ≠ 0)
    (hrcv : e.dev.smbus_rcv_len = false)
    (hbad : hw.dbr e.dbr_reads % 256 = 0 ∨ hw.dbr e.dbr_reads % 256 > I2C_SMBUS_BLOCK_MAX) :
    spacemit_i2c_byte_xfer_body c hw e
      = (0,
          { dev :=
              { store_msg_buf
                  { e.dev with phase := SPACEMIT_I2C_XFER_BODY, smbus_rcv_len := true } 0 with
                rx_cnt := (cur_msg e.dev).len }
            events := e.events ++
              [Event.write_reg REG_CR
                (body_cr_val c hw e ||| (c.CR_STOP ||| c.CR_ACKNAK) ||| (c.CR_ALDIE ||| c.CR_TB))]
            cr_reads := e.cr_reads + 1
            dbr_reads := e.dbr_reads + 1 }) := by
  have h1 : (cur_msg (body_entry e).dev).flags &&& I2C_M_RECV_LEN ≠ 0
      ∧ (body_entry e).dev.smbus_rcv_len = false := ⟨hflag, hrcv⟩
  have hbad2 : hw.dbr (body_entry e).dbr_reads % 256 = 0
      ∨ hw.dbr (body_entry e).dbr_reads % 256 > I2C_SMBUS_BLOCK_MAX := hbad
  unfold spacemit_i2c_byte_xfer_body body_core
  rw [if_pos hirf, if_neg (by simp [hrx])]
  unfold body_rx_store
  simp only [if_pos h1, if_pos hbad2, if_true]
  rfl
theorem store_msg_buf_length (d : spacemit_i2c_dev) (v : Nat) :
    (store_msg_buf d v).msgs.length = d.msgs.length := by
  simp [store_msg_buf]

theorem set_cur_len_length (d : spacemit_i2c_dev) (n : Nat) :
    (set_cur_len d n).msgs.length = d.msgs.length := by
  simp [set_cur_len]


theorem cur_msg_len_store (d : spacemit_i2c_dev) (v n : Nat) (h : d.msg_idx < d.msgs.length) :
    cur_msg (set_cur_len (store_msg_buf d v) n)
      = { cur_msg d with buf := buf_store (cur_msg d).buf d.msg_buf v, len := n } := by
  rw [cur_msg_set_len _ _ (by rw [store_msg_buf_length]; exact h), cur_msg_store d v h]

/-! ## Byte engine: the call cycle and the error policy -/

/-- After the reset made by `spacemit_i2c_byte_xfer_next_msg` the phase is idle and
no error is latched, so `spacemit_i2c_byte_xfer` does not reach the body. -/
theorem byte_xfer_core_idle (body1 body2 : Engine → Int × Engine) (c : Consts) (hw : Hw)
    (e : Engine) (h : e.dev.phase = SPACEMIT_I2C_XFER_IDLE) :
    byte_xfer_core body1 c hw e = byte_xfer_core body2 c hw e := by
  unfold byte_xfer_core
  simp [h]

theorem mark_rw_flag_phase (d : spacemit_i2c_dev) :
    (spacemit_i2c_mark_rw_flag d).phase = d.phase := by
  unfold spacemit_i2c_mark_rw_flag
  split
  · split <;> rfl
  · rfl

/-- The equation of the source for `spacemit_i2c_byte_xfer_next_msg`: it ends
with a call of `spacemit_i2c_byte_xfer`. -/
theorem byte_xfer_next_msg_eq (c : Consts) (hw : Hw) (e : Engine) :
    spacemit_i2c_byte_xfer_next_msg c hw e
      = next_msg_core (spacemit_i2c_byte_xfer c hw) e := by
  unfold spacemit_i2c_byte_xfer_next_msg next_msg_core spacemit_i2c_byte_xfer
  split
  · rfl
  · apply byte_xfer_core_idle
    rw [mark_rw_flag_phase]

theorem byte_xfer_err (c : Consts) (hw : Hw) (e : Engine) (h : e.dev.i2c_err ≠ 0) :
    spacemit_i2c_byte_xfer c hw e = (-1, e) := by
  unfold spacemit_i2c_byte_xfer byte_xfer_core
  rw [if_pos h]

theorem int_handler_err (c : Consts) (hw : Hw) (status : Nat) (e : Engine)
    (hslave : e.dev.slave = false)
    (herr : status &&& (c.SR_BED ||| c.SR_RXOV ||| c.SR_ALD) ≠ 0) :
    spacemit_i2c_int_handler c hw status e
      = { e with
          dev := { e.dev with
            i2c_status := status
            i2c_err := status &&& (c.SR_BED ||| c.SR_RXOV ||| c.SR_ALD) }
          cr_reads := e.cr_reads + 1
          events := e.events ++
            [Event.write_reg REG_SR (status &&& c.SPACEMIT_I2C_INT_STATUS_MASK),
             Event.write_reg REG_CR (and_not (hw.cr e.cr_reads) c.SPACEMIT_I2C_INT_CTRL_MASK),
             Event.write_reg REG_SR
              (c.SPACEMIT_I2C_INT_STATUS_MASK &&& c.SPACEMIT_I2C_INT_STATUS_MASK),
             Event.call Callee.complete] } := by
  have h0 : status ≠ 0 := and_ne_zero_left _ _ herr
  unfold spacemit_i2c_int_handler
  rw [if_neg h0, if_neg (by simp [hslave])]
  unfold int_handler_engine int_handler_complete reg_write
  simp [herr]

theorem dbr_writes_append (a b : List Event) :
    dbr_writes (a ++ b) = dbr_writes a ++ dbr_writes b := by
  induction a with
  | nil => rfl
  | cons ev a ih =>
    cases ev with
    | write_reg reg val => cases reg <;> simp [dbr_writes, ih]
    | udelay u => simp [dbr_writes, ih]
    | usleep_range lo hi => simp [dbr_writes, ih]
    | call f => simp [dbr_writes, ih]

theorem cr_writes_append (a b : List Event) :
    cr_writes (a ++ b) = cr_writes a ++ cr_writes b := by
  induction a with
  | nil => rfl
  | cons ev a ih =>
    cases ev with
    | write_reg reg val => cases reg <;> simp [cr_writes, ih]
    | udelay u => simp [cr_writes, ih]
    | usleep_range lo hi => simp [cr_writes, ih]
    | call f => simp [cr_writes, ih]

theorem and_not_and_self (x m : Nat) : and_not x m &&& m = 0 := by
  apply Nat.eq_of_testBit_eq
  intro i
  simp only [and_not, Nat.testBit_and, Nat.testBit_xor, Nat.zero_testBit]
  cases x.testBit i <;> cases m.testBit i <;> rfl

/-- C19: with an error latched on entry, `spacemit_i2c_byte_xfer` returns -1 and
leaves the whole engine state as it was: no register written or read, phase,
message index, cursors and buffers unchanged. And when `spacemit_i2c_int_handler`
reads, in master mode, a status with `SR_BED`, `SR_RXOV` or `SR_ALD`, the events
it adds are exactly four: the status cleared, one write of `REG_CR`, the status
cleared again, completion signalled. So no call of the byte engine is recorded
and `REG_DBR` is neither written nor read; the one value written to `REG_CR` is
the value read with the bits of `SPACEMIT_I2C_INT_CTRL_MASK` cleared; and the
device differs from the one before only by the latched status and error, so
phase, `msg_idx`, `rx_cnt`, `tx_cnt` and the messages are kept. -/
theorem engine_error_policy (c : Consts) (hw : Hw) (status : Nat) (e : Engine) :
    (e.dev.i2c_err ≠ 0 → spacemit_i2c_byte_xfer c hw e = (-1, e))
    ∧ (e.dev.slave = false →
        (status &&& c.SR_BED ≠ 0 ∨ status &&& c.SR_RXOV ≠ 0 ∨ status &&& c.SR_ALD ≠ 0) →
        (spacemit_i2c_int_handler c hw status e).events
            = e.events ++
              [Event.write_reg REG_SR (status &&& c.SPACEMIT_I2C_INT_STATUS_MASK),
               Event.write_reg REG_CR
                (and_not (hw.cr e.cr_reads) c.SPACEMIT_I2C_INT_CTRL_MASK),
               Event.write_reg REG_SR
                (c.SPACEMIT_I2C_INT_STATUS_MASK &&& c.SPACEMIT_I2C_INT_STATUS_MASK),
               Event.call Callee.complete]
          ∧ Event.call Callee.spacemit_i2c_byte_xfer
              ∉ (spacemit_i2c_int_handler c hw status e).events.drop e.events.length
          ∧ dbr_writes (spacemit_i2c_int_handler c hw status e).events = dbr_writes e.events
          ∧ cr_writes (spacemit_i2c_int_handler c hw status e).events
              = cr_writes e.events ++ [and_not (hw.cr e.cr_reads) c.SPACEMIT_I2C_INT_CTRL_MASK]
          ∧ and_not (hw.cr e.cr_reads) c.SPACEMIT_I2C_INT_CTRL_MASK
              &&& c.SPACEMIT_I2C_INT_CTRL_MASK = 0
          ∧ (spacemit_i2c_int_handler c hw status e).dev
            = { e.dev with
                i2c_status := status
                i2c_err := status &&& (c.SR_BED ||| c.SR_RXOV ||| c.SR_ALD) }
          ∧ (spacemit_i2c_int_handler c hw status e).dev.phase = e.dev.phase
          ∧ (spacemit_i2c_int_handler c hw status e).dev.msg_idx = e.dev.msg_idx
          ∧ (spacemit_i2c_int_handler c hw status e).dev.rx_cnt = e.dev.rx_cnt
          ∧ (spacemit_i2c_int_handler c hw status e).dev.tx_cnt = e.dev.tx_cnt
          ∧ (spacemit_i2c_int_handler c hw status e).dev.msgs = e.dev.msgs
          ∧ (spacemit_i2c_int_handler c hw status e).dbr_reads = e.dbr_reads
          ∧ Event.call Callee.complete ∈ (spacemit_i2c_int_handler c hw status e).events) := by
  refine ⟨byte_xfer_err c hw e, ?_⟩
  intro hslave hst
  have herr : status &&& (c.SR_BED ||| c.SR_RXOV ||| c.SR_ALD) ≠ 0 := by
    rw [and_or_ne_zero, and_or_ne_zero]
    tauto
  rw [int_handler_err c hw status e hslave herr]
  refine ⟨rfl, ?_, ?_, ?_, and_not_and_self _ _, rfl, rfl, rfl, rfl, rfl, rfl, rfl, ?_⟩
  · simp
  · show dbr_writes (e.events ++ _) = _
    rw [dbr_writes_append]
    simp [dbr_writes]
  · show cr_writes (e.events ++ _) = _
    rw [cr_writes_append]
    simp [cr_writes]
  · simp

/-- Witness of C19: an engine with a bus error latched, and an interrupt whose
status carries arbitration loss. -/
theorem engine_error_policy_witness :
    spacemit_i2c_byte_xfer sample_consts (bytes_hw []) error_engine = (-1, error_engine)
    ∧ (spacemit_i2c_int_handler sample_consts (bytes_hw []) sample_consts.SR_ALD
        init_engine).events
      = init_engine.events ++
          [Event.write_reg REG_SR
            (sample_consts.SR_ALD &&& sample_consts.SPACEMIT_I2C_INT_STATUS_MASK),
           Event.write_reg REG_CR
            (and_not ((bytes_hw []).cr init_engine.cr_reads)
              sample_consts.SPACEMIT_I2C_INT_CTRL_MASK),
           Event.write_reg REG_SR
            (sample_consts.SPACEMIT_I2C_INT_STATUS_MASK
              &&& sample_consts.SPACEMIT_I2C_INT_STATUS_MASK),
           Event.call Callee.complete] :=
  ⟨(engine_error_policy sample_consts (bytes_hw []) 0 error_engine).1 (by decide),
   ((engine_error_policy sample_consts (bytes_hw []) sample_consts.SR_ALD init_engine).2
      (by decide) (by decide)).1⟩

/-! ## Byte engine: invariants of the transaction context -/

theorem cur_msg_same (d d2 : spacemit_i2c_dev) (h : same_ctx d d2) : cur_msg d2 = cur_msg d := by
  unfold cur_msg
  rw [h.1, h.2.1]

theorem ctx_inv_same (d d2 : spacemit_i2c_dev) (h : same_ctx d d2) (hi : ctx_inv d) :
    ctx_inv d2 := by
  have hc := cur_msg_same d d2 h
  obtain ⟨h1, h2, h3, h4, h5, h6, h7⟩ := h
  constructor
  · rw [h1, h2]; exact hi.idx
  · rw [hc, h3]; exact hi.rx
  · rw [hc, h4]; exact hi.tx
  · rw [h5, h4]; exact hi.rx_only
  · rw [hc, h7, h3]; exact hi.len_pending

theorem ctx_advance_same (d d2 : spacemit_i2c_dev) (h : same_ctx d d2) : ctx_advance d d2 := by
  obtain ⟨h1, h2, h3, h4, h5, h6, h7⟩ := h
  refine ⟨by rw [h1], by rw [h2], ?_⟩
  intro hlt
  rw [h2] at hlt
  exact absurd hlt (Nat.lt_irrefl _)

theorem ctx_advance_of_stay (d d1 d2 : spacemit_i2c_dev)
    (hl : d1.msgs.length = d.msgs.length) (hi : d1.msg_idx = d.msg_idx)
    (h : ctx_advance d1 d2) : ctx_advance d d2 := by
  unfold ctx_advance at h ⊢
  rw [← hl, ← hi]
  exact h

theorem same_ctx_refl (d : spacemit_i2c_dev) : same_ctx d d :=
  ⟨rfl, rfl, rfl, rfl, rfl, rfl, rfl⟩

theorem send_slave_addr_ctx (c : Consts) (hw : Hw) (e : Engine) :
    same_ctx e.dev (spacemit_i2c_byte_xfer_send_slave_addr c hw e).dev :=
  ⟨rfl, rfl, rfl, rfl, rfl, rfl, rfl⟩

theorem send_master_code_ctx (c : Consts) (hw : Hw) (e : Engine) :
    same_ctx e.dev (spacemit_i2c_byte_xfer_send_master_code c hw e).dev :=
  ⟨rfl, rfl, rfl, rfl, rfl, rfl, rfl⟩

/-- What `spacemit_i2c_byte_xfer` does to the context when it does not reach the
body. -/
theorem byte_xfer_core_ctx (body : Engine → Int × Engine) (c : Consts) (hw : Hw) (e : Engine)
    (hb : ctx_inv e.dev → ctx_inv (body e).2.dev ∧ ctx_advance e.dev (body e).2.dev)
    (hi : ctx_inv e.dev) :
    ctx_inv (byte_xfer_core body c hw e).2.dev
    ∧ ctx_advance e.dev (byte_xfer_core body c hw e).2.dev := by
  have hs : ∀ d2, same_ctx e.dev d2 → ctx_inv d2 ∧ ctx_advance e.dev d2 :=
    fun d2 h => ⟨ctx_inv_same _ _ h hi, ctx_advance_same _ _ h⟩
  unfold byte_xfer_core
  split
  · exact hs _ (same_ctx_refl _)
  · split
    · split
      · exact hs _ ⟨rfl, rfl, rfl, rfl, rfl, rfl, rfl⟩
      · exact hs _ ⟨rfl, rfl, rfl, rfl, rfl, rfl, rfl⟩
    · split
      · exact hs _ (send_slave_addr_ctx c hw e)
      · exact hb hi

theorem mark_rw_flag_ctx (d : spacemit_i2c_dev) (h : d.msg_idx < d.msgs.length) :
    (spacemit_i2c_mark_rw_flag d).msgs = d.msgs
    ∧ (spacemit_i2c_mark_rw_flag d).msg_idx = d.msg_idx
    ∧ (spacemit_i2c_mark_rw_flag d).rx_cnt = d.rx_cnt
    ∧ (spacemit_i2c_mark_rw_flag d).tx_cnt = d.tx_cnt
    ∧ (spacemit_i2c_mark_rw_flag d).smbus_rcv_len = d.smbus_rcv_len
    ∧ (spacemit_i2c_mark_rw_flag d).is_rx = decide ((cur_msg d).flags &&& I2C_M_RD ≠ 0)
    ∧ (spacemit_i2c_mark_rw_flag d).slave_addr_rw
        = (if (cur_msg d).flags &&& I2C_M_RD ≠ 0 then (((cur_msg d).addr &&& 0x7f) <<< 1) ||| 1
          else ((cur_msg d).addr &&& 0x7f) <<< 1) := by
  have hc := cur_msg_of_lt d h
  unfold spacemit_i2c_mark_rw_flag
  rw [List.get?_eq_getElem?, hc]
  by_cases hrd : (cur_msg d).flags &&& I2C_M_RD ≠ 0
  · simp only [if_pos hrd]
    simp [hrd]
  · simp only [if_neg hrd]
    simp [hrd]

theorem next_msg_core_ctx (byte_xfer : Engine → Int × Engine) (e : Engine)
    (hsame : ∀ e2, same_ctx e2.dev (byte_xfer e2).2.dev)
    (hi : ctx_inv e.dev) :
    ctx_inv (next_msg_core byte_xfer e).2.dev
    ∧ ctx_advance e.dev (next_msg_core byte_xfer e).2.dev := by
  unfold next_msg_core
  split
  · exact ⟨hi, ctx_advance_same _ _ (same_ctx_refl _)⟩
  · rename_i hne
    have hidx := hi.idx
    have hlt : e.dev.msg_idx + 1 < e.dev.msgs.length := by
      unfold spacemit_i2c_dev.num at hne
      omega
    generalize hd1 : ({ e.dev with
            msg_idx := e.dev.msg_idx + 1
            msg_buf := 0
            rx_cnt := 0
            tx_cnt := 0
            i2c_err := 0
            i2c_status := 0
            smbus_rcv_len := false
            phase := SPACEMIT_I2C_XFER_IDLE } : spacemit_i2c_dev) = d1
    have hd1i : d1.msg_idx = e.dev.msg_idx + 1 := by rw [← hd1]
    have hd1m : d1.msgs = e.dev.msgs := by rw [← hd1]
    have hd1r : d1.rx_cnt = 0 := by rw [← hd1]
    have hd1t : d1.tx_cnt = 0 := by rw [← hd1]
    obtain ⟨m1, m2, m3, m4, m5, m6, m7⟩ := mark_rw_flag_ctx d1 (by rw [hd1i, hd1m]; exact hlt)
    have hcm : cur_msg (spacemit_i2c_mark_rw_flag d1) = cur_msg d1 := by
      unfold cur_msg; rw [m1, m2]
    have hinv : ctx_inv (spacemit_i2c_mark_rw_flag d1) := by
      constructor
      · rw [m1, m2, hd1i, hd1m]; exact hlt
      · rw [m3, hd1r]; exact Nat.zero_le _
      · rw [m4, hd1t]; exact Nat.zero_le _
      · intro _; rw [m4, hd1t]
      · intro _ _; rw [m3, hd1r]
    have hadv : ctx_advance e.dev (spacemit_i2c_mark_rw_flag d1) := by
      refine ⟨by rw [m1, hd1m], by rw [m2, hd1i]; omega, ?_⟩
      intro _
      refine ⟨by rw [m3, hd1r], by rw [m4, hd1t], ?_, ?_⟩
      · rw [m6, hcm]
      · rw [m7, hcm]
    have hs := hsame { e with dev := spacemit_i2c_mark_rw_flag d1 }
    refine ⟨ctx_inv_same _ _ hs hinv, ?_⟩
    have hc2 := cur_msg_same _ _ hs
    obtain ⟨s1, s2, s3, s4, s5, s6, s7⟩ := hs
    obtain ⟨a1, a2, a3⟩ := hadv
    refine ⟨by rw [s1]; exact a1, by rw [s2]; exact a2, ?_⟩
    intro hlt2
    rw [s2] at hlt2
    obtain ⟨b1, b2, b3, b4⟩ := a3 hlt2
    refine ⟨by rw [s3]; exact b1, by rw [s4]; exact b2, ?_, ?_⟩
    · rw [s5, hc2]; exact b3
    · rw [s6, hc2]; exact b4

theorem byte_xfer_stub_ctx (c : Consts) (hw : Hw) (e : Engine) :
    same_ctx e.dev (byte_xfer_core (fun e => (0, e)) c hw e).2.dev := by
  unfold byte_xfer_core
  split
  · exact same_ctx_refl _
  · split
    · split
      · exact ⟨rfl, rfl, rfl, rfl, rfl, rfl, rfl⟩
      · exact ⟨rfl, rfl, rfl, rfl, rfl, rfl, rfl⟩
    · split
      · exact send_slave_addr_ctx c hw e
      · exact same_ctx_refl _

theorem next_msg_ctx (c : Consts) (hw : Hw) (e : Engine) (hi : ctx_inv e.dev) :
    ctx_inv (spacemit_i2c_byte_xfer_next_msg c hw e).2.dev
    ∧ ctx_advance e.dev (spacemit_i2c_byte_xfer_next_msg c hw e).2.dev :=
  next_msg_core_ctx _ e (byte_xfer_stub_ctx c hw) hi

/-- The storing part of the receive-full branch keeps the invariants and the
message index. -/
theorem body_rx_store_ctx (c : Consts) (hw : Hw) (cr_val : Nat) (e : Engine)
    (hrx : e.dev.is_rx = true) (hi : ctx_inv e.dev) :
    ctx_inv (body_rx_store c hw cr_val e).2.dev
    ∧ (body_rx_store c hw cr_val e).2.dev.msgs.length = e.dev.msgs.length
    ∧ (body_rx_store c hw cr_val e).2.dev.msg_idx = e.dev.msg_idx := by
  have hidx := hi.idx
  unfold body_rx_store
  split
  · rename_i hpend
    have hr0 := hi.len_pending hpend.1 hpend.2
    have ht0 := hi.rx_only hrx
    split
    · refine ⟨?_, store_msg_buf_length _ _, rfl⟩
      constructor
      · show e.dev.msg_idx < (store_msg_buf _ 0).msgs.length
        rw [store_msg_buf_length]; exact hidx
      · show (cur_msg e.dev).len ≤ (cur_msg (store_msg_buf _ 0)).len
        rw [cur_msg_store_len]; exact Nat.le_refl _
      · show e.dev.tx_cnt ≤ (cur_msg (store_msg_buf _ 0)).len
        rw [cur_msg_store_len]; exact hi.tx
      · exact hi.rx_only
      · intro _ h; exact absurd h (by show ¬ (true = false); simp)
    · refine ⟨?_, (set_cur_len_length _ _).trans (store_msg_buf_length _ _), rfl⟩
      constructor
      · show e.dev.msg_idx < (set_cur_len (store_msg_buf _ _) _).msgs.length
        rw [set_cur_len_length, store_msg_buf_length]; exact hidx
      · show e.dev.rx_cnt + 1 ≤ (cur_msg (set_cur_len (store_msg_buf _ _) _)).len
        rw [cur_msg_set_len _ _ (by
          show e.dev.msg_idx < (store_msg_buf _ _).msgs.length
          rw [store_msg_buf_length]; exact hidx), hr0]
        show 0 + 1 ≤ hw.dbr e.dbr_reads % 256 + 1
        omega
      · show e.dev.tx_cnt ≤ (cur_msg (set_cur_len _ _)).len
        rw [ht0]; exact Nat.zero_le _
      · exact hi.rx_only
      · intro _ h; exact absurd h (by show ¬ (true = false); simp)
  · rename_i hnp
    split
    · rename_i hlt
      refine ⟨?_, store_msg_buf_length _ _, rfl⟩
      constructor
      · show e.dev.msg_idx < (store_msg_buf _ _).msgs.length
        rw [store_msg_buf_length]; exact hidx
      · show e.dev.rx_cnt + 1 ≤ (cur_msg (store_msg_buf _ _)).len
        rw [cur_msg_store_len]; exact hlt
      · show e.dev.tx_cnt ≤ (cur_msg (store_msg_buf _ _)).len
        rw [cur_msg_store_len]; exact hi.tx
      · exact hi.rx_only
      · intro hf hr
        have hf2 : (cur_msg (store_msg_buf e.dev (hw.dbr e.dbr_reads))).flags
            &&& I2C_M_RECV_LEN ≠ 0 := hf
        rw [cur_msg_store_flags] at hf2
        exact absurd ⟨hf2, hr⟩ hnp
    · exact ⟨hi, rfl, rfl⟩

theorem body_rx_next_ctx (next_msg : Engine → Int × Engine) (c : Consts) (cr_val : Nat)
    (e : Engine)
    (hn : ctx_inv e.dev → ctx_inv (next_msg e).2.dev ∧ ctx_advance e.dev (next_msg e).2.dev)
    (hi : ctx_inv e.dev) :
    ctx_inv (body_rx_next next_msg c cr_val e).2.dev
    ∧ ctx_advance e.dev (body_rx_next next_msg c cr_val e).2.dev := by
  have hs : ctx_inv e.dev ∧ ctx_advance e.dev e.dev :=
    ⟨hi, ctx_advance_same _ _ (same_ctx_refl _)⟩
  unfold body_rx_next
  split
  · exact hs
  · split
    · exact hs
    · split
      · exact hn hi
      · exact hs

theorem body_tx_ctx (next_msg : Engine → Int × Engine) (c : Consts) (cr_val : Nat)
    (e : Engine)
    (hn : ctx_inv e.dev → ctx_inv (next_msg e).2.dev ∧ ctx_advance e.dev (next_msg e).2.dev)
    (hi : ctx_inv e.dev) :
    ctx_inv (body_tx next_msg c cr_val e).2.dev
    ∧ ctx_advance e.dev (body_tx next_msg c cr_val e).2.dev := by
  have hs : ctx_inv e.dev ∧ ctx_advance e.dev e.dev :=
    ⟨hi, ctx_advance_same _ _ (same_ctx_refl _)⟩
  unfold body_tx
  split
  · exact hs
  · split
    · split
      · exact hs
      · exact hs
    · split
      · exact hs
      · rename_i hnrx
        split
        · rename_i hlt
          refine ⟨?_, rfl, Nat.le_refl _, fun h => absurd h (Nat.lt_irrefl _)⟩
          constructor
          · exact hi.idx
          · exact hi.rx
          · exact hlt
          · intro h; exact absurd h hnrx
          · exact hi.len_pending
        · split
          · exact hn hi
          · exact hs

theorem body_core_ctx (next_msg : Engine → Int × Engine) (c : Consts) (hw : Hw) (e : Engine)
    (hn : ∀ e2, ctx_inv e2.dev →
      ctx_inv (next_msg e2).2.dev ∧ ctx_advance e2.dev (next_msg e2).2.dev)
    (hi : ctx_inv e.dev) :
    ctx_inv (body_core next_msg c hw e).2.dev
    ∧ ctx_advance e.dev (body_core next_msg c hw e).2.dev := by
  have hsame : same_ctx e.dev (body_entry e).dev := ⟨rfl, rfl, rfl, rfl, rfl, rfl, rfl⟩
  have hi1 := ctx_inv_same _ _ hsame hi
  have hs := (⟨hi1, ctx_advance_same _ _ hsame⟩ : ctx_inv _ ∧ ctx_advance e.dev _)
  unfold body_core
  split
  · split
    · exact hs
    · rename_i hrx
      have hrx2 : (body_entry e).dev.is_rx = true := by
        show e.dev.is_rx = true
        simpa using hrx
      obtain ⟨s1, s2, s3⟩ := body_rx_store_ctx c hw (body_cr_val c hw e) (body_entry e) hrx2 hi1
      split
      · exact ⟨s1, s2, by rw [s3]; exact Nat.le_refl _,
          fun h => absurd h (by rw [s3]; exact Nat.lt_irrefl _)⟩
      · obtain ⟨n1, n2⟩ := body_rx_next_ctx next_msg c (body_cr_val c hw e) _ (hn _) s1
        exact ⟨n1, ctx_advance_of_stay _ _ _ s2 s3 n2⟩
  · split
    · obtain ⟨n1, n2⟩ := body_tx_ctx next_msg c (body_cr_val c hw e) _ (hn _) hi1
      exact ⟨n1, ctx_advance_of_stay _ _ _ rfl rfl n2⟩
    · exact hs

theorem body_ctx (c : Consts) (hw : Hw) (e : Engine) (hi : ctx_inv e.dev) :
    ctx_inv (spacemit_i2c_byte_xfer_body c hw e).2.dev
    ∧ ctx_advance e.dev (spacemit_i2c_byte_xfer_body c hw e).2.dev :=
  body_core_ctx _ c hw e (fun e2 => next_msg_ctx c hw e2) hi

theorem byte_xfer_ctx (c : Consts) (hw : Hw) (e : Engine) (hi : ctx_inv e.dev) :
    ctx_inv (spacemit_i2c_byte_xfer c hw e).2.dev
    ∧ ctx_advance e.dev (spacemit_i2c_byte_xfer c hw e).2.dev :=
  byte_xfer_core_ctx _ c hw e (fun h => body_ctx c hw e h) hi

theorem engine_step_ctx (c : Consts) (e e2 : Engine) (hs : engine_step c e e2)
    (hi : ctx_inv e.dev) : ctx_inv e2.dev ∧ ctx_advance e.dev e2.dev := by
  cases hs with
  | byte_xfer hw => exact byte_xfer_ctx c hw e hi
  | body hw => exact body_ctx c hw e hi
  | next_msg hw => exact next_msg_ctx c hw e hi
  | interrupt status err =>
    have h : same_ctx e.dev
        { e.dev with i2c_status := status, i2c_err := err } :=
      ⟨rfl, rfl, rfl, rfl, rfl, rfl, rfl⟩
    exact ⟨ctx_inv_same _ _ h hi, ctx_advance_same _ _ h⟩

theorem engine_reachable_ctx (c : Consts) (d0 : spacemit_i2c_dev) (e : Engine)
    (hnum : 1 ≤ d0.num) (hr : engine_reachable c d0 e) :
    ctx_inv e.dev ∧ e.dev.msgs.length = d0.msgs.length := by
  induction hr with
  | init events cr_reads dbr_reads =>
    refine ⟨?_, rfl⟩
    constructor
    · show 0 < d0.msgs.length
      unfold spacemit_i2c_dev.num at hnum
      omega
    · exact Nat.zero_le _
    · exact Nat.zero_le _
    · intro _; rfl
    · intro _ _; rfl
  | step _ hs ih =>
    obtain ⟨h1, h2⟩ := ih
    obtain ⟨a, b⟩ := engine_step_ctx c _ _ hs h1
    exact ⟨a, by rw [b.1, h2]⟩

/-- C20: in every engine state reachable from `spacemit_i2c_init_xfer_params` with
at least one message, by calls of `spacemit_i2c_byte_xfer`,
`spacemit_i2c_byte_xfer_body` and `spacemit_i2c_byte_xfer_next_msg` with any
answers of the hardware, and interrupts latching any status and error: the
number of messages is the initial one, `msg_idx < num`, `rx_cnt <= cur_msg->len`
and `tx_cnt <= cur_msg->len`; and every step from such a state leaves `msg_idx`
as it is or increases it, and when it increases it, `rx_cnt` and `tx_cnt` are 0
and `is_rx` and `slave_addr_rw` are those of the flags and address of the new
current message. -/
theorem ctx_invariants (c : Consts) (d0 : spacemit_i2c_dev) (e : Engine)
    (hnum : 1 ≤ d0.num) (hr : engine_reachable c d0 e) :
    e.dev.num = d0.num
    ∧ (e.dev.msg_idx : Int) < e.dev.num
    ∧ e.dev.rx_cnt ≤ (cur_msg e.dev).len
    ∧ e.dev.tx_cnt ≤ (cur_msg e.dev).len
    ∧ ∀ e2, engine_step c e e2 →
        e.dev.msg_idx ≤ e2.dev.msg_idx
        ∧ (e.dev.msg_idx < e2.dev.msg_idx →
            e2.dev.rx_cnt = 0 ∧ e2.dev.tx_cnt = 0
            ∧ e2.dev.is_rx = decide ((cur_msg e2.dev).flags &&& I2C_M_RD ≠ 0)
            ∧ e2.dev.slave_addr_rw
                = (if (cur_msg e2.dev).flags &&& I2C_M_RD ≠ 0 then
                    (((cur_msg e2.dev).addr &&& 0x7f) <<< 1) ||| 1
                  else ((cur_msg e2.dev).addr &&& 0x7f) <<< 1)) := by
  obtain ⟨hi, hl⟩ := engine_reachable_ctx c d0 e hnum hr
  refine ⟨?_, ?_, hi.rx, hi.tx, ?_⟩
  · unfold spacemit_i2c_dev.num
    rw [hl]
  · unfold spacemit_i2c_dev.num
    exact_mod_cast hi.idx
  · intro e2 hs
    obtain ⟨_, _, h2, h3⟩ := engine_step_ctx c e e2 hs hi
    exact ⟨h2, h3⟩

/-- Witness of C20: the state after the engine of the scenario was started. -/
theorem ctx_invariants_witness :
    1 ≤ scenario_dev.num
    ∧ (spacemit_i2c_byte_xfer sample_consts (bytes_hw []) init_engine).2.dev.num
        = scenario_dev.num
    ∧ ((spacemit_i2c_byte_xfer sample_consts (bytes_hw []) init_engine).2.dev.msg_idx : Int)
        < (spacemit_i2c_byte_xfer sample_consts (bytes_hw []) init_engine).2.dev.num :=
  ⟨by decide,
   (ctx_invariants sample_consts scenario_dev _ (by decide)
      (engine_reachable.step (engine_reachable.init [] 0 0)
        (engine_step.byte_xfer (bytes_hw []) init_engine))).1,
   (ctx_invariants sample_consts scenario_dev _ (by decide)
      (engine_reachable.step (engine_reachable.init [] 0 0)
        (engine_step.byte_xfer (bytes_hw []) init_engine))).2.1⟩

/-! ## Length-prefixed reads in the byte engine -/

theorem buf_store_append (pre buf : List Nat) (k v : Nat) (hk : pre.length = k)
    (hlt : k < buf.length) :
    buf_store (pre ++ buf.drop k) k v = (pre ++ [v % 256]) ++ buf.drop (k + 1) := by
  unfold buf_store
  subst hk
  rw [List.set_append_right _ _ (Nat.le_refl _), Nat.sub_self]
  rw [List.drop_eq_getElem_cons hlt, List.set_cons_zero]
  simp

/-- The receive-full branch of `spacemit_i2c_byte_xfer_body` on a receiving
engine: the storing part, then the rest unless the function returned at once. -/
theorem body_rx_eq (c : Consts) (hw : Hw) (e : Engine)
    (hirf : e.dev.i2c_status &&& c.SR_IRF ≠ 0) (hrx : e.dev.is_rx = true) :
    spacemit_i2c_byte_xfer_body c hw e
      = (if (body_rx_store c hw (body_cr_val c hw e) (body_entry e)).1 then
          (0, (body_rx_store c hw (body_cr_val c hw e) (body_entry e)).2)
        else
          body_rx_next (spacemit_i2c_byte_xfer_next_msg c hw) c (body_cr_val c hw e)
            (body_rx_store c hw (body_cr_val c hw e) (body_entry e)).2) := by
  unfold spacemit_i2c_byte_xfer_body body_core
  rw [if_pos hirf, if_neg (by simp [hrx])]

theorem body_rx_store_len_eq (c : Consts) (hw : Hw) (cr_val : Nat) (e : Engine)
    (hflag : (cur_msg e.dev).flags &&& I2C_M_RECV_LEN ≠ 0)
    (hrcv : e.dev.smbus_rcv_len = false)
    (hok : ¬ (hw.dbr e.dbr_reads % 256 = 0 ∨ hw.dbr e.dbr_reads % 256 > I2C_SMBUS_BLOCK_MAX)) :
    body_rx_store c hw cr_val e
      = (false,
          { e with
            dbr_reads := e.dbr_reads + 1
            dev :=
              { set_cur_len
                  (store_msg_buf { e.dev with smbus_rcv_len := true }
                    (hw.dbr e.dbr_reads % 256))
                  (hw.dbr e.dbr_reads % 256 + 1) with
                rx_cnt := e.dev.rx_cnt + 1 } }) := by
  unfold body_rx_store
  rw [if_pos ⟨hflag, hrcv⟩, if_neg hok]

theorem body_rx_store_data_eq (c : Consts) (hw : Hw) (cr_val : Nat) (e : Engine)
    (hnp : ¬ ((cur_msg e.dev).flags &&& I2C_M_RECV_LEN ≠ 0 ∧ e.dev.smbus_rcv_len = false))
    (hlt : e.dev.rx_cnt < (cur_msg e.dev).len) :
    body_rx_store c hw cr_val e
      = (false,
          { e with
            dbr_reads := e.dbr_reads + 1
            dev := { store_msg_buf e.dev (hw.dbr e.dbr_reads) with
                     rx_cnt := e.dev.rx_cnt + 1 } }) := by
  unfold body_rx_store
  rw [if_neg hnp, if_pos hlt]

theorem body_rx_store_len (c : Consts) (hw : Hw) (cr_val : Nat) (e : Engine)
    (hidx : e.dev.msg_idx < e.dev.msgs.length)
    (hflag : (cur_msg e.dev).flags &&& I2C_M_RECV_LEN ≠ 0)
    (hrcv : e.dev.smbus_rcv_len = false)
    (hok : ¬ (hw.dbr e.dbr_reads % 256 = 0 ∨ hw.dbr e.dbr_reads % 256 > I2C_SMBUS_BLOCK_MAX)) :
    ∃ s, body_rx_store c hw cr_val e = (false, s) ∧ s.dev.smbus_rcv_len = true
      ∧ rx_stored e s
          { cur_msg e.dev with
            buf := buf_store (cur_msg e.dev).buf e.dev.msg_buf (hw.dbr e.dbr_reads % 256)
            len := hw.dbr e.dbr_reads % 256 + 1 } :=
  ⟨_, body_rx_store_len_eq c hw cr_val e hflag hrcv hok, rfl,
    ⟨(set_cur_len_length _ _).trans (store_msg_buf_length _ _), rfl, rfl, rfl, rfl,
      cur_msg_len_store { e.dev with smbus_rcv_len := true } _ _ hidx, rfl, rfl, rfl, rfl⟩⟩

theorem body_rx_store_data (c : Consts) (hw : Hw) (cr_val : Nat) (e : Engine)
    (hidx : e.dev.msg_idx < e.dev.msgs.length)
    (hnp : ¬ ((cur_msg e.dev).flags &&& I2C_M_RECV_LEN ≠ 0 ∧ e.dev.smbus_rcv_len = false))
    (hlt : e.dev.rx_cnt < (cur_msg e.dev).len) :
    ∃ s, body_rx_store c hw cr_val e = (false, s)
      ∧ s.dev.smbus_rcv_len = e.dev.smbus_rcv_len
      ∧ rx_stored e s
          { cur_msg e.dev with
            buf := buf_store (cur_msg e.dev).buf e.dev.msg_buf (hw.dbr e.dbr_reads) } :=
  ⟨_, body_rx_store_data_eq c hw cr_val e hnp hlt, rfl,
    ⟨store_msg_buf_length _ _, rfl, rfl, rfl, rfl, cur_msg_store e.dev _ hidx,
      rfl, rfl, rfl, rfl⟩⟩

theorem body_rx_next_trigger (next_msg : Engine → Int × Engine) (c : Consts) (cr_val : Nat)
    (e : Engine) (hmsd : e.dev.i2c_status &&& (c.SR_MSD ||| c.SR_ACKNAK) = 0)
    (hlt : e.dev.rx_cnt < (cur_msg e.dev).len) :
    body_rx_next next_msg c cr_val e
      = (0, reg_write e REG_CR
          ((if spacemit_i2c_is_last_byte_to_receive e.dev then
              cr_val ||| (c.CR_STOP ||| c.CR_ACKNAK)
            else cr_val) ||| (c.CR_ALDIE ||| c.CR_TB))) := by
  unfold body_rx_next
  rw [if_neg (by simp [hmsd]), if_pos hlt]

theorem is_last_byte_to_receive_eq (d : spacemit_i2c_dev) (hrcv : d.smbus_rcv_len = true) :
    spacemit_i2c_is_last_byte_to_receive d
      = decide ((d.rx_cnt : Int) = ((cur_msg d).len : Int) - 1 ∧ (d.msg_idx : Int) = d.num - 1) := by
  unfold spacemit_i2c_is_last_byte_to_receive
  rw [if_neg (by simp [hrcv])]

/-- One byte stored with more to come: the body triggers the next byte. -/
theorem body_rx_store_trigger (c : Consts) (hw : Hw) (e s : Engine) (m : i2c_msg)
    (hirf : e.dev.i2c_status &&& c.SR_IRF ≠ 0) (hrx : e.dev.is_rx = true)
    (hmsd : e.dev.i2c_status &&& (c.SR_MSD ||| c.SR_ACKNAK) = 0)
    (hs : body_rx_store c hw (body_cr_val c hw e) (body_entry e) = (false, s))
    (hrcv : s.dev.smbus_rcv_len = true)
    (hst : rx_stored (body_entry e) s m)
    (hlt : e.dev.rx_cnt + 1 < m.len) :
    spacemit_i2c_byte_xfer_body c hw e
      = (0, reg_write s REG_CR
          (rx_trigger_value c (hw.cr e.cr_reads)
            (decide (e.dev.rx_cnt + 2 = m.len ∧ (e.dev.msg_idx : Int) = e.dev.num - 1)))) := by
  have hrc : s.dev.rx_cnt = e.dev.rx_cnt + 1 := hst.rx_cnt
  have hidx : s.dev.msg_idx = e.dev.msg_idx := hst.msg_idx
  have hnum : s.dev.num = e.dev.num := by
    unfold spacemit_i2c_dev.num
    rw [hst.msgs_len]; rfl
  rw [body_rx_eq c hw e hirf hrx, hs]
  simp only [Bool.false_eq_true, if_false]
  rw [body_rx_next_trigger _ c _ s (by rw [hst.status]; exact hmsd)
    (by rw [hst.cur, hrc]; exact hlt)]
  rw [is_last_byte_to_receive_eq s.dev hrcv, hst.cur, hrc, hidx, hnum]
  have hd : decide (((e.dev.rx_cnt + 1 : Nat) : Int) = (m.len : Int) - 1
        ∧ (e.dev.msg_idx : Int) = e.dev.num - 1)
      = decide (e.dev.rx_cnt + 2 = m.len ∧ (e.dev.msg_idx : Int) = e.dev.num - 1) := by
    congr 1
    apply propext
    constructor
    · rintro ⟨a, b⟩; exact ⟨by omega, b⟩
    · rintro ⟨a, b⟩; exact ⟨by omega, b⟩
  rw [hd]
  rfl

theorem recv_len_progress_latch (c : Consts) (hw : Hw) (e0 e : Engine) (N k status : Nat)
    (h : recv_len_progress c hw e0 N k e) :
    recv_len_progress c hw e0 N k { e with dev := { e.dev with i2c_status := status } } :=
  ⟨h.msgs_len, h.msg_idx, h.is_rx, h.rcv, h.rx_cnt, h.msg_buf, h.len, h.buf, h.dbr_reads,
    h.cr_reads, h.events⟩

theorem recv_len_progress_base (c : Consts) (hw : Hw) (e0 e : Engine) (N k status : Nat)
    (h : recv_len_progress c hw { e0 with dev := { e0.dev with i2c_status := status } } N k e) :
    recv_len_progress c hw e0 N k e :=
  ⟨h.msgs_len, h.msg_idx, h.is_rx, h.rcv, h.rx_cnt, h.msg_buf, h.len, h.buf, h.dbr_reads,
    h.cr_reads, h.events⟩

/-- The length byte of a length-prefixed read, in range: what
`spacemit_i2c_byte_xfer_body` does when more bytes follow. -/
theorem body_recv_len_first (c : Consts) (hw : Hw) (e : Engine) (N : Nat)
    (hN1 : 1 ≤ N) (hN2 : N ≤ I2C_SMBUS_BLOCK_MAX)
    (hidx : e.dev.msg_idx < e.dev.msgs.length)
    (hflag : (cur_msg e.dev).flags &&& I2C_M_RECV_LEN ≠ 0)
    (hrx : e.dev.is_rx = true) (hrcv : e.dev.smbus_rcv_len = false)
    (hcnt : e.dev.rx_cnt = 0) (hmb : e.dev.msg_buf = 0)
    (hcap : N + 1 ≤ (cur_msg e.dev).buf.length)
    (hlen : hw.dbr e.dbr_reads % 256 = N)
    (hirf : e.dev.i2c_status &&& c.SR_IRF ≠ 0)
    (hmsd : e.dev.i2c_status &&& (c.SR_MSD ||| c.SR_ACKNAK) = 0) :
    recv_len_progress c hw e N 1 (spacemit_i2c_byte_xfer_body c hw e).2 := by
  have hbad : ¬ (hw.dbr (body_entry e).dbr_reads % 256 = 0
      ∨ hw.dbr (body_entry e).dbr_reads % 256 > I2C_SMBUS_BLOCK_MAX) := by
    show ¬ (hw.dbr e.dbr_reads % 256 = 0 ∨ hw.dbr e.dbr_reads % 256 > I2C_SMBUS_BLOCK_MAX)
    rw [hlen]; omega
  obtain ⟨s, hs, hr, hst⟩ :=
    body_rx_store_len c hw (body_cr_val c hw e) (body_entry e) hidx hflag hrcv hbad
  have hmlen : hw.dbr (body_entry e).dbr_reads % 256 + 1 = N + 1 := by
    show hw.dbr e.dbr_reads % 256 + 1 = N + 1
    rw [hlen]
  rw [body_rx_store_trigger c hw e s _ hirf hrx hmsd hs hr hst (by
    show e.dev.rx_cnt + 1 < hw.dbr (body_entry e).dbr_reads % 256 + 1
    rw [hmlen, hcnt]; omega)]
  constructor
  · exact hst.msgs_len
  · exact hst.msg_idx
  · exact hst.is_rx.trans hrx
  · exact hr
  · exact hst.rx_cnt.trans (by show e.dev.rx_cnt + 1 = 1; rw [hcnt])
  · exact hst.msg_buf.trans (by show e.dev.msg_buf + 1 = 1; rw [hmb])
  · show (cur_msg s.dev).len = N + 1
    rw [hst.cur]; exact hmlen
  · show (cur_msg s.dev).buf = _
    rw [hst.cur]
    show buf_store (cur_msg e.dev).buf e.dev.msg_buf (hw.dbr e.dbr_reads % 256) = _
    rw [hmb]
    have := buf_store_append [] (cur_msg e.dev).buf 0 (hw.dbr e.dbr_reads % 256) rfl (by omega)
    simpa using this
  · exact hst.dbr_reads
  · exact hst.cr_reads
  · show s.events ++ [_] = _
    rw [hst.events]
    show e.events ++ [_] = _
    simp only [List.range_succ, List.range_zero, List.map_append, List.map_cons, List.map_nil,
      List.nil_append, Nat.add_zero]
    congr 4
    show decide (e.dev.rx_cnt + 2 = hw.dbr (body_entry e).dbr_reads % 256 + 1 ∧ _) = _
    rw [hmlen, hcnt]
    exact decide_eq_decide.mpr
      ⟨fun h => ⟨by omega, h.2⟩, fun h => ⟨by omega, h.2⟩⟩

/-- A data byte of a length-prefixed read, not the last one. -/
theorem body_recv_len_data (c : Consts) (hw : Hw) (e0 e : Engine) (N k : Nat)
    (hk : k < N) (hidx : e0.dev.msg_idx < e0.dev.msgs.length)
    (hcap : N + 1 ≤ (cur_msg e0.dev).buf.length)
    (hp : recv_len_progress c hw e0 N k e)
    (hirf : e.dev.i2c_status &&& c.SR_IRF ≠ 0)
    (hmsd : e.dev.i2c_status &&& (c.SR_MSD ||| c.SR_ACKNAK) = 0) :
    recv_len_progress c hw e0 N (k + 1) (spacemit_i2c_byte_xfer_body c hw e).2 := by
  have hidx1 : (body_entry e).dev.msg_idx < (body_entry e).dev.msgs.length := by
    show e.dev.msg_idx < e.dev.msgs.length
    rw [hp.msg_idx, hp.msgs_len]; exact hidx
  have hnp : ¬ ((cur_msg (body_entry e).dev).flags &&& I2C_M_RECV_LEN ≠ 0
      ∧ (body_entry e).dev.smbus_rcv_len = false) := by
    rintro ⟨_, h⟩
    have : e.dev.smbus_rcv_len = false := h
    rw [hp.rcv] at this
    exact absurd this (by simp)
  have hlt : (body_entry e).dev.rx_cnt < (cur_msg (body_entry e).dev).len := by
    show e.dev.rx_cnt < (cur_msg e.dev).len
    rw [hp.rx_cnt, hp.len]; omega
  obtain ⟨s, hs, hr, hst⟩ :=
    body_rx_store_data c hw (body_cr_val c hw e) (body_entry e) hidx1 hnp hlt
  have hnum : e.dev.num = e0.dev.num := by
    unfold spacemit_i2c_dev.num
    rw [hp.msgs_len]
  rw [body_rx_store_trigger c hw e s _ hirf hp.is_rx hmsd hs (hr.trans hp.rcv) hst (by
    show e.dev.rx_cnt + 1 < (cur_msg e.dev).len
    rw [hp.rx_cnt, hp.len]; omega)]
  constructor
  · exact hst.msgs_len.trans hp.msgs_len
  · exact hst.msg_idx.trans hp.msg_idx
  · exact hst.is_rx.trans hp.is_rx
  · exact hr.trans hp.rcv
  · exact hst.rx_cnt.trans (by show e.dev.rx_cnt + 1 = k + 1; rw [hp.rx_cnt])
  · exact hst.msg_buf.trans (by show e.dev.msg_buf + 1 = k + 1; rw [hp.msg_buf])
  · show (cur_msg s.dev).len = N + 1
    rw [hst.cur]; exact hp.len
  · show (cur_msg s.dev).buf = _
    rw [hst.cur]
    show buf_store (cur_msg e.dev).buf e.dev.msg_buf (hw.dbr e.dbr_reads) = _
    rw [hp.buf, hp.msg_buf, hp.dbr_reads,
      buf_store_append _ _ k _ (by simp) (by omega), List.range_succ, List.map_append]
    rfl
  · exact hst.dbr_reads.trans (by
      show e.dbr_reads + 1 = e0.dbr_reads + (k + 1)
      rw [hp.dbr_reads]; omega)
  · exact hst.cr_reads.trans (by
      show e.cr_reads + 1 = e0.cr_reads + (k + 1)
      rw [hp.cr_reads]; omega)
  · show s.events ++ [_] = _
    rw [hst.events]
    show e.events ++ [_] = _
    rw [hp.events, List.range_succ, List.map_append, List.append_assoc]
    congr 2
    show [Event.write_reg REG_CR (rx_trigger_value c (hw.cr e.cr_reads)
      (decide (e.dev.rx_cnt + 2 = (cur_msg e.dev).len ∧ (e.dev.msg_idx : Int) = e.dev.num - 1)))]
      = _
    rw [hp.cr_reads, hp.rx_cnt, hp.len, hp.msg_idx, hnum]
    simp only [List.map_cons, List.map_nil]
    congr 4
    exact propext ⟨fun h => ⟨by omega, h.2⟩, fun h => ⟨by omega, h.2⟩⟩

theorem body_steps_append (c : Consts) (hw : Hw) (a b : List Nat) (e : Engine) :
    body_steps c hw (a ++ b) e = body_steps c hw b (body_steps c hw a e) := by
  induction a generalizing e with
  | nil => rfl
  | cons st a ih => exact ih _

/-- The data bytes of a length-prefixed read before the last one, one after the
other. -/
theorem body_steps_progress (c : Consts) (hw : Hw) (e0 : Engine) (N : Nat)
    (hidx : e0.dev.msg_idx < e0.dev.msgs.length)
    (hcap : N + 1 ≤ (cur_msg e0.dev).buf.length)
    (sts : List Nat) (k : Nat) (e : Engine) (hk : k + sts.length ≤ N)
    (hp : recv_len_progress c hw e0 N k e)
    (hst : ∀ st ∈ sts, st &&& c.SR_IRF ≠ 0 ∧ st &&& (c.SR_MSD ||| c.SR_ACKNAK) = 0) :
    recv_len_progress c hw e0 N (k + sts.length) (body_steps c hw sts e) := by
  induction sts generalizing k e with
  | nil => exact hp
  | cons st sts ih =>
    have h1 := hst st (List.mem_cons_self _ _)
    have hlen : (st :: sts).length = sts.length + 1 := rfl
    rw [hlen] at hk ⊢
    have hstep := body_recv_len_data c hw e0
      { e with dev := { e.dev with i2c_status := st } } N k (by omega) hidx hcap
      (recv_len_progress_latch c hw e0 e N k st hp) h1.1 h1.2
    have := ih (k + 1) _ (by omega) hstep (fun s hs => hst s (List.mem_cons_of_mem _ hs))
    rw [show k + (sts.length + 1) = k + 1 + sts.length by omega]
    exact this

theorem mark_rw_flag_frame (d : spacemit_i2c_dev) :
    (spacemit_i2c_mark_rw_flag d).msgs = d.msgs
    ∧ (spacemit_i2c_mark_rw_flag d).msg_idx = d.msg_idx
    ∧ (spacemit_i2c_mark_rw_flag d).rx_cnt = d.rx_cnt := by
  unfold spacemit_i2c_mark_rw_flag
  split
  · split <;> exact ⟨rfl, rfl, rfl⟩
  · exact ⟨rfl, rfl, rfl⟩

theorem byte_xfer_stub_frame (c : Consts) (hw : Hw) (e : Engine) :
    (byte_xfer_core (fun e => (0, e)) c hw e).2.dev.msgs = e.dev.msgs
    ∧ (byte_xfer_core (fun e => (0, e)) c hw e).2.dev.msg_idx = e.dev.msg_idx
    ∧ (byte_xfer_core (fun e => (0, e)) c hw e).2.dev.rx_cnt = e.dev.rx_cnt := by
  unfold byte_xfer_core
  split
  · exact ⟨rfl, rfl, rfl⟩
  · split
    · split <;> exact ⟨rfl, rfl, rfl⟩
    · split <;> exact ⟨rfl, rfl, rfl⟩

theorem next_msg_msgs (c : Consts) (hw : Hw) (e : Engine) :
    (spacemit_i2c_byte_xfer_next_msg c hw e).2.dev.msgs = e.dev.msgs := by
  unfold spacemit_i2c_byte_xfer_next_msg next_msg_core
  split
  · rfl
  · rw [(byte_xfer_stub_frame c hw _).1]
    exact (mark_rw_flag_frame _).1

theorem next_msg_advance (c : Consts) (hw : Hw) (e : Engine)
    (h : (e.dev.msg_idx : Int) ≠ e.dev.num - 1) :
    (spacemit_i2c_byte_xfer_next_msg c hw e).2.dev.msg_idx = e.dev.msg_idx + 1
    ∧ (spacemit_i2c_byte_xfer_next_msg c hw e).2.dev.rx_cnt = 0 := by
  unfold spacemit_i2c_byte_xfer_next_msg next_msg_core
  rw [if_neg h]
  obtain ⟨_, a2, a3⟩ := byte_xfer_stub_frame c hw
    { e with
      dev := spacemit_i2c_mark_rw_flag
        { e.dev with
          msg_idx := e.dev.msg_idx + 1
          msg_buf := 0
          rx_cnt := 0
          tx_cnt := 0
          i2c_err := 0
          i2c_status := 0
          smbus_rcv_len := false
          phase := SPACEMIT_I2C_XFER_IDLE } }
  rw [a2, a3]
  exact ⟨(mark_rw_flag_frame _).2.1, (mark_rw_flag_frame _).2.2⟩

/-- The last data byte of a length-prefixed read: it is stored; then the body does
nothing more on master stop, NAK or in the last message, and moves to the next
message otherwise. -/
theorem body_recv_len_last (c : Consts) (hw : Hw) (e0 e : Engine) (N : Nat)
    (hidx : e0.dev.msg_idx < e0.dev.msgs.length)
    (hcap : N + 1 ≤ (cur_msg e0.dev).buf.length)
    (hp : recv_len_progress c hw e0 N N e)
    (hirf : e.dev.i2c_status &&& c.SR_IRF ≠ 0) :
    (msg_at (spacemit_i2c_byte_xfer_body c hw e).2.dev e0.dev.msg_idx).len = N + 1
    ∧ (msg_at (spacemit_i2c_byte_xfer_body c hw e).2.dev e0.dev.msg_idx).buf
        = (List.range (N + 1)).map (fun j => hw.dbr (e0.dbr_reads + j) % 256)
            ++ (cur_msg e0.dev).buf.drop (N + 1)
    ∧ ((e.dev.i2c_status &&& (c.SR_MSD ||| c.SR_ACKNAK) ≠ 0
          ∨ (e0.dev.msg_idx : Int) = e0.dev.num - 1) →
        (spacemit_i2c_byte_xfer_body c hw e).2.dev.rx_cnt = N + 1
        ∧ (spacemit_i2c_byte_xfer_body c hw e).2.dev.msg_idx = e0.dev.msg_idx
        ∧ (spacemit_i2c_byte_xfer_body c hw e).2.events = e.events
        ∧ (spacemit_i2c_byte_xfer_body c hw e).2.dbr_reads = e0.dbr_reads + (N + 1))
    ∧ (e.dev.i2c_status &&& (c.SR_MSD ||| c.SR_ACKNAK) = 0 →
        (e0.dev.msg_idx : Int) ≠ e0.dev.num - 1 →
        (spacemit_i2c_byte_xfer_body c hw e).2.dev.rx_cnt = 0
        ∧ (spacemit_i2c_byte_xfer_body c hw e).2.dev.msg_idx = e0.dev.msg_idx + 1) := by
  have hidx1 : (body_entry e).dev.msg_idx < (body_entry e).dev.msgs.length := by
    show e.dev.msg_idx < e.dev.msgs.length
    rw [hp.msg_idx, hp.msgs_len]; exact hidx
  have hnp : ¬ ((cur_msg (body_entry e).dev).flags &&& I2C_M_RECV_LEN ≠ 0
      ∧ (body_entry e).dev.smbus_rcv_len = false) := by
    rintro ⟨_, h⟩
    have : e.dev.smbus_rcv_len = false := h
    rw [hp.rcv] at this
    exact absurd this (by simp)
  have hlt : (body_entry e).dev.rx_cnt < (cur_msg (body_entry e).dev).len := by
    show e.dev.rx_cnt < (cur_msg e.dev).len
    rw [hp.rx_cnt, hp.len]; omega
  obtain ⟨s, hs, hr, hst⟩ :=
    body_rx_store_data c hw (body_cr_val c hw e) (body_entry e) hidx1 hnp hlt
  have hnum : s.dev.num = e0.dev.num := by
    unfold spacemit_i2c_dev.num
    rw [hst.msgs_len]
    show ((e.dev.msgs.length : Nat) : Int) = _
    rw [hp.msgs_len]
  have hsidx : s.dev.msg_idx = e0.dev.msg_idx := hst.msg_idx.trans hp.msg_idx
  have hsrx : s.dev.rx_cnt = N + 1 := hst.rx_cnt.trans (by
    show e.dev.rx_cnt + 1 = N + 1
    rw [hp.rx_cnt])
  have hslen : (cur_msg s.dev).len = N + 1 := by rw [hst.cur]; exact hp.len
  have hsbuf : (cur_msg s.dev).buf
      = (List.range (N + 1)).map (fun j => hw.dbr (e0.dbr_reads + j) % 256)
          ++ (cur_msg e0.dev).buf.drop (N + 1) := by
    rw [hst.cur]
    show buf_store (cur_msg e.dev).buf e.dev.msg_buf (hw.dbr e.dbr_reads) = _
    rw [hp.buf, hp.msg_buf, hp.dbr_reads,
      buf_store_append _ _ N _ (by simp) (by omega), List.range_succ, List.map_append]
    rfl
  have hmsg : msg_at s.dev e0.dev.msg_idx = cur_msg s.dev := by
    unfold msg_at cur_msg
    rw [hsidx]
  rw [body_rx_eq c hw e hirf hp.is_rx, hs]
  simp only [Bool.false_eq_true, if_false]
  unfold body_rx_next
  by_cases hmsd : s.dev.i2c_status &&& (c.SR_MSD ||| c.SR_ACKNAK) ≠ 0
  · rw [if_pos hmsd]
    refine ⟨by rw [hmsg]; exact hslen, by rw [hmsg]; exact hsbuf,
      fun _ => ⟨hsrx, hsidx, hst.events, hst.dbr_reads.trans (by
        show e.dbr_reads + 1 = _
        rw [hp.dbr_reads]; omega)⟩, ?_⟩
    intro h
    rw [hst.status] at hmsd
    exact absurd h hmsd
  · rw [if_neg hmsd, if_neg (by rw [hsrx, hslen]; exact Nat.lt_irrefl _)]
    by_cases hlast : (s.dev.msg_idx : Int) < s.dev.num - 1
    · rw [if_pos hlast]
      have hne : (s.dev.msg_idx : Int) ≠ s.dev.num - 1 := by omega
      obtain ⟨a1, a2⟩ := next_msg_advance c hw s hne
      have hm2 : msg_at (spacemit_i2c_byte_xfer_next_msg c hw s).2.dev e0.dev.msg_idx
          = cur_msg s.dev := by
        rw [← hmsg]
        unfold msg_at
        rw [next_msg_msgs]
      refine ⟨by rw [hm2]; exact hslen, by rw [hm2]; exact hsbuf, ?_, ?_⟩
      · rintro (h | h)
        · rw [hst.status] at hmsd
          exact absurd h hmsd
        · rw [hsidx, hnum] at hne
          exact absurd h hne
      · intro _ _
        exact ⟨a2, by rw [a1, hsidx]⟩
    · rw [if_neg hlast]
      refine ⟨by rw [hmsg]; exact hslen, by rw [hmsg]; exact hsbuf,
        fun _ => ⟨hsrx, hsidx, hst.events, hst.dbr_reads.trans (by
          show e.dbr_reads + 1 = _
          rw [hp.dbr_reads]; omega)⟩, ?_⟩
      intro _ hne
      exfalso
      rw [hsidx, hnum] at hlast
      have := hidx
      unfold spacemit_i2c_dev.num at hlast hne
      omega

/-- The bits of STOP and NAK in the value written to trigger a reception: both
set when the byte is the last one to receive; both clear otherwise, provided
they are not among the bits `CR_ALDIE | CR_TB` that the trigger always sets. -/
theorem rx_trigger_value_stop (c : Consts) (cr : Nat) (last : Bool)
    (hd : (c.CR_ALDIE ||| c.CR_TB) &&& (c.CR_STOP ||| c.CR_ACKNAK) = 0) :
    rx_trigger_value c cr last &&& (c.CR_STOP ||| c.CR_ACKNAK)
      = (if last then c.CR_STOP ||| c.CR_ACKNAK else 0) := by
  have hbit : ∀ i, ((c.CR_ALDIE ||| c.CR_TB) &&& (c.CR_STOP ||| c.CR_ACKNAK)).testBit i = false := by
    intro i; rw [hd]; exact Nat.zero_testBit i
  apply Nat.eq_of_testBit_eq
  intro i
  have h := hbit i
  simp only [Nat.testBit_and, Nat.testBit_or] at h
  cases last
  · simp only [rx_trigger_value, and_not, Bool.false_eq_true, if_false, Nat.testBit_and,
      Nat.testBit_or, Nat.testBit_xor, Nat.zero_testBit]
    revert h
    cases cr.testBit i <;> cases c.CR_TB.testBit i <;> cases c.CR_ACKNAK.testBit i
      <;> cases c.CR_STOP.testBit i <;> cases c.CR_START.testBit i
      <;> cases c.CR_ALDIE.testBit i <;> simp
  · simp only [rx_trigger_value, and_not, if_true, Nat.testBit_and,
      Nat.testBit_or, Nat.testBit_xor]
    cases cr.testBit i <;> cases c.CR_TB.testBit i <;> cases c.CR_ACKNAK.testBit i
      <;> cases c.CR_STOP.testBit i <;> cases c.CR_START.testBit i
      <;> cases c.CR_ALDIE.testBit i <;> simp

/-- The whole reception of a length-prefixed read: the length byte `N`, then `N`
data bytes. -/
theorem body_steps_recv_len (c : Consts) (hw : Hw) (e : Engine) (N : Nat) (sts : List Nat)
    (last : Nat) (hN1 : 1 ≤ N) (hN2 : N ≤ I2C_SMBUS_BLOCK_MAX)
    (hidx : e.dev.msg_idx < e.dev.msgs.length)
    (hflag : (cur_msg e.dev).flags &&& I2C_M_RECV_LEN ≠ 0)
    (hrx : e.dev.is_rx = true) (hrcv : e.dev.smbus_rcv_len = false)
    (hcnt : e.dev.rx_cnt = 0) (hmb : e.dev.msg_buf = 0)
    (hcap : N + 1 ≤ (cur_msg e.dev).buf.length)
    (hlen : hw.dbr e.dbr_reads % 256 = N)
    (hsts : sts.length = N)
    (hst : ∀ st ∈ sts, st &&& c.SR_IRF ≠ 0 ∧ st &&& (c.SR_MSD ||| c.SR_ACKNAK) = 0) :
    ∃ x, recv_len_progress c hw e N N x
      ∧ body_steps c hw (sts ++ [last]) e
          = (spacemit_i2c_byte_xfer_body c hw
              { x with dev := { x.dev with i2c_status := last } }).2 := by
  cases sts with
  | nil => simp at hsts; omega
  | cons st0 rest =>
    have h0 := hst st0 (List.mem_cons_self _ _)
    have hrest : rest.length + 1 = N := hsts
    have hfirst := recv_len_progress_base c hw e _ N 1 st0
      (body_recv_len_first c hw { e with dev := { e.dev with i2c_status := st0 } } N hN1 hN2
        hidx hflag hrx hrcv hcnt hmb hcap hlen h0.1 h0.2)
    have hprog := body_steps_progress c hw e N hidx hcap rest 1 _ (by omega) hfirst
      (fun s hs => hst s (List.mem_cons_of_mem _ hs))
    rw [show 1 + rest.length = N by omega] at hprog
    refine ⟨_, hprog, ?_⟩
    show body_steps c hw (rest ++ [last]) _ = _
    rw [body_steps_append]
    rfl

/-- C14, as stated, fails: a length-prefixed read that is not the last message,
whose receive-full interrupts deliver the length 2 and two data bytes. The
buffer holds `[2, 0x11, 0x22]` and the length is 3, but the call that stores
the last byte goes on to the next message: it ends with `rx_cnt = 0` and
`msg_idx = 1`, not with `rx_cnt = 3`. -/
theorem recv_len_rx_cnt_reset :
    (body_steps sample_consts (bytes_hw [2, 0x11, 0x22])
        [sample_consts.SR_IRF, sample_consts.SR_IRF, sample_consts.SR_IRF]
        (rx_engine [block_read_buf_msg, write_msg 1])).dev.rx_cnt = 0
    ∧ (body_steps sample_consts (bytes_hw [2, 0x11, 0x22])
        [sample_consts.SR_IRF, sample_consts.SR_IRF, sample_consts.SR_IRF]
        (rx_engine [block_read_buf_msg, write_msg 1])).dev.msg_idx = 1
    ∧ (msg_at (body_steps sample_consts (bytes_hw [2, 0x11, 0x22])
        [sample_consts.SR_IRF, sample_consts.SR_IRF, sample_consts.SR_IRF]
        (rx_engine [block_read_buf_msg, write_msg 1])).dev 0).buf.take 3 = [2, 0x11, 0x22]
    ∧ (msg_at (body_steps sample_consts (bytes_hw [2, 0x11, 0x22])
        [sample_consts.SR_IRF, sample_consts.SR_IRF, sample_consts.SR_IRF]
        (rx_engine [block_read_buf_msg, write_msg 1])).dev 0).len = 3 := by
  decide

/-- C14, amended: the current message is a read flagged `I2C_M_RECV_LEN` whose
reception starts (`smbus_rcv_len` clear, nothing received, room for `N + 1`
bytes), `1 <= N <= I2C_SMBUS_BLOCK_MAX`, and `spacemit_i2c_byte_xfer_body` runs
once for each of `N + 1` receive-full statuses, the data register delivering
`N` and then `b1..bN`; the statuses before the last carry neither master stop
nor NAK. Then the buffer of that message starts with `[N, b1, ..., bN]` and its
length is `N + 1`. When it is the last message, the engine ends with
`rx_cnt = N + 1` on the same message, having read the data register `N + 1`
times and written `REG_CR` once for each byte but the last: with STOP and NAK
or-ed in exactly in the write that triggers the reception of `bN`, and, when
STOP and NAK are not among `CR_ALDIE | CR_TB`, with those bits clear in every
other write. When it is not the last message and the last status carries
neither master stop nor NAK, the engine has moved to the next message, with
`rx_cnt` reset to 0. -/
theorem recv_len_round_trip (c : Consts) (hw : Hw) (e : Engine) (N : Nat) (sts : List Nat)
    (last : Nat) (hN1 : 1 ≤ N) (hN2 : N ≤ I2C_SMBUS_BLOCK_MAX)
    (hidx : e.dev.msg_idx < e.dev.msgs.length)
    (hflag : (cur_msg e.dev).flags &&& I2C_M_RECV_LEN ≠ 0)
    (hrx : e.dev.is_rx = true) (hrcv : e.dev.smbus_rcv_len = false)
    (hcnt : e.dev.rx_cnt = 0) (hmb : e.dev.msg_buf = 0)
    (hcap : N + 1 ≤ (cur_msg e.dev).buf.length)
    (hlen : hw.dbr e.dbr_reads % 256 = N)
    (hsts : sts.length = N)
    (hst : ∀ st ∈ sts, st &&& c.SR_IRF ≠ 0 ∧ st &&& (c.SR_MSD ||| c.SR_ACKNAK) = 0)
    (hlast : last &&& c.SR_IRF ≠ 0) :
    (msg_at (body_steps c hw (sts ++ [last]) e).dev e.dev.msg_idx).buf.take (N + 1)
        = N :: (List.range N).map (fun j => hw.dbr (e.dbr_reads + 1 + j) % 256)
    ∧ (msg_at (body_steps c hw (sts ++ [last]) e).dev e.dev.msg_idx).len = N + 1
    ∧ ((e.dev.msg_idx : Int) = e.dev.num - 1 →
        (body_steps c hw (sts ++ [last]) e).dev.rx_cnt = N + 1
        ∧ (body_steps c hw (sts ++ [last]) e).dev.msg_idx = e.dev.msg_idx
        ∧ (body_steps c hw (sts ++ [last]) e).dbr_reads = e.dbr_reads + (N + 1)
        ∧ (body_steps c hw (sts ++ [last]) e).events
            = e.events ++ (List.range N).map (fun j =>
                Event.write_reg REG_CR
                  (rx_trigger_value c (hw.cr (e.cr_reads + j)) (decide (j + 1 = N))))
        ∧ ((c.CR_ALDIE ||| c.CR_TB) &&& (c.CR_STOP ||| c.CR_ACKNAK) = 0 →
            ∀ j, rx_trigger_value c (hw.cr (e.cr_reads + j)) (decide (j + 1 = N))
                  &&& (c.CR_STOP ||| c.CR_ACKNAK)
                = (if j + 1 = N then c.CR_STOP ||| c.CR_ACKNAK else 0)))
    ∧ ((e.dev.msg_idx : Int) ≠ e.dev.num - 1 →
        last &&& (c.SR_MSD ||| c.SR_ACKNAK) = 0 →
        (body_steps c hw (sts ++ [last]) e).dev.rx_cnt = 0
        ∧ (body_steps c hw (sts ++ [last]) e).dev.msg_idx = e.dev.msg_idx + 1) := by
  obtain ⟨x, hp, hx⟩ := body_steps_recv_len c hw e N sts last hN1 hN2 hidx hflag hrx hrcv hcnt
    hmb hcap hlen hsts hst
  obtain ⟨l1, l2, l3, l4⟩ := body_recv_len_last c hw e
    { x with dev := { x.dev with i2c_status := last } } N hidx hcap
    (recv_len_progress_latch c hw e x N N last hp) hlast
  rw [hx]
  refine ⟨?_, l1, ?_, fun h1 h2 => l4 h2 h1⟩
  · rw [l2, List.take_left' (by simp), List.range_succ_eq_map, List.map_cons, List.map_map]
    have h0 : hw.dbr (e.dbr_reads + 0) % 256 = N := hlen
    rw [h0]
    congr 1
    apply List.map_congr_left
    intro j _
    show hw.dbr (e.dbr_reads + (j + 1)) % 256 = hw.dbr (e.dbr_reads + 1 + j) % 256
    rw [Nat.add_assoc, Nat.add_comm j 1]
  · intro hl
    obtain ⟨a1, a2, a3, a4⟩ := l3 (Or.inr hl)
    refine ⟨a1, a2, a4, ?_, ?_⟩
    · rw [a3]
      show x.events = _
      rw [hp.events]
      congr 1
      apply List.map_congr_left
      intro j _
      congr 2
      exact decide_eq_decide.mpr ⟨fun h => h.1, fun h => ⟨h, hl⟩⟩
    · intro hd j
      rw [rx_trigger_value_stop c _ _ hd]
      by_cases hj : j + 1 = N <;> simp [hj]

/-- Witness of C14, amended: the length 3 and the bytes `0x11, 0x22, 0x33`
received by a length-prefixed read that is the only message. -/
theorem recv_len_round_trip_witness :
    (msg_at (body_steps sample_consts (bytes_hw [3, 0x11, 0x22, 0x33])
        ([sample_consts.SR_IRF, sample_consts.SR_IRF, sample_consts.SR_IRF]
          ++ [sample_consts.SR_IRF ||| sample_consts.SR_MSD])
        (rx_engine [block_read_buf_msg])).dev 0).buf.take (3 + 1)
      = [3, 0x11, 0x22, 0x33]
    ∧ (msg_at (body_steps sample_consts (bytes_hw [3, 0x11, 0x22, 0x33])
        ([sample_consts.SR_IRF, sample_consts.SR_IRF, sample_consts.SR_IRF]
          ++ [sample_consts.SR_IRF ||| sample_consts.SR_MSD])
        (rx_engine [block_read_buf_msg])).dev 0).len = 3 + 1 :=
  ⟨(recv_len_round_trip sample_consts (bytes_hw [3, 0x11, 0x22, 0x33])
      (rx_engine [block_read_buf_msg]) 3
      [sample_consts.SR_IRF, sample_consts.SR_IRF, sample_consts.SR_IRF]
      (sample_consts.SR_IRF ||| sample_consts.SR_MSD)
      (by decide) (by decide) (by decide) (by decide) (by decide) (by decide) (by decide)
      (by decide) (by decide) (by decide) (by decide) (by decide) (by decide)).1,
   (recv_len_round_trip sample_consts (bytes_hw [3, 0x11, 0x22, 0x33])
      (rx_engine [block_read_buf_msg]) 3
      [sample_consts.SR_IRF, sample_consts.SR_IRF, sample_consts.SR_IRF]
      (sample_consts.SR_IRF ||| sample_consts.SR_MSD)
      (by decide) (by decide) (by decide) (by decide) (by decide) (by decide) (by decide)
      (by decide) (by decide) (by decide) (by decide) (by decide) (by decide)).2.1⟩

/-! ## Length byte out of range -/

theorem store_msg_buf_other (d : spacemit_i2c_dev) (v j : Nat) (h : j ≠ d.msg_idx) :
    (store_msg_buf d v).msgs[j]? = d.msgs[j]? := by
  unfold store_msg_buf
  exact List.getElem?_set_ne (Ne.symm h)

theorem set_cur_len_other (d : spacemit_i2c_dev) (n j : Nat) (h : j ≠ d.msg_idx) :
    (set_cur_len d n).msgs[j]? = d.msgs[j]? := by
  unfold set_cur_len
  exact List.getElem?_set_ne (Ne.symm h)

/-- The storing part of the receive-full branch touches no message but the
current one and keeps the message index. -/
theorem body_rx_store_other (c : Consts) (hw : Hw) (cr_val : Nat) (e : Engine) (j : Nat)
    (h : j ≠ e.dev.msg_idx) :
    (body_rx_store c hw cr_val e).2.dev.msgs[j]? = e.dev.msgs[j]?
    ∧ (body_rx_store c hw cr_val e).2.dev.msg_idx = e.dev.msg_idx := by
  unfold body_rx_store
  split
  · split
    · exact ⟨store_msg_buf_other { e.dev with smbus_rcv_len := true } 0 j h, rfl⟩
    · exact ⟨(set_cur_len_other
          (store_msg_buf { e.dev with smbus_rcv_len := true } (hw.dbr e.dbr_reads % 256))
          _ j h).trans
        (store_msg_buf_other { e.dev with smbus_rcv_len := true } _ j h), rfl⟩
  · split
    · exact ⟨store_msg_buf_other e.dev _ j h, rfl⟩
    · exact ⟨rfl, rfl⟩

theorem next_msg_mono (c : Consts) (hw : Hw) (e : Engine) :
    e.dev.msg_idx ≤ (spacemit_i2c_byte_xfer_next_msg c hw e).2.dev.msg_idx := by
  by_cases h : (e.dev.msg_idx : Int) = e.dev.num - 1
  · unfold spacemit_i2c_byte_xfer_next_msg next_msg_core
    rw [if_pos h]
  · rw [(next_msg_advance c hw e h).1]
    exact Nat.le_succ _

theorem body_rx_next_other (c : Consts) (hw : Hw) (cr_val : Nat) (e : Engine) :
    (body_rx_next (spacemit_i2c_byte_xfer_next_msg c hw) c cr_val e).2.dev.msgs = e.dev.msgs
    ∧ e.dev.msg_idx
        ≤ (body_rx_next (spacemit_i2c_byte_xfer_next_msg c hw) c cr_val e).2.dev.msg_idx := by
  unfold body_rx_next
  split
  · exact ⟨rfl, Nat.le_refl _⟩
  · split
    · exact ⟨rfl, Nat.le_refl _⟩
    · split
      · exact ⟨next_msg_msgs c hw e, next_msg_mono c hw e⟩
      · exact ⟨rfl, Nat.le_refl _⟩

theorem body_tx_other (c : Consts) (hw : Hw) (cr_val : Nat) (e : Engine) :
    (body_tx (spacemit_i2c_byte_xfer_next_msg c hw) c cr_val e).2.dev.msgs = e.dev.msgs
    ∧ e.dev.msg_idx
        ≤ (body_tx (spacemit_i2c_byte_xfer_next_msg c hw) c cr_val e).2.dev.msg_idx := by
  unfold body_tx
  split
  · exact ⟨rfl, Nat.le_refl _⟩
  · split
    · split <;> exact ⟨rfl, Nat.le_refl _⟩
    · split
      · exact ⟨rfl, Nat.le_refl _⟩
      · split
        · exact ⟨rfl, Nat.le_refl _⟩
        · split
          · exact ⟨next_msg_msgs c hw e, next_msg_mono c hw e⟩
          · exact ⟨rfl, Nat.le_refl _⟩

/-- The body touches no message but the current one, and the message index does
not decrease. -/
theorem body_other (c : Consts) (hw : Hw) (e : Engine) (j : Nat) (h : j ≠ e.dev.msg_idx) :
    (spacemit_i2c_byte_xfer_body c hw e).2.dev.msgs[j]? = e.dev.msgs[j]?
    ∧ e.dev.msg_idx ≤ (spacemit_i2c_byte_xfer_body c hw e).2.dev.msg_idx := by
  unfold spacemit_i2c_byte_xfer_body body_core
  split
  · split
    · exact ⟨rfl, Nat.le_refl _⟩
    · obtain ⟨s1, s2⟩ := body_rx_store_other c hw (body_cr_val c hw e) (body_entry e) j h
      split
      · exact ⟨s1, by rw [s2]; exact Nat.le_refl _⟩
      · obtain ⟨n1, n2⟩ := body_rx_next_other c hw (body_cr_val c hw e)
          (body_rx_store c hw (body_cr_val c hw e) (body_entry e)).2
        rw [n1]
        rw [s2] at n2
        exact ⟨s1, n2⟩
  · split
    · obtain ⟨n1, n2⟩ := body_tx_other c hw (body_cr_val c hw e) (body_entry e)
      rw [n1]
      exact ⟨rfl, n2⟩
    · exact ⟨rfl, Nat.le_refl _⟩

/-- A receiving engine whose current message is complete stores nothing more in
it: the messages are kept, and as long as the message index stays, so do the
direction, the cursor and the length flag. -/
theorem body_rx_full (c : Consts) (hw : Hw) (e : Engine) (hrx : e.dev.is_rx = true)
    (hrcv : e.dev.smbus_rcv_len = true) (hfull : ¬ e.dev.rx_cnt < (cur_msg e.dev).len) :
    (spacemit_i2c_byte_xfer_body c hw e).2.dev.msgs = e.dev.msgs
    ∧ e.dev.msg_idx ≤ (spacemit_i2c_byte_xfer_body c hw e).2.dev.msg_idx
    ∧ ((spacemit_i2c_byte_xfer_body c hw e).2.dev.msg_idx = e.dev.msg_idx →
        (spacemit_i2c_byte_xfer_body c hw e).2.dev.is_rx = true
        ∧ (spacemit_i2c_byte_xfer_body c hw e).2.dev.smbus_rcv_len = true
        ∧ (spacemit_i2c_byte_xfer_body c hw e).2.dev.rx_cnt = e.dev.rx_cnt) := by
  have hnp : ¬ ((cur_msg (body_entry e).dev).flags &&& I2C_M_RECV_LEN ≠ 0
      ∧ (body_entry e).dev.smbus_rcv_len = false) := by
    rintro ⟨_, h⟩
    have : e.dev.smbus_rcv_len = false := h
    rw [hrcv] at this
    exact absurd this (by simp)
  have hfull1 : ¬ (body_entry e).dev.rx_cnt < (cur_msg (body_entry e).dev).len := hfull
  have hstore : body_rx_store c hw (body_cr_val c hw e) (body_entry e)
      = (false, body_entry e) := by
    unfold body_rx_store
    rw [if_neg hnp, if_neg hfull1]
  have hsame : (0, body_entry e).2.dev.msgs = e.dev.msgs
      ∧ e.dev.msg_idx ≤ ((0 : Int), body_entry e).2.dev.msg_idx
      ∧ (((0 : Int), body_entry e).2.dev.msg_idx = e.dev.msg_idx →
          ((0 : Int), body_entry e).2.dev.is_rx = true
          ∧ ((0 : Int), body_entry e).2.dev.smbus_rcv_len = true
          ∧ ((0 : Int), body_entry e).2.dev.rx_cnt = e.dev.rx_cnt) :=
    ⟨rfl, Nat.le_refl _, fun _ => ⟨hrx, hrcv, rfl⟩⟩
  unfold spacemit_i2c_byte_xfer_body body_core
  split
  · rw [if_neg (by simp [hrx]), hstore]
    simp only [Bool.false_eq_true, if_false]
    unfold body_rx_next
    split
    · exact hsame
    · split
      · rename_i hlt
        have hne : ((body_entry e).dev.msg_idx : Int) ≠ (body_entry e).dev.num - 1 := by omega
        obtain ⟨a1, _⟩ := next_msg_advance c hw (body_entry e) hne
        refine ⟨next_msg_msgs c hw (body_entry e), next_msg_mono c hw (body_entry e), ?_⟩
        intro h
        rw [a1] at h
        exact absurd h (Nat.succ_ne_self _)
      · exact hsame
  · split
    · unfold body_tx
      split
      · exact hsame
      · split
        · rw [if_neg (by simp [show (body_entry e).dev.is_rx = true from hrx])]
          exact ⟨rfl, Nat.le_refl _, fun _ => ⟨hrx, hrcv, rfl⟩⟩
        · rw [if_pos (show (body_entry e).dev.is_rx = true from hrx)]
          exact hsame
    · exact hsame

theorem msg_at_eq (d d2 : spacemit_i2c_dev) (i : Nat) (h : d2.msgs[i]? = d.msgs[i]?) :
    msg_at d2 i = msg_at d i := by
  unfold msg_at
  rw [List.getD_eq_getElem?_getD, List.getD_eq_getElem?_getD, h]

/-- Once a receiving engine has completed message `i`, no run of the body changes
that message. -/
theorem body_steps_keeps (c : Consts) (hw : Hw) (i : Nat) (sts : List Nat) (x : Engine)
    (hge : i ≤ x.dev.msg_idx)
    (hat : x.dev.msg_idx = i →
      x.dev.is_rx = true ∧ x.dev.smbus_rcv_len = true
        ∧ ¬ x.dev.rx_cnt < (cur_msg x.dev).len) :
    (body_steps c hw sts x).dev.msgs[i]? = x.dev.msgs[i]? := by
  induction sts generalizing x with
  | nil => rfl
  | cons st sts ih =>
    show (body_steps c hw sts
      (spacemit_i2c_byte_xfer_body c hw { x with dev := { x.dev with i2c_status := st } }).2
        ).dev.msgs[i]? = _
    by_cases hi : x.dev.msg_idx = i
    · obtain ⟨h1, h2, h3⟩ := hat hi
      obtain ⟨b1, b2, b3⟩ := body_rx_full c hw
        { x with dev := { x.dev with i2c_status := st } } h1 h2 h3
      rw [ih _ (Nat.le_trans hge b2), b1]
      intro hidx
      have hstay : (spacemit_i2c_byte_xfer_body c hw
          { x with dev := { x.dev with i2c_status := st } }).2.dev.msg_idx = x.dev.msg_idx := by
        rw [hidx, hi]
      obtain ⟨c1, c2, c3⟩ := b3 hstay
      refine ⟨c1, c2, ?_⟩
      have hcur : cur_msg (spacemit_i2c_byte_xfer_body c hw
          { x with dev := { x.dev with i2c_status := st } }).2.dev = cur_msg x.dev := by
        unfold cur_msg
        rw [b1, hstay]
      rw [hcur, c3]
      exact h3
    · have hne : i ≠ ({ x with dev := { x.dev with i2c_status := st } } : Engine).dev.msg_idx :=
        fun h => hi h.symm
      obtain ⟨b1, b2⟩ := body_other c hw { x with dev := { x.dev with i2c_status := st } } i hne
      have hlt : i < x.dev.msg_idx := Nat.lt_of_le_of_ne hge hne
      rw [ih _ (Nat.le_trans hge b2), b1]
      intro hidx
      have : x.dev.msg_idx ≤ i := by rw [← hidx]; exact b2
      omega

theorem or_and_self_right (a s x : Nat) : (a ||| s ||| x) &&& s = s := by
  apply Nat.eq_of_testBit_eq
  intro i
  simp only [Nat.testBit_and, Nat.testBit_or]
  cases a.testBit i <;> cases s.testBit i <;> cases x.testBit i <;> rfl

/-- The first attempt of the locked path, when it is the only one. -/
theorem xfer_first_attempt (c : Consts) (e : XferEnv) (d : spacemit_i2c_dev)
    (msgs : List i2c_msg)
    (hslave : d.slave = false) (hpio : ¬ pio_requested c e d) (hsd : d.shutdown = false)
    (hpm : pm_failed e d = false ∨ clk_directly e d = true)
    (h : ¬ retryable (xfer_step c e.attempts 0 (xfer_start e d msgs)).1) :
    (spacemit_i2c_xfer c e d msgs).ret
      = (if (xfer_step c e.attempts 0 (xfer_start e d msgs)).1 < 0 then
          (xfer_step c e.attempts 0 (xfer_start e d msgs)).1
        else (msgs.length : Int)) := by
  rw [(xfer_locked c e d msgs hslave hpio hsd hpm).2,
    retry_loop_stop d.drv_retries _ _ 0 _ (Or.inl h)]

/-- The length byte out of range: the state that `spacemit_i2c_byte_xfer_body`
leaves. -/
theorem body_invalid_len_spec (c : Consts) (hw : Hw) (e : Engine)
    (hidx : e.dev.msg_idx < e.dev.msgs.length)
    (hirf : e.dev.i2c_status &&& c.SR_IRF ≠ 0) (hrx : e.dev.is_rx = true)
    (hflag : (cur_msg e.dev).flags &&& I2C_M_RECV_LEN ≠ 0)
    (hrcv : e.dev.smbus_rcv_len = false)
    (hbad : hw.dbr e.dbr_reads % 256 = 0 ∨ hw.dbr e.dbr_reads % 256 > I2C_SMBUS_BLOCK_MAX) :
    ∃ r, spacemit_i2c_byte_xfer_body c hw e = (0, r)
      ∧ r.dev.i2c_err = e.dev.i2c_err
      ∧ r.events = e.events ++
          [Event.write_reg REG_CR
            (body_cr_val c hw e ||| (c.CR_STOP ||| c.CR_ACKNAK) ||| (c.CR_ALDIE ||| c.CR_TB))]
      ∧ r.dbr_reads = e.dbr_reads + 1
      ∧ r.dev.rx_cnt = (cur_msg e.dev).len
      ∧ r.dev.msg_idx = e.dev.msg_idx
      ∧ cur_msg r.dev = { cur_msg e.dev with buf := buf_store (cur_msg e.dev).buf e.dev.msg_buf 0 }
      ∧ r.dev.is_rx = true
      ∧ r.dev.smbus_rcv_len = true :=
  ⟨_, body_invalid_len c hw e hirf hrx hflag hrcv hbad, rfl, rfl, rfl, rfl, rfl,
    cur_msg_store { e.dev with phase := SPACEMIT_I2C_XFER_BODY, smbus_rcv_len := true } 0 hidx,
    hrx, rfl⟩

/-- C15, as stated, fails: a length-prefixed read whose length byte arrives as
200. No error is latched, completion is signalled at the master stop, and
`spacemit_i2c_xfer` returns the message count 1, not `-EIO`. -/
theorem invalid_block_length_not_eio :
    invalid_len_attempt.2.dev.i2c_err = 0
    ∧ Event.call Callee.complete ∈ invalid_len_attempt.2.events
    ∧ (spacemit_i2c_xfer sample_consts (sample_env (attempt_of_engine invalid_len_attempt))
        (sample_dev [block_read_buf_msg]) [block_read_buf_msg]).ret = 1
    ∧ (1 : Int) ≠ - EIO := by
  refine ⟨by decide, by decide, ?_, by decide⟩
  rw [xfer_first_attempt sample_consts (sample_env (attempt_of_engine invalid_len_attempt))
    (sample_dev [block_read_buf_msg]) [block_read_buf_msg] rfl (by decide) rfl (Or.inl rfl)
    (by decide)]
  decide

/-- C15, amended: the current message is a read flagged `I2C_M_RECV_LEN` whose
length byte is awaited, and the byte delivered to a receive-full interrupt is 0
or greater than `I2C_SMBUS_BLOCK_MAX`. Then `spacemit_i2c_byte_xfer_body`
returns 0 and latches no error (`i2c_err` is kept); its one register write is
a write of `REG_CR` with STOP and NAK set; it reads the data register once,
stores 0 at the cursor of the message buffer and sets `rx_cnt` to the message
length; and no later run of the body, whatever the statuses, changes that
message: no further received byte is stored in its buffer. -/
theorem invalid_block_length (c : Consts) (hw : Hw) (e : Engine)
    (hidx : e.dev.msg_idx < e.dev.msgs.length)
    (hirf : e.dev.i2c_status &&& c.SR_IRF ≠ 0) (hrx : e.dev.is_rx = true)
    (hflag : (cur_msg e.dev).flags &&& I2C_M_RECV_LEN ≠ 0)
    (hrcv : e.dev.smbus_rcv_len = false)
    (hbad : hw.dbr e.dbr_reads % 256 = 0 ∨ hw.dbr e.dbr_reads % 256 > I2C_SMBUS_BLOCK_MAX) :
    (spacemit_i2c_byte_xfer_body c hw e).1 = 0
    ∧ (spacemit_i2c_byte_xfer_body c hw e).2.dev.i2c_err = e.dev.i2c_err
    ∧ (spacemit_i2c_byte_xfer_body c hw e).2.events
        = e.events ++
          [Event.write_reg REG_CR
            (body_cr_val c hw e ||| (c.CR_STOP ||| c.CR_ACKNAK) ||| (c.CR_ALDIE ||| c.CR_TB))]
    ∧ (body_cr_val c hw e ||| (c.CR_STOP ||| c.CR_ACKNAK) ||| (c.CR_ALDIE ||| c.CR_TB))
          &&& (c.CR_STOP ||| c.CR_ACKNAK) = c.CR_STOP ||| c.CR_ACKNAK
    ∧ (spacemit_i2c_byte_xfer_body c hw e).2.dbr_reads = e.dbr_reads + 1
    ∧ (spacemit_i2c_byte_xfer_body c hw e).2.dev.rx_cnt = (cur_msg e.dev).len
    ∧ (spacemit_i2c_byte_xfer_body c hw e).2.dev.msg_idx = e.dev.msg_idx
    ∧ msg_at (spacemit_i2c_byte_xfer_body c hw e).2.dev e.dev.msg_idx
        = { cur_msg e.dev with buf := buf_store (cur_msg e.dev).buf e.dev.msg_buf 0 }
    ∧ ∀ sts, msg_at (body_steps c hw sts (spacemit_i2c_byte_xfer_body c hw e).2).dev
          e.dev.msg_idx
        = msg_at (spacemit_i2c_byte_xfer_body c hw e).2.dev e.dev.msg_idx := by
  obtain ⟨r, hr, f1, f2, f3, f4, f5, f6, f7, f8⟩ :=
    body_invalid_len_spec c hw e hidx hirf hrx hflag hrcv hbad
  rw [hr]
  have hmsg : msg_at r.dev e.dev.msg_idx = cur_msg r.dev := by
    unfold msg_at cur_msg
    rw [f5]
  refine ⟨rfl, f1, f2, or_and_self_right _ _ _, f3, f4, f5, by rw [hmsg]; exact f6, ?_⟩
  intro sts
  apply msg_at_eq
  apply body_steps_keeps c hw e.dev.msg_idx sts r (by rw [f5])
  intro _
  refine ⟨f7, f8, ?_⟩
  rw [f4, f6]
  exact Nat.lt_irrefl _

/-- Witness of C15, amended: the length byte 200 arriving for a length-prefixed
read that is the only message. -/
theorem invalid_block_length_witness :
    (spacemit_i2c_byte_xfer_body sample_consts (bytes_hw [200, 0x11])
      { rx_engine [block_read_buf_msg] with
        dev := { (rx_engine [block_read_buf_msg]).dev with
                 i2c_status := sample_consts.SR_IRF } }).1 = 0
    ∧ (spacemit_i2c_byte_xfer_body sample_consts (bytes_hw [200, 0x11])
      { rx_engine [block_read_buf_msg] with
        dev := { (rx_engine [block_read_buf_msg]).dev with
                 i2c_status := sample_consts.SR_IRF } }).2.dev.i2c_err = 0 :=
  ⟨(invalid_block_length sample_consts (bytes_hw [200, 0x11])
      { rx_engine [block_read_buf_msg] with
        dev := { (rx_engine [block_read_buf_msg]).dev with
                 i2c_status := sample_consts.SR_IRF } }
      (by decide) (by decide) (by decide) (by decide) (by decide) (by decide)).1,
   (invalid_block_length sample_consts (bytes_hw [200, 0x11])
      { rx_engine [block_read_buf_msg] with
        dev := { (rx_engine [block_read_buf_msg]).dev with
                 i2c_status := sample_consts.SR_IRF } }
      (by decide) (by decide) (by decide) (by decide) (by decide) (by decide)).2.1⟩

/-! ## The Interrupt-mode scenario -/

theorem and_or_eq_zero (a b m : Nat) (h1 : a &&& b = 0) (h2 : a &&& m = 0) :
    a &&& (b ||| m) = 0 := by
  rw [Nat.and_or_distrib_left, or_eq_zero_iff]
  exact ⟨h1, h2⟩

set_option maxHeartbeats 4000000 in
set_option maxRecDepth 4000 in
/-- The scenario as the engine runs it, for any values of the constants. -/
theorem scenario_run (c : Consts) (cr : Nat → Nat) (s1 s2 s3 s4 s5 s6 s7 : Nat)
    (h1 : status_tx_empty c s1) (h2 : status_tx_empty c s2) (h3 : status_tx_empty_read c s3)
    (h4 : status_rx_full c s4) (h5 : status_rx_full c s5) (h6 : status_rx_full c s6)
    (h7 : status_rx_full_stop c s7) :
    (interrupt_attempt c (scenario_hw cr) [s1, s2, s3, s4, s5, s6, s7] scenario_dev).1 = 0
    ∧ dbr_writes
        (interrupt_attempt c (scenario_hw cr) [s1, s2, s3, s4, s5, s6, s7] scenario_dev).2.events
        = [0xA0, 0x01, 0xA1]
    ∧ (interrupt_attempt c (scenario_hw cr) [s1, s2, s3, s4, s5, s6, s7]
          scenario_dev).2.dev.msgs.map (fun m => m.buf)
        = [[0x01], [0xAA, 0xBB, 0xCC, 0xDD]]
    ∧ (interrupt_attempt c (scenario_hw cr) [s1, s2, s3, s4, s5, s6, s7]
          scenario_dev).2.dev.i2c_err = 0
    ∧ (interrupt_attempt c (scenario_hw cr) [s1, s2, s3, s4, s5, s6, s7]
          scenario_dev).2.events.count (Event.call Callee.complete) = 1
    ∧ (interrupt_attempt c (scenario_hw cr) [s1, s2, s3, s4, s5, s6, s7]
          scenario_dev).2.dbr_reads = 4 := by
  obtain ⟨e1, i1, t1, m1, r1⟩ := h1
  obtain ⟨e2, i2, t2, m2, r2⟩ := h2
  obtain ⟨e3, i3, t3, m3, r3⟩ := h3
  obtain ⟨e4, i4, m4, k4⟩ := h4
  obtain ⟨e5, i5, m5, k5⟩ := h5
  obtain ⟨e6, i6, m6, k6⟩ := h6
  obtain ⟨e7, i7, m7⟩ := h7
  have n4 := and_or_eq_zero _ _ _ m4 k4
  have n5 := and_or_eq_zero _ _ _ m5 k5
  have n6 := and_or_eq_zero _ _ _ m6 k6
  have z1 : s1 ≠ 0 := and_ne_zero_left _ _ t1
  have z2 : s2 ≠ 0 := and_ne_zero_left _ _ t2
  have z3 : s3 ≠ 0 := and_ne_zero_left _ _ t3
  have z4 : s4 ≠ 0 := and_ne_zero_left _ _ i4
  have z5 : s5 ≠ 0 := and_ne_zero_left _ _ i5
  have z6 : s6 ≠ 0 := and_ne_zero_left _ _ i6
  have z7 : s7 ≠ 0 := and_ne_zero_left _ _ i7
  have a1 : (80 &&& 127) <<< 1 = 160 := by decide
  have a2 : (80 &&& 127) <<< 1 ||| 1 = 161 := by decide
  have a3 : (1 : Nat) &&& 1 = 1 := by decide
  have a4 : (0 : Nat) &&& 1 = 0 := by decide
  have n7 : s7 &&& (c.SR_MSD ||| c.SR_ACKNAK) ≠ 0 := by
    rw [and_or_ne_zero]; exact Or.inl m7
  simp [interrupt_attempt, engine_start, run_interrupts, spacemit_i2c_int_handler,
    int_handler_engine, int_handler_complete, spacemit_i2c_byte_xfer, byte_xfer_core,
    spacemit_i2c_byte_xfer_body, body_core, body_tx, body_rx_store, body_rx_next, body_entry,
    body_cr_val, reg_write, spacemit_i2c_byte_xfer_next_msg, next_msg_core,
    spacemit_i2c_byte_xfer_send_slave_addr, spacemit_i2c_trigger_byte_xfer,
    spacemit_i2c_choose_xfer_mode, select_mode, clamp_mode, scenario_dev, sample_dev,
    spacemit_i2c_init_xfer_params, spacemit_i2c_mark_rw_flag, scenario_msgs, cur_msg,
    spacemit_i2c_is_last_byte_to_send, spacemit_i2c_is_last_byte_to_receive,
    spacemit_i2c_dev.num, dbr_writes, store_msg_buf, buf_store, scenario_hw,
    e1, i1, t1, m1, r1, z1, e2, i2, t2, m2, r2, z2, e3, i3, t3, m3, r3, z3,
    e4, i4, m4, z4, n4, e5, i5, m5, z5, n5, e6, i6, m6, z6, n6, e7, i7, m7, z7, n7,
    I2C_M_RD, I2C_M_RECV_LEN, read_msg, a1, a2, a3, a4]

/-- An Interrupt-mode attempt in which the engine starts, latches no error and
signals completion is classified 0. -/
theorem xfer_step_of_engine (c : Consts) (r : Int × Engine) (d : spacemit_i2c_dev)
    (msgs : List i2c_msg) (hdma : d.dma_disable = true) (h1 : r.1 = 0)
    (h2 : r.2.dev.i2c_err = 0) (h3 : Event.call Callee.complete ∈ r.2.events) :
    (xfer_step c (sample_env (attempt_of_engine r)).attempts 0
      (xfer_start (sample_env (attempt_of_engine r)) d msgs)).1 = 0 := by
  simp [xfer_step, xfer_attempt, xfer_setup, xfer_engine, xfer_classify, attempt_of_engine,
    sample_env, xfer_start, spacemit_i2c_choose_xfer_mode, select_mode, clamp_mode,
    spacemit_i2c_init_xfer_params, (mark_rw_flag_static _).1, hdma, h1, h2, h3]

/-- C13: the write of `0x01` to `0x50` followed by a read of four bytes, in
Interrupt mode, for every value of the constants and of the control register.
The engine is started by `spacemit_i2c_byte_xfer` from the initialised
parameters, and `spacemit_i2c_int_handler` runs once for each of seven statuses
of a slave that acknowledges every byte: transmit empty after the address and
after the data byte, transmit empty in read mode after the repeated address,
then four times receive full, the last with master stop detected, while the data
register delivers `0xAA, 0xBB, 0xCC, 0xDD`. Then the bytes written to `REG_DBR`
are `0xA0, 0x01, 0xA1` in that order, the buffers are `[0x01]` and `[0xAA, 0xBB,
0xCC, 0xDD]`, no error is latched, completion is signalled once, the data
register was read four times, and `spacemit_i2c_xfer`, given what this run
latches, returns 2. -/
theorem interrupt_scenario (c : Consts) (cr : Nat → Nat) (s1 s2 s3 s4 s5 s6 s7 : Nat)
    (h1 : status_tx_empty c s1) (h2 : status_tx_empty c s2) (h3 : status_tx_empty_read c s3)
    (h4 : status_rx_full c s4) (h5 : status_rx_full c s5) (h6 : status_rx_full c s6)
    (h7 : status_rx_full_stop c s7) :
    dbr_writes
        (interrupt_attempt c (scenario_hw cr) [s1, s2, s3, s4, s5, s6, s7] scenario_dev).2.events
        = [0xA0, 0x01, 0xA1]
    ∧ (interrupt_attempt c (scenario_hw cr) [s1, s2, s3, s4, s5, s6, s7]
          scenario_dev).2.dev.msgs.map (fun m => m.buf)
        = [[0x01], [0xAA, 0xBB, 0xCC, 0xDD]]
    ∧ (interrupt_attempt c (scenario_hw cr) [s1, s2, s3, s4, s5, s6, s7]
          scenario_dev).2.dev.i2c_err = 0
    ∧ (interrupt_attempt c (scenario_hw cr) [s1, s2, s3, s4, s5, s6, s7]
          scenario_dev).2.events.count (Event.call Callee.complete) = 1
    ∧ (interrupt_attempt c (scenario_hw cr) [s1, s2, s3, s4, s5, s6, s7]
          scenario_dev).2.dbr_reads = 4
    ∧ (spacemit_i2c_xfer c
          (sample_env (attempt_of_engine
            (interrupt_attempt c (scenario_hw cr) [s1, s2, s3, s4, s5, s6, s7] scenario_dev)))
          scenario_dev scenario_msgs).ret = 2 := by
  obtain ⟨f1, f2, f3, f4, f5, f6⟩ := scenario_run c cr s1 s2 s3 s4 s5 s6 s7 h1 h2 h3 h4 h5 h6 h7
  refine ⟨f2, f3, f4, f5, f6, ?_⟩
  have hmem : Event.call Callee.complete
      ∈ (interrupt_attempt c (scenario_hw cr) [s1, s2, s3, s4, s5, s6, s7]
          scenario_dev).2.events := by
    apply List.count_pos_iff.mp
    rw [f5]
    exact Nat.one_pos
  have hstep := xfer_step_of_engine c _ scenario_dev scenario_msgs rfl f1 f4 hmem
  have hpio : ¬ pio_requested c
      (sample_env (attempt_of_engine
        (interrupt_attempt c (scenario_hw cr) [s1, s2, s3, s4, s5, s6, s7] scenario_dev)))
      scenario_dev := by
    simp [pio_requested, sample_env, scenario_dev, sample_dev]
  rw [xfer_first_attempt c _ scenario_dev scenario_msgs rfl hpio rfl (Or.inl rfl)
    (by rw [hstep]; decide), hstep]
  rfl

/-- Witness of C13: the scenario at the sample constants, the control register
reading as zero. -/
theorem interrupt_scenario_witness :
    dbr_writes
        (interrupt_attempt sample_consts (scenario_hw (fun _ => 0))
          [sample_consts.SR_ITE, sample_consts.SR_ITE,
           sample_consts.SR_ITE ||| sample_consts.SR_RWM,
           sample_consts.SR_IRF, sample_consts.SR_IRF, sample_consts.SR_IRF,
           sample_consts.SR_IRF ||| sample_consts.SR_MSD] scenario_dev).2.events
        = [0xA0, 0x01, 0xA1]
    ∧ (interrupt_attempt sample_consts (scenario_hw (fun _ => 0))
          [sample_consts.SR_ITE, sample_consts.SR_ITE,
           sample_consts.SR_ITE ||| sample_consts.SR_RWM,
           sample_consts.SR_IRF, sample_consts.SR_IRF, sample_consts.SR_IRF,
           sample_consts.SR_IRF ||| sample_consts.SR_MSD]
          scenario_dev).2.dev.msgs.map (fun m => m.buf)
        = [[0x01], [0xAA, 0xBB, 0xCC, 0xDD]] :=
  ⟨(interrupt_scenario sample_consts (fun _ => 0)
      sample_consts.SR_ITE sample_consts.SR_ITE (sample_consts.SR_ITE ||| sample_consts.SR_RWM)
      sample_consts.SR_IRF sample_consts.SR_IRF sample_consts.SR_IRF
      (sample_consts.SR_IRF ||| sample_consts.SR_MSD)
      (by decide) (by decide) (by decide) (by decide) (by decide) (by decide) (by decide)).1,
   (interrupt_scenario sample_consts (fun _ => 0)
      sample_consts.SR_ITE sample_consts.SR_ITE (sample_consts.SR_ITE ||| sample_consts.SR_RWM)
      sample_consts.SR_IRF sample_consts.SR_IRF sample_consts.SR_IRF
      (sample_consts.SR_IRF ||| sample_consts.SR_MSD)
      (by decide) (by decide) (by decide) (by decide) (by decide) (by decide) (by decide)).2.1⟩

/-! ## Clean-up balance of `spacemit_i2c_xfer` -/

/-- The retry loop keeps a property that is indexed by the number of attempts
made. -/
theorem retry_loop_indexed {σ : Type} (P : Nat → σ → Prop) (R : Nat)
    (attempt : Nat → σ → Int × σ) (backoff : σ → σ)
    (hA : ∀ k s, P k s → P (k + 1) (attempt k s).2) (hB : ∀ k s, P k s → P k (backoff s)) :
    ∀ m k s, R + 1 - k = m → P k s →
      P (retry_loop R attempt backoff k s).2.1 (retry_loop R attempt backoff k s).2.2 := by
  intro m
  induction m with
  | zero =>
    intro k s hm hs
    rw [retry_loop_stop R attempt backoff k s (Or.inr (by omega))]
    exact hA k s hs
  | succ m ih =>
    intro k s hm hs
    by_cases h : retryable (attempt k s).1 ∧ k + 1 ≤ R
    · rw [retry_loop_continue R attempt backoff k s h.1 h.2]
      exact ih (k + 1) _ (by omega) (hB _ _ (hA k s hs))
    · rw [retry_loop_stop R attempt backoff k s (by tauto)]
      exact hA k s hs

theorem filter_bracket_reset (c : Consts) (d : spacemit_i2c_dev) :
    (spacemit_i2c_reset c d).filter is_bracket = [] := by
  unfold spacemit_i2c_reset spacemit_i2c_controller_reset
  split_ifs <;> rfl

theorem select_mode_events (c : Consts) (d : spacemit_i2c_dev) (cnt : Int) (block : Bool) :
    (select_mode c d cnt block).2 = []
    ∨ (select_mode c d cnt block).2 = spacemit_i2c_flush_fifo_buffer := by
  unfold select_mode
  split_ifs <;> simp

theorem choose_xfer_mode_events (c : Consts) (d : spacemit_i2c_dev) :
    (spacemit_i2c_choose_xfer_mode c d).2 = []
    ∨ (spacemit_i2c_choose_xfer_mode c d).2 = spacemit_i2c_flush_fifo_buffer := by
  unfold spacemit_i2c_choose_xfer_mode
  exact select_mode_events c d _ _

theorem filter_bracket_choose (c : Consts) (d : spacemit_i2c_dev) :
    (spacemit_i2c_choose_xfer_mode c d).2.filter is_bracket = [] := by
  rcases choose_xfer_mode_events c d with h | h <;> rw [h] <;> rfl

theorem filter_bracket_handle_err (c : Consts) (d : spacemit_i2c_dev) :
    (spacemit_i2c_handle_err c d).2.filter is_bracket = [] := by
  unfold spacemit_i2c_handle_err
  split_ifs <;>
    simp only [List.filter_append, filter_bracket_reset, List.append_nil] <;> rfl

theorem filter_bracket_fifo_xfer (env : AttemptEnv) (d : spacemit_i2c_dev) :
    (spacemit_i2c_fifo_xfer env d).2.filter is_bracket = [] := by
  unfold spacemit_i2c_fifo_xfer
  simp only []
  split_ifs <;> rfl

theorem filter_bracket_dma_cleanup (env : AttemptEnv) (a b t : Bool) :
    (dma_cleanup env a b t).filter is_bracket = [] := by
  unfold dma_cleanup
  split_ifs <;> rfl

theorem filter_bracket_dma_xfer (c : Consts) (env : AttemptEnv) (d : spacemit_i2c_dev) :
    (spacemit_i2c_dma_xfer c env d).2.filter is_bracket = [] := by
  unfold spacemit_i2c_dma_xfer
  split <;> simp only [List.filter_append, filter_bracket_dma_cleanup, List.append_nil]
  all_goals first
    | rfl
    | (split_ifs <;>
        simp only [List.filter_append, filter_bracket_reset, List.append_nil] <;> rfl)

theorem filter_bracket_engine (c : Consts) (env : AttemptEnv) (d : spacemit_i2c_dev) :
    (xfer_engine c env d).2.filter is_bracket = [] := by
  unfold xfer_engine
  split_ifs
  · rfl
  · exact filter_bracket_fifo_xfer env d
  · exact filter_bracket_dma_xfer c env d

theorem filter_bracket_setup (c : Consts) (env : AttemptEnv) (d : spacemit_i2c_dev) :
    (xfer_setup c env d).2.filter is_bracket
      = [Event.call Callee.spacemit_i2c_enable, Event.call Callee.enable_irq] := by
  unfold xfer_setup
  simp only [List.filter_append, filter_bracket_choose]
  split_ifs
  · rw [filter_bracket_reset]; rfl
  · rfl

theorem filter_bracket_classify (c : Consts) (env : AttemptEnv) (d : spacemit_i2c_dev)
    (ret : Int) (ev : List Event) :
    (xfer_classify c env d ret ev).2.2.filter is_bracket
      = ev.filter is_bracket ++ [Event.call Callee.spacemit_i2c_disable] := by
  unfold xfer_classify
  simp only []
  split_ifs <;>
    simp only [List.filter_append, filter_bracket_handle_err, List.append_nil,
      List.append_assoc] <;> rfl

/-- The bracket calls of one attempt: enable, enable the interrupt, disable the
interrupt, disable, once each and in this order, on every path. -/
theorem filter_bracket_attempt (c : Consts) (env : AttemptEnv) (d : spacemit_i2c_dev) :
    (xfer_attempt c env d).2.2.filter is_bracket = attempt_brackets := by
  unfold xfer_attempt
  simp only []
  split_ifs <;>
    simp only [filter_bracket_classify, List.filter_append, filter_bracket_setup,
      filter_bracket_engine, filter_bracket_reset, List.append_nil] <;> rfl

theorem filter_bracket_start (e : XferEnv) (d : spacemit_i2c_dev) (msgs : List i2c_msg) :
    (xfer_start e d msgs).2.filter is_bracket = [Event.call Callee.mutex_lock] := by
  unfold xfer_start
  simp only [List.filter_append]
  split_ifs <;> rfl

theorem filter_bracket_release (e : XferEnv) (d : spacemit_i2c_dev) :
    (xfer_release e d).filter is_bracket = [Event.call Callee.mutex_unlock] := by
  unfold xfer_release
  simp only [List.filter_append]
  split_ifs <;> rfl

theorem xfer_release_last (e : XferEnv) (d : spacemit_i2c_dev) (ev : List Event) :
    (ev ++ xfer_release e d).getLast? = some (Event.call Callee.mutex_unlock) := by
  unfold xfer_release
  rw [← List.append_assoc]
  exact List.getLast?_concat _

theorem replicate_flatten_succ {α : Type} (n : Nat) (l : List α) :
    (List.replicate (n + 1) l).flatten = (List.replicate n l).flatten ++ l := by
  rw [List.replicate_succ', List.flatten_append]
  simp

theorem count_replicate_flatten {α : Type} [DecidableEq α] (a : α) (n : Nat) (l : List α) :
    (List.replicate n l).flatten.count a = n * l.count a := by
  induction n with
  | zero => simp
  | succ n ih =>
    rw [replicate_flatten_succ, List.count_append, ih]
    ring

/-- The bracket calls of the retry loop of `spacemit_i2c_xfer`: the lock, then
the four calls of an attempt once for each attempt made. -/
theorem filter_bracket_loop (c : Consts) (e : XferEnv) (d : spacemit_i2c_dev)
    (msgs : List i2c_msg) :
    (retry_loop d.drv_retries (xfer_step c e.attempts) xfer_backoff 0
        (xfer_start e d msgs)).2.2.2.filter is_bracket
      = [Event.call Callee.mutex_lock]
        ++ (List.replicate
            (retry_loop d.drv_retries (xfer_step c e.attempts) xfer_backoff 0
              (xfer_start e d msgs)).2.1 attempt_brackets).flatten := by
  apply retry_loop_indexed
    (fun k (s : XferState) => s.2.filter is_bracket
      = [Event.call Callee.mutex_lock] ++ (List.replicate k attempt_brackets).flatten)
    d.drv_retries (xfer_step c e.attempts) xfer_backoff _ _ (d.drv_retries + 1) 0
    (xfer_start e d msgs) (by omega)
  · show (xfer_start e d msgs).2.filter is_bracket = _
    rw [filter_bracket_start]
    rfl
  · intro k s hs
    show (s.2 ++ (xfer_attempt c (e.attempts k) s.1).2.2).filter is_bracket = _
    rw [List.filter_append, hs, filter_bracket_attempt, replicate_flatten_succ,
      List.append_assoc]
  · intro k s hs
    show (s.2 ++ [Event.usleep_range 150 200]).filter is_bracket = _
    rw [List.filter_append, hs]
    exact List.append_nil _

/-- The bracket calls of a call of `spacemit_i2c_xfer` on the locked path. -/
theorem xfer_brackets (c : Consts) (e : XferEnv) (d : spacemit_i2c_dev) (msgs : List i2c_msg)
    (hslave : d.slave = false) (hpio : ¬ pio_requested c e d) :
    (spacemit_i2c_xfer c e d msgs).events.filter is_bracket
      = [Event.call Callee.mutex_lock]
        ++ (List.replicate (spacemit_i2c_xfer c e d msgs).attempts attempt_brackets).flatten
        ++ [Event.call Callee.mutex_unlock]
    ∧ (spacemit_i2c_xfer c e d msgs).events.getLast? = some (Event.call Callee.mutex_unlock) := by
  have hs : ¬ d.slave = true := by simp [hslave]
  unfold spacemit_i2c_xfer
  rw [if_neg hs, if_neg hpio]
  split_ifs with hsd hpm
  · exact ⟨rfl, rfl⟩
  · refine ⟨?_, xfer_release_last e d _⟩
    show ((xfer_start e d msgs).2 ++ xfer_release e d).filter is_bracket = _
    rw [List.filter_append, filter_bracket_start, filter_bracket_release]
    rfl
  · refine ⟨?_, xfer_release_last e d _⟩
    show ((retry_loop d.drv_retries (xfer_step c e.attempts) xfer_backoff 0
        (xfer_start e d msgs)).2.2.2 ++ xfer_release e d).filter is_bracket = _
    rw [List.filter_append, filter_bracket_loop, filter_bracket_release]

theorem calls_of_brackets (f : Callee) (ev : List Event) (n : Nat)
    (hf : is_bracket (Event.call f) = true)
    (h : ev.filter is_bracket
      = [Event.call Callee.mutex_lock] ++ (List.replicate n attempt_brackets).flatten
        ++ [Event.call Callee.mutex_unlock]) :
    calls f ev
      = calls f [Event.call Callee.mutex_lock] + n * calls f attempt_brackets
        + calls f [Event.call Callee.mutex_unlock] := by
  unfold calls
  rw [← List.count_filter hf, h, List.count_append, List.count_append,
    count_replicate_flatten]

/-- C21: on the locked path of `spacemit_i2c_xfer` (no slave registered, the
polled path not requested), for every hardware behaviour, so on success, engine
error, bus-busy recovery failure, completion timeout in every mode, runtime-PM
failure, shutdown, and across retries: the calls that bracket the transfer are
the lock of the mutex, then for each attempt made `spacemit_i2c_enable`,
`enable_irq`, `disable_irq`, `spacemit_i2c_disable` in this order, then the
unlock of the mutex, which is the last event. So the mutex is locked once and
released once, and `enable_irq`, `disable_irq`, `spacemit_i2c_enable` and
`spacemit_i2c_disable` are each called once per attempt. -/
theorem xfer_cleanup_balance (c : Consts) (e : XferEnv) (d : spacemit_i2c_dev)
    (msgs : List i2c_msg) (hslave : d.slave = false) (hpio : ¬ pio_requested c e d) :
    (spacemit_i2c_xfer c e d msgs).events.filter is_bracket
      = [Event.call Callee.mutex_lock]
        ++ (List.replicate (spacemit_i2c_xfer c e d msgs).attempts attempt_brackets).flatten
        ++ [Event.call Callee.mutex_unlock]
    ∧ (spacemit_i2c_xfer c e d msgs).events.getLast? = some (Event.call Callee.mutex_unlock)
    ∧ calls Callee.mutex_lock (spacemit_i2c_xfer c e d msgs).events = 1
    ∧ calls Callee.mutex_unlock (spacemit_i2c_xfer c e d msgs).events = 1
    ∧ calls Callee.enable_irq (spacemit_i2c_xfer c e d msgs).events
        = (spacemit_i2c_xfer c e d msgs).attempts
    ∧ calls Callee.disable_irq (spacemit_i2c_xfer c e d msgs).events
        = (spacemit_i2c_xfer c e d msgs).attempts
    ∧ calls Callee.spacemit_i2c_enable (spacemit_i2c_xfer c e d msgs).events
        = (spacemit_i2c_xfer c e d msgs).attempts
    ∧ calls Callee.spacemit_i2c_disable (spacemit_i2c_xfer c e d msgs).events
        = (spacemit_i2c_xfer c e d msgs).attempts := by
  obtain ⟨hf, hl⟩ := xfer_brackets c e d msgs hslave hpio
  refine ⟨hf, hl, ?_, ?_, ?_, ?_, ?_, ?_⟩
  · rw [calls_of_brackets Callee.mutex_lock _ _ rfl hf]
    show 1 + _ * 0 + 0 = 1
    omega
  · rw [calls_of_brackets Callee.mutex_unlock _ _ rfl hf]
    show 0 + _ * 0 + 1 = 1
    omega
  · rw [calls_of_brackets Callee.enable_irq _ _ rfl hf]
    show 0 + _ * 1 + 0 = _
    omega
  · rw [calls_of_brackets Callee.disable_irq _ _ rfl hf]
    show 0 + _ * 1 + 0 = _
    omega
  · rw [calls_of_brackets Callee.spacemit_i2c_enable _ _ rfl hf]
    show 0 + _ * 1 + 0 = _
    omega
  · rw [calls_of_brackets Callee.spacemit_i2c_disable _ _ rfl hf]
    show 0 + _ * 1 + 0 = _
    omega

/-- C21, at a concrete input: a transfer in Interrupt mode in which every attempt
times out. -/
theorem xfer_cleanup_balance_witness :
    (spacemit_i2c_xfer sample_consts (sample_env timeout_attempt) interrupt_dev
        [write_msg 1]).events.getLast? = some (Event.call Callee.mutex_unlock)
    ∧ calls Callee.disable_irq
        (spacemit_i2c_xfer sample_consts (sample_env timeout_attempt) interrupt_dev
          [write_msg 1]).events
      = (spacemit_i2c_xfer sample_consts (sample_env timeout_attempt) interrupt_dev
          [write_msg 1]).attempts :=
  ⟨(xfer_cleanup_balance sample_consts (sample_env timeout_attempt) interrupt_dev
      [write_msg 1] rfl (by decide)).2.1,
   (xfer_cleanup_balance sample_consts (sample_env timeout_attempt) interrupt_dev
      [write_msg 1] rfl (by decide)).2.2.2.2.2.1⟩

/-! ## State left by a previous transaction -/

/-- What `spacemit_i2c_choose_xfer_mode`, `spacemit_i2c_init_xfer_params` and
`spacemit_i2c_mark_rw_flag` make of the device does not depend on the message
index, the cursors, the phase, the latched error and status, `is_xfer_start`,
the direction and the address byte left by a previous transaction. -/
theorem engine_start_forgets (c : Consts) (d : spacemit_i2c_dev) (idx rx tx buf err status : Nat)
    (ph : spacemit_i2c_xfer_phase) (st rxd : Bool) (addr : Nat) (h : 0 < d.msgs.length) :
    engine_start c
        { d with
          msg_idx := idx, rx_cnt := rx, tx_cnt := tx, msg_buf := buf, phase := ph,
          i2c_err := err, i2c_status := status, is_xfer_start := st, is_rx := rxd,
          slave_addr_rw := addr }
      = engine_start c d := by
  cases hm : d.msgs with
  | nil => rw [hm] at h; exact absurd h (Nat.lt_irrefl _)
  | cons m ms =>
    unfold engine_start spacemit_i2c_mark_rw_flag spacemit_i2c_init_xfer_params
      spacemit_i2c_choose_xfer_mode
    simp only [hm, List.get?_cons_zero]
    split_ifs <;> rfl

/-- C22, where the code departs from it: `spacemit_i2c_init_xfer_params` does not
reset `smbus_rcv_len` (only `spacemit_i2c_byte_xfer_next_msg` does), so two runs
that differ only in the value of `smbus_rcv_len` left by the previous
transaction start from different states and behave differently on the same
interrupts and the same bytes `2, 0x11, 0x22` for one length-prefixed read:
with the flag clear the first byte is taken as the length, the message length
becomes 3 and three bytes are stored, STOP and NAK being requested for the
third; with the stale flag the first reception is already triggered with STOP
and NAK, one byte is stored and the length stays 1. -/
theorem stale_rcv_len_diverges :
    (engine_start sample_consts stale_dev).dev
      = { (engine_start sample_consts fresh_dev).dev with smbus_rcv_len := true }
    ∧ (engine_start sample_consts fresh_dev).dev.smbus_rcv_len = false
    ∧ ((interrupt_attempt sample_consts (bytes_hw [2, 0x11, 0x22]) block_read_statuses
          fresh_dev).2.dev.msgs.map (fun m => (m.len, m.buf.take 3)))
        = [(3, [2, 0x11, 0x22])]
    ∧ ((interrupt_attempt sample_consts (bytes_hw [2, 0x11, 0x22]) block_read_statuses
          stale_dev).2.dev.msgs.map (fun m => (m.len, m.buf.take 3)))
        = [(1, [2, 0, 0])]
    ∧ (cr_writes (interrupt_attempt sample_consts (bytes_hw [2, 0x11, 0x22])
          block_read_statuses fresh_dev).2.events).map
            (fun w => decide (w &&& sample_consts.CR_STOP ≠ 0))
        = [false, false, false, true, false]
    ∧ (cr_writes (interrupt_attempt sample_consts (bytes_hw [2, 0x11, 0x22])
          block_read_statuses stale_dev).2.events).map
            (fun w => decide (w &&& sample_consts.CR_STOP ≠ 0))
        = [false, true, false] := by
  decide

/-! ## Byte engine: phases -/

theorem body_stay_refl_body (d : spacemit_i2c_dev) :
    body_stay d { d with phase := SPACEMIT_I2C_XFER_BODY } :=
  ⟨rfl, rfl, rfl, rfl, rfl, rfl⟩

theorem body_stay_trans (d d1 d2 : spacemit_i2c_dev) (h1 : body_stay d d1)
    (h2 : body_stay d1 d2) : body_stay d d2 :=
  ⟨h2.phase, h2.msg_idx.trans h1.msg_idx, h2.msgs_len.trans h1.msgs_len,
    h2.is_xfer_start.trans h1.is_xfer_start, h2.high_mode.trans h1.high_mode,
    h2.master_code.trans h1.master_code⟩

theorem body_rx_store_stay (c : Consts) (hw : Hw) (cr_val : Nat) (e : Engine)
    (hp : e.dev.phase = SPACEMIT_I2C_XFER_BODY) :
    body_stay e.dev (body_rx_store c hw cr_val e).2.dev := by
  unfold body_rx_store
  split_ifs
  · exact ⟨hp, rfl, store_msg_buf_length _ _, rfl, rfl, rfl⟩
  · exact ⟨hp, rfl, (set_cur_len_length _ _).trans (store_msg_buf_length _ _), rfl, rfl, rfl⟩
  · exact ⟨hp, rfl, store_msg_buf_length _ _, rfl, rfl, rfl⟩
  · exact ⟨hp, rfl, rfl, rfl, rfl, rfl⟩

/-- The receive-full rest of the body either stays within the current message or
ends with the move to the next message, made when the current one is not the
last. -/
theorem body_rx_next_shape (next_msg : Engine → Int × Engine) (c : Consts) (cr_val : Nat)
    (e : Engine) (hp : e.dev.phase = SPACEMIT_I2C_XFER_BODY) :
    (∃ e2, body_rx_next next_msg c cr_val e = (0, e2) ∧ body_stay e.dev e2.dev)
    ∨ ((e.dev.msg_idx : Int) < e.dev.num - 1 ∧ body_rx_next next_msg c cr_val e = next_msg e) := by
  unfold body_rx_next
  split_ifs
  all_goals first
    | exact Or.inl ⟨_, rfl, ⟨hp, rfl, rfl, rfl, rfl, rfl⟩⟩
    | exact Or.inr ⟨by assumption, rfl⟩

theorem body_tx_shape (next_msg : Engine → Int × Engine) (c : Consts) (cr_val : Nat)
    (e : Engine) (hp : e.dev.phase = SPACEMIT_I2C_XFER_BODY) :
    (∃ e2, body_tx next_msg c cr_val e = (0, e2) ∧ body_stay e.dev e2.dev)
    ∨ ((e.dev.msg_idx : Int) < e.dev.num - 1 ∧ body_tx next_msg c cr_val e = next_msg e) := by
  unfold body_tx
  split_ifs with h1 h2 h3 h4 h5 h6
  all_goals first
    | exact Or.inl ⟨_, rfl, ⟨hp, rfl, rfl, rfl, rfl, rfl⟩⟩
    | exact Or.inr ⟨by assumption, rfl⟩

/-- The body either stays within the current message, in the body phase, or ends
with the move to the next message from such a state. -/
theorem body_core_shape (next_msg : Engine → Int × Engine) (c : Consts) (hw : Hw) (e : Engine) :
    (∃ e2, body_core next_msg c hw e = (0, e2) ∧ body_stay e.dev e2.dev)
    ∨ (∃ e1, body_stay e.dev e1.dev ∧ (e1.dev.msg_idx : Int) < e1.dev.num - 1
        ∧ body_core next_msg c hw e = next_msg e1) := by
  have h0 : body_stay e.dev (body_entry e).dev := body_stay_refl_body e.dev
  have hs : body_stay e.dev (body_rx_store c hw (body_cr_val c hw e) (body_entry e)).2.dev :=
    body_stay_trans _ _ _ h0 (body_rx_store_stay c hw (body_cr_val c hw e) (body_entry e) rfl)
  unfold body_core
  split_ifs with h1 h2 h3 h4
  · exact Or.inl ⟨_, rfl, h0⟩
  · exact Or.inl ⟨_, rfl, hs⟩
  · rcases body_rx_next_shape next_msg c (body_cr_val c hw e)
      (body_rx_store c hw (body_cr_val c hw e) (body_entry e)).2 hs.phase with ⟨e2, a, b⟩ | ⟨a, b⟩
    · exact Or.inl ⟨e2, a, body_stay_trans _ _ _ hs b⟩
    · exact Or.inr ⟨_, hs, a, b⟩
  · rcases body_tx_shape next_msg c (body_cr_val c hw e) (body_entry e) rfl with ⟨e2, a, b⟩ | ⟨a, b⟩
    · exact Or.inl ⟨e2, a, body_stay_trans _ _ _ h0 b⟩
    · exact Or.inr ⟨_, h0, a, b⟩
  · exact Or.inl ⟨_, rfl, h0⟩

theorem mark_rw_flag_keeps (d : spacemit_i2c_dev) :
    (spacemit_i2c_mark_rw_flag d).phase = d.phase
    ∧ (spacemit_i2c_mark_rw_flag d).is_xfer_start = d.is_xfer_start
    ∧ (spacemit_i2c_mark_rw_flag d).high_mode = d.high_mode
    ∧ (spacemit_i2c_mark_rw_flag d).master_code = d.master_code
    ∧ (spacemit_i2c_mark_rw_flag d).i2c_err = d.i2c_err
    ∧ (spacemit_i2c_mark_rw_flag d).msg_idx = d.msg_idx
    ∧ (spacemit_i2c_mark_rw_flag d).msgs = d.msgs := by
  unfold spacemit_i2c_mark_rw_flag
  split
  · split <;> exact ⟨rfl, rfl, rfl, rfl, rfl, rfl, rfl⟩
  · exact ⟨rfl, rfl, rfl, rfl, rfl, rfl, rfl⟩

theorem mark_rw_flag_addr_rw (d : spacemit_i2c_dev) (h : d.msg_idx < d.msgs.length) :
    (spacemit_i2c_mark_rw_flag d).slave_addr_rw = addr_rw (cur_msg d) := by
  rw [(mark_rw_flag_ctx d h).2.2.2.2.2.2]
  unfold addr_rw
  split_ifs
  · rfl
  · exact (Nat.or_zero _).symm

/-- The start of a message by `spacemit_i2c_byte_xfer` in the idle phase without
latched error: the master code in high-speed mode at the start of the transfer,
the address byte otherwise. -/
theorem byte_xfer_core_start (body : Engine → Int × Engine) (c : Consts) (hw : Hw) (e : Engine)
    (herr : e.dev.i2c_err = 0) (hp : e.dev.phase = SPACEMIT_I2C_XFER_IDLE) :
    (byte_xfer_core body c hw e).1 = 0
    ∧ (byte_xfer_core body c hw e).2.dev.phase
        = (if e.dev.high_mode = true ∧ e.dev.is_xfer_start = true then
            SPACEMIT_I2C_XFER_MASTER_CODE else SPACEMIT_I2C_XFER_SLAVE_ADDR)
    ∧ dbr_writes (byte_xfer_core body c hw e).2.events
        = dbr_writes e.events
          ++ [if e.dev.high_mode = true ∧ e.dev.is_xfer_start = true then e.dev.master_code
              else e.dev.slave_addr_rw]
    ∧ (byte_xfer_core body c hw e).2.dev.is_xfer_start = false
    ∧ (byte_xfer_core body c hw e).2.dev.msg_idx = e.dev.msg_idx
    ∧ (byte_xfer_core body c hw e).2.dev.msgs = e.dev.msgs := by
  unfold byte_xfer_core
  rw [if_neg (by simp [herr]), if_pos hp]
  split_ifs with h
  · refine ⟨rfl, rfl, ?_, rfl, rfl, rfl⟩
    show dbr_writes (e.events ++ [Event.write_reg REG_DBR e.dev.master_code] ++ [_]) = _
    rw [dbr_writes_append, dbr_writes_append]
    simp [dbr_writes]
  · refine ⟨rfl, rfl, ?_, rfl, rfl, rfl⟩
    show dbr_writes (e.events ++ [Event.write_reg REG_DBR e.dev.slave_addr_rw] ++ [_]) = _
    rw [dbr_writes_append, dbr_writes_append]
    simp [dbr_writes]

theorem send_slave_addr_spec (c : Consts) (hw : Hw) (e : Engine) :
    (spacemit_i2c_byte_xfer_send_slave_addr c hw e).dev
        = { e.dev with phase := SPACEMIT_I2C_XFER_SLAVE_ADDR }
    ∧ dbr_writes (spacemit_i2c_byte_xfer_send_slave_addr c hw e).events
        = dbr_writes e.events ++ [e.dev.slave_addr_rw] := by
  refine ⟨rfl, ?_⟩
  show dbr_writes (e.events ++ [Event.write_reg REG_DBR e.dev.slave_addr_rw] ++ [_]) = _
  rw [dbr_writes_append, dbr_writes_append]
  simp [dbr_writes]

/-- The move to the next message when the current one is not the last: the
engine is restarted on the next message, which sends its address byte unless
the master code is still to be sent. -/
theorem next_msg_start (c : Consts) (hw : Hw) (e : Engine)
    (h : (e.dev.msg_idx : Int) ≠ e.dev.num - 1) :
    (spacemit_i2c_byte_xfer_next_msg c hw e).1 = 0
    ∧ (spacemit_i2c_byte_xfer_next_msg c hw e).2.dev.phase
        = (if e.dev.high_mode = true ∧ e.dev.is_xfer_start = true then
            SPACEMIT_I2C_XFER_MASTER_CODE else SPACEMIT_I2C_XFER_SLAVE_ADDR)
    ∧ (spacemit_i2c_byte_xfer_next_msg c hw e).2.dev.msg_idx = e.dev.msg_idx + 1
    ∧ (spacemit_i2c_byte_xfer_next_msg c hw e).2.dev.msgs = e.dev.msgs
    ∧ (spacemit_i2c_byte_xfer_next_msg c hw e).2.dev.is_xfer_start = false
    ∧ dbr_writes (spacemit_i2c_byte_xfer_next_msg c hw e).2.events
        = dbr_writes e.events
          ++ [if e.dev.high_mode = true ∧ e.dev.is_xfer_start = true then e.dev.master_code
              else (spacemit_i2c_byte_xfer_next_msg c hw e).2.dev.slave_addr_rw]
    ∧ (e.dev.msg_idx + 1 < e.dev.msgs.length →
        (spacemit_i2c_byte_xfer_next_msg c hw e).2.dev.slave_addr_rw
          = addr_rw (cur_msg (spacemit_i2c_byte_xfer_next_msg c hw e).2.dev)) := by
  unfold spacemit_i2c_byte_xfer_next_msg next_msg_core
  rw [if_neg h]
  generalize hd : ({ e.dev with
          msg_idx := e.dev.msg_idx + 1
          msg_buf := 0
          rx_cnt := 0
          tx_cnt := 0
          i2c_err := 0
          i2c_status := 0
          smbus_rcv_len := false
          phase := SPACEMIT_I2C_XFER_IDLE } : spacemit_i2c_dev) = d1
  have hd1 : d1.msg_idx = e.dev.msg_idx + 1 ∧ d1.msgs = e.dev.msgs ∧ d1.i2c_err = 0
      ∧ d1.phase = SPACEMIT_I2C_XFER_IDLE ∧ d1.high_mode = e.dev.high_mode
      ∧ d1.is_xfer_start = e.dev.is_xfer_start ∧ d1.master_code = e.dev.master_code := by
    subst hd
    exact ⟨rfl, rfl, rfl, rfl, rfl, rfl, rfl⟩
  obtain ⟨k1, k2, k3, k4, k5, k6, k7⟩ := mark_rw_flag_keeps d1
  obtain ⟨a1, a2, a3, a4, a5, a6, a7⟩ := hd1
  obtain ⟨s1, s2, s3, s4, s5, s6⟩ := byte_xfer_core_start (fun e => (0, e)) c hw
    { e with dev := spacemit_i2c_mark_rw_flag d1 } (by rw [k5, a3]) (by rw [k1, a4])
  have hsl : (byte_xfer_core (fun e => (0, e)) c hw
        { e with dev := spacemit_i2c_mark_rw_flag d1 }).2.dev.slave_addr_rw
      = (spacemit_i2c_mark_rw_flag d1).slave_addr_rw := by
    unfold byte_xfer_core
    split_ifs <;> rfl
  have hcur : cur_msg (byte_xfer_core (fun e => (0, e)) c hw
        { e with dev := spacemit_i2c_mark_rw_flag d1 }).2.dev = cur_msg d1 := by
    unfold cur_msg
    rw [s6, s5]
    show (spacemit_i2c_mark_rw_flag d1).msgs.getD (spacemit_i2c_mark_rw_flag d1).msg_idx _ = _
    rw [k6, k7]
  refine ⟨s1, ?_, ?_, ?_, s4, ?_, ?_⟩
  · rw [s2]
    show (if (spacemit_i2c_mark_rw_flag d1).high_mode = true
        ∧ (spacemit_i2c_mark_rw_flag d1).is_xfer_start = true then _ else _) = _
    rw [k3, k2, a5, a6]
  · rw [s5]
    show (spacemit_i2c_mark_rw_flag d1).msg_idx = _
    rw [k6, a1]
  · rw [s6]
    show (spacemit_i2c_mark_rw_flag d1).msgs = _
    rw [k7, a2]
  · rw [s3, hsl]
    show _ ++ [if (spacemit_i2c_mark_rw_flag d1).high_mode = true
        ∧ (spacemit_i2c_mark_rw_flag d1).is_xfer_start = true then
          (spacemit_i2c_mark_rw_flag d1).master_code
        else (spacemit_i2c_mark_rw_flag d1).slave_addr_rw] = _
    rw [k3, k2, k4, a5, a6, a7]
  · intro hlt
    rw [hsl, hcur]
    exact mark_rw_flag_addr_rw d1 (by rw [a1, a2]; exact hlt)
/-- C23: the phase transitions of `spacemit_i2c_byte_xfer` when no error is
latched. From the idle phase with `high_mode` and `is_xfer_start` it enters the
master-code phase and writes `master_code` to the data register; from the idle
phase otherwise it enters the slave-address phase and writes `slave_addr_rw`.
From the master-code phase it enters the slave-address phase and writes
`slave_addr_rw`. From the slave-address and body phases it runs the body,
whatever the status latched (ACK or NAK included): either the engine is then in
the body phase on the same message, or the body has moved to the next message
(the current one was not the last), and then, `is_xfer_start` being clear, the
engine is in the slave-address phase of the next message, whose address byte is
the last value written to the data register. In no case is the engine left in
the idle phase. `spacemit_i2c_byte_xfer_next_msg` ends with a call of
`spacemit_i2c_byte_xfer`, and `spacemit_i2c_mark_rw_flag` sets `slave_addr_rw`
to `((addr & 0x7f) << 1) | read-bit` of the current message. -/
theorem byte_xfer_phase_transitions (c : Consts) (hw : Hw) (e : Engine)
    (herr : e.dev.i2c_err = 0) :
    (spacemit_i2c_byte_xfer c hw e).2.dev.phase ≠ SPACEMIT_I2C_XFER_IDLE
    ∧ (e.dev.phase = SPACEMIT_I2C_XFER_IDLE →
        e.dev.high_mode = true ∧ e.dev.is_xfer_start = true →
        (spacemit_i2c_byte_xfer c hw e).2.dev.phase = SPACEMIT_I2C_XFER_MASTER_CODE
        ∧ dbr_writes (spacemit_i2c_byte_xfer c hw e).2.events
            = dbr_writes e.events ++ [e.dev.master_code])
    ∧ (e.dev.phase = SPACEMIT_I2C_XFER_IDLE →
        ¬ (e.dev.high_mode = true ∧ e.dev.is_xfer_start = true) →
        (spacemit_i2c_byte_xfer c hw e).2.dev.phase = SPACEMIT_I2C_XFER_SLAVE_ADDR
        ∧ dbr_writes (spacemit_i2c_byte_xfer c hw e).2.events
            = dbr_writes e.events ++ [e.dev.slave_addr_rw])
    ∧ (e.dev.phase = SPACEMIT_I2C_XFER_MASTER_CODE →
        (spacemit_i2c_byte_xfer c hw e).2.dev.phase = SPACEMIT_I2C_XFER_SLAVE_ADDR
        ∧ dbr_writes (spacemit_i2c_byte_xfer c hw e).2.events
            = dbr_writes e.events ++ [e.dev.slave_addr_rw])
    ∧ (e.dev.phase = SPACEMIT_I2C_XFER_SLAVE_ADDR ∨ e.dev.phase = SPACEMIT_I2C_XFER_BODY →
        e.dev.is_xfer_start = false →
        ((spacemit_i2c_byte_xfer c hw e).2.dev.phase = SPACEMIT_I2C_XFER_BODY
          ∧ (spacemit_i2c_byte_xfer c hw e).2.dev.msg_idx = e.dev.msg_idx)
        ∨ ((spacemit_i2c_byte_xfer c hw e).2.dev.phase = SPACEMIT_I2C_XFER_SLAVE_ADDR
          ∧ (e.dev.msg_idx : Int) < e.dev.num - 1
          ∧ (spacemit_i2c_byte_xfer c hw e).2.dev.msg_idx = e.dev.msg_idx + 1
          ∧ (spacemit_i2c_byte_xfer c hw e).2.dev.slave_addr_rw
              = addr_rw (cur_msg (spacemit_i2c_byte_xfer c hw e).2.dev)
          ∧ (dbr_writes (spacemit_i2c_byte_xfer c hw e).2.events).getLast?
              = some (spacemit_i2c_byte_xfer c hw e).2.dev.slave_addr_rw))
    ∧ spacemit_i2c_byte_xfer_next_msg c hw e
        = next_msg_core (spacemit_i2c_byte_xfer c hw) e
    ∧ (e.dev.msg_idx < e.dev.msgs.length →
        (spacemit_i2c_mark_rw_flag e.dev).slave_addr_rw
          = (((cur_msg e.dev).addr &&& 0x7f) <<< 1)
            ||| (if (cur_msg e.dev).flags &&& I2C_M_RD ≠ 0 then 1 else 0)) := by
  have hbody : (e.dev.phase ≠ SPACEMIT_I2C_XFER_IDLE →
      e.dev.phase ≠ SPACEMIT_I2C_XFER_MASTER_CODE →
      spacemit_i2c_byte_xfer c hw e = spacemit_i2c_byte_xfer_body c hw e) := by
    intro h1 h2
    unfold spacemit_i2c_byte_xfer byte_xfer_core
    rw [if_neg (by simp [herr]), if_neg h1, if_neg h2]
  have hmc : e.dev.phase = SPACEMIT_I2C_XFER_MASTER_CODE →
      spacemit_i2c_byte_xfer c hw e = (0, spacemit_i2c_byte_xfer_send_slave_addr c hw e) := by
    intro h
    unfold spacemit_i2c_byte_xfer byte_xfer_core
    rw [if_neg (by simp [herr]), if_neg (by rw [h]; decide), if_pos h]
  -- the body phases
  have hD : e.dev.phase ≠ SPACEMIT_I2C_XFER_IDLE →
      e.dev.phase ≠ SPACEMIT_I2C_XFER_MASTER_CODE →
      ((spacemit_i2c_byte_xfer c hw e).2.dev.phase = SPACEMIT_I2C_XFER_BODY
        ∧ (spacemit_i2c_byte_xfer c hw e).2.dev.msg_idx = e.dev.msg_idx)
      ∨ ((spacemit_i2c_byte_xfer c hw e).2.dev.phase
            = (if e.dev.high_mode = true ∧ e.dev.is_xfer_start = true then
                SPACEMIT_I2C_XFER_MASTER_CODE else SPACEMIT_I2C_XFER_SLAVE_ADDR)
        ∧ (e.dev.msg_idx : Int) < e.dev.num - 1
        ∧ (spacemit_i2c_byte_xfer c hw e).2.dev.msg_idx = e.dev.msg_idx + 1
        ∧ (spacemit_i2c_byte_xfer c hw e).2.dev.slave_addr_rw
            = addr_rw (cur_msg (spacemit_i2c_byte_xfer c hw e).2.dev)
        ∧ (e.dev.is_xfer_start = false →
            (dbr_writes (spacemit_i2c_byte_xfer c hw e).2.events).getLast?
              = some (spacemit_i2c_byte_xfer c hw e).2.dev.slave_addr_rw)) := by
    intro h1 h2
    rw [hbody h1 h2]
    unfold spacemit_i2c_byte_xfer_body
    rcases body_core_shape (spacemit_i2c_byte_xfer_next_msg c hw) c hw e with
      ⟨e2, a, b⟩ | ⟨e1, b, hlt, a⟩
    · rw [a]
      exact Or.inl ⟨b.phase, b.msg_idx⟩
    · rw [a]
      have hne : (e1.dev.msg_idx : Int) ≠ e1.dev.num - 1 := by omega
      have hnum : e1.dev.num = e.dev.num := by
        unfold spacemit_i2c_dev.num
        rw [b.msgs_len]
      obtain ⟨n1, n2, n3, n4, n5, n6, n7⟩ := next_msg_start c hw e1 hne
      refine Or.inr ⟨?_, ?_, ?_, ?_, ?_⟩
      · rw [n2, b.high_mode, b.is_xfer_start]
      · rw [← b.msg_idx, ← hnum]
        exact hlt
      · rw [n3, b.msg_idx]
      · apply n7
        unfold spacemit_i2c_dev.num at hlt
        omega
      · intro hs
        rw [n6, if_neg (by rw [b.is_xfer_start, hs]; simp)]
        exact List.getLast?_concat _
  refine ⟨?_, ?_, ?_, ?_, ?_, byte_xfer_next_msg_eq c hw e, ?_⟩
  · by_cases h1 : e.dev.phase = SPACEMIT_I2C_XFER_IDLE
    · rw [show spacemit_i2c_byte_xfer c hw e
          = byte_xfer_core (spacemit_i2c_byte_xfer_body c hw) c hw e from rfl,
        (byte_xfer_core_start _ c hw e herr h1).2.1]
      split_ifs <;> decide
    · by_cases h2 : e.dev.phase = SPACEMIT_I2C_XFER_MASTER_CODE
      · rw [hmc h2, (send_slave_addr_spec c hw e).1]
        show SPACEMIT_I2C_XFER_SLAVE_ADDR ≠ SPACEMIT_I2C_XFER_IDLE
        decide
      · rcases hD h1 h2 with ⟨a, _⟩ | ⟨a, _⟩
        · rw [a]; decide
        · rw [a]
          split_ifs <;> decide
  · intro h1 h
    obtain ⟨_, s2, s3, _⟩ := byte_xfer_core_start (spacemit_i2c_byte_xfer_body c hw) c hw e herr h1
    rw [if_pos h] at s2 s3
    exact ⟨s2, s3⟩
  · intro h1 h
    obtain ⟨_, s2, s3, _⟩ := byte_xfer_core_start (spacemit_i2c_byte_xfer_body c hw) c hw e herr h1
    rw [if_neg h] at s2 s3
    exact ⟨s2, s3⟩
  · intro h2
    rw [hmc h2]
    exact ⟨by rw [(send_slave_addr_spec c hw e).1], (send_slave_addr_spec c hw e).2⟩
  · intro hp hs
    have h1 : e.dev.phase ≠ SPACEMIT_I2C_XFER_IDLE := by
      rcases hp with hp | hp <;> rw [hp] <;> decide
    have h2 : e.dev.phase ≠ SPACEMIT_I2C_XFER_MASTER_CODE := by
      rcases hp with hp | hp <;> rw [hp] <;> decide
    rcases hD h1 h2 with a | ⟨a1, a2, a3, a4, a5⟩
    · exact Or.inl a
    · rw [if_neg (by rw [hs]; simp)] at a1
      exact Or.inr ⟨a1, a2, a3, a4, a5 hs⟩
  · intro hlt
    rw [mark_rw_flag_addr_rw e.dev hlt]
    rfl

/-- C23, at a concrete input: the write of the scenario, started from the idle
phase, is in the slave-address phase with its address byte `0xa0` written. -/
theorem byte_xfer_phase_transitions_witness :
    (spacemit_i2c_byte_xfer sample_consts (bytes_hw [])
        (engine_start sample_consts scenario_dev)).2.dev.phase = SPACEMIT_I2C_XFER_SLAVE_ADDR
    ∧ dbr_writes (spacemit_i2c_byte_xfer sample_consts (bytes_hw [])
        (engine_start sample_consts scenario_dev)).2.events = [0xa0] :=
  (byte_xfer_phase_transitions sample_consts (bytes_hw [])
    (engine_start sample_consts scenario_dev) (by decide)).2.2.1 (by decide) (by decide)
/-- With `is_xfer_start` clear, `spacemit_i2c_byte_xfer` leaves it clear and does
not enter the master-code phase. -/
theorem byte_xfer_no_master_code (c : Consts) (hw : Hw) (e : Engine)
    (hs : e.dev.is_xfer_start = false) :
    (spacemit_i2c_byte_xfer c hw e).2.dev.is_xfer_start = false
    ∧ ((spacemit_i2c_byte_xfer c hw e).2.dev.phase = SPACEMIT_I2C_XFER_MASTER_CODE →
        e.dev.phase = SPACEMIT_I2C_XFER_MASTER_CODE) := by
  by_cases herr : e.dev.i2c_err = 0
  · have hns : ¬ (e.dev.high_mode = true ∧ e.dev.is_xfer_start = true) := by
      rw [hs]; simp
    by_cases h1 : e.dev.phase = SPACEMIT_I2C_XFER_IDLE
    · obtain ⟨_, s2, _, s4, _⟩ :=
        byte_xfer_core_start (spacemit_i2c_byte_xfer_body c hw) c hw e herr h1
      refine ⟨s4, ?_⟩
      intro h
      rw [show spacemit_i2c_byte_xfer c hw e
        = byte_xfer_core (spacemit_i2c_byte_xfer_body c hw) c hw e from rfl, s2, if_neg hns] at h
      exact absurd h (by decide)
    · by_cases h2 : e.dev.phase = SPACEMIT_I2C_XFER_MASTER_CODE
      · exact ⟨by
          unfold spacemit_i2c_byte_xfer byte_xfer_core
          rw [if_neg (by simp [herr]), if_neg h1, if_pos h2]
          exact hs, fun _ => h2⟩
      · have hb : spacemit_i2c_byte_xfer c hw e = spacemit_i2c_byte_xfer_body c hw e := by
          unfold spacemit_i2c_byte_xfer byte_xfer_core
          rw [if_neg (by simp [herr]), if_neg h1, if_neg h2]
        rw [hb]
        unfold spacemit_i2c_byte_xfer_body
        rcases body_core_shape (spacemit_i2c_byte_xfer_next_msg c hw) c hw e with
          ⟨e2, a, b⟩ | ⟨e1, b, hlt, a⟩
        · rw [a]
          refine ⟨by rw [b.is_xfer_start]; exact hs, ?_⟩
          intro h
          rw [b.phase] at h
          exact absurd h (by decide)
        · rw [a]
          have hne : (e1.dev.msg_idx : Int) ≠ e1.dev.num - 1 := by omega
          obtain ⟨_, n2, _, _, n5, _⟩ := next_msg_start c hw e1 hne
          refine ⟨n5, ?_⟩
          intro h
          rw [n2, if_neg (by rw [b.is_xfer_start, hs]; simp)] at h
          exact absurd h (by decide)
  · rw [byte_xfer_err c hw e herr]
    exact ⟨hs, fun h => h⟩

theorem int_handler_complete_dev (c : Consts) (hw : Hw) (status : Nat) (r : Int × Engine) :
    (int_handler_complete c hw status r).dev = r.2.dev := by
  unfold int_handler_complete
  split_ifs <;> rfl

/-- With `is_xfer_start` clear, a run of the interrupt handler leaves it clear and
does not enter the master-code phase. -/
theorem int_handler_no_master_code (c : Consts) (hw : Hw) (status : Nat) (e : Engine)
    (hs : e.dev.is_xfer_start = false) :
    (spacemit_i2c_int_handler c hw status e).dev.is_xfer_start = false
    ∧ ((spacemit_i2c_int_handler c hw status e).dev.phase = SPACEMIT_I2C_XFER_MASTER_CODE →
        e.dev.phase = SPACEMIT_I2C_XFER_MASTER_CODE) := by
  unfold spacemit_i2c_int_handler
  split_ifs
  · exact ⟨hs, fun h => h⟩
  · exact ⟨hs, fun h => h⟩
  · rw [int_handler_complete_dev]
    unfold int_handler_engine
    split_ifs
    · exact ⟨hs, fun h => h⟩
    · exact byte_xfer_no_master_code c hw _ hs
    · exact ⟨hs, fun h => h⟩

theorem attempt_states_cons (c : Consts) (hw : Hw) (statuses : List Nat) (e : Engine) :
    ∃ rest, attempt_states c hw statuses e = e :: rest := by
  cases statuses with
  | nil => exact ⟨[], rfl⟩
  | cons s ss => exact ⟨_, rfl⟩

/-- Once `is_xfer_start` is clear it stays clear over any interrupts, and the
master-code phase is not entered. -/
theorem attempt_states_no_master_code (c : Consts) (hw : Hw) :
    ∀ (statuses : List Nat) (e : Engine), e.dev.is_xfer_start = false →
      master_code_entries (attempt_states c hw statuses e) = 0
      ∧ ∀ e2 ∈ attempt_states c hw statuses e, e2.dev.is_xfer_start = false := by
  intro statuses
  induction statuses with
  | nil =>
    intro e hs
    refine ⟨rfl, ?_⟩
    intro e2 he2
    rw [attempt_states, List.mem_singleton] at he2
    rw [he2]
    exact hs
  | cons s ss ih =>
    intro e hs
    obtain ⟨h1, h2⟩ := int_handler_no_master_code c hw s e hs
    obtain ⟨i1, i2⟩ := ih (spacemit_i2c_int_handler c hw s e) h1
    obtain ⟨rest, hr⟩ := attempt_states_cons c hw ss (spacemit_i2c_int_handler c hw s e)
    constructor
    · rw [attempt_states, hr, master_code_entries, ← hr, i1]
      rw [if_neg (fun h => h.1 (h2 h.2))]
    · intro e2 he2
      rw [attempt_states, List.mem_cons] at he2
      rcases he2 with he2 | he2
      · rw [he2]; exact hs
      · exact i2 e2 he2

theorem choose_xfer_mode_keeps (c : Consts) (d : spacemit_i2c_dev) :
    (spacemit_i2c_choose_xfer_mode c d).1.high_mode = d.high_mode
    ∧ (spacemit_i2c_choose_xfer_mode c d).1.msgs = d.msgs
    ∧ (spacemit_i2c_choose_xfer_mode c d).1.master_code = d.master_code
    ∧ (spacemit_i2c_choose_xfer_mode c d).1.smbus_rcv_len = d.smbus_rcv_len :=
  ⟨rfl, rfl, rfl, rfl⟩

theorem engine_start_fields (c : Consts) (d : spacemit_i2c_dev) :
    (engine_start c d).dev.phase = SPACEMIT_I2C_XFER_IDLE
    ∧ (engine_start c d).dev.is_xfer_start = true
    ∧ (engine_start c d).dev.i2c_err = 0
    ∧ (engine_start c d).dev.high_mode = d.high_mode
    ∧ (engine_start c d).dev.msg_idx = 0
    ∧ (engine_start c d).dev.msgs = d.msgs := by
  obtain ⟨k1, k2, k3, k4, k5, k6, k7⟩ :=
    mark_rw_flag_keeps (spacemit_i2c_init_xfer_params (spacemit_i2c_choose_xfer_mode c d).1)
  unfold engine_start
  exact ⟨k1, k2, k5, k3, k6, k7⟩

/-- When the call of `spacemit_i2c_byte_xfer` by `spacemit_i2c_xfer` precedes
every interrupt: from `spacemit_i2c_init_xfer_params` through that call and
over any sequence of interrupts with any answers of the hardware (chained
messages included), the master-code phase is entered once in high-speed mode
and never otherwise; it is entered by the first call, on the first message; and
after the first call `is_xfer_start` is false in every state of the attempt. -/
theorem master_code_once (c : Consts) (hw : Hw) (statuses : List Nat) (d : spacemit_i2c_dev) :
    master_code_entries
        (engine_start c d
          :: attempt_states c hw statuses (spacemit_i2c_byte_xfer c hw (engine_start c d)).2)
      = (if d.high_mode = true then 1 else 0)
    ∧ ((spacemit_i2c_byte_xfer c hw (engine_start c d)).2.dev.phase
          = SPACEMIT_I2C_XFER_MASTER_CODE ↔ d.high_mode = true)
    ∧ (spacemit_i2c_byte_xfer c hw (engine_start c d)).2.dev.msg_idx = 0
    ∧ master_code_entries
        (attempt_states c hw statuses (spacemit_i2c_byte_xfer c hw (engine_start c d)).2) = 0
    ∧ ∀ e ∈ attempt_states c hw statuses (spacemit_i2c_byte_xfer c hw (engine_start c d)).2,
        e.dev.is_xfer_start = false := by
  obtain ⟨f1, f2, f3, f4, f5, f6⟩ := engine_start_fields c d
  obtain ⟨_, s2, _, s4, s5, _⟩ :=
    byte_xfer_core_start (spacemit_i2c_byte_xfer_body c hw) c hw (engine_start c d) f3 f1
  have hb : spacemit_i2c_byte_xfer c hw (engine_start c d)
      = byte_xfer_core (spacemit_i2c_byte_xfer_body c hw) c hw (engine_start c d) := rfl
  rw [← hb] at s2 s4 s5
  rw [f4, f2] at s2
  obtain ⟨i1, i2⟩ := attempt_states_no_master_code c hw statuses
    (spacemit_i2c_byte_xfer c hw (engine_start c d)).2 s4
  obtain ⟨rest, hr⟩ := attempt_states_cons c hw statuses
    (spacemit_i2c_byte_xfer c hw (engine_start c d)).2
  have hiff : (spacemit_i2c_byte_xfer c hw (engine_start c d)).2.dev.phase
      = SPACEMIT_I2C_XFER_MASTER_CODE ↔ d.high_mode = true := by
    rw [s2]
    by_cases h : d.high_mode = true
    · simp [h]
    · simp [h]
  refine ⟨?_, hiff, by rw [s5, f5], i1, i2⟩
  rw [hr, master_code_entries, ← hr, i1, f1]
  by_cases h : d.high_mode = true
  · rw [if_pos h, if_pos ⟨by decide, hiff.mpr h⟩]
  · rw [if_neg h, if_neg (fun hh => h (hiff.mp hh.2))]

/-- A call of `spacemit_i2c_byte_xfer` that finds no error latched, in the idle
phase with `is_xfer_start` set, consumes the start and sends the master code in
high-speed mode, the slave address otherwise. -/
theorem byte_xfer_consumes_start (c : Consts) (hw : Hw) (e : Engine)
    (hs : e.dev.is_xfer_start = true) (hp : e.dev.phase = SPACEMIT_I2C_XFER_IDLE)
    (herr : e.dev.i2c_err = 0) :
    (spacemit_i2c_byte_xfer c hw e).2.dev.is_xfer_start = false
    ∧ (spacemit_i2c_byte_xfer c hw e).2.dev.msg_idx = e.dev.msg_idx
    ∧ (spacemit_i2c_byte_xfer c hw e).2.dev.phase
        = (if e.dev.high_mode = true then SPACEMIT_I2C_XFER_MASTER_CODE
           else SPACEMIT_I2C_XFER_SLAVE_ADDR) := by
  obtain ⟨_, s2, _, s4, s5, _⟩ :=
    byte_xfer_core_start (spacemit_i2c_byte_xfer_body c hw) c hw e herr hp
  refine ⟨s4, s5, ?_⟩
  rw [show spacemit_i2c_byte_xfer c hw e
    = byte_xfer_core (spacemit_i2c_byte_xfer_body c hw) c hw e from rfl, s2, hs]
  by_cases h : e.dev.high_mode = true
  · rw [if_pos ⟨h, rfl⟩, if_pos h]
  · rw [if_neg (fun hh => h hh.1), if_neg h]

theorem byte_xfer_start_step (c : Consts) (hw : Hw) (e : Engine)
    (hs : e.dev.is_xfer_start = true) (hp : e.dev.phase = SPACEMIT_I2C_XFER_IDLE) :
    ((spacemit_i2c_byte_xfer c hw e).2.dev.is_xfer_start = true
      ∧ (spacemit_i2c_byte_xfer c hw e).2.dev.phase = SPACEMIT_I2C_XFER_IDLE
      ∧ (spacemit_i2c_byte_xfer c hw e).2.dev.msg_idx = e.dev.msg_idx
      ∧ (spacemit_i2c_byte_xfer c hw e).2.dev.high_mode = e.dev.high_mode)
    ∨ ((spacemit_i2c_byte_xfer c hw e).2.dev.is_xfer_start = false
      ∧ (spacemit_i2c_byte_xfer c hw e).2.dev.msg_idx = e.dev.msg_idx
      ∧ (spacemit_i2c_byte_xfer c hw e).2.dev.phase
          = (if e.dev.high_mode = true then SPACEMIT_I2C_XFER_MASTER_CODE
             else SPACEMIT_I2C_XFER_SLAVE_ADDR)) := by
  by_cases herr : e.dev.i2c_err = 0
  · exact Or.inr (byte_xfer_consumes_start c hw e hs hp herr)
  · rw [byte_xfer_err c hw e herr]
    exact Or.inl ⟨hs, hp, rfl, rfl⟩

theorem int_handler_engine_cases (c : Consts) (hw : Hw) (x : Engine) :
    (int_handler_engine c hw x).2.dev = x.dev
    ∨ (x.dev.i2c_err = 0
        ∧ int_handler_engine c hw x
          = spacemit_i2c_byte_xfer c hw
              { x with events := x.events ++ [Event.call Callee.spacemit_i2c_byte_xfer] }) := by
  unfold int_handler_engine
  split_ifs with h1 h2
  · exact Or.inl rfl
  · exact Or.inr ⟨by
      by_contra hne
      exact h1 hne, rfl⟩
  · exact Or.inl rfl

theorem int_handler_start_step (c : Consts) (hw : Hw) (status : Nat) (e : Engine)
    (hs : e.dev.is_xfer_start = true) (hp : e.dev.phase = SPACEMIT_I2C_XFER_IDLE) :
    ((spacemit_i2c_int_handler c hw status e).dev.is_xfer_start = true
      ∧ (spacemit_i2c_int_handler c hw status e).dev.phase = SPACEMIT_I2C_XFER_IDLE
      ∧ (spacemit_i2c_int_handler c hw status e).dev.msg_idx = e.dev.msg_idx
      ∧ (spacemit_i2c_int_handler c hw status e).dev.high_mode = e.dev.high_mode)
    ∨ ((spacemit_i2c_int_handler c hw status e).dev.is_xfer_start = false
      ∧ (spacemit_i2c_int_handler c hw status e).dev.msg_idx = e.dev.msg_idx
      ∧ (spacemit_i2c_int_handler c hw status e).dev.phase
          = (if e.dev.high_mode = true then SPACEMIT_I2C_XFER_MASTER_CODE
             else SPACEMIT_I2C_XFER_SLAVE_ADDR)) := by
  unfold spacemit_i2c_int_handler
  by_cases h1 : status = 0
  · rw [if_pos h1]
    exact Or.inl ⟨hs, hp, rfl, rfl⟩
  rw [if_neg h1]
  by_cases h2 : e.dev.slave = true
  · rw [if_pos h2]
    exact Or.inl ⟨hs, hp, rfl, rfl⟩
  rw [if_neg h2, int_handler_complete_dev]
  have x1 : (reg_write
      { e with
        dev := { e.dev with
          i2c_status := status
          i2c_err := status &&& (c.SR_BED ||| c.SR_RXOV ||| c.SR_ALD) } }
      REG_SR (status &&& c.SPACEMIT_I2C_INT_STATUS_MASK)).dev.is_xfer_start = true := hs
  have x2 : (reg_write
      { e with
        dev := { e.dev with
          i2c_status := status
          i2c_err := status &&& (c.SR_BED ||| c.SR_RXOV ||| c.SR_ALD) } }
      REG_SR (status &&& c.SPACEMIT_I2C_INT_STATUS_MASK)).dev.phase
        = SPACEMIT_I2C_XFER_IDLE := hp
  have x3 : (reg_write
      { e with
        dev := { e.dev with
          i2c_status := status
          i2c_err := status &&& (c.SR_BED ||| c.SR_RXOV ||| c.SR_ALD) } }
      REG_SR (status &&& c.SPACEMIT_I2C_INT_STATUS_MASK)).dev.msg_idx = e.dev.msg_idx := rfl
  have x4 : (reg_write
      { e with
        dev := { e.dev with
          i2c_status := status
          i2c_err := status &&& (c.SR_BED ||| c.SR_RXOV ||| c.SR_ALD) } }
      REG_SR (status &&& c.SPACEMIT_I2C_INT_STATUS_MASK)).dev.high_mode = e.dev.high_mode := rfl
  generalize reg_write
      { e with
        dev := { e.dev with
          i2c_status := status
          i2c_err := status &&& (c.SR_BED ||| c.SR_RXOV ||| c.SR_ALD) } }
      REG_SR (status &&& c.SPACEMIT_I2C_INT_STATUS_MASK) = x at x1 x2 x3 x4 ⊢
  rcases int_handler_engine_cases c hw x with h | ⟨h, h5⟩
  · rw [h]
    exact Or.inl ⟨x1, x2, x3, x4⟩
  · rw [h5]
    obtain ⟨k1, k2, k3⟩ := byte_xfer_consumes_start c hw
      { x with events := x.events ++ [Event.call Callee.spacemit_i2c_byte_xfer] } x1 x2 h
    refine Or.inr ⟨k1, by rw [k2]; exact x3, ?_⟩
    rw [k3]
    show (if x.dev.high_mode = true then _ else _) = _
    rw [x4]

/-- A run of the interrupt handler that calls `spacemit_i2c_byte_xfer` with no
error latched, in the idle phase with `is_xfer_start` set, consumes the start. -/
theorem int_handler_consumes_start (c : Consts) (hw : Hw) (status : Nat) (e : Engine)
    (hs : e.dev.is_xfer_start = true) (hp : e.dev.phase = SPACEMIT_I2C_XFER_IDLE)
    (h1 : status ≠ 0) (h2 : e.dev.slave = false)
    (h3 : e.dev.xfer_mode = SPACEMIT_I2C_MODE_INTERRUPT)
    (h4 : status &&& (c.SR_BED ||| c.SR_RXOV ||| c.SR_ALD) = 0) :
    (spacemit_i2c_int_handler c hw status e).dev.is_xfer_start = false := by
  unfold spacemit_i2c_int_handler
  rw [if_neg h1, if_neg (by rw [h2]; decide), int_handler_complete_dev]
  have x1 : (reg_write
      { e with
        dev := { e.dev with
          i2c_status := status
          i2c_err := status &&& (c.SR_BED ||| c.SR_RXOV ||| c.SR_ALD) } }
      REG_SR (status &&& c.SPACEMIT_I2C_INT_STATUS_MASK)).dev.is_xfer_start = true := hs
  have x2 : (reg_write
      { e with
        dev := { e.dev with
          i2c_status := status
          i2c_err := status &&& (c.SR_BED ||| c.SR_RXOV ||| c.SR_ALD) } }
      REG_SR (status &&& c.SPACEMIT_I2C_INT_STATUS_MASK)).dev.phase
        = SPACEMIT_I2C_XFER_IDLE := hp
  have x3 : (reg_write
      { e with
        dev := { e.dev with
          i2c_status := status
          i2c_err := status &&& (c.SR_BED ||| c.SR_RXOV ||| c.SR_ALD) } }
      REG_SR (status &&& c.SPACEMIT_I2C_INT_STATUS_MASK)).dev.i2c_err = 0 := h4
  have x4 : (reg_write
      { e with
        dev := { e.dev with
          i2c_status := status
          i2c_err := status &&& (c.SR_BED ||| c.SR_RXOV ||| c.SR_ALD) } }
      REG_SR (status &&& c.SPACEMIT_I2C_INT_STATUS_MASK)).dev.xfer_mode
        = SPACEMIT_I2C_MODE_INTERRUPT := h3
  generalize reg_write
      { e with
        dev := { e.dev with
          i2c_status := status
          i2c_err := status &&& (c.SR_BED ||| c.SR_RXOV ||| c.SR_ALD) } }
      REG_SR (status &&& c.SPACEMIT_I2C_INT_STATUS_MASK) = x at x1 x2 x3 x4 ⊢
  unfold int_handler_engine
  rw [if_neg (fun hne => hne x3), if_pos x4]
  exact (byte_xfer_consumes_start c hw
    { x with events := x.events ++ [Event.call Callee.spacemit_i2c_byte_xfer] } x1 x2 x3).1

/-- One entry into the engine from a state in which `is_xfer_start` is set and the
phase is idle: either nothing of the transaction context moves, or the start
is consumed and the phase is the master code in high-speed mode, the slave
address otherwise. -/
theorem start_step (c : Consts) (call : EngineCall) (e : Engine)
    (hs : e.dev.is_xfer_start = true) (hp : e.dev.phase = SPACEMIT_I2C_XFER_IDLE) :
    ((run_call c call e).dev.is_xfer_start = true
      ∧ (run_call c call e).dev.phase = SPACEMIT_I2C_XFER_IDLE
      ∧ (run_call c call e).dev.msg_idx = e.dev.msg_idx
      ∧ (run_call c call e).dev.high_mode = e.dev.high_mode)
    ∨ ((run_call c call e).dev.is_xfer_start = false
      ∧ (run_call c call e).dev.msg_idx = e.dev.msg_idx
      ∧ (run_call c call e).dev.phase
          = (if e.dev.high_mode = true then SPACEMIT_I2C_XFER_MASTER_CODE
             else SPACEMIT_I2C_XFER_SLAVE_ADDR)) := by
  cases call with
  | byte_xfer hw => exact byte_xfer_start_step c hw e hs hp
  | interrupt hw status => exact int_handler_start_step c hw status e hs hp

/-- One entry into the engine from a state in which `is_xfer_start` is clear
leaves it clear and does not enter the master-code phase. -/
theorem started_step (c : Consts) (call : EngineCall) (e : Engine)
    (hs : e.dev.is_xfer_start = false) :
    (run_call c call e).dev.is_xfer_start = false
    ∧ ((run_call c call e).dev.phase = SPACEMIT_I2C_XFER_MASTER_CODE →
        e.dev.phase = SPACEMIT_I2C_XFER_MASTER_CODE) := by
  cases call with
  | byte_xfer hw => exact byte_xfer_no_master_code c hw e hs
  | interrupt hw status => exact int_handler_no_master_code c hw status e hs

theorem call_states_cons (c : Consts) (calls : List EngineCall) (e : Engine) :
    ∃ rest, call_states c calls e = e :: rest := by
  cases calls with
  | nil => exact ⟨[], rfl⟩
  | cons s ss => exact ⟨_, rfl⟩

/-- Once `is_xfer_start` is clear it stays clear over any entries into the
engine, and the master-code phase is not entered. -/
theorem call_states_started (c : Consts) :
    ∀ (calls : List EngineCall) (e : Engine), e.dev.is_xfer_start = false →
      master_code_entries (call_states c calls e) = 0
      ∧ ∀ e2 ∈ call_states c calls e, e2.dev.is_xfer_start = false := by
  intro calls
  induction calls with
  | nil =>
    intro e hs
    refine ⟨rfl, ?_⟩
    intro e2 he2
    rw [call_states, List.mem_singleton] at he2
    rw [he2]
    exact hs
  | cons s ss ih =>
    intro e hs
    obtain ⟨h1, h2⟩ := started_step c s e hs
    obtain ⟨i1, i2⟩ := ih (run_call c s e) h1
    obtain ⟨rest, hr⟩ := call_states_cons c ss (run_call c s e)
    constructor
    · rw [call_states, hr, master_code_entries, ← hr, i1]
      rw [if_neg (fun h => h.1 (h2 h.2))]
    · intro e2 he2
      rw [call_states, List.mem_cons] at he2
      rcases he2 with he2 | he2
      · rw [he2]; exact hs
      · exact i2 e2 he2

/-- From a state with `is_xfer_start` set and the phase idle, the master-code
phase is entered at most once over any entries into the engine, and never
outside high-speed mode. -/
theorem call_states_entries (c : Consts) :
    ∀ (calls : List EngineCall) (e : Engine), e.dev.is_xfer_start = true →
      e.dev.phase = SPACEMIT_I2C_XFER_IDLE →
      master_code_entries (call_states c calls e) ≤ (if e.dev.high_mode = true then 1 else 0) := by
  intro calls
  induction calls with
  | nil =>
    intro e _ _
    exact Nat.zero_le _
  | cons s ss ih =>
    intro e hs hp
    obtain ⟨rest, hr⟩ := call_states_cons c ss (run_call c s e)
    rw [call_states, hr, master_code_entries, ← hr]
    rcases start_step c s e hs hp with ⟨a1, a2, _, a4⟩ | ⟨b1, _, b3⟩
    · have := ih (run_call c s e) a1 a2
      rw [a4] at this
      rw [if_neg (fun h => by rw [a2] at h; exact absurd h.2 (by decide)), Nat.zero_add]
      exact this
    · rw [(call_states_started c ss (run_call c s e) b1).1, Nat.add_zero]
      by_cases h : e.dev.high_mode = true
      · rw [if_pos h]
        split_ifs <;> omega
      · rw [if_neg h] at b3 ⊢
        rw [if_neg (fun hh => by rw [b3] at hh; exact absurd hh.2 (by decide))]

/-- In every state of a run from the start of an attempt, `is_xfer_start` set
means that nothing of the transaction has started: the phase is idle and the
message is the first. -/
theorem run_calls_start (c : Consts) (d : spacemit_i2c_dev) :
    ∀ (calls : List EngineCall) (e : Engine),
      (e.dev.is_xfer_start = true →
        e.dev.phase = SPACEMIT_I2C_XFER_IDLE ∧ e.dev.msg_idx = 0
        ∧ e.dev.high_mode = d.high_mode) →
      ((run_calls c calls e).dev.is_xfer_start = true →
        (run_calls c calls e).dev.phase = SPACEMIT_I2C_XFER_IDLE
        ∧ (run_calls c calls e).dev.msg_idx = 0
        ∧ (run_calls c calls e).dev.high_mode = d.high_mode) := by
  intro calls
  induction calls with
  | nil =>
    intro e h
    exact h
  | cons s ss ih =>
    intro e h
    refine ih (run_call c s e) ?_
    intro h2
    cases hs : e.dev.is_xfer_start with
    | false =>
      rw [(started_step c s e hs).1] at h2
      exact absurd h2 (by decide)
    | true =>
      obtain ⟨i1, i2, i3⟩ := h hs
      rcases start_step c s e hs i1 with ⟨_, a2, a3, a4⟩ | ⟨b1, _, _⟩
      · exact ⟨a2, by rw [a3, i2], by rw [a4, i3]⟩
      · rw [b1] at h2
        exact absurd h2 (by decide)

/-- C24, as stated, fails: an interrupt that latches arbitration lost before the
call of `spacemit_i2c_byte_xfer` by `spacemit_i2c_xfer` makes no call of
`spacemit_i2c_byte_xfer`; the call by `spacemit_i2c_xfer` is then the first, it
returns -1 at its test of `i2c_err`, and `is_xfer_start` is still set after
it. -/
theorem first_call_blocked_keeps_start :
    Event.call Callee.spacemit_i2c_byte_xfer
        ∉ (spacemit_i2c_int_handler sample_consts (bytes_hw []) sample_consts.SR_ALD
            (engine_start sample_consts hs_scenario_dev)).events
    ∧ (spacemit_i2c_byte_xfer sample_consts (bytes_hw [])
        (spacemit_i2c_int_handler sample_consts (bytes_hw []) sample_consts.SR_ALD
          (engine_start sample_consts hs_scenario_dev))).1 = -1
    ∧ (spacemit_i2c_byte_xfer sample_consts (bytes_hw [])
        (spacemit_i2c_int_handler sample_consts (bytes_hw []) sample_consts.SR_ALD
          (engine_start sample_consts hs_scenario_dev))).2.dev.is_xfer_start = true := by
  decide

/-- C24, amended: the master code is sent at most once per transaction. In every
run of the byte engine from the state that `spacemit_i2c_init_xfer_params`
leaves, over any sequence of calls of `spacemit_i2c_byte_xfer` and of
interrupts in any order and with any answers of the hardware (chained messages
included): the master-code phase is entered at most once, and never unless
`high_mode` is set; an entry into the engine that enters it starts and ends on
the first message; a call of `spacemit_i2c_byte_xfer` that finds no error
latched, by `spacemit_i2c_xfer` or by the interrupt handler, leaves
`is_xfer_start` false; and once false it is false in every later state. -/
theorem master_code_at_most_once (c : Consts) (d : spacemit_i2c_dev) (calls : List EngineCall) :
    master_code_entries (call_states c calls (engine_start c d))
        ≤ (if d.high_mode = true then 1 else 0)
    ∧ (∀ call : EngineCall,
        (run_calls c calls (engine_start c d)).dev.phase ≠ SPACEMIT_I2C_XFER_MASTER_CODE →
        (run_call c call (run_calls c calls (engine_start c d))).dev.phase
          = SPACEMIT_I2C_XFER_MASTER_CODE →
        d.high_mode = true
        ∧ (run_calls c calls (engine_start c d)).dev.msg_idx = 0
        ∧ (run_call c call (run_calls c calls (engine_start c d))).dev.msg_idx = 0)
    ∧ (∀ hw : Hw, (run_calls c calls (engine_start c d)).dev.i2c_err = 0 →
        (spacemit_i2c_byte_xfer c hw
          (run_calls c calls (engine_start c d))).2.dev.is_xfer_start = false)
    ∧ (∀ (hw : Hw) (status : Nat), status ≠ 0 →
        (run_calls c calls (engine_start c d)).dev.slave = false →
        (run_calls c calls (engine_start c d)).dev.xfer_mode = SPACEMIT_I2C_MODE_INTERRUPT →
        status &&& (c.SR_BED ||| c.SR_RXOV ||| c.SR_ALD) = 0 →
        (spacemit_i2c_int_handler c hw status
          (run_calls c calls (engine_start c d))).dev.is_xfer_start = false)
    ∧ ((run_calls c calls (engine_start c d)).dev.is_xfer_start = false →
        ∀ (more : List EngineCall),
          ∀ e ∈ call_states c more (run_calls c calls (engine_start c d)),
            e.dev.is_xfer_start = false) := by
  obtain ⟨f1, f2, f3, f4, f5, f6⟩ := engine_start_fields c d
  have hinv := run_calls_start c d calls (engine_start c d) (fun _ => ⟨f1, f5, f4⟩)
  generalize run_calls c calls (engine_start c d) = e at hinv
  refine ⟨?_, ?_, ?_, ?_, ?_⟩
  · have := call_states_entries c calls (engine_start c d) f2 f1
    rw [f4] at this
    exact this
  · intro call hn hm
    cases hs : e.dev.is_xfer_start with
    | false => exact absurd ((started_step c call e hs).2 hm) hn
    | true =>
      obtain ⟨i1, i2, i3⟩ := hinv hs
      rcases start_step c call e hs i1 with ⟨_, a2, _, _⟩ | ⟨_, b2, b3⟩
      · rw [a2] at hm
        exact absurd hm (by decide)
      · refine ⟨?_, i2, by rw [b2, i2]⟩
        rw [← i3]
        by_contra hh
        rw [if_neg hh] at b3
        rw [b3] at hm
        exact absurd hm (by decide)
  · intro hw herr
    cases hs : e.dev.is_xfer_start with
    | false => exact (byte_xfer_no_master_code c hw e hs).1
    | true =>
      obtain ⟨i1, _, _⟩ := hinv hs
      exact (byte_xfer_consumes_start c hw e hs i1 herr).1
  · intro hw status h1 h2 h3 h4
    cases hs : e.dev.is_xfer_start with
    | false => exact (int_handler_no_master_code c hw status e hs).1
    | true =>
      obtain ⟨i1, _, _⟩ := hinv hs
      exact int_handler_consumes_start c hw status e hs i1 h1 h2 h3 h4
  · intro hs more
    exact (call_states_started c more e hs).2

/-! ## Byte engine: placement of STOP -/

theorem trigger_bits (x m s o : Nat) (hs : s &&& m = s) (ho : o &&& s = 0) :
    (and_not x m ||| o) &&& s = 0 := by
  apply Nat.eq_of_testBit_eq
  intro i
  have h1 := congrArg (fun n => n.testBit i) hs
  have h2 := congrArg (fun n => n.testBit i) ho
  simp only [Nat.testBit_and, Nat.zero_testBit] at h1 h2
  simp only [and_not, Nat.testBit_and, Nat.testBit_or, Nat.testBit_xor, Nat.zero_testBit]
  revert h1 h2
  cases x.testBit i <;> cases m.testBit i <;> cases s.testBit i <;> cases o.testBit i <;> simp

theorem trigger_bits_set (x m s o : Nat) :
    (and_not x m ||| s ||| o) &&& s = s := or_and_self_right _ _ _

theorem and_sub_mask (a b s d : Nat) : s &&& (a ||| b ||| s ||| d) = s := by
  apply Nat.eq_of_testBit_eq
  intro i
  simp only [Nat.testBit_and, Nat.testBit_or]
  cases a.testBit i <;> cases b.testBit i <;> cases s.testBit i <;> cases d.testBit i <;> rfl

theorem and_sub_mask2 (a s b d : Nat) : s &&& (a ||| s ||| b ||| d) = s := by
  apply Nat.eq_of_testBit_eq
  intro i
  simp only [Nat.testBit_and, Nat.testBit_or]
  cases a.testBit i <;> cases b.testBit i <;> cases s.testBit i <;> cases d.testBit i <;> rfl

theorem or_and_distrib_r (a b m : Nat) : (a ||| b) &&& m = (a &&& m) ||| (b &&& m) := by
  apply Nat.eq_of_testBit_eq
  intro i
  simp only [Nat.testBit_and, Nat.testBit_or]
  cases a.testBit i <;> cases b.testBit i <;> cases m.testBit i <;> rfl

theorem and_not_and_other (w d s : Nat) (h : d &&& s = 0) : and_not w d &&& s = w &&& s := by
  apply Nat.eq_of_testBit_eq
  intro i
  have h1 := congrArg (fun n => n.testBit i) h
  simp only [Nat.testBit_and, Nat.zero_testBit] at h1
  simp only [and_not, Nat.testBit_and, Nat.testBit_xor]
  revert h1
  cases w.testBit i <;> cases d.testBit i <;> cases s.testBit i <;> simp

/-- The control word that triggers a reception has `CR_STOP` exactly when it is
for the last byte, and `CR_ACKNAK` likewise. -/
theorem rx_trigger_value_bits (c : Consts) (hb : cr_bits_distinct c) (cr : Nat) (last : Bool) :
    (rx_trigger_value c cr last &&& c.CR_STOP ≠ 0 ↔ last = true)
    ∧ (rx_trigger_value c cr last &&& c.CR_ACKNAK ≠ 0 ↔ last = true) := by
  obtain ⟨h1, h2, h3, h4, h5, h6, h7⟩ := hb
  unfold rx_trigger_value
  cases last with
  | true =>
    simp only [if_true]
    have e1 : (and_not cr (c.CR_TB ||| c.CR_ACKNAK ||| c.CR_STOP ||| c.CR_START)
        ||| (c.CR_STOP ||| c.CR_ACKNAK) ||| (c.CR_ALDIE ||| c.CR_TB)) &&& c.CR_STOP
        = c.CR_STOP := by
      apply Nat.eq_of_testBit_eq
      intro i
      simp only [Nat.testBit_and, Nat.testBit_or]
      cases c.CR_STOP.testBit i <;> simp
    have e2 : (and_not cr (c.CR_TB ||| c.CR_ACKNAK ||| c.CR_STOP ||| c.CR_START)
        ||| (c.CR_STOP ||| c.CR_ACKNAK) ||| (c.CR_ALDIE ||| c.CR_TB)) &&& c.CR_ACKNAK
        = c.CR_ACKNAK := by
      apply Nat.eq_of_testBit_eq
      intro i
      simp only [Nat.testBit_and, Nat.testBit_or]
      cases c.CR_ACKNAK.testBit i <;> simp
    rw [e1, e2]
    exact ⟨by simp [h1], by simp [h2]⟩
  | false =>
    simp only [Bool.false_eq_true, if_false]
    rw [trigger_bits _ _ _ _ (and_sub_mask _ _ _ _) h4,
      trigger_bits _ _ _ _ (and_sub_mask2 _ _ _ _) h5]
    simp

/-- The control word written after a byte was put in the data register has
`CR_STOP` exactly when that byte is the last one, and never `CR_ACKNAK`. -/
theorem tx_trigger_value_bits (c : Consts) (hb : cr_bits_distinct c) (cr : Nat) (last : Bool) :
    (tx_trigger_value c cr last &&& c.CR_STOP ≠ 0 ↔ last = true)
    ∧ tx_trigger_value c cr last &&& c.CR_ACKNAK = 0 := by
  obtain ⟨h1, h2, h3, h4, h5, h6, h7⟩ := hb
  unfold tx_trigger_value
  cases last with
  | true =>
    simp only [if_true]
    have e1 : (and_not cr (c.CR_TB ||| c.CR_ACKNAK ||| c.CR_STOP ||| c.CR_START)
        ||| c.CR_STOP ||| (c.CR_ALDIE ||| c.CR_TB)) &&& c.CR_STOP = c.CR_STOP :=
      or_and_self_right _ _ _
    have e2 : (and_not cr (c.CR_TB ||| c.CR_ACKNAK ||| c.CR_STOP ||| c.CR_START)
        ||| c.CR_STOP ||| (c.CR_ALDIE ||| c.CR_TB)) &&& c.CR_ACKNAK = 0 := by
      rw [Nat.or_assoc]
      apply trigger_bits _ _ _ _ (and_sub_mask2 _ _ _ _)
      rw [or_and_distrib_r, h3, h5]
      rfl
    rw [e1, e2]
    exact ⟨by simp [h1], rfl⟩
  | false =>
    simp only [Bool.false_eq_true, if_false]
    rw [trigger_bits _ _ _ _ (and_sub_mask _ _ _ _) h4,
      trigger_bits _ _ _ _ (and_sub_mask2 _ _ _ _) h5]
    simp

theorem is_last_byte_to_receive_iff (d : spacemit_i2c_dev) :
    spacemit_i2c_is_last_byte_to_receive d = true
      ↔ ¬ len_pending d ∧ (d.rx_cnt : Int) = ((cur_msg d).len : Int) - 1
        ∧ (d.msg_idx : Int) = d.num - 1 := by
  unfold spacemit_i2c_is_last_byte_to_receive len_pending
  split_ifs with h
  · simp [h]
  · simp [h]
/-- The transmit-empty branch in write direction with a byte left to send. -/
theorem body_tx_byte (c : Consts) (hw : Hw) (e : Engine)
    (hirf : e.dev.i2c_status &&& c.SR_IRF = 0) (hite : e.dev.i2c_status &&& c.SR_ITE ≠ 0)
    (hmsd : e.dev.i2c_status &&& c.SR_MSD = 0) (hrwm : e.dev.i2c_status &&& c.SR_RWM = 0)
    (hrx : e.dev.is_rx = false) (hlt : e.dev.tx_cnt < (cur_msg e.dev).len) :
    (spacemit_i2c_byte_xfer_body c hw e).2.events
        = e.events
          ++ [Event.write_reg REG_DBR ((cur_msg e.dev).buf.getD e.dev.msg_buf 0),
              Event.write_reg REG_CR
                (tx_trigger_value c (hw.cr e.cr_reads)
                  (decide (e.dev.tx_cnt + 1 = (cur_msg e.dev).len
                    ∧ (e.dev.msg_idx : Int) = e.dev.num - 1)))]
    ∧ (spacemit_i2c_byte_xfer_body c hw e).2.dev.tx_cnt = e.dev.tx_cnt + 1
    ∧ (spacemit_i2c_byte_xfer_body c hw e).2.dev.msg_idx = e.dev.msg_idx := by
  have h1 : ¬ (body_entry e).dev.i2c_status &&& c.SR_MSD ≠ 0 := by
    show ¬ e.dev.i2c_status &&& c.SR_MSD ≠ 0
    simp [hmsd]
  have h2 : ¬ (body_entry e).dev.i2c_status &&& c.SR_RWM ≠ 0 := by
    show ¬ e.dev.i2c_status &&& c.SR_RWM ≠ 0
    simp [hrwm]
  have h3 : ¬ (body_entry e).dev.is_rx = true := by
    show ¬ e.dev.is_rx = true
    simp [hrx]
  have h4 : (body_entry e).dev.tx_cnt < (cur_msg (body_entry e).dev).len := hlt
  unfold spacemit_i2c_byte_xfer_body body_core
  rw [if_neg (by simp [hirf]), if_pos hite]
  unfold body_tx
  rw [if_neg h1, if_neg h2, if_neg h3, if_pos h4]
  refine ⟨?_, rfl, rfl⟩
  show e.events ++ [_] ++ [_] = _
  rw [List.append_assoc]
  rfl

/-- The transmit-empty branch in read direction: the switch to receive mode. -/
theorem body_tx_read (c : Consts) (hw : Hw) (e : Engine)
    (hirf : e.dev.i2c_status &&& c.SR_IRF = 0) (hite : e.dev.i2c_status &&& c.SR_ITE ≠ 0)
    (hmsd : e.dev.i2c_status &&& c.SR_MSD = 0) (hrwm : e.dev.i2c_status &&& c.SR_RWM ≠ 0)
    (hrx : e.dev.is_rx = true) :
    (spacemit_i2c_byte_xfer_body c hw e).2.events
        = e.events
          ++ [Event.write_reg REG_CR
                (and_not
                  (rx_trigger_value c (hw.cr e.cr_reads)
                    (spacemit_i2c_is_last_byte_to_receive e.dev))
                  c.CR_DTEIE)] := by
  have h1 : ¬ (body_entry e).dev.i2c_status &&& c.SR_MSD ≠ 0 := by
    show ¬ e.dev.i2c_status &&& c.SR_MSD ≠ 0
    simp [hmsd]
  have h2 : (body_entry e).dev.i2c_status &&& c.SR_RWM ≠ 0 := hrwm
  have h3 : ¬ (body_entry e).dev.is_rx = false := by
    show ¬ e.dev.is_rx = false
    simp [hrx]
  unfold spacemit_i2c_byte_xfer_body body_core
  rw [if_neg (by simp [hirf]), if_pos hite]
  unfold body_tx
  rw [if_neg h1, if_pos h2, if_neg h3]
  rfl

/-- The receive-full branch after a byte was stored, with more to receive: the
next reception is triggered. -/
theorem body_rx_trigger (c : Consts) (hw : Hw) (e s : Engine)
    (hirf : e.dev.i2c_status &&& c.SR_IRF ≠ 0) (hrx : e.dev.is_rx = true)
    (hmsd : e.dev.i2c_status &&& (c.SR_MSD ||| c.SR_ACKNAK) = 0)
    (hs : body_rx_store c hw (body_cr_val c hw e) (body_entry e) = (false, s))
    (hstat : s.dev.i2c_status = e.dev.i2c_status)
    (hlt : s.dev.rx_cnt < (cur_msg s.dev).len) :
    spacemit_i2c_byte_xfer_body c hw e
      = (0, reg_write s REG_CR
          (rx_trigger_value c (hw.cr e.cr_reads) (spacemit_i2c_is_last_byte_to_receive s.dev))) := by
  rw [body_rx_eq c hw e hirf hrx, hs]
  simp only [Bool.false_eq_true, if_false]
  rw [body_rx_next_trigger _ c _ s (by rw [hstat]; exact hmsd) hlt]
  rfl

/-- The receive-full branch storing a data byte, with more to receive. -/
theorem body_rx_data_trigger (c : Consts) (hw : Hw) (e : Engine)
    (hirf : e.dev.i2c_status &&& c.SR_IRF ≠ 0) (hrx : e.dev.is_rx = true)
    (hmsd : e.dev.i2c_status &&& (c.SR_MSD ||| c.SR_ACKNAK) = 0)
    (hnp : ¬ len_pending e.dev) (hlt : e.dev.rx_cnt + 1 < (cur_msg e.dev).len) :
    (spacemit_i2c_byte_xfer_body c hw e).2.events
        = e.events
          ++ [Event.write_reg REG_CR
                (rx_trigger_value c (hw.cr e.cr_reads)
                  (decide (e.dev.rx_cnt + 2 = (cur_msg e.dev).len
                    ∧ (e.dev.msg_idx : Int) = e.dev.num - 1)))]
    ∧ (spacemit_i2c_byte_xfer_body c hw e).2.dev.rx_cnt = e.dev.rx_cnt + 1 := by
  have hnp1 : ¬ ((cur_msg (body_entry e).dev).flags &&& I2C_M_RECV_LEN ≠ 0
      ∧ (body_entry e).dev.smbus_rcv_len = false) := hnp
  have hlt1 : (body_entry e).dev.rx_cnt < (cur_msg (body_entry e).dev).len := by
    show e.dev.rx_cnt < (cur_msg e.dev).len
    omega
  have hs := body_rx_store_data_eq c hw (body_cr_val c hw e) (body_entry e) hnp1 hlt1
  have hlen : (cur_msg (store_msg_buf (body_entry e).dev (hw.dbr (body_entry e).dbr_reads))).len
      = (cur_msg e.dev).len := cur_msg_store_len _ _
  have hflags : (cur_msg (store_msg_buf (body_entry e).dev
      (hw.dbr (body_entry e).dbr_reads))).flags = (cur_msg e.dev).flags := cur_msg_store_flags _ _
  have hnum : (store_msg_buf (body_entry e).dev (hw.dbr (body_entry e).dbr_reads)).num
      = e.dev.num := by
    unfold spacemit_i2c_dev.num
    rw [store_msg_buf_length]
    rfl
  rw [body_rx_trigger c hw e _ hirf hrx hmsd hs rfl
    (by show e.dev.rx_cnt + 1 < (cur_msg (store_msg_buf _ _)).len; rw [hlen]; exact hlt)]
  refine ⟨?_, rfl⟩
  show e.events ++ [Event.write_reg REG_CR (rx_trigger_value c (hw.cr e.cr_reads) _)] = _
  congr 4
  rw [Bool.eq_iff_iff, is_last_byte_to_receive_iff, decide_eq_true_iff]
  unfold len_pending
  show (¬ ((cur_msg (store_msg_buf _ _)).flags &&& I2C_M_RECV_LEN ≠ 0
        ∧ e.dev.smbus_rcv_len = false)
      ∧ ((e.dev.rx_cnt + 1 : Nat) : Int) = ((cur_msg (store_msg_buf _ _)).len : Int) - 1
      ∧ (e.dev.msg_idx : Int) = (store_msg_buf _ _).num - 1) ↔ _
  rw [hlen, hflags, hnum]
  constructor
  · rintro ⟨_, a, b⟩
    exact ⟨by omega, b⟩
  · rintro ⟨a, b⟩
    exact ⟨hnp, by omega, b⟩

/-- The receive-full branch storing a valid length byte `N`, with more to
receive. -/
theorem body_rx_len_trigger (c : Consts) (hw : Hw) (e : Engine)
    (hirf : e.dev.i2c_status &&& c.SR_IRF ≠ 0) (hrx : e.dev.is_rx = true)
    (hmsd : e.dev.i2c_status &&& (c.SR_MSD ||| c.SR_ACKNAK) = 0)
    (hidx : e.dev.msg_idx < e.dev.msgs.length)
    (hp : len_pending e.dev)
    (hok : ¬ (hw.dbr e.dbr_reads % 256 = 0 ∨ hw.dbr e.dbr_reads % 256 > I2C_SMBUS_BLOCK_MAX))
    (hlt : e.dev.rx_cnt + 1 < hw.dbr e.dbr_reads % 256 + 1) :
    (spacemit_i2c_byte_xfer_body c hw e).2.events
        = e.events
          ++ [Event.write_reg REG_CR
                (rx_trigger_value c (hw.cr e.cr_reads)
                  (decide (e.dev.rx_cnt + 1 = hw.dbr e.dbr_reads % 256
                    ∧ (e.dev.msg_idx : Int) = e.dev.num - 1)))]
    ∧ (spacemit_i2c_byte_xfer_body c hw e).2.dev.rx_cnt = e.dev.rx_cnt + 1 := by
  obtain ⟨s, hs, hrcv, hst⟩ := body_rx_store_len c hw (body_cr_val c hw e) (body_entry e)
    hidx hp.1 hp.2 hok
  have hnum : s.dev.num = e.dev.num := by
    unfold spacemit_i2c_dev.num
    rw [hst.msgs_len]
    rfl
  have hrc : s.dev.rx_cnt = e.dev.rx_cnt + 1 := hst.rx_cnt
  have hlen : (cur_msg s.dev).len = hw.dbr e.dbr_reads % 256 + 1 := by
    rw [hst.cur]
    rfl
  have hidx2 : s.dev.msg_idx = e.dev.msg_idx := hst.msg_idx
  rw [body_rx_trigger c hw e s hirf hrx hmsd hs hst.status (by rw [hrc, hlen]; exact hlt)]
  refine ⟨?_, hrc⟩
  show s.events ++ [Event.write_reg REG_CR (rx_trigger_value c (hw.cr e.cr_reads) _)] = _
  rw [show s.events = e.events from hst.events]
  congr 4
  rw [Bool.eq_iff_iff, is_last_byte_to_receive_eq s.dev hrcv, decide_eq_true_iff,
    decide_eq_true_iff, hrc, hlen, hidx2, hnum]
  constructor
  · rintro ⟨a, b⟩
    exact ⟨by omega, b⟩
  · rintro ⟨a, b⟩
    exact ⟨by omega, b⟩
/-- C25, as stated, fails: when the length byte of a length-prefixed read is out
of range (here 200), the body writes a control word with `CR_TB`, `CR_STOP` and
`CR_ACKNAK` although the message is not the last one (`msg_idx` is 0 of 2
messages) and `rx_cnt`, set to the length 1, is not `len - 1`. -/
theorem abort_word_not_last_byte :
    cr_writes (spacemit_i2c_byte_xfer_body sample_consts (bytes_hw [200]) abort_engine).2.events
      = [sample_consts.CR_STOP ||| sample_consts.CR_ACKNAK ||| sample_consts.CR_ALDIE
          ||| sample_consts.CR_TB]
    ∧ abort_engine.dev.is_rx = true
    ∧ (abort_engine.dev.msg_idx : Int) ≠ abort_engine.dev.num - 1
    ∧ ((spacemit_i2c_byte_xfer_body sample_consts (bytes_hw [200]) abort_engine).2.dev.msg_idx
        : Int)
        ≠ (spacemit_i2c_byte_xfer_body sample_consts (bytes_hw [200]) abort_engine).2.dev.num - 1
    ∧ (spacemit_i2c_byte_xfer_body sample_consts (bytes_hw [200]) abort_engine).2.dev.rx_cnt = 1
    ∧ (cur_msg
        (spacemit_i2c_byte_xfer_body sample_consts (bytes_hw [200]) abort_engine).2.dev).len
        = 1 := by
  decide

/-- C25, amended. With the control bits distinct, in
`spacemit_i2c_byte_xfer_body`:
on transmit-empty in write direction with `tx_cnt < len`, the byte at `msg_buf`
(which is `buf[tx_cnt]` when `msg_buf` is `tx_cnt`) is written to the data
register, `tx_cnt` is incremented, and the control word written has `CR_STOP`
if and only if that byte is the last byte of the last message, and never
`CR_ACKNAK`;
on transmit-empty with read mode in read direction, the one control word written
has `CR_STOP` and `CR_ACKNAK` together, if and only if
`spacemit_i2c_is_last_byte_to_receive` holds, and has `CR_DTEIE` cleared;
on receive-full in read direction, after a data byte is stored with more to
receive, and after a valid length byte `N` is stored, the one control word
written has `CR_STOP` and `CR_ACKNAK` together, if and only if the byte
triggered is the last byte of the last message (`rx_cnt` after the store is
`len - 1`, with `len = N + 1` after a length byte, and `msg_idx = num - 1`);
after a length byte out of range the one control word written has `CR_STOP` and
`CR_ACKNAK` in any case; and `spacemit_i2c_is_last_byte_to_receive` holds if and
only if no length byte is awaited, `rx_cnt = len - 1` and `msg_idx = num - 1`. -/
theorem body_stop_placement (c : Consts) (hw : Hw) (e : Engine) (hb : cr_bits_distinct c) :
    (e.dev.i2c_status &&& c.SR_IRF = 0 → e.dev.i2c_status &&& c.SR_ITE ≠ 0 →
      e.dev.i2c_status &&& c.SR_MSD = 0 → e.dev.i2c_status &&& c.SR_RWM = 0 →
      e.dev.is_rx = false → e.dev.tx_cnt < (cur_msg e.dev).len →
      ∃ w, (spacemit_i2c_byte_xfer_body c hw e).2.events
            = e.events
              ++ [Event.write_reg REG_DBR ((cur_msg e.dev).buf.getD e.dev.msg_buf 0),
                  Event.write_reg REG_CR w]
        ∧ (spacemit_i2c_byte_xfer_body c hw e).2.dev.tx_cnt = e.dev.tx_cnt + 1
        ∧ (w &&& c.CR_STOP ≠ 0
            ↔ e.dev.tx_cnt + 1 = (cur_msg e.dev).len ∧ (e.dev.msg_idx : Int) = e.dev.num - 1)
        ∧ w &&& c.CR_ACKNAK = 0)
    ∧ (e.dev.i2c_status &&& c.SR_IRF = 0 → e.dev.i2c_status &&& c.SR_ITE ≠ 0 →
      e.dev.i2c_status &&& c.SR_MSD = 0 → e.dev.i2c_status &&& c.SR_RWM ≠ 0 →
      e.dev.is_rx = true →
      ∃ w, (spacemit_i2c_byte_xfer_body c hw e).2.events
            = e.events ++ [Event.write_reg REG_CR w]
        ∧ (w &&& c.CR_STOP ≠ 0 ↔ spacemit_i2c_is_last_byte_to_receive e.dev = true)
        ∧ (w &&& c.CR_ACKNAK ≠ 0 ↔ spacemit_i2c_is_last_byte_to_receive e.dev = true)
        ∧ w &&& c.CR_DTEIE = 0)
    ∧ (e.dev.i2c_status &&& c.SR_IRF ≠ 0 → e.dev.is_rx = true →
      e.dev.i2c_status &&& (c.SR_MSD ||| c.SR_ACKNAK) = 0 →
      ¬ len_pending e.dev → e.dev.rx_cnt + 1 < (cur_msg e.dev).len →
      ∃ w, (spacemit_i2c_byte_xfer_body c hw e).2.events
            = e.events ++ [Event.write_reg REG_CR w]
        ∧ (spacemit_i2c_byte_xfer_body c hw e).2.dev.rx_cnt = e.dev.rx_cnt + 1
        ∧ (w &&& c.CR_STOP ≠ 0
            ↔ e.dev.rx_cnt + 2 = (cur_msg e.dev).len ∧ (e.dev.msg_idx : Int) = e.dev.num - 1)
        ∧ (w &&& c.CR_ACKNAK ≠ 0
            ↔ e.dev.rx_cnt + 2 = (cur_msg e.dev).len ∧ (e.dev.msg_idx : Int) = e.dev.num - 1))
    ∧ (e.dev.i2c_status &&& c.SR_IRF ≠ 0 → e.dev.is_rx = true →
      e.dev.i2c_status &&& (c.SR_MSD ||| c.SR_ACKNAK) = 0 →
      e.dev.msg_idx < e.dev.msgs.length → len_pending e.dev →
      ¬ (hw.dbr e.dbr_reads % 256 = 0 ∨ hw.dbr e.dbr_reads % 256 > I2C_SMBUS_BLOCK_MAX) →
      e.dev.rx_cnt + 1 < hw.dbr e.dbr_reads % 256 + 1 →
      ∃ w, (spacemit_i2c_byte_xfer_body c hw e).2.events
            = e.events ++ [Event.write_reg REG_CR w]
        ∧ (spacemit_i2c_byte_xfer_body c hw e).2.dev.rx_cnt = e.dev.rx_cnt + 1
        ∧ (w &&& c.CR_STOP ≠ 0
            ↔ e.dev.rx_cnt + 1 = hw.dbr e.dbr_reads % 256
              ∧ (e.dev.msg_idx : Int) = e.dev.num - 1)
        ∧ (w &&& c.CR_ACKNAK ≠ 0
            ↔ e.dev.rx_cnt + 1 = hw.dbr e.dbr_reads % 256
              ∧ (e.dev.msg_idx : Int) = e.dev.num - 1))
    ∧ (e.dev.i2c_status &&& c.SR_IRF ≠ 0 → e.dev.is_rx = true → len_pending e.dev →
      (hw.dbr e.dbr_reads % 256 = 0 ∨ hw.dbr e.dbr_reads % 256 > I2C_SMBUS_BLOCK_MAX) →
      ∃ w, (spacemit_i2c_byte_xfer_body c hw e).2.events
            = e.events ++ [Event.write_reg REG_CR w]
        ∧ w &&& c.CR_STOP ≠ 0 ∧ w &&& c.CR_ACKNAK ≠ 0)
    ∧ (spacemit_i2c_is_last_byte_to_receive e.dev = true
        ↔ ¬ len_pending e.dev ∧ (e.dev.rx_cnt : Int) = ((cur_msg e.dev).len : Int) - 1
          ∧ (e.dev.msg_idx : Int) = e.dev.num - 1) := by
  refine ⟨?_, ?_, ?_, ?_, ?_, is_last_byte_to_receive_iff e.dev⟩
  · intro h1 h2 h3 h4 h5 h6
    obtain ⟨a, b, _⟩ := body_tx_byte c hw e h1 h2 h3 h4 h5 h6
    obtain ⟨t1, t2⟩ := tx_trigger_value_bits c hb (hw.cr e.cr_reads)
      (decide (e.dev.tx_cnt + 1 = (cur_msg e.dev).len ∧ (e.dev.msg_idx : Int) = e.dev.num - 1))
    exact ⟨_, a, b, by rw [t1, decide_eq_true_iff], t2⟩
  · intro h1 h2 h3 h4 h5
    obtain ⟨t1, t2⟩ := rx_trigger_value_bits c hb (hw.cr e.cr_reads)
      (spacemit_i2c_is_last_byte_to_receive e.dev)
    refine ⟨_, body_tx_read c hw e h1 h2 h3 h4 h5, ?_, ?_, and_not_and_self _ _⟩
    · rw [and_not_and_other _ _ _ hb.2.2.2.2.2.1]
      exact t1
    · rw [and_not_and_other _ _ _ hb.2.2.2.2.2.2]
      exact t2
  · intro h1 h2 h3 h4 h5
    obtain ⟨a, b⟩ := body_rx_data_trigger c hw e h1 h2 h3 h4 h5
    obtain ⟨t1, t2⟩ := rx_trigger_value_bits c hb (hw.cr e.cr_reads)
      (decide (e.dev.rx_cnt + 2 = (cur_msg e.dev).len ∧ (e.dev.msg_idx : Int) = e.dev.num - 1))
    exact ⟨_, a, b, by rw [t1, decide_eq_true_iff], by rw [t2, decide_eq_true_iff]⟩
  · intro h1 h2 h3 h4 h5 h6 h7
    obtain ⟨a, b⟩ := body_rx_len_trigger c hw e h1 h2 h3 h4 h5 h6 h7
    obtain ⟨t1, t2⟩ := rx_trigger_value_bits c hb (hw.cr e.cr_reads)
      (decide (e.dev.rx_cnt + 1 = hw.dbr e.dbr_reads % 256
        ∧ (e.dev.msg_idx : Int) = e.dev.num - 1))
    exact ⟨_, a, b, by rw [t1, decide_eq_true_iff], by rw [t2, decide_eq_true_iff]⟩
  · intro h1 h2 h3 h4
    obtain ⟨t1, t2⟩ := rx_trigger_value_bits c hb (hw.cr e.cr_reads) true
    refine ⟨_, ?_, t1.mpr rfl, t2.mpr rfl⟩
    rw [body_invalid_len c hw e h1 h2 h3.1 h3.2 h4]
    rfl

/-- C25 amended, at a concrete input: the one-byte write of the scenario, on
transmit-empty in the body phase. -/
theorem body_stop_placement_witness :
    ∃ w, (spacemit_i2c_byte_xfer_body sample_consts (bytes_hw [])
          { (engine_start sample_consts scenario_dev) with
            dev := { (engine_start sample_consts scenario_dev).dev with
              i2c_status := sample_consts.SR_ITE } }).2.events
        = [Event.write_reg REG_DBR 0x01, Event.write_reg REG_CR w]
      ∧ w &&& sample_consts.CR_ACKNAK = 0 := by
  obtain ⟨w, a, _, _, b⟩ :=
    (body_stop_placement sample_consts (bytes_hw [])
      { (engine_start sample_consts scenario_dev) with
        dev := { (engine_start sample_consts scenario_dev).dev with
          i2c_status := sample_consts.SR_ITE } } (by decide)).1
      (by decide) (by decide) (by decide) (by decide) (by decide) (by decide)
  exact ⟨w, a, b⟩

/-! ## Bus recovery: theorems -/

/-- The wait loop of `spacemit_i2c_recover_bus_busy` when the first `k` polls show
the bus busy and, if `k` does not exceed `cnt`, the next one shows it idle:
`cnt - k` is left when the bus is seen idle, `-1` when the loop is left by
`break`. -/
theorem recover_wait_spec (c : Consts) (sr : Nat → Nat) (timeout : Nat) :
    ∀ (cnt reads k : Nat),
      (∀ j, j < k → sr (reads + j) &&& (c.SR_UB ||| c.SR_IBB) ≠ 0) →
      (k ≤ cnt → sr (reads + k) &&& (c.SR_UB ||| c.SR_IBB) = 0) →
      recover_wait c sr timeout cnt reads
        = (if k ≤ cnt then ((cnt - k : Nat) : Int) else -1, reads + min (k + 1) (cnt + 1),
            List.replicate (min k cnt) (Event.usleep_range (timeout / 2) timeout)) := by
  intro cnt
  induction cnt with
  | zero =>
    intro reads k hbusy hidle
    cases k with
    | zero =>
      have h0 := hidle (Nat.le_refl _)
      rw [recover_wait, if_neg (by simpa using h0)]
      simp
    | succ k =>
      have h0 := hbusy 0 (Nat.succ_pos _)
      rw [recover_wait, if_pos (by simpa using h0)]
      simp
  | succ cnt ih =>
    intro reads k hbusy hidle
    cases k with
    | zero =>
      have h0 := hidle (Nat.zero_le _)
      rw [recover_wait, if_neg (by simpa using h0)]
      simp
    | succ k =>
      have h0 := hbusy 0 (Nat.succ_pos _)
      have ih2 := ih (reads + 1) k
        (fun j hj => by
          have := hbusy (j + 1) (by omega)
          rwa [show reads + (j + 1) = reads + 1 + j by omega] at this)
        (fun hk => by
          have := hidle (by omega)
          rwa [show reads + (k + 1) = reads + 1 + k by omega] at this)
      rw [recover_wait, if_pos (by simpa using h0)]
      rw [ih2]
      have hm : min (k + 1) (cnt + 1) = min k cnt + 1 := by omega
      refine Prod.ext ?_ (Prod.ext ?_ ?_)
      · show (if k ≤ cnt then ((cnt - k : Nat) : Int) else -1)
          = (if k + 1 ≤ cnt + 1 then ((cnt + 1 - (k + 1) : Nat) : Int) else -1)
        by_cases hk : k ≤ cnt
        · rw [if_pos hk, if_pos (by omega)]
          congr 1
          omega
        · rw [if_neg hk, if_neg (by omega)]
      · show reads + 1 + min (k + 1) (cnt + 1) = reads + min (k + 1 + 1) (cnt + 1 + 1)
        omega
      · show Event.usleep_range (timeout / 2) timeout
            :: List.replicate (min k cnt) (Event.usleep_range (timeout / 2) timeout)
          = List.replicate (min (k + 1) (cnt + 1)) (Event.usleep_range (timeout / 2) timeout)
        rw [hm, List.replicate_succ]
/-- The three outcomes of `spacemit_i2c_recover_bus_busy` when the first `k` reads
of the status register show the unit or the bus busy and the next one, if the
function gets to it, shows them idle: with `cnt` the budget
`SPACEMIT_I2C_BUS_RECOVER_TIMEOUT / timeout`, the function returns 0 without
reset when `k <= cnt`, and resets and returns `-EAGAIN` when `k > cnt`. -/
theorem recover_bus_busy_spec (c : Consts) (d : spacemit_i2c_dev) (sr : Nat → Nat) (k : Nat)
    (hbusy : ∀ j, j < k → sr j &&& (c.SR_UB ||| c.SR_IBB) ≠ 0)
    (hidle : k ≤ c.SPACEMIT_I2C_BUS_RECOVER_TIMEOUT / recover_timeout d + 1 →
      sr k &&& (c.SR_UB ||| c.SR_IBB) = 0) :
    spacemit_i2c_recover_bus_busy c d sr
      = (if k ≤ c.SPACEMIT_I2C_BUS_RECOVER_TIMEOUT / recover_timeout d then
          { ret := 0, sr_reads := k + 1
            events := List.replicate (k - 1)
              (Event.usleep_range (recover_timeout d / 2) (recover_timeout d)) }
        else
          { ret := - EAGAIN
            sr_reads := c.SPACEMIT_I2C_BUS_RECOVER_TIMEOUT / recover_timeout d + 2
            events := List.replicate (c.SPACEMIT_I2C_BUS_RECOVER_TIMEOUT / recover_timeout d)
                (Event.usleep_range (recover_timeout d / 2) (recover_timeout d))
              ++ spacemit_i2c_reset c d }) := by
  unfold spacemit_i2c_recover_bus_busy
  simp only []
  cases k with
  | zero =>
    rw [if_pos (hidle (Nat.zero_le _)), if_pos (Nat.zero_le _)]
    rfl
  | succ k =>
    rw [if_neg (hbusy 0 (Nat.succ_pos _))]
    rw [recover_wait_spec c sr (recover_timeout d) _ 1 k
      (fun j hj => by
        have := hbusy (j + 1) (by omega)
        rwa [show j + 1 = 1 + j by omega] at this)
      (fun hk => by
        have := hidle (by omega)
        rwa [show k + 1 = 1 + k by omega] at this)]
    by_cases h1 : k + 1 ≤ c.SPACEMIT_I2C_BUS_RECOVER_TIMEOUT / recover_timeout d
    · have h2 : k ≤ c.SPACEMIT_I2C_BUS_RECOVER_TIMEOUT / recover_timeout d := by omega
      have h3 : ¬ (((c.SPACEMIT_I2C_BUS_RECOVER_TIMEOUT / recover_timeout d - k : Nat) : Int)
          ≤ 0) := by omega
      simp only [if_pos h1, if_pos h2, if_neg h3]
      congr 1
      · omega
      · congr 1
        omega
    · by_cases h2 : k ≤ c.SPACEMIT_I2C_BUS_RECOVER_TIMEOUT / recover_timeout d
      · have h3 : ((c.SPACEMIT_I2C_BUS_RECOVER_TIMEOUT / recover_timeout d - k : Nat) : Int)
            ≤ 0 := by omega
        simp only [if_neg h1, if_pos h2, if_pos h3]
        congr 1
        · omega
        · congr 2
          omega
      · have h3 : (-1 : Int) ≤ 0 := by omega
        simp only [if_neg h1, if_neg h2, if_pos h3]
        congr 1
        · omega
        · congr 2
          omega

/-- C29, where the code departs from it: when the unit or the bus is busy at the
first read of the status register and at the polls that follow each of the
`cnt = SPACEMIT_I2C_BUS_RECOVER_TIMEOUT / timeout` pauses but the last, and
idle at the poll after the last pause, the wait loop ends because the bus is
idle, with `cnt` at 0; the last status read shows neither `SR_UB` nor `SR_IBB`,
and still `spacemit_i2c_recover_bus_busy` resets the controller and returns
`-EAGAIN`. -/
theorem recover_bus_busy_idle_at_last_poll (c : Consts) (d : spacemit_i2c_dev)
    (sr : Nat → Nat)
    (hbusy : ∀ j, j ≤ c.SPACEMIT_I2C_BUS_RECOVER_TIMEOUT / recover_timeout d →
      sr j &&& (c.SR_UB ||| c.SR_IBB) ≠ 0)
    (hidle : sr (c.SPACEMIT_I2C_BUS_RECOVER_TIMEOUT / recover_timeout d + 1)
      &&& (c.SR_UB ||| c.SR_IBB) = 0) :
    (spacemit_i2c_recover_bus_busy c d sr).ret = - EAGAIN
    ∧ (spacemit_i2c_recover_bus_busy c d sr).events
        = List.replicate (c.SPACEMIT_I2C_BUS_RECOVER_TIMEOUT / recover_timeout d)
            (Event.usleep_range (recover_timeout d / 2) (recover_timeout d))
          ++ spacemit_i2c_reset c d
    ∧ (spacemit_i2c_recover_bus_busy c d sr).sr_reads
        = c.SPACEMIT_I2C_BUS_RECOVER_TIMEOUT / recover_timeout d + 2
    ∧ sr ((spacemit_i2c_recover_bus_busy c d sr).sr_reads - 1)
        &&& (c.SR_UB ||| c.SR_IBB) = 0 := by
  have h := recover_bus_busy_spec c d sr
    (c.SPACEMIT_I2C_BUS_RECOVER_TIMEOUT / recover_timeout d + 1)
    (fun j hj => hbusy j (by omega)) (fun _ => hidle)
  rw [if_neg (by omega)] at h
  rw [h]
  exact ⟨rfl, rfl, rfl, hidle⟩

/-- C29, the departure at a concrete input: a budget of 5 polls, the bus busy at
the first 6 reads of the status register and idle at the seventh. One poll
earlier, the same function returns 0 without reset. -/
theorem recover_bus_busy_idle_at_last_poll_witness :
    (spacemit_i2c_recover_bus_busy sample_consts (sample_dev []) (busy_for 6)).ret = - EAGAIN
    ∧ busy_for 6 ((spacemit_i2c_recover_bus_busy sample_consts (sample_dev [])
          (busy_for 6)).sr_reads - 1)
        &&& (sample_consts.SR_UB ||| sample_consts.SR_IBB) = 0
    ∧ (spacemit_i2c_recover_bus_busy sample_consts (sample_dev []) (busy_for 5)).ret = 0 :=
  ⟨(recover_bus_busy_idle_at_last_poll sample_consts (sample_dev []) (busy_for 6)
      (by decide) (by decide)).1,
   (recover_bus_busy_idle_at_last_poll sample_consts (sample_dev []) (busy_for 6)
      (by decide) (by decide)).2.2.2,
   by decide⟩

/-! ## FIFO encoder -/

theorem fill_frame_refl (d : spacemit_i2c_dev) : fill_frame d d := ⟨rfl, rfl, rfl, rfl, rfl⟩

theorem fill_frame_trans (d d1 d2 : spacemit_i2c_dev) (h1 : fill_frame d d1)
    (h2 : fill_frame d1 d2) : fill_frame d d2 :=
  ⟨h2.msgs.trans h1.msgs, h2.msg_idx.trans h1.msg_idx,
    h2.is_xfer_start.trans h1.is_xfer_start, h2.high_mode.trans h1.high_mode,
    h2.master_code.trans h1.master_code⟩

theorem cur_msg_frame (d d2 : spacemit_i2c_dev) (h : fill_frame d d2) : cur_msg d2 = cur_msg d := by
  unfold cur_msg
  rw [h.msgs, h.msg_idx]

/-- The loop `while (count > 0)`: one data word for each byte from `msg_buf` on. -/
theorem fill_data_spec (c : Consts) (m : i2c_msg) :
    ∀ (n : Nat) (d : spacemit_i2c_dev) (data_buf : List Nat) (off : Nat),
      cur_msg d = m → d.msg_buf = off →
      ∃ d2, fill_data c n d data_buf
          = (d2, data_buf ++ (List.range n).map
              (fun j => msg_byte m (off + j) ||| c.WFIFO_CTRL_TB))
        ∧ fill_frame d d2 ∧ d2.rx_cnt = d.rx_cnt ∧ d2.tx_cnt = d.tx_cnt
        ∧ d2.msg_buf = off + n := by
  intro n
  induction n with
  | zero =>
    intro d data_buf off _ ho
    exact ⟨d, by simp [fill_data], fill_frame_refl d, rfl, rfl, ho⟩
  | succ n ih =>
    intro d data_buf off hm ho
    obtain ⟨d2, h1, h2, h3, h4, h5⟩ := ih { d with msg_buf := d.msg_buf + 1 }
      (data_buf ++ [msg_buf_byte d ||| c.WFIFO_CTRL_TB]) (off + 1) hm
      (by show d.msg_buf + 1 = off + 1; rw [ho])
    have hb : msg_buf_byte d = msg_byte m (off + 0) := by
      unfold msg_buf_byte msg_byte
      rw [hm, ho]
      rfl
    refine ⟨d2, ?_, ⟨h2.msgs, h2.msg_idx, h2.is_xfer_start, h2.high_mode, h2.master_code⟩,
      h3, h4, ?_⟩
    · rw [fill_data, h1, hb, List.range_succ_eq_map, List.map_cons, List.map_map,
        List.append_assoc]
      congr 2
      show _ :: _ = _ :: _
      congr 1
      apply List.map_congr_left
      intro j _
      rw [Function.comp_apply, Nat.add_assoc, Nat.add_comm 1 j]
    · rw [h5]
      omega

theorem fill_data_zero (c : Consts) (m : i2c_msg) (n : Nat) (d : spacemit_i2c_dev)
    (data_buf : List Nat) (hm : cur_msg d = m) (ho : d.msg_buf = 0) :
    ∃ d2, fill_data c n d data_buf
        = (d2, data_buf ++ (List.range n).map (fun j => msg_byte m j ||| c.WFIFO_CTRL_TB))
      ∧ fill_frame d d2 ∧ d2.rx_cnt = d.rx_cnt ∧ d2.tx_cnt = d.tx_cnt ∧ d2.msg_buf = n := by
  obtain ⟨d2, h1, h2, h3, h4, h5⟩ := fill_data_spec c m n d data_buf 0 hm ho
  refine ⟨d2, ?_, h2, h3, h4, by rw [h5, Nat.zero_add]⟩
  rw [h1]
  simp only [Nat.zero_add]

/-- The data of a message that fits the FIFO as a whole, encoded by one pass of the
loop from the start of the message. -/
theorem fill_body_spec (c : Consts) (m : i2c_msg) (d : spacemit_i2c_dev) (data_buf : List Nat)
    (hm : cur_msg d = m) (hrx : d.rx_cnt = 0) (htx : d.tx_cnt = 0) (ho : d.msg_buf = 0)
    (hdir : d.is_rx = msg_is_rx m) (haddr : d.slave_addr_rw = msg_addr_rw m)
    (last : Bool) (hlast : (d.msg_idx : Int) = d.num - 1 ↔ last = true) :
    ∃ d2, fill_body c d (m.len : Int) data_buf
        = (d2, data_buf ++ encode_data c last m)
      ∧ fill_frame d d2 ∧ (d2.tx_cnt = m.len ∨ d2.rx_cnt = m.len) := by
  have hn1 : ((m.len : Int) - 1).toNat = m.len - 1 := by omega
  have hn0 : (m.len : Int).toNat = m.len := by omega
  unfold fill_body
  simp only []
  by_cases hr : d.is_rx = true
  · have hmr : msg_is_rx m = true := by rw [← hdir]; exact hr
    have hcnt : ((d.rx_cnt : Int) + (m.len : Int)).toNat = m.len := by
      rw [hrx]; omega
    rw [if_pos hr, hcnt]
    have hcm : cur_msg { d with rx_cnt := m.len } = m := hm
    by_cases hl : (d.msg_idx : Int) = d.num - 1
    · have hl2 : ({ d with rx_cnt := m.len } : spacemit_i2c_dev).rx_cnt
            = (cur_msg { d with rx_cnt := m.len }).len
          ∧ ((({ d with rx_cnt := m.len } : spacemit_i2c_dev).msg_idx : Nat) : Int)
            = ({ d with rx_cnt := m.len } : spacemit_i2c_dev).num - 1 := ⟨by rw [hcm], hl⟩
      rw [if_pos hl2, hn1]
      obtain ⟨d2, h1, h2, h3, h4, h5⟩ :=
        fill_data_zero c m (m.len - 1) { d with rx_cnt := m.len } data_buf hcm ho
      rw [h1]
      refine ⟨{ d2 with msg_buf := d2.msg_buf + 1 }, ?_,
        ⟨h2.msgs, h2.msg_idx, h2.is_xfer_start, h2.high_mode, h2.master_code⟩, Or.inr h3⟩
      unfold encode_data
      rw [hlast.mp hl, if_pos rfl, if_pos hmr]
      show (_, _ ++ [d.slave_addr_rw ||| _ ||| _ ||| _]) = _
      rw [haddr, List.append_assoc]
    · have hl2 : ¬ (({ d with rx_cnt := m.len } : spacemit_i2c_dev).rx_cnt
            = (cur_msg { d with rx_cnt := m.len }).len
          ∧ ((({ d with rx_cnt := m.len } : spacemit_i2c_dev).msg_idx : Nat) : Int)
            = ({ d with rx_cnt := m.len } : spacemit_i2c_dev).num - 1) := fun h => hl h.2
      rw [if_neg hl2, hn0]
      obtain ⟨d2, h1, h2, h3, h4, h5⟩ :=
        fill_data_zero c m m.len { d with rx_cnt := m.len } data_buf hcm ho
      rw [h1]
      refine ⟨d2, ?_, ⟨h2.msgs, h2.msg_idx, h2.is_xfer_start, h2.high_mode, h2.master_code⟩,
        Or.inr h3⟩
      unfold encode_data
      rw [show last = false from by
        cases last with
        | false => rfl
        | true => exact absurd (hlast.mpr rfl) hl, if_neg (by simp)]
  · have hmr : ¬ msg_is_rx m = true := by rw [← hdir]; exact hr
    have hcnt : ((d.tx_cnt : Int) + (m.len : Int)).toNat = m.len := by
      rw [htx]; omega
    rw [if_neg hr, hcnt]
    have hcm : cur_msg { d with tx_cnt := m.len } = m := hm
    by_cases hl : (d.msg_idx : Int) = d.num - 1
    · have hl2 : spacemit_i2c_is_last_byte_to_send { d with tx_cnt := m.len } = true := by
        unfold spacemit_i2c_is_last_byte_to_send
        rw [decide_eq_true_iff]
        exact ⟨by rw [hcm], hl⟩
      rw [if_pos hl2, hn1]
      obtain ⟨d2, h1, h2, h3, h4, h5⟩ :=
        fill_data_zero c m (m.len - 1) { d with tx_cnt := m.len } data_buf hcm ho
      rw [h1]
      refine ⟨d2, ?_, ⟨h2.msgs, h2.msg_idx, h2.is_xfer_start, h2.high_mode, h2.master_code⟩,
        Or.inl h4⟩
      have hb : msg_buf_byte d2 = msg_byte m (m.len - 1) := by
        unfold msg_buf_byte msg_byte
        rw [cur_msg_frame _ _ h2, hcm, h5]
      unfold encode_data
      rw [hlast.mp hl, if_pos rfl, if_neg hmr]
      show (_, _ ++ [msg_buf_byte d2 ||| _ ||| _]) = _
      rw [hb, List.append_assoc]
    · have hl2 : ¬ spacemit_i2c_is_last_byte_to_send { d with tx_cnt := m.len } = true := by
        unfold spacemit_i2c_is_last_byte_to_send
        rw [decide_eq_true_iff]
        exact fun h => hl h.2
      rw [if_neg hl2, hn0]
      obtain ⟨d2, h1, h2, h3, h4, h5⟩ :=
        fill_data_zero c m m.len { d with tx_cnt := m.len } data_buf hcm ho
      rw [h1]
      refine ⟨d2, ?_, ⟨h2.msgs, h2.msg_idx, h2.is_xfer_start, h2.high_mode, h2.master_code⟩,
        Or.inl h4⟩
      unfold encode_data
      rw [show last = false from by
        cases last with
        | false => rfl
        | true => exact absurd (hlast.mpr rfl) hl, if_neg (by simp)]

theorem fill_count_fits (c : Consts) (len : Nat) (fill : Int)
    (hfit : (len : Int) ≤ (c.SPACEMIT_I2C_TX_FIFO_DEPTH : Int) - fill)
    (hdepth : c.SPACEMIT_I2C_TX_FIFO_DEPTH < 2 ^ 31) (hfill : 0 ≤ fill) :
    fill_count c len 0 fill = (len : Int) := by
  have h31 : (2 : Int) ^ 31 = 2147483648 := by norm_num
  have h32 : (2 : Int) ^ 32 = 4294967296 := by norm_num
  have h64 : (2 : Int) ^ 64 = 18446744073709551616 := by norm_num
  have hd : (c.SPACEMIT_I2C_TX_FIFO_DEPTH : Int) < 2147483648 := by
    have : c.SPACEMIT_I2C_TX_FIFO_DEPTH < 2147483648 := by
      have h : (2 : Nat) ^ 31 = 2147483648 := by norm_num
      omega
    exact_mod_cast this
  unfold fill_count to_ulong to_int
  rw [h31, h32, h64, Int.sub_zero]
  omega

theorem mark_rw_flag_msg_buf (d : spacemit_i2c_dev) :
    (spacemit_i2c_mark_rw_flag d).msg_buf = d.msg_buf := by
  unfold spacemit_i2c_mark_rw_flag
  split
  · split <;> rfl
  · rfl

theorem mark_rw_flag_msg (d : spacemit_i2c_dev) (h : d.msg_idx < d.msgs.length) :
    cur_msg (spacemit_i2c_mark_rw_flag d) = cur_msg d
    ∧ (spacemit_i2c_mark_rw_flag d).is_rx = msg_is_rx (cur_msg d)
    ∧ (spacemit_i2c_mark_rw_flag d).slave_addr_rw = msg_addr_rw (cur_msg d) := by
  obtain ⟨a1, a2, _, _, _, a6, a7⟩ := mark_rw_flag_ctx d h
  refine ⟨?_, a6, a7⟩
  unfold cur_msg
  rw [a1, a2]

/-- One pass of the loop of `spacemit_i2c_fifo_xfer_fill_buffer` from the start of
a message that fits the FIFO as a whole. -/
theorem fill_msg_spec (c : Consts) (s : FillState)
    (hidx : s.dev.msg_idx < s.dev.msgs.length)
    (hrx : s.dev.rx_cnt = 0) (htx : s.dev.tx_cnt = 0) (ho : s.dev.msg_buf = 0)
    (hfill : 0 ≤ s.fill) (hdepth : c.SPACEMIT_I2C_TX_FIFO_DEPTH < 2 ^ 31)
    (hfit : s.fill + (if s.dev.high_mode = true ∧ s.dev.is_xfer_start = true then 1 else 0)
      + ((cur_msg s.dev).len + 1 : Nat) ≤ (c.SPACEMIT_I2C_TX_FIFO_DEPTH : Int)) :
    ∃ d2, (fill_msg c s).1
        = { dev := d2
            fill := s.fill
              + (if s.dev.high_mode = true ∧ s.dev.is_xfer_start = true then 1 else 0)
              + ((cur_msg s.dev).len + 1 : Nat)
            data_buf := s.data_buf
              ++ (if s.dev.high_mode = true ∧ s.dev.is_xfer_start = true then
                    [s.dev.master_code ||| (c.WFIFO_CTRL_TB ||| c.WFIFO_CTRL_START)] else [])
              ++ encode_msg c (decide ((s.dev.msg_idx : Int) = s.dev.num - 1)) (cur_msg s.dev) }
      ∧ d2.msgs = s.dev.msgs ∧ d2.msg_idx = s.dev.msg_idx + 1
      ∧ d2.high_mode = s.dev.high_mode ∧ d2.master_code = s.dev.master_code
      ∧ d2.is_xfer_start = false
      ∧ ((s.dev.msg_idx : Int) = s.dev.num - 1 → (fill_msg c s).2 = true)
      ∧ ((s.dev.msg_idx : Int) ≠ s.dev.num - 1 →
          d2.rx_cnt = 0 ∧ d2.tx_cnt = 0 ∧ d2.msg_buf = 0
          ∧ (fill_msg c s).2
              = decide (s.fill
                  + (if s.dev.high_mode = true ∧ s.dev.is_xfer_start = true then 1 else 0)
                  + ((cur_msg s.dev).len + 1 : Nat) = (c.SPACEMIT_I2C_TX_FIFO_DEPTH : Int))) := by
  obtain ⟨k1, k2, k3, k4, k5, k6, k7⟩ := mark_rw_flag_keeps s.dev
  obtain ⟨m1, m2, m3⟩ := mark_rw_flag_msg s.dev hidx
  obtain ⟨_, _, c3, c4, _⟩ := mark_rw_flag_ctx s.dev hidx
  have kb := mark_rw_flag_msg_buf s.dev
  generalize hdm : spacemit_i2c_mark_rw_flag s.dev = dm at k1 k2 k3 k4 k5 k6 k7 m1 m2 m3 c3 c4 kb
  have hfin : (if dm.is_rx = true then (dm.rx_cnt : Int) else (dm.tx_cnt : Int)) = 0 := by
    rw [c3, c4, hrx, htx]
    split_ifs <;> rfl
  have hnum : dm.num = s.dev.num := by
    unfold spacemit_i2c_dev.num
    rw [k7]
  unfold fill_msg
  simp only []
  rw [hdm, hfin, m1]
  by_cases hmc : s.dev.high_mode = true ∧ s.dev.is_xfer_start = true
  · have hmas : (dm.high_mode && dm.is_xfer_start) = true := by
      rw [k3, k2, hmc.1, hmc.2]; rfl
    simp only [hmas, if_pos hmc, if_true]
    rw [if_pos hmc] at hfit
    rw [fill_count_fits c (cur_msg s.dev).len (s.fill + 2) (by push_cast at hfit ⊢; omega)
      hdepth (by omega)]
    obtain ⟨d2, b1, b2, b3⟩ := fill_body_spec c (cur_msg s.dev)
      { dm with is_xfer_start := false }
      (s.data_buf ++ [dm.master_code ||| (c.WFIFO_CTRL_TB ||| c.WFIFO_CTRL_START)]
        ++ [dm.slave_addr_rw ||| (c.WFIFO_CTRL_TB ||| c.WFIFO_CTRL_START)])
      m1 (by show dm.rx_cnt = 0; rw [c3, hrx]) (by show dm.tx_cnt = 0; rw [c4, htx])
      (by show dm.msg_buf = 0; rw [kb, ho]) m2 m3
      (decide ((s.dev.msg_idx : Int) = s.dev.num - 1))
      (by
        show (dm.msg_idx : Int) = dm.num - 1 ↔ _
        rw [k6, hnum, decide_eq_true_iff])
    rw [show ({ dm with is_xfer_start := false } : spacemit_i2c_dev).slave_addr_rw
      = dm.slave_addr_rw from rfl, b1]
    have hcur : cur_msg d2 = cur_msg s.dev := by
      rw [cur_msg_frame _ _ b2]; exact m1
    have hd2n : d2.num = s.dev.num := by
      unfold spacemit_i2c_dev.num
      rw [b2.msgs]
      show ((dm.msgs.length : Nat) : Int) = _
      rw [k7]
    have hd2i : d2.msg_idx = s.dev.msg_idx := b2.msg_idx.trans k6
    unfold fill_next
    simp only []
    rw [if_pos (by rw [hcur]; exact b3)]
    have hdata : s.data_buf ++ [dm.master_code ||| (c.WFIFO_CTRL_TB ||| c.WFIFO_CTRL_START)]
          ++ [dm.slave_addr_rw ||| (c.WFIFO_CTRL_TB ||| c.WFIFO_CTRL_START)]
          ++ encode_data c (decide ((s.dev.msg_idx : Int) = s.dev.num - 1)) (cur_msg s.dev)
        = s.data_buf ++ [s.dev.master_code ||| (c.WFIFO_CTRL_TB ||| c.WFIFO_CTRL_START)]
          ++ encode_msg c (decide ((s.dev.msg_idx : Int) = s.dev.num - 1)) (cur_msg s.dev) := by
      unfold encode_msg
      rw [k4, m3]
      simp
    have hfl : s.fill + 2 + ((cur_msg s.dev).len : Int)
        = s.fill + 1 + (((cur_msg s.dev).len + 1 : Nat) : Int) := by
      push_cast; omega
    by_cases hl : (s.dev.msg_idx : Int) = s.dev.num - 1
    · have hl2 : ((d2.msg_idx + 1 : Nat) : Int) = d2.num := by
        rw [hd2i, hd2n]; push_cast; omega
      rw [if_pos hl2]
      refine ⟨{ d2 with msg_idx := d2.msg_idx + 1 }, ?_, ?_, ?_, ?_, ?_, ?_, fun _ => rfl,
        fun h => absurd hl h⟩
      · rw [hdata, hfl]
      · show d2.msgs = _
        rw [b2.msgs]; exact k7
      · show d2.msg_idx + 1 = _
        rw [hd2i]
      · show d2.high_mode = _
        rw [b2.high_mode]; exact k3
      · show d2.master_code = _
        rw [b2.master_code]; exact k4
      · show d2.is_xfer_start = false
        rw [b2.is_xfer_start]
    · have hl2 : ¬ ((d2.msg_idx + 1 : Nat) : Int) = d2.num := by
        rw [hd2i, hd2n]; push_cast; omega
      rw [if_neg hl2]
      refine ⟨{ d2 with msg_idx := d2.msg_idx + 1, msg_buf := 0, rx_cnt := 0, tx_cnt := 0 },
        ?_, ?_, ?_, ?_, ?_, ?_, fun h => absurd h hl, fun _ => ⟨rfl, rfl, rfl, ?_⟩⟩
      · rw [hdata, hfl]
      · show d2.msgs = _
        rw [b2.msgs]; exact k7
      · show d2.msg_idx + 1 = _
        rw [hd2i]
      · show d2.high_mode = _
        rw [b2.high_mode]; exact k3
      · show d2.master_code = _
        rw [b2.master_code]; exact k4
      · show d2.is_xfer_start = false
        rw [b2.is_xfer_start]
      · rw [hfl]
  · have hmas : (dm.high_mode && dm.is_xfer_start) = false := by
      rw [k3, k2]
      cases hh : s.dev.high_mode <;> cases hs : s.dev.is_xfer_start <;> simp [hh, hs] at hmc ⊢
    simp only [hmas, if_neg hmc, Bool.false_eq_true, if_false]
    rw [if_neg hmc] at hfit
    rw [fill_count_fits c (cur_msg s.dev).len (s.fill + 1) (by push_cast at hfit ⊢; omega)
      hdepth (by omega)]
    obtain ⟨d2, b1, b2, b3⟩ := fill_body_spec c (cur_msg s.dev)
      { dm with is_xfer_start := false }
      (s.data_buf ++ [dm.slave_addr_rw ||| (c.WFIFO_CTRL_TB ||| c.WFIFO_CTRL_START)])
      m1 (by show dm.rx_cnt = 0; rw [c3, hrx]) (by show dm.tx_cnt = 0; rw [c4, htx])
      (by show dm.msg_buf = 0; rw [kb, ho]) m2 m3
      (decide ((s.dev.msg_idx : Int) = s.dev.num - 1))
      (by
        show (dm.msg_idx : Int) = dm.num - 1 ↔ _
        rw [k6, hnum, decide_eq_true_iff])
    rw [show ({ dm with is_xfer_start := false } : spacemit_i2c_dev).slave_addr_rw
      = dm.slave_addr_rw from rfl, b1]
    have hcur : cur_msg d2 = cur_msg s.dev := by
      rw [cur_msg_frame _ _ b2]; exact m1
    have hd2n : d2.num = s.dev.num := by
      unfold spacemit_i2c_dev.num
      rw [b2.msgs]
      show ((dm.msgs.length : Nat) : Int) = _
      rw [k7]
    have hd2i : d2.msg_idx = s.dev.msg_idx := b2.msg_idx.trans k6
    unfold fill_next
    simp only []
    rw [if_pos (by rw [hcur]; exact b3)]
    have hdata : s.data_buf
          ++ [dm.slave_addr_rw ||| (c.WFIFO_CTRL_TB ||| c.WFIFO_CTRL_START)]
          ++ encode_data c (decide ((s.dev.msg_idx : Int) = s.dev.num - 1)) (cur_msg s.dev)
        = s.data_buf ++ []
          ++ encode_msg c (decide ((s.dev.msg_idx : Int) = s.dev.num - 1)) (cur_msg s.dev) := by
      unfold encode_msg
      rw [m3]
      simp
    have hfl : s.fill + 1 + ((cur_msg s.dev).len : Int)
        = s.fill + 0 + (((cur_msg s.dev).len + 1 : Nat) : Int) := by
      push_cast; omega
    by_cases hl : (s.dev.msg_idx : Int) = s.dev.num - 1
    · have hl2 : ((d2.msg_idx + 1 : Nat) : Int) = d2.num := by
        rw [hd2i, hd2n]; push_cast; omega
      rw [if_pos hl2]
      refine ⟨{ d2 with msg_idx := d2.msg_idx + 1 }, ?_, ?_, ?_, ?_, ?_, ?_, fun _ => rfl,
        fun h => absurd hl h⟩
      · rw [hdata, hfl]
      · show d2.msgs = _
        rw [b2.msgs]; exact k7
      · show d2.msg_idx + 1 = _
        rw [hd2i]
      · show d2.high_mode = _
        rw [b2.high_mode]; exact k3
      · show d2.master_code = _
        rw [b2.master_code]; exact k4
      · show d2.is_xfer_start = false
        rw [b2.is_xfer_start]
    · have hl2 : ¬ ((d2.msg_idx + 1 : Nat) : Int) = d2.num := by
        rw [hd2i, hd2n]; push_cast; omega
      rw [if_neg hl2]
      refine ⟨{ d2 with msg_idx := d2.msg_idx + 1, msg_buf := 0, rx_cnt := 0, tx_cnt := 0 },
        ?_, ?_, ?_, ?_, ?_, ?_, fun h => absurd h hl, fun _ => ⟨rfl, rfl, rfl, ?_⟩⟩
      · rw [hdata, hfl]
      · show d2.msgs = _
        rw [b2.msgs]; exact k7
      · show d2.msg_idx + 1 = _
        rw [hd2i]
      · show d2.high_mode = _
        rw [b2.high_mode]; exact k3
      · show d2.master_code = _
        rw [b2.master_code]; exact k4
      · show d2.is_xfer_start = false
        rw [b2.is_xfer_start]
      · rw [hfl]

theorem cur_msg_append (d : spacemit_i2c_dev) (pre : List i2c_msg) (m : i2c_msg)
    (ms : List i2c_msg) (hm : d.msgs = pre ++ m :: ms) (hi : d.msg_idx = pre.length) :
    cur_msg d = m := by
  unfold cur_msg
  rw [hm, hi, List.getD_eq_getElem?_getD, List.getElem?_append_right (Nat.le_refl _),
    Nat.sub_self]
  simp

/-- The loop of `spacemit_i2c_fifo_xfer_fill_buffer` from the start of a message,
when the messages left fit the FIFO: every message left is encoded, after the
master code if it is still to be sent, and the loop ends with `msg_idx` equal
to `num`. -/
theorem fill_loop_spec (c : Consts) (hdepth : c.SPACEMIT_I2C_TX_FIFO_DEPTH < 2 ^ 31) :
    ∀ (rest pre : List i2c_msg) (s : FillState) (fuel : Nat),
      s.dev.msgs = pre ++ rest → s.dev.msg_idx = pre.length →
      s.dev.rx_cnt = 0 → s.dev.tx_cnt = 0 → s.dev.msg_buf = 0 → 0 ≤ s.fill →
      s.fill + (if s.dev.high_mode = true ∧ s.dev.is_xfer_start = true then 1 else 0)
        + ((rest.map (fun m => m.len + 1)).sum : Nat) ≤ (c.SPACEMIT_I2C_TX_FIFO_DEPTH : Int) →
      rest ≠ [] → rest.length ≤ fuel →
      ∃ d2 fill2, fill_loop c fuel s
          = some { dev := d2, fill := fill2
                   data_buf := s.data_buf
                    ++ (if s.dev.high_mode = true ∧ s.dev.is_xfer_start = true then
                        [s.dev.master_code ||| (c.WFIFO_CTRL_TB ||| c.WFIFO_CTRL_START)]
                      else [])
                    ++ encode_msgs c rest }
        ∧ d2.msg_idx = (pre ++ rest).length ∧ d2.msgs = s.dev.msgs := by
  intro rest
  induction rest with
  | nil =>
    intro pre s fuel _ _ _ _ _ _ _ hne
    exact absurd rfl hne
  | cons m ms ih =>
    intro pre s fuel hmsgs hidx hrx htx ho hfill hfit _ hfuel
    have hcur : cur_msg s.dev = m := cur_msg_append s.dev pre m ms hmsgs hidx
    have hlt : s.dev.msg_idx < s.dev.msgs.length := by
      rw [hmsgs, hidx, List.length_append, List.length_cons]
      omega
    have hnum : s.dev.num = ((pre.length + (ms.length + 1) : Nat) : Int) := by
      unfold spacemit_i2c_dev.num
      rw [hmsgs, List.length_append, List.length_cons]
    have hsum : ((((m :: ms).map (fun m => m.len + 1)).sum : Nat) : Int)
        = ((m.len + 1 : Nat) : Int) + (((ms.map (fun m => m.len + 1)).sum : Nat) : Int) := by
      rw [List.map_cons, List.sum_cons, Nat.cast_add]
    rw [hsum] at hfit
    obtain ⟨d2, e1, e2, e3, e4, e5, e6, e7, e8⟩ := fill_msg_spec c s hlt hrx htx ho hfill hdepth
      (by rw [hcur]; omega)
    rw [hcur] at e1 e8
    obtain ⟨fuel, rfl⟩ : ∃ f, fuel = f + 1 := ⟨fuel - 1, by
      rw [List.length_cons] at hfuel; omega⟩
    have hcond : (s.dev.msg_idx : Int) < s.dev.num := by
      rw [hnum, hidx]; push_cast; omega
    rw [fill_loop, if_pos hcond]
    cases ms with
    | nil =>
      have hl : (s.dev.msg_idx : Int) = s.dev.num - 1 := by
        rw [hnum, hidx]; simp
      rw [if_pos (e7 hl), e1, decide_eq_true hl]
      refine ⟨d2, _, rfl, ?_, e2⟩
      rw [e3, hidx, List.length_append, List.length_cons, List.length_nil]
    | cons m2 ms2 =>
      have hl : (s.dev.msg_idx : Int) ≠ s.dev.num - 1 := by
        rw [hnum, hidx, List.length_cons]; push_cast; omega
      obtain ⟨r1, r2, r3, r4⟩ := e8 hl
      have hsum2 : ((((m2 :: ms2).map (fun m => m.len + 1)).sum : Nat) : Int)
          = ((m2.len + 1 : Nat) : Int) + (((ms2.map (fun m => m.len + 1)).sum : Nat) : Int) := by
        rw [List.map_cons, List.sum_cons, Nat.cast_add]
      rw [hsum2] at hfit
      have hnb : ¬ (fill_msg c s).2 = true := by
        rw [r4, decide_eq_true_iff]
        split_ifs at hfit ⊢ <;> omega
      rw [if_neg hnb, e1, decide_eq_false hl]
      obtain ⟨d3, f3, i1, i2, i3⟩ := ih (pre ++ [m])
        { dev := d2
          fill := s.fill
            + (if s.dev.high_mode = true ∧ s.dev.is_xfer_start = true then 1 else 0)
            + ((m.len + 1 : Nat) : Int)
          data_buf := s.data_buf
            ++ (if s.dev.high_mode = true ∧ s.dev.is_xfer_start = true then
                  [s.dev.master_code ||| (c.WFIFO_CTRL_TB ||| c.WFIFO_CTRL_START)] else [])
            ++ encode_msg c false m }
        fuel
        (by show d2.msgs = _; rw [e2, hmsgs, List.append_assoc]; rfl)
        (by show d2.msg_idx = _; rw [e3, hidx, List.length_append]; rfl)
        r1 r2 r3
        (by
          show 0 ≤ s.fill + _ + _
          split_ifs <;> omega)
        (by
          show s.fill + _ + _ + (if d2.high_mode = true ∧ d2.is_xfer_start = true then 1 else 0)
            + _ ≤ _
          rw [e6, hsum2]
          simp only [Bool.false_eq_true, and_false, if_false]
          omega)
        (by simp)
        (by rw [List.length_cons] at hfuel; omega)
      refine ⟨d3, f3, ?_, ?_, ?_⟩
      · rw [i1]
        show some _ = some _
        congr 2
        show _ ++ (if d2.high_mode = true ∧ d2.is_xfer_start = true then _ else []) ++ _ = _
        rw [e6]
        simp only [Bool.false_eq_true, and_false, if_false, List.append_nil]
        rw [show encode_msgs c (m :: m2 :: ms2)
          = encode_msg c false m ++ encode_msgs c (m2 :: ms2) from rfl, List.append_assoc]
      · rw [i2, List.append_assoc]
        rfl
      · rw [i3]
        exact e2
theorem msg_byte_lt (m : i2c_msg) (i : Nat) : msg_byte m i < 256 :=
  Nat.mod_lt _ (by decide)

theorem msg_addr_rw_lt (m : i2c_msg) : msg_addr_rw m < 256 := by
  have h1 : m.addr &&& 0x7f ≤ 0x7f := Nat.and_le_right
  have h2 : (m.addr &&& 0x7f) <<< 1 < 2 ^ 8 := by
    rw [Nat.shiftLeft_eq]
    omega
  unfold msg_addr_rw
  split_ifs
  · exact Nat.or_lt_two_pow h2 (by decide)
  · exact h2

theorem byte_and_ctrl (x s : Nat) (hx : x < 256) (hs : s &&& 0xff = 0) : x &&& s = 0 := by
  have h1 : x &&& 0xff = x := by
    have h := Nat.and_pow_two_sub_one_eq_mod x 8
    have e : (2 : Nat) ^ 8 - 1 = 0xff := by decide
    rw [e] at h
    rw [h]
    exact Nat.mod_eq_of_lt hx
  rw [← h1, Nat.and_assoc, Nat.and_comm 0xff s, hs]
  exact Nat.and_zero _

theorem or_and_eq_zero (a b s : Nat) (ha : a &&& s = 0) (hb : b &&& s = 0) :
    (a ||| b) &&& s = 0 := by
  rw [or_and_distrib_r, ha, hb]
  rfl

theorem or_and_zero_left (a b s : Nat) (h : (a ||| b) &&& s = 0) : a &&& s = 0 := by
  rw [or_and_distrib_r] at h
  exact ((or_eq_zero_iff _ _).mp h).1

theorem or_and_zero_right (a b s : Nat) (h : (a ||| b) &&& s = 0) : b &&& s = 0 := by
  rw [or_and_distrib_r] at h
  exact ((or_eq_zero_iff _ _).mp h).2

theorem or_and_self_last (a s : Nat) : (a ||| s) &&& s = s := by
  apply Nat.eq_of_testBit_eq
  intro i
  simp only [Nat.testBit_and, Nat.testBit_or]
  cases a.testBit i <;> cases s.testBit i <;> rfl

/-- The facts about the bits of the write FIFO words that the encoders rely on. -/
theorem wfifo_bits (c : Consts) (hb : wfifo_bits_distinct c) :
    c.WFIFO_CTRL_STOP &&& 0xff = 0 ∧ c.WFIFO_CTRL_ACKNAK &&& 0xff = 0
    ∧ c.WFIFO_CTRL_TB &&& c.WFIFO_CTRL_STOP = 0 ∧ c.WFIFO_CTRL_TB &&& c.WFIFO_CTRL_ACKNAK = 0
    ∧ c.WFIFO_CTRL_START &&& c.WFIFO_CTRL_STOP = 0
    ∧ c.WFIFO_CTRL_START &&& c.WFIFO_CTRL_ACKNAK = 0 := by
  obtain ⟨_, _, h3, h4, h5, _⟩ := hb
  refine ⟨?_, ?_, or_and_zero_left _ _ _ h4, or_and_zero_left _ _ _ h5,
    or_and_zero_right _ _ _ h4, or_and_zero_right _ _ _ h5⟩
  · exact or_and_zero_right _ _ _ (or_and_zero_left _ _ _ h3)
  · exact or_and_zero_right _ _ _ h3

/-- A word without stop: a byte with TB, or with TB and START. -/
theorem plain_word_bits (c : Consts) (hb : wfifo_bits_distinct c) (x : Nat) (hx : x < 256) :
    ((x ||| c.WFIFO_CTRL_TB) &&& c.WFIFO_CTRL_STOP = 0
      ∧ (x ||| c.WFIFO_CTRL_TB) &&& c.WFIFO_CTRL_ACKNAK = 0)
    ∧ ((x ||| (c.WFIFO_CTRL_TB ||| c.WFIFO_CTRL_START)) &&& c.WFIFO_CTRL_STOP = 0
      ∧ (x ||| (c.WFIFO_CTRL_TB ||| c.WFIFO_CTRL_START)) &&& c.WFIFO_CTRL_ACKNAK = 0) := by
  obtain ⟨b1, b2, b3, b4, b5, b6⟩ := wfifo_bits c hb
  have x1 := byte_and_ctrl x _ hx b1
  have x2 := byte_and_ctrl x _ hx b2
  exact ⟨⟨or_and_eq_zero _ _ _ x1 b3, or_and_eq_zero _ _ _ x2 b4⟩,
    ⟨or_and_eq_zero _ _ _ x1 (or_and_eq_zero _ _ _ b3 b5),
      or_and_eq_zero _ _ _ x2 (or_and_eq_zero _ _ _ b4 b6)⟩⟩

/-- The last word of a transaction has the stop bit, and the NAK bit exactly for
a read. -/
theorem last_word_bits (c : Consts) (hb : wfifo_bits_distinct c) (x : Nat) (hx : x < 256) :
    ((x ||| c.WFIFO_CTRL_TB ||| c.WFIFO_CTRL_STOP ||| c.WFIFO_CTRL_ACKNAK) &&& c.WFIFO_CTRL_STOP ≠ 0
      ∧ (x ||| c.WFIFO_CTRL_TB ||| c.WFIFO_CTRL_STOP ||| c.WFIFO_CTRL_ACKNAK)
          &&& c.WFIFO_CTRL_ACKNAK ≠ 0)
    ∧ ((x ||| c.WFIFO_CTRL_TB ||| c.WFIFO_CTRL_STOP) &&& c.WFIFO_CTRL_STOP ≠ 0
      ∧ (x ||| c.WFIFO_CTRL_TB ||| c.WFIFO_CTRL_STOP) &&& c.WFIFO_CTRL_ACKNAK = 0) := by
  obtain ⟨b1, b2, b3, b4, b5, b6⟩ := wfifo_bits c hb
  obtain ⟨h1, h2, _, _, _, h6⟩ := hb
  have x2 := byte_and_ctrl x _ hx b2
  refine ⟨⟨?_, ?_⟩, ?_, ?_⟩
  · rw [or_and_self_right]
    exact h1
  · rw [or_and_self_last]
    exact h2
  · rw [or_and_self_last]
    exact h1
  · exact or_and_eq_zero _ _ _ (or_and_eq_zero _ _ _ x2 b4) h6
theorem encode_data_length (c : Consts) (last : Bool) (m : i2c_msg)
    (h : last = true → 1 ≤ m.len) : (encode_data c last m).length = m.len := by
  unfold encode_data
  cases last with
  | true =>
    have := h rfl
    rw [if_pos rfl, List.length_append, List.length_map, List.length_range,
      List.length_singleton]
    omega
  | false => simp

theorem encode_msgs_length (c : Consts) :
    ∀ (msgs : List i2c_msg), (∀ m, msgs.getLast? = some m → 1 ≤ m.len) →
      (encode_msgs c msgs).length = (msgs.map (fun m => m.len + 1)).sum := by
  intro msgs
  induction msgs with
  | nil => intro _; rfl
  | cons m ms ih =>
    intro h
    cases ms with
    | nil =>
      have h1 : 1 ≤ m.len := h m rfl
      show (encode_msg c true m).length = _
      unfold encode_msg
      rw [List.length_cons, encode_data_length c true m (fun _ => h1)]
      simp
    | cons m2 ms2 =>
      have ih2 := ih (fun x hx => h x (by rw [List.getLast?_cons_cons]; exact hx))
      show (encode_msg c false m ++ encode_msgs c (m2 :: ms2)).length = _
      unfold encode_msg
      rw [List.length_append, List.length_cons,
        encode_data_length c false m (fun h => absurd h (by decide)), ih2]
      simp only [List.map_cons, List.sum_cons]
      try omega

theorem sum_len_cast (msgs : List i2c_msg) :
    (((msgs.map (fun m => m.len + 1)).sum : Nat) : Int)
      = (msgs.map (fun m => (m.len : Int) + 1)).sum := by
  induction msgs with
  | nil => rfl
  | cons m ms ih =>
    rw [List.map_cons, List.sum_cons, List.map_cons, List.sum_cons, Nat.cast_add, ih]
    push_cast
    rfl

/-- The words of a message that is not the last carry neither stop nor NAK. -/
theorem encode_msg_plain (c : Consts) (hb : wfifo_bits_distinct c) (m : i2c_msg) :
    ∀ w ∈ encode_msg c false m,
      w &&& c.WFIFO_CTRL_STOP = 0 ∧ w &&& c.WFIFO_CTRL_ACKNAK = 0 := by
  intro w hw
  unfold encode_msg encode_data at hw
  simp only [Bool.false_eq_true, if_false, List.mem_cons, List.mem_map, List.mem_range] at hw
  rcases hw with rfl | ⟨i, _, rfl⟩
  · exact (plain_word_bits c hb _ (msg_addr_rw_lt m)).2
  · exact (plain_word_bits c hb _ (msg_byte_lt m i)).1

/-- The words of the last message: all but the last carry neither stop nor NAK;
the last carries the stop, and the NAK exactly for a read. -/
theorem encode_msg_last (c : Consts) (hb : wfifo_bits_distinct c) (m : i2c_msg) :
    ∃ init w, encode_msg c true m = init ++ [w]
      ∧ (∀ x ∈ init, x &&& c.WFIFO_CTRL_STOP = 0 ∧ x &&& c.WFIFO_CTRL_ACKNAK = 0)
      ∧ w &&& c.WFIFO_CTRL_STOP ≠ 0
      ∧ (w &&& c.WFIFO_CTRL_ACKNAK ≠ 0 ↔ m.flags &&& I2C_M_RD ≠ 0) := by
  have hinit : ∀ x ∈ (msg_addr_rw m ||| (c.WFIFO_CTRL_TB ||| c.WFIFO_CTRL_START))
        :: (List.range (m.len - 1)).map (fun i => msg_byte m i ||| c.WFIFO_CTRL_TB),
      x &&& c.WFIFO_CTRL_STOP = 0 ∧ x &&& c.WFIFO_CTRL_ACKNAK = 0 := by
    intro x hx
    simp only [List.mem_cons, List.mem_map, List.mem_range] at hx
    rcases hx with rfl | ⟨i, _, rfl⟩
    · exact (plain_word_bits c hb _ (msg_addr_rw_lt m)).2
    · exact (plain_word_bits c hb _ (msg_byte_lt m i)).1
  refine ⟨(msg_addr_rw m ||| (c.WFIFO_CTRL_TB ||| c.WFIFO_CTRL_START))
        :: (List.range (m.len - 1)).map (fun i => msg_byte m i ||| c.WFIFO_CTRL_TB),
    (if msg_is_rx m = true then
        msg_addr_rw m ||| c.WFIFO_CTRL_TB ||| c.WFIFO_CTRL_STOP ||| c.WFIFO_CTRL_ACKNAK
      else msg_byte m (m.len - 1) ||| c.WFIFO_CTRL_TB ||| c.WFIFO_CTRL_STOP),
    ?_, hinit, ?_, ?_⟩
  · unfold encode_msg encode_data
    rw [if_pos rfl]
    rfl
  · split_ifs
    · exact (last_word_bits c hb _ (msg_addr_rw_lt m)).1.1
    · exact (last_word_bits c hb _ (msg_byte_lt m _)).2.1
  · by_cases hr : m.flags &&& I2C_M_RD ≠ 0
    · have : msg_is_rx m = true := by
        unfold msg_is_rx; simp [hr]
      rw [if_pos this]
      exact ⟨fun _ => hr, fun _ => (last_word_bits c hb _ (msg_addr_rw_lt m)).1.2⟩
    · have : ¬ msg_is_rx m = true := by
        unfold msg_is_rx; simpa using hr
      rw [if_neg this]
      exact ⟨fun h => absurd (last_word_bits c hb _ (msg_byte_lt m _)).2.2 h,
        fun h => absurd h hr⟩

/-- In the encoding of a list of messages that is not empty, exactly one word
carries the stop, the last one, which carries the NAK exactly when the last
message is a read. -/
theorem encode_msgs_stop (c : Consts) (hb : wfifo_bits_distinct c) :
    ∀ (msgs : List i2c_msg), msgs ≠ [] →
      ∃ init w, encode_msgs c msgs = init ++ [w]
        ∧ (∀ x ∈ init, x &&& c.WFIFO_CTRL_STOP = 0 ∧ x &&& c.WFIFO_CTRL_ACKNAK = 0)
        ∧ w &&& c.WFIFO_CTRL_STOP ≠ 0
        ∧ ∀ m, msgs.getLast? = some m →
            (w &&& c.WFIFO_CTRL_ACKNAK ≠ 0 ↔ m.flags &&& I2C_M_RD ≠ 0) := by
  intro msgs
  induction msgs with
  | nil => intro h; exact absurd rfl h
  | cons m ms ih =>
    intro _
    cases ms with
    | nil =>
      obtain ⟨init, w, h1, h2, h3, h4⟩ := encode_msg_last c hb m
      refine ⟨init, w, h1, h2, h3, ?_⟩
      intro m2 hm2
      have : m2 = m := by
        simp at hm2
        exact hm2.symm
      rw [this]
      exact h4
    | cons m2 ms2 =>
      obtain ⟨init, w, h1, h2, h3, h4⟩ := ih (by simp)
      refine ⟨encode_msg c false m ++ init, w, ?_, ?_, h3, ?_⟩
      · show encode_msg c false m ++ encode_msgs c (m2 :: ms2) = _
        rw [h1, List.append_assoc]
      · intro x hx
        rw [List.mem_append] at hx
        rcases hx with hx | hx
        · exact encode_msg_plain c hb m x hx
        · exact h2 x hx
      · intro m3 hm3
        rw [List.getLast?_cons_cons] at hm3
        exact h4 m3 hm3

/-- Every word of the encoding has `WFIFO_CTRL_TB`. -/
theorem encode_msgs_tb (c : Consts) :
    ∀ (msgs : List i2c_msg), ∀ w ∈ encode_msgs c msgs, w &&& c.WFIFO_CTRL_TB = c.WFIFO_CTRL_TB := by
  have hword : ∀ (last : Bool) (m : i2c_msg), ∀ w ∈ encode_msg c last m,
      w &&& c.WFIFO_CTRL_TB = c.WFIFO_CTRL_TB := by
    intro last m w hw
    unfold encode_msg encode_data at hw
    have ha : ∀ x : Nat, (x ||| (c.WFIFO_CTRL_TB ||| c.WFIFO_CTRL_START)) &&& c.WFIFO_CTRL_TB
        = c.WFIFO_CTRL_TB := by
      intro x
      rw [← Nat.or_assoc]
      exact or_and_self_right _ _ _
    cases last with
    | true =>
      rw [if_pos rfl, List.mem_cons, List.mem_append, List.mem_singleton, List.mem_map] at hw
      rcases hw with rfl | ⟨i, _, rfl⟩ | hw
      · exact ha _
      · exact or_and_self_last _ _
      · rw [hw]
        split_ifs
        · rw [Nat.or_assoc, Nat.or_assoc, ← Nat.or_assoc]
          exact or_and_self_right _ _ _
        · exact or_and_self_right _ _ _
    | false =>
      simp only [Bool.false_eq_true, if_false, List.mem_cons, List.mem_map,
        List.mem_range] at hw
      rcases hw with rfl | ⟨i, _, rfl⟩
      · exact ha _
      · exact or_and_self_last _ _
  intro msgs
  induction msgs with
  | nil => intro w hw; exact absurd hw (List.not_mem_nil _)
  | cons m ms ih =>
    cases ms with
    | nil => exact hword true m
    | cons m2 ms2 =>
      intro w hw
      rw [show encode_msgs c (m :: m2 :: ms2)
        = encode_msg c false m ++ encode_msgs c (m2 :: ms2) from rfl, List.mem_append] at hw
      rcases hw with hw | hw
      · exact hword false m w hw
      · exact ih w hw
/-- The FIFO encoder on a transaction that fits the FIFO: started from
`spacemit_i2c_init_xfer_params`, with enough passes allowed, it ends with all
messages consumed and has encoded the transaction. -/
theorem fill_buffer_spec (c : Consts) (d : spacemit_i2c_dev) (fuel : Nat)
    (hne : d.msgs ≠ [])
    (hfit : word_count d.high_mode d.msgs ≤ (c.SPACEMIT_I2C_TX_FIFO_DEPTH : Int))
    (hdepth : c.SPACEMIT_I2C_TX_FIFO_DEPTH < 2 ^ 31) (hfuel : d.msgs.length ≤ fuel) :
    ∃ d2, spacemit_i2c_fifo_xfer_fill_buffer c fuel (spacemit_i2c_init_xfer_params d)
        = some (d2, encode_xfer c d.high_mode d.master_code d.msgs)
      ∧ (d2.msg_idx : Int) = d2.num ∧ d2.msgs = d.msgs := by
  have hfit2 : (0 : Int)
      + (if (spacemit_i2c_init_xfer_params d).high_mode = true
          ∧ (spacemit_i2c_init_xfer_params d).is_xfer_start = true then 1 else 0)
      + (((d.msgs.map (fun m => m.len + 1)).sum : Nat) : Int)
      ≤ (c.SPACEMIT_I2C_TX_FIFO_DEPTH : Int) := by
    rw [sum_len_cast]
    unfold word_count at hfit
    show (0 : Int) + (if d.high_mode = true ∧ true = true then 1 else 0) + _ ≤ _
    by_cases h : d.high_mode = true
    · rw [if_pos h] at hfit
      rw [if_pos ⟨h, rfl⟩]
      omega
    · rw [if_neg h] at hfit
      rw [if_neg (fun hh => h hh.1)]
      omega
  obtain ⟨d2, f2, h1, h2, h3⟩ := fill_loop_spec c hdepth d.msgs []
    { dev := spacemit_i2c_init_xfer_params d, fill := 0, data_buf := [] } fuel
    rfl rfl rfl rfl rfl (Int.le_refl 0) hfit2 hne hfuel
  refine ⟨d2, ?_, ?_, h3⟩
  · unfold spacemit_i2c_fifo_xfer_fill_buffer
    rw [h1]
    show some (d2, [] ++ (if d.high_mode = true ∧ true = true then _ else []) ++ _) = _
    unfold encode_xfer
    by_cases h : d.high_mode = true
    · rw [if_pos ⟨h, rfl⟩, if_pos h]
      rfl
    · rw [if_neg (fun hh => h hh.1), if_neg h]
      rfl
  · unfold spacemit_i2c_dev.num
    rw [h2, h3]
    rfl

/-- The FIFO pre-encoding where the last message has at least one byte: for every
message list that is not empty, whose last message has at least one byte, and
whose count `cnt = (1 if high_mode) + sum of (len + 1)` is at most
`SPACEMIT_I2C_TX_FIFO_DEPTH` (below `2 ^ 31`), with the master code a byte and
the control bits of the FIFO distinct and above the data byte:
`spacemit_i2c_fifo_xfer_fill_buffer`, started from
`spacemit_i2c_init_xfer_params` and allowed at least `num` passes of its loop,
returns; the words it writes are the master-code word in high-speed mode, then
for each message in order its address word with START and TB followed by its
`len` data words with TB; they are exactly `cnt` words; every word has TB;
exactly one word, the last, carries `WFIFO_CTRL_STOP`, and it carries
`WFIFO_CTRL_ACKNAK` if and only if the last message is a read, no other word
carrying it; and `msg_idx` ends equal to `num`. -/
theorem fifo_fill_encoding (c : Consts) (d : spacemit_i2c_dev) (fuel : Nat)
    (hne : d.msgs ≠ []) (hlast : ∀ m, d.msgs.getLast? = some m → 1 ≤ m.len)
    (hfit : word_count d.high_mode d.msgs ≤ (c.SPACEMIT_I2C_TX_FIFO_DEPTH : Int))
    (hdepth : c.SPACEMIT_I2C_TX_FIFO_DEPTH < 2 ^ 31) (hmc : d.master_code < 256)
    (hb : wfifo_bits_distinct c) (hfuel : d.msgs.length ≤ fuel) :
    ∃ d2 words, spacemit_i2c_fifo_xfer_fill_buffer c fuel (spacemit_i2c_init_xfer_params d)
        = some (d2, words)
      ∧ words = encode_xfer c d.high_mode d.master_code d.msgs
      ∧ (words.length : Int) = word_count d.high_mode d.msgs
      ∧ (words.length : Int) ≤ (c.SPACEMIT_I2C_TX_FIFO_DEPTH : Int)
      ∧ (∀ w ∈ words, w &&& c.WFIFO_CTRL_TB = c.WFIFO_CTRL_TB)
      ∧ (∃ init w, words = init ++ [w]
          ∧ (∀ x ∈ init, x &&& c.WFIFO_CTRL_STOP = 0 ∧ x &&& c.WFIFO_CTRL_ACKNAK = 0)
          ∧ w &&& c.WFIFO_CTRL_STOP ≠ 0
          ∧ ∀ m, d.msgs.getLast? = some m →
              (w &&& c.WFIFO_CTRL_ACKNAK ≠ 0 ↔ m.flags &&& I2C_M_RD ≠ 0))
      ∧ (d2.msg_idx : Int) = d2.num := by
  obtain ⟨d2, h1, h2, _⟩ := fill_buffer_spec c d fuel hne hfit hdepth hfuel
  have hlen : ((encode_xfer c d.high_mode d.master_code d.msgs).length : Int)
      = word_count d.high_mode d.msgs := by
    unfold encode_xfer word_count
    rw [List.length_append, encode_msgs_length c d.msgs hlast, Nat.cast_add, sum_len_cast]
    split_ifs <;> rfl
  obtain ⟨init, w, s1, s2, s3, s4⟩ := encode_msgs_stop c hb d.msgs hne
  refine ⟨d2, _, h1, rfl, hlen, by rw [hlen]; exact hfit, ?_, ?_, h2⟩
  · intro x hx
    unfold encode_xfer at hx
    rw [List.mem_append] at hx
    rcases hx with hx | hx
    · split_ifs at hx
      · rw [List.mem_singleton] at hx
        rw [hx, ← Nat.or_assoc]
        exact or_and_self_right _ _ _
      · exact absurd hx (List.not_mem_nil _)
    · exact encode_msgs_tb c d.msgs x hx
  · refine ⟨(if d.high_mode = true then
        [d.master_code ||| (c.WFIFO_CTRL_TB ||| c.WFIFO_CTRL_START)] else []) ++ init, w,
      ?_, ?_, s3, s4⟩
    · unfold encode_xfer
      rw [s1, List.append_assoc]
    · intro x hx
      rw [List.mem_append] at hx
      rcases hx with hx | hx
      · split_ifs at hx
        · rw [List.mem_singleton] at hx
          rw [hx]
          exact (plain_word_bits c hb _ hmc).2
        · exact absurd hx (List.not_mem_nil _)
      · exact s2 x hx

/-- The FIFO pre-encoding at a concrete input: in high-speed mode, a write of two
bytes followed by a read of three fills the FIFO of depth 8 exactly. -/
theorem fifo_fill_encoding_witness :
    ∃ d2 words, spacemit_i2c_fifo_xfer_fill_buffer sample_consts 2
        (spacemit_i2c_init_xfer_params encoder_dev) = some (d2, words)
      ∧ (words.length : Int) = 8 ∧ (d2.msg_idx : Int) = d2.num := by
  obtain ⟨d2, words, h1, _, h3, _, _, _, h7⟩ :=
    fifo_fill_encoding sample_consts encoder_dev 2 (by decide) (by decide) (by decide)
      (by decide) (by decide) (by decide) (by decide)
  exact ⟨d2, words, h1, h3, h7⟩

set_option maxRecDepth 4000 in
/-- C26 fails in the code when the last message has no byte: after the address
word, `spacemit_i2c_fifo_xfer_fill_buffer` still builds a data word with the
stop from `*msg_buf`, though the message has no byte to read and the count of
the mode selector has no place for it. A write of six bytes followed by a write
of none has the count 8, the FIFO depth, is sent in FIFO mode, and nine words
are written: address, six data words, address, and the extra word with
`WFIFO_CTRL_STOP`. A single write of no byte has the count 1 and two words are
written. The words are given by their control bits. -/
theorem fifo_fill_zero_length_overrun :
    word_count false [write_msg 6, write_msg 0] = 8
    ∧ sample_consts.SPACEMIT_I2C_TX_FIFO_DEPTH = 8
    ∧ (spacemit_i2c_choose_xfer_mode sample_consts
        (sample_dev [write_msg 6, write_msg 0])).1.xfer_mode = SPACEMIT_I2C_MODE_FIFO
    ∧ (spacemit_i2c_fifo_xfer_fill_buffer sample_consts 2
        (spacemit_i2c_init_xfer_params (sample_dev [write_msg 6, write_msg 0]))).map
          (fun r => (r.1.msg_idx, r.2.length, r.2.map (wfifo_ctrl sample_consts)))
      = some (2, 9,
          [sample_consts.WFIFO_CTRL_TB ||| sample_consts.WFIFO_CTRL_START,
           sample_consts.WFIFO_CTRL_TB, sample_consts.WFIFO_CTRL_TB,
           sample_consts.WFIFO_CTRL_TB, sample_consts.WFIFO_CTRL_TB,
           sample_consts.WFIFO_CTRL_TB, sample_consts.WFIFO_CTRL_TB,
           sample_consts.WFIFO_CTRL_TB ||| sample_consts.WFIFO_CTRL_START,
           sample_consts.WFIFO_CTRL_TB ||| sample_consts.WFIFO_CTRL_STOP])
    ∧ word_count false [write_msg 0] = 1
    ∧ (spacemit_i2c_fifo_xfer_fill_buffer sample_consts 1
        (spacemit_i2c_init_xfer_params (sample_dev [write_msg 0]))).map
          (fun r => (r.1.msg_idx, r.2.length, r.2.map (wfifo_ctrl sample_consts)))
      = some (1, 2,
          [sample_consts.WFIFO_CTRL_TB ||| sample_consts.WFIFO_CTRL_START,
           sample_consts.WFIFO_CTRL_TB ||| sample_consts.WFIFO_CTRL_STOP]) := by
  decide

/-! ## DMA encoder against FIFO encoder -/

theorem encode_msgs_pieces (c : Consts) :
    ∀ (msgs : List i2c_msg), encode_msgs c msgs = (encode_pieces c msgs).flatten := by
  intro msgs
  induction msgs with
  | nil => rfl
  | cons m ms ih =>
    cases ms with
    | nil =>
      show encode_msg c true m = [encode_msg c true m].flatten
      simp
    | cons m2 ms2 =>
      show encode_msg c false m ++ encode_msgs c (m2 :: ms2)
        = (encode_msg c false m :: encode_pieces c (m2 :: ms2)).flatten
      rw [ih, List.flatten_cons]

theorem dma_tx_msgs_pieces (c : Consts) (d : spacemit_i2c_dev) :
    ∀ (msgs : List i2c_msg) (idx : Nat), 0 < idx →
      dma_tx_msgs c d msgs idx = (dma_pieces c d msgs idx).flatten := by
  intro msgs
  induction msgs with
  | nil => intro _ _; rfl
  | cons m ms ih =>
    intro idx hidx
    show dma_tx_msg c d idx m ++ dma_tx_msgs c d ms (idx + 1)
      = (dma_tx_body c d idx m :: dma_pieces c d ms (idx + 1)).flatten
    unfold dma_tx_msg
    rw [if_neg (by omega), ih (idx + 1) (by omega), List.flatten_cons]
    rfl

theorem and_byte (x : Nat) (h : x < 256) : x &&& 0xff = x := by
  have h1 := Nat.and_pow_two_sub_one_eq_mod x 8
  have e : (2 : Nat) ^ 8 - 1 = 0xff := by decide
  rw [e] at h1
  rw [h1]
  exact Nat.mod_eq_of_lt h

/-- The words that `spacemit_i2c_dma_xfer` stores: the master-code word, then the
words of each message. -/
theorem dma_tx_buf_pieces (c : Consts) (d : spacemit_i2c_dev) (hmc : d.master_code < 256) :
    spacemit_i2c_dma_xfer_tx_buf c d
      = master_word c d ++ (dma_pieces c d d.msgs 0).flatten := by
  unfold spacemit_i2c_dma_xfer_tx_buf master_word
  cases hm : d.msgs with
  | nil =>
    rw [if_neg (by simp)]
    rfl
  | cons m ms =>
    show dma_tx_msg c d 0 m ++ dma_tx_msgs c d ms (0 + 1)
      = _ ++ (dma_tx_body c d 0 m :: dma_pieces c d ms (0 + 1)).flatten
    unfold dma_tx_msg
    rw [dma_tx_msgs_pieces c d ms (0 + 1) (by omega), List.flatten_cons, and_byte _ hmc]
    by_cases h : d.high_mode = true
    · rw [if_pos ⟨rfl, h⟩, if_pos ⟨h, by simp⟩, Nat.or_assoc, List.append_assoc]
    · rw [if_neg (fun hh => h hh.2), if_neg (fun hh => h hh.1)]
      rfl

theorem wfifo_ctrl_byte (c : Consts) (hb : wfifo_bits_distinct c) (x : Nat) (hx : x < 256) :
    wfifo_ctrl c (x ||| c.WFIFO_CTRL_TB) = wfifo_ctrl c c.WFIFO_CTRL_TB := by
  unfold wfifo_ctrl
  rw [or_and_distrib_r, byte_and_ctrl x _ hx hb.2.2.1, Nat.zero_or]

/-- The two encodings of one message with at least one byte agree. -/
theorem dma_body_agree (c : Consts) (hb : wfifo_bits_distinct c) (d : spacemit_i2c_dev)
    (idx : Nat) (m : i2c_msg) (last : Bool) (hlen : 1 ≤ m.len)
    (hlast : (idx : Int) = d.num - 1 ↔ last = true) :
    piece_agree c m (encode_msg c last m) (dma_tx_body c d idx m) := by
  have hr : List.range m.len = List.range (m.len - 1) ++ [m.len - 1] := by
    have : m.len = (m.len - 1) + 1 := by omega
    rw [this, List.range_succ]
    simp
  have ha : msg_addr_rw m ||| c.WFIFO_CTRL_TB ||| c.WFIFO_CTRL_START
      = msg_addr_rw m ||| (c.WFIFO_CTRL_TB ||| c.WFIFO_CTRL_START) := Nat.or_assoc _ _ _
  unfold piece_agree
  refine ⟨?_, ?_, rfl, ?_, ?_, ?_⟩
  · unfold encode_msg
    rw [List.length_cons, encode_data_length c last m (fun _ => hlen)]
  · unfold dma_tx_body
    rw [List.length_cons]
    split_ifs <;> simp <;> omega
  · unfold dma_tx_body
    rw [List.head?_cons, ha]
  · unfold encode_msg dma_tx_body encode_data
    rw [List.map_cons, List.map_cons, ha]
    refine congrArg (List.cons _) ?_
    have hrep : (List.range (m.len - 1)).map
          (wfifo_ctrl c ∘ fun i => msg_byte m i ||| c.WFIFO_CTRL_TB)
        = List.replicate (m.len - 1) (wfifo_ctrl c (msg_addr_rw m ||| c.WFIFO_CTRL_TB)) := by
      rw [List.eq_replicate_iff]
      refine ⟨by simp, ?_⟩
      intro b hb2
      rw [List.mem_map] at hb2
      obtain ⟨i, _, rfl⟩ := hb2
      rw [Function.comp_apply, wfifo_ctrl_byte c hb _ (msg_byte_lt m i),
        wfifo_ctrl_byte c hb _ (msg_addr_rw_lt m)]
    have hsw : msg_addr_rw m ||| c.WFIFO_CTRL_TB ||| (c.WFIFO_CTRL_ACKNAK ||| c.WFIFO_CTRL_STOP)
        = msg_addr_rw m ||| c.WFIFO_CTRL_TB ||| c.WFIFO_CTRL_STOP ||| c.WFIFO_CTRL_ACKNAK := by
      rw [Nat.or_comm c.WFIFO_CTRL_ACKNAK, ← Nat.or_assoc]
    have hlw : wfifo_ctrl c (msg_byte m (m.len - 1) ||| c.WFIFO_CTRL_TB)
        = wfifo_ctrl c (msg_addr_rw m ||| c.WFIFO_CTRL_TB) := by
      rw [wfifo_ctrl_byte c hb _ (msg_byte_lt m _), wfifo_ctrl_byte c hb _ (msg_addr_rw_lt m)]
    by_cases hrx : msg_is_rx m = true
    · cases last with
      | true =>
        simp only [if_pos hrx, if_pos (hlast.mpr rfl), eq_self_iff_true, if_true,
          List.map_append, List.map_map, List.map_replicate, List.map_singleton, hrep, hsw]
      | false =>
        have hnl : ¬ (idx : Int) = d.num - 1 := fun h => absurd (hlast.mp h) (by decide)
        simp only [if_pos hrx, if_neg hnl, Bool.false_eq_true, if_false, hr,
          List.map_append, List.map_map, List.map_replicate, List.map_singleton, hrep,
          Function.comp_apply, hlw]
    · cases last with
      | true =>
        simp only [if_neg hrx, if_pos (hlast.mpr rfl), eq_self_iff_true, if_true]
      | false =>
        have hnl : ¬ (idx : Int) = d.num - 1 := fun h => absurd (hlast.mp h) (by decide)
        simp only [if_neg hrx, if_neg hnl, Bool.false_eq_true, if_false, hr,
          List.map_append, List.map_singleton]
  · intro hw
    have hrx : ¬ msg_is_rx m = true := by
      unfold msg_is_rx
      simp [hw]
    unfold encode_msg dma_tx_body encode_data
    rw [ha]
    refine congrArg (List.cons _) ?_
    cases last with
    | true =>
      simp only [if_neg hrx, if_pos (hlast.mpr rfl), eq_self_iff_true, if_true]
    | false =>
      have hnl : ¬ (idx : Int) = d.num - 1 := fun h => absurd (hlast.mp h) (by decide)
      simp only [if_neg hrx, if_neg hnl, Bool.false_eq_true, if_false, hr,
        List.map_append, List.map_singleton]
theorem dma_tx_msg_init (c : Consts) (d : spacemit_i2c_dev) (idx : Nat) (m : i2c_msg) :
    dma_tx_msg c (spacemit_i2c_init_xfer_params d) idx m = dma_tx_msg c d idx m := rfl

theorem dma_tx_msgs_init (c : Consts) (d : spacemit_i2c_dev) :
    ∀ (ms : List i2c_msg) (idx : Nat),
      dma_tx_msgs c (spacemit_i2c_init_xfer_params d) ms idx = dma_tx_msgs c d ms idx := by
  intro ms
  induction ms with
  | nil => intro _; rfl
  | cons m ms ih =>
    intro idx
    show dma_tx_msg c (spacemit_i2c_init_xfer_params d) idx m
        ++ dma_tx_msgs c (spacemit_i2c_init_xfer_params d) ms (idx + 1)
      = dma_tx_msg c d idx m ++ dma_tx_msgs c d ms (idx + 1)
    rw [ih, dma_tx_msg_init]

/-- The DMA encoder reads nothing that `spacemit_i2c_init_xfer_params` changes. -/
theorem dma_tx_buf_init (c : Consts) (d : spacemit_i2c_dev) :
    spacemit_i2c_dma_xfer_tx_buf c (spacemit_i2c_init_xfer_params d)
      = spacemit_i2c_dma_xfer_tx_buf c d :=
  dma_tx_msgs_init c d d.msgs 0

/-- The two encoders agree message by message on messages of at least one byte. -/
theorem dma_pieces_agree (c : Consts) (hb : wfifo_bits_distinct c) (d : spacemit_i2c_dev) :
    ∀ (ms : List i2c_msg) (idx : Nat), (∀ m ∈ ms, 1 ≤ m.len) →
      ((idx + ms.length : Nat) : Int) = d.num →
      pieces_agree c ms (encode_pieces c ms) (dma_pieces c d ms idx) := by
  intro ms
  induction ms with
  | nil =>
    intro _ _ _
    show True
    trivial
  | cons m ms ih =>
    intro idx hlen hnum
    have hm : 1 ≤ m.len := hlen m (List.mem_cons_self _ _)
    cases ms with
    | nil =>
      show piece_agree c m (encode_msg c true m) (dma_tx_body c d idx m) ∧ True
      refine ⟨dma_body_agree c hb d idx m true hm ?_, trivial⟩
      rw [List.length_singleton] at hnum
      constructor
      · intro _; rfl
      · intro _; omega
    | cons m2 ms2 =>
      show piece_agree c m (encode_msg c false m) (dma_tx_body c d idx m)
        ∧ pieces_agree c (m2 :: ms2) (encode_pieces c (m2 :: ms2))
            (dma_pieces c d (m2 :: ms2) (idx + 1))
      refine ⟨dma_body_agree c hb d idx m false hm ?_, ih (idx + 1) ?_ ?_⟩
      · simp only [List.length_cons] at hnum
        push_cast at hnum
        constructor
        · intro h; omega
        · intro h; exact absurd h (by decide)
      · intro x hx
        exact hlen x (List.mem_cons_of_mem _ hx)
      · simp only [List.length_cons] at hnum ⊢
        rw [← hnum]
        push_cast
        omega

/-- Encodings that agree message by message have the same length and the same
control bits at every position. -/
theorem pieces_agree_flatten (c : Consts) :
    ∀ (ms : List i2c_msg) (pf pd : List (List Nat)), pieces_agree c ms pf pd →
      pf.flatten.length = pd.flatten.length
      ∧ pf.flatten.map (wfifo_ctrl c) = pd.flatten.map (wfifo_ctrl c) := by
  intro ms
  induction ms with
  | nil =>
    intro pf pd h
    cases pf with
    | nil =>
      cases pd with
      | nil => exact ⟨rfl, rfl⟩
      | cons _ _ => exact absurd h (by unfold pieces_agree; exact fun x => x)
    | cons _ _ => exact absurd h (by unfold pieces_agree; exact fun x => x)
  | cons m ms ih =>
    intro pf pd h
    cases pf with
    | nil => exact absurd h (by unfold pieces_agree; exact fun x => x)
    | cons f fs =>
      cases pd with
      | nil => exact absurd h (by unfold pieces_agree; exact fun x => x)
      | cons g gs =>
        have h2 : piece_agree c m f g ∧ pieces_agree c ms fs gs := h
        obtain ⟨i1, i2⟩ := ih fs gs h2.2
        obtain ⟨a1, a2, _, _, a5, _⟩ := h2.1
        refine ⟨?_, ?_⟩
        · rw [List.flatten_cons, List.flatten_cons, List.length_append, List.length_append,
            a1, a2, i1]
        · rw [List.flatten_cons, List.flatten_cons, List.map_append, List.map_append, a5, i2]

/-- C27: the DMA and FIFO encoders agree. For every message list of a transfer
(the I2C core passes at least one message) whose messages all have `len >= 1`
and whose count `cnt` is at most `SPACEMIT_I2C_TX_FIFO_DEPTH` (below `2 ^ 31`),
with the master code a byte and the control bits of the FIFO distinct and
above the data byte: `spacemit_i2c_fifo_xfer_fill_buffer`, started from
`spacemit_i2c_init_xfer_params` and allowed at least `num` passes of its
loop, returns, and the words it writes and the words that
`spacemit_i2c_dma_xfer` stores in `tx_dma_buf` are both `cnt` words, have the
same control bits (TB, START, STOP, ACKNAK) at every position, and are both the
same master-code word (in high-speed mode) followed by one piece per message,
where the two pieces of a message have `len + 1` words, start with the same
address word, and are the same words throughout when the message is a write. -/
theorem dma_fifo_encoders_agree (c : Consts) (d : spacemit_i2c_dev) (fuel : Nat)
    (hne : d.msgs ≠ []) (hlen : ∀ m ∈ d.msgs, 1 ≤ m.len)
    (hfit : word_count d.high_mode d.msgs ≤ (c.SPACEMIT_I2C_TX_FIFO_DEPTH : Int))
    (hdepth : c.SPACEMIT_I2C_TX_FIFO_DEPTH < 2 ^ 31) (hmc : d.master_code < 256)
    (hb : wfifo_bits_distinct c) (hfuel : d.msgs.length ≤ fuel) :
    ∃ d2 words, spacemit_i2c_fifo_xfer_fill_buffer c fuel (spacemit_i2c_init_xfer_params d)
        = some (d2, words)
      ∧ (words.length : Int) = word_count d.high_mode d.msgs
      ∧ ((spacemit_i2c_dma_xfer_tx_buf c (spacemit_i2c_init_xfer_params d)).length : Int)
          = word_count d.high_mode d.msgs
      ∧ words.map (wfifo_ctrl c)
          = (spacemit_i2c_dma_xfer_tx_buf c (spacemit_i2c_init_xfer_params d)).map
              (wfifo_ctrl c)
      ∧ words = master_word c d ++ (encode_pieces c d.msgs).flatten
      ∧ spacemit_i2c_dma_xfer_tx_buf c (spacemit_i2c_init_xfer_params d)
          = master_word c d ++ (dma_pieces c d d.msgs 0).flatten
      ∧ pieces_agree c d.msgs (encode_pieces c d.msgs) (dma_pieces c d d.msgs 0) := by
  obtain ⟨d2, h1, _, _⟩ := fill_buffer_spec c d fuel hne hfit hdepth hfuel
  have hlast : ∀ m, d.msgs.getLast? = some m → 1 ≤ m.len := by
    intro m hm
    exact hlen m (List.mem_of_getLast?_eq_some hm)
  have hwl : ((encode_xfer c d.high_mode d.master_code d.msgs).length : Int)
      = word_count d.high_mode d.msgs := by
    unfold encode_xfer word_count
    rw [List.length_append, encode_msgs_length c d.msgs hlast, Nat.cast_add, sum_len_cast]
    split_ifs <;> rfl
  have hw : encode_xfer c d.high_mode d.master_code d.msgs
      = master_word c d ++ (encode_pieces c d.msgs).flatten := by
    unfold encode_xfer master_word
    rw [encode_msgs_pieces]
    by_cases h : d.high_mode = true
    · rw [if_pos h, if_pos ⟨h, hne⟩]
    · rw [if_neg h, if_neg (fun hh => h hh.1)]
  have hd := dma_tx_buf_pieces c d hmc
  have hp := dma_pieces_agree c hb d d.msgs 0 hlen (by
    unfold spacemit_i2c_dev.num
    rw [Nat.zero_add])
  obtain ⟨p1, p2⟩ := pieces_agree_flatten c d.msgs _ _ hp
  have hdl : (spacemit_i2c_dma_xfer_tx_buf c d).length
      = (encode_xfer c d.high_mode d.master_code d.msgs).length := by
    rw [hd, hw, List.length_append, List.length_append, p1]
  refine ⟨d2, _, h1, hwl, ?_, ?_, hw, ?_, hp⟩
  · rw [dma_tx_buf_init, hdl, hwl]
  · rw [dma_tx_buf_init, hd, hw, List.map_append, List.map_append, p2]
  · rw [dma_tx_buf_init, hd]

/-- C27 at a concrete input: in high-speed mode, a write of two bytes
followed by a read of three gives eight words in both encoders, with the same
control bits. -/
theorem dma_fifo_encoders_agree_witness :
    ∃ d2 words, spacemit_i2c_fifo_xfer_fill_buffer sample_consts 2
        (spacemit_i2c_init_xfer_params encoder_dev) = some (d2, words)
      ∧ (words.length : Int) = 8
      ∧ ((spacemit_i2c_dma_xfer_tx_buf sample_consts
            (spacemit_i2c_init_xfer_params encoder_dev)).length : Int) = 8
      ∧ words.map (wfifo_ctrl sample_consts)
          = (spacemit_i2c_dma_xfer_tx_buf sample_consts
              (spacemit_i2c_init_xfer_params encoder_dev)).map (wfifo_ctrl sample_consts) := by
  obtain ⟨d2, words, h1, h2, h3, h4, _⟩ :=
    dma_fifo_encoders_agree sample_consts encoder_dev 2 (by decide) (by decide) (by decide)
      (by decide) (by decide) (by decide) (by decide)
  exact ⟨d2, words, h1, h2, h3, h4⟩

/-! ## The TCM heap -/

theorem to_size_t_of_lt (x : Int) (h0 : 0 ≤ x) (h : x < 2 ^ 64) : (to_size_t x : Int) = x := by
  unfold to_size_t
  omega

theorem sizes_sum_cons (n : mm_node_t) (l : List mm_node_t) :
    sizes_sum (n :: l) = n.size + sizes_sum l := by
  unfold sizes_sum
  rw [List.map_cons, List.sum_cons]

theorem sizes_sum_insert (n : mm_node_t) :
    ∀ (l : List mm_node_t), sizes_sum (list_insert n l) = sizes_sum l + n.size := by
  intro l
  induction l with
  | nil =>
    show sizes_sum [n] = sizes_sum [] + n.size
    rw [sizes_sum_cons]
    exact Nat.add_comm _ _
  | cons cur rest ih =>
    unfold list_insert
    split_ifs
    · rw [sizes_sum_cons]
      exact Nat.add_comm _ _
    · rw [sizes_sum_cons, ih, sizes_sum_cons]
      omega

theorem sizes_sum_add_node (l : List mm_node_t) (n : mm_node_t) :
    sizes_sum (add_node l n) = sizes_sum l + n.size := by
  unfold add_node
  rw [sizes_sum_insert]

theorem sizes_sum_erase :
    ∀ (l : List mm_node_t) (i : Nat) (n : mm_node_t), l[i]? = some n →
      sizes_sum (l.eraseIdx i) + n.size = sizes_sum l := by
  intro l
  induction l with
  | nil =>
    intro i n h
    simp at h
  | cons cur rest ih =>
    intro i n h
    cases i with
    | zero =>
      simp only [List.getElem?_cons_zero, Option.some.injEq] at h
      rw [List.eraseIdx_cons_zero, sizes_sum_cons, h]
      omega
    | succ k =>
      rw [List.getElem?_cons_succ] at h
      rw [List.eraseIdx_cons_succ, sizes_sum_cons, sizes_sum_cons, ← ih k n h]
      omega

theorem sizes_sum_set :
    ∀ (l : List mm_node_t) (i : Nat) (n m : mm_node_t), l[i]? = some n →
      sizes_sum (l.set i m) + n.size = sizes_sum l + m.size := by
  intro l
  induction l with
  | nil =>
    intro i n m h
    simp at h
  | cons cur rest ih =>
    intro i n m h
    cases i with
    | zero =>
      simp only [List.getElem?_cons_zero, Option.some.injEq] at h
      rw [List.set_cons_zero, sizes_sum_cons, sizes_sum_cons, h]
      omega
    | succ k =>
      rw [List.getElem?_cons_succ] at h
      have := ih k n m h
      rw [List.set_cons_succ, sizes_sum_cons, sizes_sum_cons]
      omega

theorem insert_get_shift (n : mm_node_t) :
    ∀ (l : List mm_node_t) (i : Nat),
      (list_insert n l)[if insert_pos n.paddr l ≤ i then i + 1 else i]? = l[i]? := by
  intro l
  induction l with
  | nil =>
    intro i
    show [n][if 0 ≤ i then i + 1 else i]? = ([] : List mm_node_t)[i]?
    rw [if_pos (Nat.zero_le _)]
    simp
  | cons cur rest ih =>
    intro i
    unfold list_insert insert_pos
    by_cases h : cur.paddr > n.paddr
    · rw [if_pos h, if_pos h, if_pos (Nat.zero_le _), List.getElem?_cons_succ]
    · rw [if_neg h, if_neg h]
      cases i with
      | zero =>
        rw [if_neg (by omega), List.getElem?_cons_zero, List.getElem?_cons_zero]
      | succ k =>
        have := ih k
        by_cases h2 : insert_pos n.paddr rest ≤ k
        · rw [if_pos h2] at this
          rw [if_pos (by omega), List.getElem?_cons_succ, List.getElem?_cons_succ, this]
        · rw [if_neg h2] at this
          rw [if_neg (by omega), List.getElem?_cons_succ, List.getElem?_cons_succ, this]

theorem size_le_sum :
    ∀ (l : List mm_node_t) (i : Nat) (n : mm_node_t), l[i]? = some n → n.size ≤ sizes_sum l := by
  intro l i n h
  have := sizes_sum_erase l i n h
  omega

/-- A merge by the loop of `mm_free` moves the size of the freed node into the
free list. -/
theorem free_scan_sum (node : mm_node_t) :
    ∀ (l l2 : List mm_node_t), mm_free_scan node l = some l2 →
      sizes_sum l + node.size < 2 ^ 64 → sizes_sum l2 = sizes_sum l + node.size := by
  intro l
  induction l with
  | nil =>
    intro l2 h _
    exact absurd h (by unfold mm_free_scan; exact fun x => Option.noConfusion x)
  | cons cur rest ih =>
    intro l2 h hb
    rw [sizes_sum_cons] at hb ⊢
    have e1 : (to_size_t ((cur.size : Int) + node.size) : Int) = (cur.size : Int) + node.size :=
      to_size_t_of_lt _ (by omega) (by omega)
    unfold mm_free_scan at h
    split_ifs at h with c1 c2
    · cases rest with
      | nil =>
        simp only [Option.some.injEq] at h
        rw [← h, sizes_sum_cons]
        show to_size_t ((cur.size : Int) + node.size) + sizes_sum [] = _
        omega
      | cons next rest2 =>
        rw [sizes_sum_cons] at hb ⊢
        simp only at h
        split_ifs at h with c3
        · simp only [Option.some.injEq] at h
          have e2 : (to_size_t (((to_size_t ((cur.size : Int) + node.size) : Nat) : Int)
              + next.size) : Int)
              = ((to_size_t ((cur.size : Int) + node.size) : Nat) : Int) + next.size :=
            to_size_t_of_lt _ (by omega) (by omega)
          rw [← h, sizes_sum_cons]
          show to_size_t (((to_size_t ((cur.size : Int) + node.size) : Nat) : Int)
              + next.size) + sizes_sum rest2 = _
          omega
        · simp only [Option.some.injEq] at h
          rw [← h, sizes_sum_cons, sizes_sum_cons]
          show to_size_t ((cur.size : Int) + node.size) + _ = _
          omega
    · simp only [Option.some.injEq] at h
      rw [← h, sizes_sum_cons]
      show to_size_t ((cur.size : Int) + node.size) + _ = _
      omega
    · cases hs : mm_free_scan node rest with
      | none =>
        rw [hs] at h
        exact absurd h (fun x => Option.noConfusion x)
      | some l3 =>
        rw [hs] at h
        simp only [Option.map_some', Option.some.injEq] at h
        rw [← h, sizes_sum_cons, ih l3 hs (by omega)]
        omega
theorem to_size_t_lt (x : Int) : to_size_t x < 2 ^ 64 := by
  have h : (to_size_t x : Int) < 2 ^ 64 := by
    unfold to_size_t
    omega
  exact_mod_cast h

/-- The heap that `mm_init` builds has its sizes in balance. -/
theorem mm_init_ok (page_shift start heap_end : Nat) :
    heap_sizes_ok (mm_init page_shift start heap_end) := by
  have hf : (mm_init page_shift start heap_end).free
      = add_node []
          { paddr := MM_ALIGN_UP page_shift start
            size := to_size_t
              ((MM_ALIGN_DOWN page_shift
                  (to_size_t ((start : Int) + to_size_t ((heap_end : Int) - start))) : Int)
                - MM_ALIGN_UP page_shift start)
            next_paddr := 0 } := rfl
  have ha : (mm_init page_shift start heap_end).alloc = [] := rfl
  have hh : (mm_init page_shift start heap_end).mm_heapsize
      = to_size_t (((0 : Nat) : Int)
          + (to_size_t
              ((MM_ALIGN_DOWN page_shift
                  (to_size_t ((start : Int) + to_size_t ((heap_end : Int) - start))) : Int)
                - MM_ALIGN_UP page_shift start) : Nat)) := rfl
  unfold heap_sizes_ok
  rw [hf, ha, hh, sizes_sum_add_node]
  refine ⟨?_, to_size_t_lt _⟩
  show sizes_sum [] + to_size_t _ + sizes_sum [] = _
  have hlt := to_size_t_lt
    ((MM_ALIGN_DOWN page_shift
        (to_size_t ((start : Int) + to_size_t ((heap_end : Int) - start))) : Int)
      - MM_ALIGN_UP page_shift start)
  generalize to_size_t
    ((MM_ALIGN_DOWN page_shift
        (to_size_t ((start : Int) + to_size_t ((heap_end : Int) - start))) : Int)
      - MM_ALIGN_UP page_shift start) = hs at hlt ⊢
  have e : (to_size_t (((0 : Nat) : Int) + hs) : Int) = ((0 : Nat) : Int) + hs :=
    to_size_t_of_lt _ (by omega) (by omega)
  have z : sizes_sum [] = 0 := rfl
  rw [z]
  omega

/-- The list operations of a split: the node shrinks to `node2`, the remainder
is linked into the free list, and the node moves to the alloc list. -/
theorem fission_sum (free alloc : List mm_node_t) (i : Nat) (node node2 remainder : mm_node_t)
    (hnode : free[i]? = some node) (hsz : node2.size + remainder.size = node.size) :
    sizes_sum ((add_node (free.set i node2) remainder).eraseIdx
        (if insert_pos remainder.paddr (free.set i node2) ≤ i then i + 1 else i))
      + sizes_sum (add_node alloc node2)
      = sizes_sum free + sizes_sum alloc := by
  have hi : i < free.length := by
    rcases Nat.lt_or_ge i free.length with h | h
    · exact h
    · rw [List.getElem?_eq_none h] at hnode
      exact absurd hnode (fun x => Option.noConfusion x)
  have hset : (free.set i node2)[i]? = some node2 := by
    rw [List.getElem?_set_self hi]
  have hsh := insert_get_shift
    { remainder with
      next_paddr := to_size_t ((remainder.paddr : Int) + remainder.size) }
    (free.set i node2) i
  rw [hset] at hsh
  have s1 := sizes_sum_erase _ _ _ hsh
  rw [sizes_sum_insert] at s1
  have s2 := sizes_sum_set free i node node2 hnode
  rw [sizes_sum_add_node]
  have s3 : ({ remainder with
      next_paddr := to_size_t ((remainder.paddr : Int) + remainder.size) } : mm_node_t).size
      = remainder.size := rfl
  rw [s3] at s1
  have s4 : sizes_sum ((add_node (free.set i node2) remainder).eraseIdx
        (if insert_pos remainder.paddr (free.set i node2) ≤ i then i + 1 else i)) + node2.size
      = sizes_sum (free.set i node2) + remainder.size := s1
  omega

/-- The function `node_fission`, asked for no more than the size of the node,
keeps the sizes in balance. -/
theorem node_fission_ok (heap : mm_heap_t) (i size : Nat) (kmalloc_ok : Bool)
    (node : mm_node_t) (r : Int × mm_heap_t)
    (hok : heap_sizes_ok heap) (hnode : heap.free[i]? = some node) (hsz : size ≤ node.size)
    (hr : node_fission heap i size kmalloc_ok = some r) : heap_sizes_ok r.2 := by
  obtain ⟨h1, h2⟩ := hok
  have hle := size_le_sum heap.free i node hnode
  have hrem : (to_size_t ((node.size : Int) - size) : Int) = (node.size : Int) - size :=
    to_size_t_of_lt _ (by omega) (by omega)
  unfold node_fission at hr
  rw [hnode] at hr
  simp only at hr
  by_cases c1 : to_size_t ((node.size : Int) - size) > 0
  swap
  · rw [if_neg c1] at hr
    simp only [Option.some.injEq] at hr
    rw [← hr]
    refine ⟨?_, h2⟩
    have s1 := sizes_sum_erase heap.free i node hnode
    show sizes_sum (heap.free.eraseIdx i) + sizes_sum (add_node heap.alloc node)
      = heap.mm_heapsize
    rw [sizes_sum_add_node]
    omega
  rw [if_pos c1] at hr
  by_cases c2 : kmalloc_ok = false
  · rw [if_pos c2] at hr
    simp only [Option.some.injEq] at hr
    rw [← hr]
    exact ⟨h1, h2⟩
  · rw [if_neg c2] at hr
    simp only [Option.some.injEq] at hr
    rw [← hr]
    refine ⟨?_, h2⟩
    have s := fission_sum heap.free heap.alloc i node { node with size := size }
      { paddr := to_size_t ((node.paddr : Int) + size)
        size := to_size_t ((node.size : Int) - size)
        next_paddr := 0 } hnode (by
          show size + to_size_t ((node.size : Int) - size) = node.size
          omega)
    exact s.trans h1
theorem get_free_max_scan_bound (size : Nat) :
    ∀ (l : List mm_node_t) (i max_i max_size : Nat),
      get_free_max_scan size l i max_i max_size = max_i
      ∨ (i ≤ get_free_max_scan size l i max_i max_size
          ∧ get_free_max_scan size l i max_i max_size < i + l.length) := by
  intro l
  induction l with
  | nil =>
    intro i max_i max_size
    exact Or.inl rfl
  | cons node rest ih =>
    intro i max_i max_size
    unfold get_free_max_scan
    rw [List.length_cons]
    split_ifs
    · exact Or.inr ⟨Nat.le_refl _, by omega⟩
    · rcases ih (i + 1) i node.size with h | h
      · rw [h]
        exact Or.inr ⟨Nat.le_refl _, by omega⟩
      · exact Or.inr ⟨by omega, by omega⟩
    · rcases ih (i + 1) max_i max_size with h | h
      · exact Or.inl h
      · exact Or.inr ⟨by omega, by omega⟩

/-- On a free list that is not empty `get_free_max_node` returns a node of the
list. -/
theorem get_free_max_node_lt (heap : mm_heap_t) (size : Nat) (hne : heap.free ≠ []) :
    get_free_max_node heap size < heap.free.length := by
  unfold get_free_max_node
  cases hf : heap.free with
  | nil => exact absurd hf hne
  | cons first rest =>
    show get_free_max_scan size (first :: rest) 0 0 first.size < (first :: rest).length
    rcases get_free_max_scan_bound size (first :: rest) 0 0 first.size with h | h
    · rw [h, List.length_cons]
      omega
    · omega

/-- The function `node_fission` returns for every node of the free list. -/
theorem node_fission_returns (heap : mm_heap_t) (i size : Nat) (kmalloc_ok : Bool)
    (hi : i < heap.free.length) : ∃ r, node_fission heap i size kmalloc_ok = some r := by
  unfold node_fission
  rw [List.getElem?_eq_getElem hi]
  simp only
  split_ifs
  · exact ⟨_, rfl⟩
  · exact ⟨_, rfl⟩
  · exact ⟨_, rfl⟩
  · exact ⟨_, rfl⟩

/-- The function `mm_max_mallc` returns whenever the free list is not empty. -/
theorem mm_max_mallc_returns (page_shift : Nat) (heap : mm_heap_t) (size : Nat)
    (kmalloc_ok : Bool) (hne : heap.free ≠ []) :
    ∃ r, mm_max_mallc page_shift heap size kmalloc_ok = some r := by
  have hi := get_free_max_node_lt heap (MM_ALIGN_UP page_shift size) hne
  unfold mm_max_mallc
  simp only
  rw [List.getElem?_eq_getElem hi]
  simp only
  split_ifs
  · obtain ⟨r, hr⟩ := node_fission_returns heap _ (MM_ALIGN_UP page_shift size) kmalloc_ok hi
    rw [hr]
    exact ⟨_, rfl⟩
  · obtain ⟨r, hr⟩ := node_fission_returns heap _
      (heap.free[get_free_max_node heap (MM_ALIGN_UP page_shift size)]).size kmalloc_ok hi
    rw [hr]
    exact ⟨_, rfl⟩

/-- The function `mm_max_mallc` keeps the sizes in balance. -/
theorem mm_max_mallc_ok (page_shift : Nat) (heap : mm_heap_t) (size : Nat) (kmalloc_ok : Bool)
    (r : Nat × Nat × mm_heap_t) (hok : heap_sizes_ok heap)
    (hr : mm_max_mallc page_shift heap size kmalloc_ok = some r) : heap_sizes_ok r.2.2 := by
  unfold mm_max_mallc at hr
  simp only at hr
  cases hn : heap.free[get_free_max_node heap (MM_ALIGN_UP page_shift size)]? with
  | none =>
    rw [hn] at hr
    exact absurd hr (fun x => Option.noConfusion x)
  | some node =>
    rw [hn] at hr
    simp only at hr
    split_ifs at hr with c
    · cases hf : node_fission heap (get_free_max_node heap (MM_ALIGN_UP page_shift size))
          (MM_ALIGN_UP page_shift size) kmalloc_ok with
      | none =>
        rw [hf] at hr
        exact absurd hr (fun x => Option.noConfusion x)
      | some q =>
        rw [hf] at hr
        simp only [Option.map_some', Option.some.injEq] at hr
        rw [← hr]
        exact node_fission_ok heap _ _ kmalloc_ok node q hok hn c hf
    · cases hf : node_fission heap (get_free_max_node heap (MM_ALIGN_UP page_shift size))
          node.size kmalloc_ok with
      | none =>
        rw [hf] at hr
        exact absurd hr (fun x => Option.noConfusion x)
      | some q =>
        rw [hf] at hr
        simp only [Option.map_some', Option.some.injEq] at hr
        rw [← hr]
        exact node_fission_ok heap _ _ kmalloc_ok node q hok hn (Nat.le_refl _) hf

/-- The function `mm_free` keeps the sizes in balance. -/
theorem mm_free_ok (heap : mm_heap_t) (mem : Nat) (hok : heap_sizes_ok heap) :
    heap_sizes_ok (mm_free heap mem) := by
  obtain ⟨h1, h2⟩ := hok
  unfold mm_free
  cases hj : get_node_by_ptr heap mem with
  | none => exact ⟨h1, h2⟩
  | some j =>
    simp only
    cases hn : heap.alloc[j]? with
    | none => exact ⟨h1, h2⟩
    | some node =>
      simp only
      have s1 := sizes_sum_erase heap.alloc j node hn
      cases hs : mm_free_scan node (del_alloc_node heap j).free with
      | none =>
        simp only
        refine ⟨?_, h2⟩
        show sizes_sum (add_node heap.free node) + sizes_sum (heap.alloc.eraseIdx j)
          = heap.mm_heapsize
        rw [sizes_sum_add_node]
        omega
      | some free2 =>
        simp only
        refine ⟨?_, h2⟩
        have s2 := free_scan_sum node heap.free free2 hs (by omega)
        show sizes_sum free2 + sizes_sum (heap.alloc.eraseIdx j) = heap.mm_heapsize
        omega

/-- Every call on a heap keeps the sizes in balance. -/
theorem heap_step_ok (page_shift : Nat) (heap heap2 : mm_heap_t) (op : HeapOp)
    (hok : heap_sizes_ok heap) (h : heap_step page_shift heap op = some heap2) :
    heap_sizes_ok heap2 := by
  cases op with
  | mallc size kmalloc_ok =>
    have h : (mm_max_mallc page_shift heap size kmalloc_ok).map (fun r => r.2.2)
        = some heap2 := h
    cases hm : mm_max_mallc page_shift heap size kmalloc_ok with
    | none =>
      rw [hm] at h
      exact absurd h (fun x => Option.noConfusion x)
    | some r =>
      rw [hm] at h
      simp only [Option.map_some', Option.some.injEq] at h
      rw [← h]
      exact mm_max_mallc_ok page_shift heap size kmalloc_ok r hok hm
  | free mem =>
    have h : some (mm_free heap mem) = some heap2 := h
    simp only [Option.some.injEq] at h
    rw [← h]
    exact mm_free_ok heap mem hok

/-- Every sequence of calls on a heap keeps the sizes in balance. -/
theorem heap_run_ok (page_shift : Nat) :
    ∀ (ops : List HeapOp) (heap heap2 : mm_heap_t), heap_sizes_ok heap →
      heap_run page_shift heap ops = some heap2 → heap_sizes_ok heap2 := by
  intro ops
  induction ops with
  | nil =>
    intro heap heap2 hok h
    unfold heap_run at h
    simp only [Option.some.injEq] at h
    rw [← h]
    exact hok
  | cons op ops ih =>
    intro heap heap2 hok h
    unfold heap_run at h
    cases hs : heap_step page_shift heap op with
    | none =>
      rw [hs] at h
      exact absurd h (fun x => Option.noConfusion x)
    | some heap1 =>
      rw [hs] at h
      exact ih heap1 heap2 (heap_step_ok page_shift heap heap1 op hok hs) h

set_option maxRecDepth 4000 in
/-- C30: in every heap state reached from `mm_init` by calls of `mm_max_mallc`
and `mm_free`, the sizes of the nodes of the free and the alloc list together
sum to `mm_heapsize`; but `free_size` does not follow the free list. After
`mm_init` on two pages of 4096 bytes, `mm_max_mallc` of one page splits the
node and leaves `free_size` at 8192 with one free node of 4096 bytes; on three
pages, allocating two pages and freeing them merges the freed node into the
free node and leaves `free_size` at 8192 with one free node of 12288 bytes. -/
theorem tcm_heap_accounting :
    (∀ (page_shift start heap_end : Nat) (ops : List HeapOp) (heap : mm_heap_t),
        heap_run page_shift (mm_init page_shift start heap_end) ops = some heap →
        sizes_sum heap.free + sizes_sum heap.alloc = heap.mm_heapsize)
    ∧ (heap_run 12 (mm_init 12 0 8192) [HeapOp.mallc 4096 true]).map
          (fun h => (h.free_size, sizes_sum h.free, sizes_sum h.alloc, h.mm_heapsize))
        = some (8192, 4096, 4096, 8192)
    ∧ (heap_run 12 (mm_init 12 0 12288) [HeapOp.mallc 8192 true, HeapOp.free 0]).map
          (fun h => (h.free_size, sizes_sum h.free, sizes_sum h.alloc, h.mm_heapsize))
        = some (8192, 12288, 0, 12288) := by
  refine ⟨?_, by decide, by decide⟩
  intro page_shift start heap_end ops heap h
  exact (heap_run_ok page_shift ops _ heap (mm_init_ok page_shift start heap_end) h).1

end K1xI2c
